import Mathlib

/-!
WebDAV daemon: RAP pool, RAP request executor and response translation

A shallow embedding of `src/webdavd.c` (the server) and `src/rap.c` (the
restricted access processor, RAP) together with the properties proved about
them.

Conventions of the embedding

* A C string is a Lean `String` holding the bytes before the terminating NUL;
  a `NULL` pointer of type `const char *` is `none` where the code tests for it.
* `int`, `time_t`, `ssize_t` are `Int`; `size_t` is `Nat`, and a signed value
  stored in a `size_t` goes through `toSizeT`.
* A pointer to a pool slot is the pair (index of the group in `rapDB`, index of
  the slot in the group's `rapSession` array).
* Results of system calls and of the peer process are arguments of the
  functions (an oracle record), and the calls a function makes are recorded in
  an event list.
-/

namespace WebdavDaemon

/-! ## Part 1: definitions -/

/-! ### C library -/

/-- Lexicographic comparison of two character sequences; only the sign of the
result of the C function `strcmp` is specified, so the model returns -1, 0, 1. -/
def strcmpAux : List Char → List Char → Int
  | [], [] => 0
  | [], _ :: _ => -1
  | _ :: _, [] => 1
  | a :: as, b :: bs =>
    if a < b then -1 else if b < a then 1 else strcmpAux as bs

/-- The C function `strcmp` on two strings. -/
def strcmp (a b : String) : Int := strcmpAux a.toList b.toList

/-- The loop of the C library function `bsearch`: `l` and `u` delimit the part
of `base` still to search; `fuel` bounds the number of iterations. -/
def bsearchLoop {α : Type} (compar : α → α → Int) (key : α) (base : List α) :
    Nat → Nat → Nat → Option Nat
  | 0, _, _ => none
  | fuel + 1, l, u =>
    if l < u then
      let idx := (l + u) / 2
      match base[idx]? with
      | none => none
      | some p =>
        let comparison := compar key p
        if comparison < 0 then bsearchLoop compar key base fuel l idx
        else if comparison > 0 then bsearchLoop compar key base fuel (idx + 1) u
        else some idx
    else none

/-- The C library function `bsearch`; the result is the index of the element
found. The interval halves at every iteration, so `base.length + 1`
iterations are more than it can make. -/
def bsearch {α : Type} (compar : α → α → Int) (key : α) (base : List α) : Option Nat :=
  bsearchLoop compar key base (base.length + 1) 0 base.length

/-- Insertion of one element into a list ordered by `compar`. -/
def qsortInsert {α : Type} (compar : α → α → Int) (a : α) : List α → List α
  | [] => [a]
  | b :: l => if compar a b ≤ 0 then a :: b :: l else b :: qsortInsert compar a l

/-- The C library function `qsort`, as an insertion sort: the result is an
ordered permutation of the input. -/
def qsort {α : Type} (compar : α → α → Int) : List α → List α
  | [] => []
  | a :: l => qsortInsert compar a (qsort compar l)

/-- A signed result stored in a variable of type `size_t` (64 bit). -/
def toSizeT (x : Int) : Nat := (x % 2 ^ 64).toNat

/-! ### Server: structures (webdavd.c 40-118) -/

/-- One pooled RAP child: `struct RestrictedAccessProcessor`. A `user` pointer
that is `NULL` (a zeroed slot) is the empty string. -/
structure RestrictedAccessProcessor where
  rapSessionInUse : Int
  rapCreated : Int
  pid : Int
  socketFd : Int
  user : String
  writeDataFd : Int
  readDataFd : Int
  responseAlreadyGiven : Int
  deriving DecidableEq, Repr

/-- All sessions of one (user, password): `struct RapGroup`; `rapSession` is the
allocated array of `rapMaxSessionsPerUser` slots. -/
structure RapGroup where
  user : String
  password : String
  rapSession : List RestrictedAccessProcessor
  deriving DecidableEq, Repr

/-- The fields of `struct WebdavdConfiguration` the pool uses.
`rapMaxSessionsPerUser` is an `int` that `configureServer` only sets to a value
in `0 .. 0xFFFFFFF` (default 10). -/
structure WebdavdConfiguration where
  rapMaxSessionLife : Int
  rapMaxSessionsPerUser : Nat
  deriving DecidableEq, Repr

/-- A pointer to a slot of the pool: group index in `rapDB`, slot index. -/
abbrev SlotPtr := Nat × Nat

/-! ### Server: RAP pool (webdavd.c 656-864) -/

/-- `destroyRap`: closes the control socket and marks the slot empty. -/
def destroyRap (processor : RestrictedAccessProcessor) : RestrictedAccessProcessor :=
  { processor with socketFd := -1 }

/-- `compareRapGroup`: by user, then by password. -/
def compareRapGroup (rapA rapB : RapGroup) : Int :=
  let result := strcmp rapA.user rapB.user
  if result = 0 then strcmp rapA.password rapB.password else result

/-- The slot loop of `acquireRapFromDb` (lines 726-736). `n` iterations are
left, `i` is the loop index, the list is the array from slot `i` on and
`activeSessions` the counter. Returns the index of the slot leased, if any, and
the counter. -/
def acquireScan (expireTime : Int) :
    Nat → Nat → List RestrictedAccessProcessor → Int → Option Nat × Int
  | 0, _, _, activeSessions => (none, activeSessions)
  | _ + 1, _, [], activeSessions => (none, activeSessions)
  | n + 1, i, s :: rest, activeSessions =>
    if s.socketFd ≠ -1 ∧ s.rapSessionInUse = 0 ∧ s.rapCreated ≥ expireTime then
      (some i, activeSessions + 1)
    else if s.rapSessionInUse ≠ 0 then
      acquireScan expireTime n (i + 1) rest (activeSessions + 1)
    else
      acquireScan expireTime n (i + 1) rest activeSessions

/-- Sets `rapSessionInUse` of the slot a pointer refers to. -/
def setInUse (rapDB : List RapGroup) (ptr : SlotPtr) (v : Int) : List RapGroup :=
  rapDB.modify
    (fun g => { g with rapSession := g.rapSession.modify (fun s => { s with rapSessionInUse := v }) ptr.2 })
    ptr.1

/-- `acquireRapFromDb` at time `now`: the new table, the slot found (`none` for
`NULL`) and `*activeSessions`. -/
def acquireRapFromDb (config : WebdavdConfiguration) (rapDB : List RapGroup) (now : Int)
    (user password : String) : List RapGroup × Option SlotPtr × Int :=
  let groupToFind : RapGroup := { user := user, password := password, rapSession := [] }
  match bsearch compareRapGroup groupToFind rapDB with
  | none => (rapDB, none, 0)
  | some gi =>
    match rapDB[gi]? with
    | none => (rapDB, none, 0)
    | some groupFound =>
      let expireTime := now - config.rapMaxSessionLife
      match acquireScan expireTime config.rapMaxSessionsPerUser 0 groupFound.rapSession 0 with
      | (some i, activeSessions) => (setInUse rapDB (gi, i) 1, some (gi, i), activeSessions)
      | (none, activeSessions) => (rapDB, none, activeSessions)

/-- The slot loop of `addRapToDb` (lines 755-764), same arguments as
`acquireScan` with `newRapSession` in place of the counter. Returns the array
after the `destroyRap` calls, `newRapSession`, and the sockets those calls
closed. -/
def addScan (expireTime : Int) :
    Nat → Nat → List RestrictedAccessProcessor → Option Nat →
      List RestrictedAccessProcessor × Option Nat × List Int
  | 0, _, slots, newRapSession => (slots, newRapSession, [])
  | _ + 1, _, [], newRapSession => ([], newRapSession, [])
  | n + 1, i, s :: rest, newRapSession =>
    if s.socketFd = -1 then
      (s :: rest, some i, [])
    else if s.rapCreated < expireTime ∧ s.rapSessionInUse = 0 then
      let r := addScan expireTime n (i + 1) rest (some i)
      (destroyRap s :: r.1, r.2.1, s.socketFd :: r.2.2)
    else
      let r := addScan expireTime n (i + 1) rest newRapSession
      (s :: r.1, r.2.1, r.2.2)

/-- The result of `addRapToDb`: a slot of the pool or the `AUTH_BACKOFF`
place holder. -/
inductive AddResult where
  | slot (ptr : SlotPtr)
  | backoff
  deriving DecidableEq, Repr

/-- The array of a new group after lines 782-786: `memset` to zero, then
`socketFd = -1` in every slot but the first. -/
def newGroupSlots (n : Nat) : List RestrictedAccessProcessor :=
  let zero : RestrictedAccessProcessor :=
    { rapSessionInUse := 0, rapCreated := 0, pid := 0, socketFd := 0, user := "",
      writeDataFd := 0, readDataFd := 0, responseAlreadyGiven := 0 }
  match n with
  | 0 => []
  | k + 1 => zero :: List.replicate k { zero with socketFd := -1 }

/-- `addRapToDb` at time `now`: the new table, the result, and the sockets
closed by `destroyRap`.

In the branch that allocates a group, `groupFound` points at the last element
of `rapDB` and `newRapSession` into the array of the new group; `qsort` then
moves the group structures but not the arrays, so the final assignments write
slot 0 of the new group and read `user` from the group that is last after the
sort. The comparison only reads the keys, so the model writes the slot before
sorting; the pointer returned is the place of the new group in the sorted
table. -/
def addRapToDb (config : WebdavdConfiguration) (rapDB : List RapGroup) (now : Int)
    (rapSession : RestrictedAccessProcessor) (password : String) :
    List RapGroup × AddResult × List Int :=
  let groupToFind : RapGroup := { user := rapSession.user, password := password, rapSession := [] }
  match bsearch compareRapGroup groupToFind rapDB with
  | some gi =>
    match rapDB[gi]? with
    | none => (rapDB, AddResult.backoff, [])
    | some groupFound =>
      let expireTime := now - config.rapMaxSessionLife
      let r := addScan expireTime config.rapMaxSessionsPerUser 0 groupFound.rapSession none
      match r.2.1 with
      | none =>
        (rapDB.set gi { groupFound with rapSession := r.1 }, AddResult.backoff,
          r.2.2 ++ [rapSession.socketFd])
      | some i =>
        let newRapSession := { rapSession with user := groupFound.user, rapSessionInUse := 1 }
        (rapDB.set gi { groupFound with rapSession := r.1.set i newRapSession },
          AddResult.slot (gi, i), r.2.2)
  | none =>
    let allocated : RapGroup :=
      { user := rapSession.user, password := password,
        rapSession := newGroupSlots config.rapMaxSessionsPerUser }
    let lastUser :=
      match (qsort compareRapGroup (rapDB ++ [allocated])).getLast? with
      | some g => g.user
      | none => rapSession.user
    let newRapSession := { rapSession with user := lastUser, rapSessionInUse := 1 }
    let written : RapGroup := { allocated with rapSession := allocated.rapSession.set 0 newRapSession }
    let sorted := qsort compareRapGroup (rapDB ++ [written])
    (sorted, AddResult.slot (sorted.findIdx (fun g => compareRapGroup written g = 0), 0), [])

/-- `releaseRap`. -/
def releaseRap (rapDB : List RapGroup) (processor : SlotPtr) : List RapGroup :=
  setInUse rapDB processor 0

/-- The inner loop of `rapTimeoutWorker` over the slots of one group. -/
def timeoutSlots (expireTime : Int) :
    Nat → List RestrictedAccessProcessor → List RestrictedAccessProcessor × List Int
  | 0, slots => (slots, [])
  | _ + 1, [] => ([], [])
  | n + 1, s :: rest =>
    let r := timeoutSlots expireTime n rest
    if s.rapSessionInUse = 0 ∧ s.socketFd ≠ -1 ∧ s.rapCreated < expireTime then
      (destroyRap s :: r.1, s.socketFd :: r.2)
    else
      (s :: r.1, r.2)

/-- One pass of the loop body of `rapTimeoutWorker` (lines 849-861) at time
`now`: the new table and the sockets closed by `destroyRap`. -/
def rapTimeoutWorker (config : WebdavdConfiguration) (now : Int) :
    List RapGroup → List RapGroup × List Int
  | [] => ([], [])
  | g :: groups =>
    let expireTime := now - config.rapMaxSessionLife
    let r := timeoutSlots expireTime config.rapMaxSessionsPerUser g.rapSession
    let rs := rapTimeoutWorker config now groups
    ({ g with rapSession := r.1 } :: rs.1, r.2 ++ rs.2)

/-- The table is strictly increasing under `compareRapGroup`. -/
abbrev SortedDB (rapDB : List RapGroup) : Prop :=
  rapDB.Pairwise (fun a b => compareRapGroup a b < 0)

/-- The representation invariant of the pool. -/
abbrev WellFormed (config : WebdavdConfiguration) (rapDB : List RapGroup) : Prop :=
  SortedDB rapDB ∧ ∀ g ∈ rapDB, g.rapSession.length = config.rapMaxSessionsPerUser

/-- A slot that `acquireRapFromDb` may lease when `expireTime` is the oldest creation time accepted. -/
abbrev Leasable (expireTime : Int) (s : RestrictedAccessProcessor) : Prop :=
  s.socketFd ≠ -1 ∧ s.rapSessionInUse = 0 ∧ s.rapCreated ≥ expireTime

/-- Number of slots with the lease flag set. -/
def inUseCount (slots : List RestrictedAccessProcessor) : Nat :=
  slots.countP (fun s => decide (s.rapSessionInUse ≠ 0))

/-- A configuration with two slots per user, used in the examples. -/
def exampleConfig : WebdavdConfiguration := { rapMaxSessionLife := 300, rapMaxSessionsPerUser := 2 }

/-- A live session on socket `fd` created at time `t`. -/
def exampleSession (inUse fd : Int) (user : String) (t : Int) : RestrictedAccessProcessor :=
  { rapSessionInUse := inUse, rapCreated := t, pid := 1000 + fd, socketFd := fd, user := user,
    writeDataFd := -1, readDataFd := -1, responseAlreadyGiven := 1 }

/-- A table of two groups: "al" with one idle session, "bob" with one session in
use and one idle. -/
def exampleDB : List RapGroup :=
  [{ user := "al", password := "x",
     rapSession := [exampleSession 0 4 "al" 900, exampleSession 0 (-1) "" 0] },
   { user := "bob", password := "pw",
     rapSession := [exampleSession 1 5 "bob" 950, exampleSession 0 6 "bob" 960] }]

/-- The group of "bob" in `exampleDB` with the lease flag of its second slot
set to `inUse`. -/
def exampleBob (inUse : Int) : RapGroup :=
  { user := "bob", password := "pw",
    rapSession := [exampleSession 1 5 "bob" 950, exampleSession inUse 6 "bob" 960] }

/-! ### Control protocol (shared.h) -/

/-- Modelled from the spec: `enum RapConstant` is declared in shared.h, which is
not among the sources. The constructors are the message kinds of section 3 of
the spec under the names the code uses (requests first, then responses);
`OTHER n` stands for any other value found in `mID`. -/
inductive RapConstant where
  | RAP_AUTHENTICATE
  | RAP_READ_FILE
  | RAP_WRITE_FILE
  | RAP_PROPFIND
  | RAP_SUCCESS
  | RAP_MULTISTATUS
  | RAP_CONTINUE
  | RAP_ACCESS_DENIED
  | RAP_NOT_FOUND
  | RAP_BAD_CLIENT_REQUEST
  | RAP_BAD_RAP_REQUEST
  | RAP_AUTH_FAILLED
  | RAP_INTERNAL_ERROR
  | RAP_INSUFFICIENT_STORAGE
  | RAP_CONFLICT
  | OTHER (n : Int)
  deriving DecidableEq, Repr

/-- What `iov_base` of a buffer points at: characters, or a `time_t` object. -/
inductive IovBase where
  | chars (s : String)
  | timeT (t : Int)
  deriving DecidableEq, Repr

/-- One buffer of a message (`struct iovec`). -/
structure IoVec where
  iov_base : IovBase
  iov_len : Nat
  deriving DecidableEq, Repr

/-- Modelled from the spec: `struct Message` is declared in shared.h (absent);
section 3 of the spec gives its fields: the kind, the attached descriptor (-1
for none) and the buffers. `buffers` holds the first `bufferCount` buffers. -/
structure Message where
  mID : RapConstant
  fd : Int
  bufferCount : Int
  buffers : List IoVec
  deriving DecidableEq, Repr

/-- Modelled from the spec: `iovecToString` is defined in shared.c (absent); a
buffer holds the bytes of a string with its terminating NUL (section 3), and
the function gives the string. A buffer that was never set reads as the empty
string. -/
def iovecToString (v : Option IoVec) : String :=
  match v with
  | some { iov_base := IovBase.chars s, .. } => s
  | _ => ""

/-- A buffer holding the string `s` with its terminating NUL (`strlen(s) + 1`). -/
def stringBuffer (s : String) : IoVec := { iov_base := IovBase.chars s, iov_len := s.length + 1 }

/-- Modelled from the spec: the buffer positions of section 3 (shared.h is
absent): user, host and date are buffer 0. -/
def RAP_USER_INDEX : Nat := 0
/-- Modelled from the spec: password is buffer 1 (shared.h is absent). -/
def RAP_PASSWORD_INDEX : Nat := 1
/-- Modelled from the spec: remote host is buffer 2 (shared.h is absent). -/
def RAP_RHOST_INDEX : Nat := 2
/-- Modelled from the spec: host is buffer 0 (shared.h is absent). -/
def RAP_HOST_INDEX : Nat := 0
/-- Modelled from the spec: the path, and the mime type in a reply, is buffer 1
(shared.h is absent). -/
def RAP_FILE_INDEX : Nat := 1
/-- Modelled from the spec: depth is buffer 2 (shared.h is absent). -/
def RAP_DEPTH_INDEX : Nat := 2
/-- Modelled from the spec: the date of a reply is buffer 0 (shared.h is absent). -/
def RAP_DATE_INDEX : Nat := 0
/-- Modelled from the spec: the mime type of a reply is buffer 1 (shared.h is absent). -/
def RAP_MIME_INDEX : Nat := 1
/-- Modelled from the spec: the path of a reply is buffer 2 (shared.h is absent). -/
def RAP_LOCATION_INDEX : Nat := 2

/-! ### Server: responses (webdavd.c 454-602, 1138-1164) -/

/-- Where the body of a response comes from. -/
inductive ResponseBody where
  | fromFd (size : Nat) (fd : Int)
  | fromCallback (fd : Int)
  | fromBuffer (fileName : String)
  deriving DecidableEq, Repr

/-- A libmicrohttpd response object: body source and headers in the order
they were added. -/
structure MHD_Response where
  body : ResponseBody
  headers : List (String × String)
  deriving DecidableEq, Repr

/-- What the server does to the outside, in order. -/
inductive ServerEvent where
  | forkRapProcess (pid socketFd : Int)
  | destroyRap (socketFd : Int)
  | sendMessage (socketFd : Int) (message : Message)
  | recvMessage (socketFd : Int)
  | pipe (readEnd writeEnd : Int)
  | close (fd : Int)
  | write (fd : Int)
  | stdLogError (text : String)
  | logAccess (statusCode : Int) (method user url client : String)
  | queueResponse (statusCode : Int) (response : Option MHD_Response)
  | exit (code : Int)
  deriving DecidableEq, Repr

/-- The HTTP status constants of libmicrohttpd the server uses. -/
def MHD_HTTP_CONTINUE : Int := 100
/-- HTTP 200. -/
def MHD_HTTP_OK : Int := 200
/-- HTTP 400. -/
def MHD_HTTP_BAD_REQUEST : Int := 400
/-- HTTP 401. -/
def MHD_HTTP_UNAUTHORIZED : Int := 401
/-- HTTP 403. -/
def MHD_HTTP_FORBIDDEN : Int := 403
/-- HTTP 404. -/
def MHD_HTTP_NOT_FOUND : Int := 404
/-- HTTP 405. -/
def MHD_HTTP_METHOD_NOT_ALLOWED : Int := 405
/-- HTTP 500. -/
def MHD_HTTP_INTERNAL_SERVER_ERROR : Int := 500
/-- HTTP 507. -/
def MHD_HTTP_INSUFFICIENT_STORAGE : Int := 507
/-- The libmicrohttpd result `MHD_YES`. -/
def MHD_YES : Int := 1
/-- The libmicrohttpd result `MHD_NO`. -/
def MHD_NO : Int := 0

/-- The macro `ACCEPT_HEADER` (line 121). -/
def ACCEPT_HEADER : String :=
  "OPTIONS, GET, HEAD, DELETE, PROPFIND, PUT, PROPPATCH, COPY, MOVE, REPORT, LOCK, UNLOCK"

/-- The parts of the environment the response functions read: `getWebDate` of
shared.c (absent) as a function, the result of `fstat` on a descriptor (regular
file or not, size), and which files under /usr/share/webdav can be opened
(descriptor, size, mtime). -/
structure ServerEnv where
  getWebDate : Int → String
  fstat : Int → Bool × Nat
  openFile : String → Option (Int × Nat × Int)

/-- `addHeaderSafe` on an existing response with a non-null value. -/
def addHeaderSafe (response : MHD_Response) (headerKey headerValue : String) : MHD_Response :=
  { response with headers := response.headers ++ [(headerKey, headerValue)] }

/-- `addStaticHeaders` (lines 465-476). -/
def addStaticHeaders (response : MHD_Response) : MHD_Response :=
  let r := addHeaderSafe response "DAV" "1"
  let r := addHeaderSafe r "Accept-Ranges" "bytes"
  let r := addHeaderSafe r "Keep-Alive" "timeout=30"
  let r := addHeaderSafe r "Connection" "Keep-Alive"
  let r := addHeaderSafe r "Server" "couling-webdavd"
  let r := addHeaderSafe r "Expires" "Thu, 19 Nov 1981 08:52:00 GMT"
  let r := addHeaderSafe r "Cache-Control" "no-store, no-cache, must-revalidate, post-check=0, pre-check=0"
  addHeaderSafe r "Pragma" "no-cache"

/-- The common tail of `createFdStreamResponse` and `createFdFileResponse`:
`Date`, `Content-Type` when there is a mime type, the static headers. -/
def addFdHeaders (env : ServerEnv) (response : MHD_Response) (mimeType : Option String) (date : Int) :
    MHD_Response :=
  let r := addHeaderSafe response "Date" (env.getWebDate date)
  let r := match mimeType with
    | some m => addHeaderSafe r "Content-Type" m
    | none => r
  addStaticHeaders r

/-- `createFdStreamResponse`; the allocation of the response is taken to succeed. -/
def createFdStreamResponse (env : ServerEnv) (fd : Int) (mimeType : Option String) (date : Int) :
    MHD_Response :=
  addFdHeaders env { body := ResponseBody.fromCallback fd, headers := [] } mimeType date

/-- `createFdFileResponse`; the allocation of the response is taken to succeed. -/
def createFdFileResponse (env : ServerEnv) (size : Nat) (fd : Int) (mimeType : Option String)
    (date : Int) : MHD_Response :=
  addFdHeaders env { body := ResponseBody.fromFd size fd, headers := [] } mimeType date

/-- `createFileResponse`: `none` (`NULL`) when the file cannot be opened. -/
def createFileResponse (env : ServerEnv) (fileName mimeType : String) : Option MHD_Response :=
  match env.openFile fileName with
  | none => none
  | some (fd, size, mtime) => some (createFdFileResponse env size fd (some mimeType) mtime)

/-- The result of `createRapResponse`: the status and `*response` (`none` when
it is `NULL` or was not assigned). -/
structure RapResponse where
  statusCode : Int
  response : Option MHD_Response
  deriving DecidableEq, Repr

/-- `createRapResponse` (lines 551-602). -/
def createRapResponse (env : ServerEnv) (message : Message) : RapResponse :=
  let multistatusOrSuccess : RapResponse :=
    let mimeType0 := iovecToString message.buffers[RAP_FILE_INDEX]?
    let date : Int :=
      match message.buffers[RAP_DATE_INDEX]? with
      | some { iov_base := IovBase.timeT t, .. } => t
      | _ => 0
    let location : Option String :=
      if message.bufferCount > RAP_LOCATION_INDEX then
        some (iovecToString message.buffers[RAP_LOCATION_INDEX]?)
      else none
    let stat := env.fstat message.fd
    let mimeType : Option String := if mimeType0 = "" then none else some mimeType0
    let response :=
      if stat.1 then createFdFileResponse env stat.2 message.fd mimeType date
      else createFdStreamResponse env message.fd mimeType date
    let response := match location with
      | some l => addHeaderSafe response "Location" l
      | none => response
    { statusCode := if message.mID = RapConstant.RAP_SUCCESS then MHD_HTTP_OK else 207,
      response := some response }
  match message.mID with
  | RapConstant.RAP_MULTISTATUS => multistatusOrSuccess
  | RapConstant.RAP_SUCCESS => multistatusOrSuccess
  | RapConstant.RAP_ACCESS_DENIED =>
    { statusCode := MHD_HTTP_FORBIDDEN,
      response := createFileResponse env "/usr/share/webdav/HTTP_FORBIDDEN.html" "text/html" }
  | RapConstant.RAP_NOT_FOUND =>
    { statusCode := MHD_HTTP_NOT_FOUND,
      response := createFileResponse env "/usr/share/webdav/HTTP_NOT_FOUND.html" "text/html" }
  | RapConstant.RAP_BAD_CLIENT_REQUEST =>
    { statusCode := MHD_HTTP_BAD_REQUEST,
      response := createFileResponse env "/usr/share/webdav/HTTP_BAD_REQUEST.html" "text/html" }
  | RapConstant.RAP_BAD_RAP_REQUEST =>
    { statusCode := MHD_HTTP_INTERNAL_SERVER_ERROR, response := none }
  | RapConstant.RAP_INTERNAL_ERROR =>
    { statusCode := MHD_HTTP_INTERNAL_SERVER_ERROR, response := none }
  | _ => { statusCode := MHD_HTTP_INTERNAL_SERVER_ERROR, response := none }

/-! ### Server: RAP creation and acquisition (webdavd.c 661-705, 805-834) -/

/-- A pointer of type `struct RestrictedAccessProcessor *` as the request
handler holds it: a slot of the pool or one of the three place holders. -/
inductive RapPtr where
  | slot (ptr : SlotPtr)
  | AUTH_FAILED
  | AUTH_ERROR
  | AUTH_BACKOFF
  deriving DecidableEq, Repr

/-- The place holder `AUTH_FAILED_RAP` (lines 128-129); fields without an
initialiser are zero. -/
def AUTH_FAILED_RAP : RestrictedAccessProcessor :=
  { rapSessionInUse := 0, rapCreated := 0, pid := 0, socketFd := -1, user := "<auth failed>",
    writeDataFd := -1, readDataFd := -1, responseAlreadyGiven := 1 }

/-- The place holder `AUTH_ERROR_RAP` (lines 132-133). -/
def AUTH_ERROR_RAP : RestrictedAccessProcessor :=
  { AUTH_FAILED_RAP with user := "<auth error>" }

/-- The place holder `AUTH_ERROR_BACKOFF` (lines 135-136). -/
def AUTH_ERROR_BACKOFF : RestrictedAccessProcessor :=
  { AUTH_FAILED_RAP with user := "<backoff>" }

/-- The slot a pointer refers to. -/
def getSlot (rapDB : List RapGroup) (ptr : SlotPtr) : Option RestrictedAccessProcessor :=
  match rapDB[ptr.1]? with
  | some g => g.rapSession[ptr.2]?
  | none => none

/-- A store through a slot pointer. -/
def modifySlot (rapDB : List RapGroup) (ptr : SlotPtr)
    (f : RestrictedAccessProcessor → RestrictedAccessProcessor) : List RapGroup :=
  rapDB.modify (fun g => { g with rapSession := g.rapSession.modify f ptr.2 }) ptr.1

/-- The structure a pointer refers to. A slot pointer always refers to an
allocated slot; for an index outside the table the place holder is read. -/
def deref (rapDB : List RapGroup) : RapPtr → RestrictedAccessProcessor
  | RapPtr.slot ptr => (getSlot rapDB ptr).getD AUTH_ERROR_RAP
  | RapPtr.AUTH_FAILED => AUTH_FAILED_RAP
  | RapPtr.AUTH_ERROR => AUTH_ERROR_RAP
  | RapPtr.AUTH_BACKOFF => AUTH_ERROR_BACKOFF

/-- A store through a pointer; the place holders are constant objects and the
table is not touched by a store through one of them. -/
def modifyPtr (rapDB : List RapGroup) (p : RapPtr)
    (f : RestrictedAccessProcessor → RestrictedAccessProcessor) : List RapGroup :=
  match p with
  | RapPtr.slot ptr => modifySlot rapDB ptr f
  | _ => rapDB

/-- `releaseRap` through a pointer held by the request handler. -/
def releaseRapPtr (rapDB : List RapGroup) (p : RapPtr) : List RapGroup :=
  modifyPtr rapDB p (fun s => { s with rapSessionInUse := 0 })

/-- What the system and the new child answer during `createRap`: the result of
`forkRapProcess` (0 when no child was started) with the socket it stores, the
results of `sendMessage` and `recvMessage` (signed, as `createRap` reads them),
the kind of the reply and the time. -/
structure CreateRapIO where
  forkResult : Int
  newSockFd : Int
  sendResult : Int
  recvResult : Int
  recvMID : RapConstant
  created : Int
  deriving DecidableEq, Repr

/-- The result of `createRap`: a place holder or the structure filled in. -/
inductive CreateRapResult where
  | AUTH_ERROR
  | AUTH_FAILED
  | created (processor : RestrictedAccessProcessor)
  deriving DecidableEq, Repr

/-- `createRap` (lines 661-705); `processor` is the caller's structure with
whatever it held before. -/
def createRap (io : CreateRapIO) (processor : RestrictedAccessProcessor)
    (user password rhost : String) : CreateRapResult × List ServerEvent :=
  if io.forkResult = 0 then
    (CreateRapResult.AUTH_ERROR, [])
  else
    let processor := { processor with pid := io.forkResult, socketFd := io.newSockFd }
    let message : Message :=
      { mID := RapConstant.RAP_AUTHENTICATE, fd := -1, bufferCount := 3,
        buffers := [stringBuffer user, stringBuffer password, stringBuffer rhost] }
    let ev := [ServerEvent.forkRapProcess processor.pid processor.socketFd,
      ServerEvent.sendMessage processor.socketFd message]
    if io.sendResult ≤ 0 then
      (CreateRapResult.AUTH_ERROR, ev ++ [ServerEvent.destroyRap processor.socketFd])
    else
      let ev := ev ++ [ServerEvent.recvMessage processor.socketFd]
      if io.recvResult ≤ 0 ∨ io.recvMID ≠ RapConstant.RAP_SUCCESS then
        let ev := ev ++ [ServerEvent.destroyRap processor.socketFd]
        if io.recvResult < 0 then (CreateRapResult.AUTH_ERROR, ev)
        else if io.recvResult = 0 then (CreateRapResult.AUTH_ERROR, ev)
        else (CreateRapResult.AUTH_FAILED, ev)
      else
        (CreateRapResult.created { processor with user := user, rapCreated := io.created }, ev)

/-- A request as libmicrohttpd presents it: the header lines, the result of
`MHD_basic_auth_get_username_password` (user, password; `none` for `NULL`) and
the text `getRequestIP` writes for the client address. -/
structure MHD_Connection where
  headers : List (String × String)
  basicAuthUser : Option String
  basicAuthPassword : Option String
  clientIp : String
  deriving DecidableEq, Repr

/-- What the environment answers during `acquireRap`: the time read by
`acquireRapFromDb`, the answers for `createRap`, the content of the local
variable `newSession` before `createRap` fills it, and the time read by
`addRapToDb`. -/
structure AcquireIO where
  now : Int
  create : CreateRapIO
  newSession : RestrictedAccessProcessor
  nowAdd : Int
  deriving DecidableEq, Repr

/-- `acquireRap` (lines 805-834): the new table, the pointer returned and what
was done to the outside. -/
def acquireRap (config : WebdavdConfiguration) (rapDB : List RapGroup)
    (request : MHD_Connection) (io : AcquireIO) : List RapGroup × RapPtr × List ServerEvent :=
  match request.basicAuthUser, request.basicAuthPassword with
  | some user, some password =>
    let r := acquireRapFromDb config rapDB io.now user password
    match r.2.1 with
    | some ptr => (r.1, RapPtr.slot ptr, [])
    | none =>
      if r.2.2 < config.rapMaxSessionsPerUser then
        let c := createRap io.create io.newSession user password request.clientIp
        match c.1 with
        | CreateRapResult.AUTH_ERROR => (r.1, RapPtr.AUTH_ERROR, c.2)
        | CreateRapResult.AUTH_FAILED => (r.1, RapPtr.AUTH_FAILED, c.2)
        | CreateRapResult.created rapSession =>
          let a := addRapToDb config r.1 io.nowAdd rapSession password
          let p := match a.2.1 with
            | AddResult.slot ptr => RapPtr.slot ptr
            | AddResult.backoff => RapPtr.AUTH_BACKOFF
          (a.1, p, c.2 ++ a.2.2.map ServerEvent.destroyRap)
      else
        (r.1, RapPtr.AUTH_BACKOFF, [])
  | _, _ => (rapDB, RapPtr.AUTH_FAILED, [ServerEvent.stdLogError "Rejecting request without auth"])

/-! ### Server: request handling (webdavd.c 874-1128, 1157-1164) -/

/-- The page `INTERNAL_SERVER_ERROR_PAGE` as `initializeStaticResponses` builds it. -/
def INTERNAL_SERVER_ERROR_PAGE : MHD_Response :=
  { body := ResponseBody.fromBuffer "/usr/share/webdav/HTTP_INTERNAL_SERVER_ERROR.html",
    headers := [("Content-Type", "text/html")] }

/-- The page `UNAUTHORIZED_PAGE` as `initializeStaticResponses` builds it. -/
def UNAUTHORIZED_PAGE : MHD_Response :=
  { body := ResponseBody.fromBuffer "/usr/share/webdav/HTTP_UNAUTHORIZED.html",
    headers := [("Content-Type", "text/html"), ("WWW-Authenticate", "Basic realm=\"My Server\"")] }

/-- The page `METHOD_NOT_SUPPORTED_PAGE` as `initializeStaticResponses` builds it. -/
def METHOD_NOT_SUPPORTED_PAGE : MHD_Response :=
  { body := ResponseBody.fromBuffer "/usr/share/webdav/HTTP_METHOD_NOT_SUPPORTED.html",
    headers := [("Content-Type", "text/html"),
      ("Allow", "OPTIONS, GET, HEAD, DELETE, PROPFIND, PUT, PROPPATCH, COPY, MOVE, LOCK, UNLOCK")] }

/-- `getHeader`: the value of the first header line with the key. -/
def getHeader (request : MHD_Connection) (headerKey : String) : Option String :=
  match request.headers.find? (fun h => decide (h.1 = headerKey)) with
  | some h => some h.2
  | none => none

/-- `requestHasData` (lines 1001-1008). -/
def requestHasData (request : MHD_Connection) : Bool :=
  match getHeader request "Content-Length" with
  | some _ => true
  | none =>
    match getHeader request "Transfer-Encoding" with
    | some te => decide (te = "chunked")
    | none => false

/-- What the environment answers while one call of `answerToRequest` runs:
the answers for `acquireRap`, the result of `pipe` (read end, write end; `none`
when it fails), the signed results of `sendMessage` and `recvMessage` on the
control socket with the content of `message` after `recvMessage`, the result
of `write` on the body pipe and the result of `MHD_queue_response`. -/
structure RequestIO where
  acquire : AcquireIO
  pipeResult : Option (Int × Int)
  sendResult : Int
  recvResult : Int
  recvMessage : Message
  writeResult : Int
  queueResult : Int
  deriving DecidableEq, Repr

/-- The result of `processNewRequest` and of `completeUpload`: the table, the
status, `*response` (`none` when `NULL` or not assigned), what was done to the
outside, and whether the process ended in `addHeaderSafe` (`exit(255)` when the
header cannot be added because the response is `NULL`). -/
structure ProcessResult where
  rapDB : List RapGroup
  statusCode : Int
  response : Option MHD_Response
  events : List ServerEvent
  exited : Bool

/-- `processNewRequest` (lines 933-999). `ioResult` is a `size_t`, so the
results of `sendMessage` and `recvMessage` are compared after conversion. -/
def processNewRequest (env : ServerEnv) (io : RequestIO) (rapDB : List RapGroup)
    (request : MHD_Connection) (url host method : String) (rapSession : RapPtr) : ProcessResult :=
  let session := deref rapDB rapSession
  let exchange (message : Message) : ProcessResult :=
    let ev := [ServerEvent.sendMessage session.socketFd message]
    let rapDB := modifyPtr rapDB rapSession (fun s => { s with readDataFd := -1 })
    if toSizeT io.sendResult ≤ 0 then
      { rapDB := rapDB, statusCode := MHD_HTTP_INTERNAL_SERVER_ERROR, response := none,
        events := ev, exited := false }
    else
      let ev := ev ++ [ServerEvent.recvMessage session.socketFd]
      if toSizeT io.recvResult ≤ 0 then
        { rapDB := rapDB, statusCode := MHD_HTTP_INTERNAL_SERVER_ERROR, response := none,
          events := ev ++ [ServerEvent.stdLogError
            "RAP closed socket unexpectedly while waiting for response"],
          exited := false }
      else if io.recvMessage.mID = RapConstant.RAP_CONTINUE then
        { rapDB := rapDB, statusCode := MHD_HTTP_CONTINUE, response := none, events := ev,
          exited := false }
      else
        let r := createRapResponse env io.recvMessage
        { rapDB := rapDB, statusCode := r.statusCode, response := r.response, events := ev,
          exited := false }
  if method = "GET" then
    exchange { mID := RapConstant.RAP_READ_FILE, fd := session.readDataFd, bufferCount := 2,
               buffers := [stringBuffer host, stringBuffer url] }
  else if method = "PROPFIND" then
    let depth := match getHeader request "Depth" with
      | some d => d
      | none => "infinity"
    exchange { mID := RapConstant.RAP_PROPFIND, fd := session.readDataFd, bufferCount := 3,
               buffers := [stringBuffer host, stringBuffer url, stringBuffer depth] }
  else if method = "OPTIONS" then
    match createFileResponse env "/usr/share/webdav/OPTIONS.html" "text/html" with
    | some response =>
      { rapDB := rapDB, statusCode := MHD_HTTP_OK,
        response := some (addHeaderSafe response "Accept" ACCEPT_HEADER), events := [],
        exited := false }
    | none =>
      { rapDB := rapDB, statusCode := MHD_HTTP_OK, response := none,
        events := [ServerEvent.stdLogError "Could not open file for response",
          ServerEvent.stdLogError "Could not add response header", ServerEvent.exit 255],
        exited := true }
  else
    { rapDB := rapDB, statusCode := MHD_HTTP_METHOD_NOT_ALLOWED, response := none,
      events := [ServerEvent.stdLogError "Can not cope with method"], exited := false }

/-- `completeUpload` (lines 888-916); `readResult` is an `int`. -/
def completeUpload (env : ServerEnv) (io : RequestIO) (rapDB : List RapGroup)
    (processor : RapPtr) : ProcessResult :=
  let session := deref rapDB processor
  if session.writeDataFd = -1 then
    { rapDB := rapDB, statusCode := MHD_HTTP_INSUFFICIENT_STORAGE,
      response := createFileResponse env "/usr/share/webdav/HTTP_INSUFFICIENT_STORAGE.html"
        "text/html",
      events := [], exited := false }
  else
    let ev := [ServerEvent.close session.writeDataFd, ServerEvent.recvMessage session.socketFd]
    let rapDB := modifyPtr rapDB processor (fun s => { s with writeDataFd := -1 })
    if io.recvResult ≤ 0 then
      { rapDB := rapDB, statusCode := MHD_HTTP_INTERNAL_SERVER_ERROR, response := none,
        events := if io.recvResult = 0 then ev ++ [ServerEvent.stdLogError
            "RAP closed socket unexpectedly while waiting for response"] else ev,
        exited := false }
    else
      let r := createRapResponse env io.recvMessage
      { rapDB := rapDB, statusCode := r.statusCode, response := r.response, events := ev,
        exited := false }

/-- `processUploadData` (lines 918-931); `bytesWritten` is a `size_t`. -/
def processUploadData (io : RequestIO) (rapDB : List RapGroup) (upload_data_size : Nat)
    (processor : RapPtr) : List RapGroup × List ServerEvent :=
  let session := deref rapDB processor
  if session.writeDataFd ≠ -1 then
    if toSizeT io.writeResult < upload_data_size then
      (modifyPtr rapDB processor (fun s => { s with writeDataFd := -1 }),
        [ServerEvent.write session.writeDataFd, ServerEvent.close session.writeDataFd])
    else
      (rapDB, [ServerEvent.write session.writeDataFd])
  else
    (rapDB, [])

/-- `sendResponse` (lines 1010-1042): the table, the result of
`MHD_queue_response`, and what was done to the outside. -/
def sendResponse (io : RequestIO) (rapDB : List RapGroup) (request : MHD_Connection)
    (statusCode : Int) (response : Option MHD_Response) (rapSession : RapPtr)
    (method url : String) : List RapGroup × Int × List ServerEvent :=
  let session := deref rapDB rapSession
  let ev1 := if session.readDataFd ≠ -1 then
      [ServerEvent.stdLogError "readDataFd was not properly closed before sending response",
        ServerEvent.close session.readDataFd]
    else []
  let ev2 := if session.writeDataFd ≠ -1 then
      [ServerEvent.stdLogError "writeDataFd was not properly closed before sending response",
        ServerEvent.close session.writeDataFd]
    else []
  let rapDB := modifyPtr rapDB rapSession (fun s => { s with readDataFd := -1, writeDataFd := -1 })
  let log := ServerEvent.logAccess statusCode method session.user url request.clientIp
  let queued :=
    if statusCode = MHD_HTTP_INTERNAL_SERVER_ERROR then
      ServerEvent.queueResponse MHD_HTTP_INTERNAL_SERVER_ERROR (some INTERNAL_SERVER_ERROR_PAGE)
    else if statusCode = MHD_HTTP_UNAUTHORIZED then
      ServerEvent.queueResponse MHD_HTTP_UNAUTHORIZED (some UNAUTHORIZED_PAGE)
    else if statusCode = MHD_HTTP_METHOD_NOT_ALLOWED then
      ServerEvent.queueResponse MHD_HTTP_METHOD_NOT_ALLOWED (some METHOD_NOT_SUPPORTED_PAGE)
    else
      ServerEvent.queueResponse statusCode response
  (rapDB, io.queueResult, ev1 ++ ev2 ++ [log, queued])

/-- The result of one call of `answerToRequest`: the table, the connection
state `*s`, `*upload_data_size`, the value returned and what was done to the
outside. -/
structure AnswerResult where
  rapDB : List RapGroup
  s : Option RapPtr
  upload_data_size : Nat
  result : Int
  events : List ServerEvent

/-- `answerToRequest` (lines 1044-1128); `s` is `*s` on entry (`none` for
`NULL`, the first call for a request). -/
def answerToRequest (config : WebdavdConfiguration) (env : ServerEnv) (io : RequestIO)
    (rapDB : List RapGroup) (request : MHD_Connection) (url method : String)
    (upload_data_size : Nat) (s : Option RapPtr) : AnswerResult :=
  match s with
  | some rapSession =>
    if upload_data_size ≠ 0 then
      let r := if (deref rapDB rapSession).responseAlreadyGiven = 0 then
          processUploadData io rapDB upload_data_size rapSession
        else (rapDB, [])
      { rapDB := r.1, s := s, upload_data_size := 0, result := MHD_YES, events := r.2 }
    else if (deref rapDB rapSession).responseAlreadyGiven ≠ 0 then
      { rapDB := releaseRapPtr rapDB rapSession, s := s, upload_data_size := upload_data_size,
        result := MHD_YES, events := [] }
    else
      let c := completeUpload env io rapDB rapSession
      let r := sendResponse io c.rapDB request c.statusCode c.response rapSession method url
      let rapDB := if rapSession ≠ RapPtr.AUTH_ERROR ∧ rapSession ≠ RapPtr.AUTH_FAILED then
          releaseRapPtr r.1 rapSession
        else r.1
      { rapDB := rapDB, s := s, upload_data_size := upload_data_size, result := r.2.1,
        events := c.events ++ r.2.2 }
  | none =>
    let host := match getHeader request "Host" with
      | some h => h
      | none => ""
    let a := acquireRap config rapDB request io.acquire
    let rapSession := a.2.1
    let done (r : List RapGroup × Int × List ServerEvent) (pre : List ServerEvent) : AnswerResult :=
      { rapDB := r.1, s := some rapSession, upload_data_size := upload_data_size, result := r.2.1,
        events := a.2.2 ++ pre ++ r.2.2 }
    if rapSession = RapPtr.AUTH_FAILED ∨ rapSession = RapPtr.AUTH_BACKOFF then
      done (sendResponse io a.1 request MHD_HTTP_UNAUTHORIZED none rapSession method url) []
    else if rapSession = RapPtr.AUTH_ERROR then
      done (sendResponse io a.1 request MHD_HTTP_INTERNAL_SERVER_ERROR none rapSession method url) []
    else if requestHasData request then
      match io.pipeResult with
      | none =>
        done (sendResponse io a.1 request MHD_HTTP_INTERNAL_SERVER_ERROR none rapSession method url)
          [ServerEvent.stdLogError "Could not create write pipe"]
      | some (readEnd, writeEnd) =>
        let rapDB := modifyPtr a.1 rapSession
          (fun s => { s with readDataFd := readEnd, writeDataFd := writeEnd })
        let n := processNewRequest env io rapDB request url host method rapSession
        let pre := ServerEvent.pipe readEnd writeEnd :: n.events
        if n.exited then
          { rapDB := n.rapDB, s := some rapSession, upload_data_size := upload_data_size,
            result := MHD_NO, events := a.2.2 ++ pre }
        else if n.statusCode = MHD_HTTP_CONTINUE then
          { rapDB := modifyPtr n.rapDB rapSession (fun s => { s with responseAlreadyGiven := 0 }),
            s := some rapSession, upload_data_size := upload_data_size, result := MHD_YES,
            events := a.2.2 ++ pre }
        else
          let rapDB := modifyPtr n.rapDB rapSession (fun s => { s with responseAlreadyGiven := 1 })
          done (sendResponse io rapDB request n.statusCode n.response rapSession method url) pre
    else
      let rapDB := modifyPtr a.1 rapSession (fun s => { s with readDataFd := -1, writeDataFd := -1 })
      let n := processNewRequest env io rapDB request url host method rapSession
      if n.exited then
        { rapDB := n.rapDB, s := some rapSession, upload_data_size := upload_data_size,
          result := MHD_NO, events := a.2.2 ++ n.events }
      else if n.statusCode = MHD_HTTP_CONTINUE then
        let r := sendResponse io n.rapDB request MHD_HTTP_INTERNAL_SERVER_ERROR none rapSession
          method url
        done (releaseRapPtr r.1 rapSession, r.2)
          (n.events ++ [ServerEvent.stdLogError "RAP returned CONTINUE when there is no data"])
      else
        let r := sendResponse io n.rapDB request n.statusCode n.response rapSession method url
        done (releaseRapPtr r.1 rapSession, r.2) n.events

/-- The status codes of the responses queued, in order. -/
def queuedStatus : List ServerEvent → List Int
  | [] => []
  | ServerEvent.queueResponse statusCode _ :: rest => statusCode :: queuedStatus rest
  | _ :: rest => queuedStatus rest

/-- The table `exampleDB` with both slots of "bob" leased. -/
def exampleFullDB : List RapGroup := exampleDB.set 1 (exampleBob 1)

/-- An environment in which every static page can be opened. -/
def exampleEnv : ServerEnv :=
  { getWebDate := fun _ => "Thu, 01 Jan 1970 00:00:00 GMT",
    fstat := fun _ => (false, 0),
    openFile := fun _ => some (20, 100, 0) }

/-- A request with the credentials of "bob" and no body. -/
def exampleRequest : MHD_Connection :=
  { headers := [("Host", "localhost")], basicAuthUser := some "bob",
    basicAuthPassword := some "pw", clientIp := "10.0.0.1" }

/-- Answers of the environment at time 1000: a RAP can be started on socket 7,
the control socket delivers `reply` with the results `sendResult` and
`recvResult`. -/
def exampleAnswers (sendResult recvResult : Int) (reply : RapConstant) : RequestIO :=
  { acquire :=
      { now := 1000,
        create := { forkResult := 1007, newSockFd := 7, sendResult := 1, recvResult := 1,
                    recvMID := RapConstant.RAP_SUCCESS, created := 1000 },
        newSession := exampleSession 0 0 "" 0,
        nowAdd := 1000 },
    pipeResult := some (8, 9),
    sendResult := sendResult,
    recvResult := recvResult,
    recvMessage := { mID := reply, fd := -1, bufferCount := 0, buffers := [] },
    writeResult := 0,
    queueResult := MHD_YES }

/-- Answers of the environment when the RAP replies NOT_FOUND. -/
def exampleIO : RequestIO := exampleAnswers 1 1 RapConstant.RAP_NOT_FOUND

/-! ### RAP: state, environment, events (rap.c 15-24) -/

/-- An entry of the mime table: `struct MimeType`. -/
structure MimeType where
  ext : String
  type : String
  typeStringSize : Nat
  deriving DecidableEq, Repr

/-- The global variables of the RAP process. -/
structure RapState where
  authenticated : Int
  authenticatedUser : Option String
  mimeTypes : List MimeType
  deriving DecidableEq, Repr

/-- The fields of `struct stat` the RAP reads. -/
structure Stat where
  st_mode : Nat
  st_size : Int
  st_mtime : Int
  st_ctime : Int
  deriving DecidableEq, Repr

/-- The fields of `struct statvfs` the RAP reads. -/
structure StatVfs where
  f_bavail : Nat
  f_bsize : Nat
  f_blocks : Nat
  f_bfree : Nat
  deriving DecidableEq, Repr

/-- A directory entry: `d_name` is the content of the character array, in which
the name ends at the first NUL; what follows it is whatever the array held. -/
structure Dirent where
  d_name : List Char
  d_type : Nat
  deriving DecidableEq, Repr

/-- The name of a directory entry as a string (what `strlen`, `strcpy` and `%s`
see). -/
def Dirent.name (dp : Dirent) : String := String.mk (dp.d_name.takeWhile (fun c => c ≠ '\x00'))

/-- The character `d_name[k]`; the array is followed by NUL in the model. -/
def Dirent.at (dp : Dirent) (k : Nat) : Char := dp.d_name.getD k '\x00'

/-- The requested properties: `struct PropertySet`. -/
structure PropertySet where
  creationDate : Bool
  displayName : Bool
  contentLength : Bool
  contentType : Bool
  etag : Bool
  lastModified : Bool
  resourceType : Bool
  usedBytes : Bool
  availableBytes : Bool
  deriving DecidableEq, Repr

/-- A call of the libxml2 text writer. -/
inductive XmlEvent where
  | startDocument (version encoding : String)
  | startElementNS (pfx name : String) (namespaceURI : Option String)
  | writeString (content : String)
  | endElement
  deriving DecidableEq, Repr

/-- What the RAP does to the outside, in order. `sendMessage` is on standard
output, the control socket. -/
inductive RapEvent where
  | sendMessage (message : Message)
  | close (fd : Int)
  | stdLogError (text : String)
  | pamAuthenticate (user password hostname : String)
  | openFile (file : String) (forWriting : Bool)
  | stat (file : String)
  | fstat (fd : Int)
  | statvfs (file : String)
  | pipe
  | opendir (file : String)
  | fdopendir (fd : Int)
  | time
  | read (fd : Int)
  | write (fd : Int) (data : String) (written : Int)
  | fprintf (fd : Int) (text : String)
  | xml (fd : Int) (call : XmlEvent)
  deriving DecidableEq, Repr

/-- The value of `errno` for a missing permission. -/
def EACCES : Int := 13
/-- The value of `errno` for a missing file. -/
def ENOENT : Int := 2
/-- The file type mask of `st_mode`. -/
def S_IFMT : Nat := 0o170000
/-- The file type of a directory. -/
def S_IFDIR : Nat := 0o040000
/-- The `d_type` of a directory. -/
def DT_DIR : Nat := 4

/-- The test `(st_mode & S_IFMT) == S_IFDIR`. -/
def Stat.isDir (st : Stat) : Bool := st.st_mode &&& S_IFMT == S_IFDIR

/-- A node as the XML text reader presents it: the results of
`xmlTextReaderNodeType`, `xmlTextReaderDepth`, `xmlTextReaderConstNamespaceUri`
and `xmlTextReaderConstLocalName` while the reader stands on it. -/
structure XmlNode where
  nodeType : Int
  depth : Int
  namespaceUri : String
  localName : String
  deriving DecidableEq, Repr

/-- The node type the reader reports while it stands on no node. -/
def XML_READER_TYPE_NONE : Int := 0

/-- The reader on no node, as before the first read and after the end of the
input. -/
def XmlNode.absent : XmlNode :=
  { nodeType := XML_READER_TYPE_NONE, depth := 0, namespaceUri := "", localName := "" }

/-- An XML text reader on a descriptor: the node it stands on, and for each
further call of `stepInto` or `stepOver` (both of shared.c, absent) the value
the call returns with the node the reader stands on afterwards. The input is
finite: once the answers are used up a step returns 0 and leaves the reader on
no node. -/
structure XmlReader where
  current : XmlNode
  answers : List (Int × XmlNode)
  deriving DecidableEq, Repr

/-- One call of `stepInto` or `stepOver`: the value returned and the reader. -/
def XmlReader.step (reader : XmlReader) : Int × XmlReader :=
  match reader.answers with
  | [] => (0, { current := XmlNode.absent, answers := [] })
  | (result, node) :: rest => (result, { current := node, answers := rest })

/-- What the system, PAM and the libraries answer to the RAP: the signed result
of `sendMessage` for a message, the user name PAM reports when all of
`pamAuthenticate` succeeds, the result of `open` (descriptor or `errno`), of
`stat` (record or `errno`), of `fstat`, of `pipe` (read end, write end), the
entries `readdir` delivers for a path or a descriptor, the result of `statvfs`,
the time, `getWebDate` of shared.c (absent), the reader `xmlReaderForFd` makes
for a body descriptor (`none` for `NULL`), `elementMatches` of shared.c (absent)
on the node the reader stands on, what the variables `readResult` of
`parsePropFind` and `properties` of `propfind` hold before anything is stored
in them, and for a body descriptor the chunks `read` delivers, each with the
result of the `write` that follows. -/
structure RapEnv where
  sendResult : Message → Int
  pam : String → String → String → Option String
  openFile : String → Bool → Except Int Int
  stat : String → Except Int Stat
  fstat : Int → Stat
  pipe : Option (Int × Int)
  opendir : String → Option (List Dirent)
  fdopendir : Int → List Dirent
  statvfs : String → Option StatVfs
  time : Int
  getWebDate : Int → String
  xmlReaderForFd : Int → Option XmlReader
  elementMatches : XmlNode → String → String → Bool
  uninitReadResult : Int
  uninitProperties : PropertySet
  body : Int → List (String × Int)

/-- The result of a request handler: the globals, the value returned (a
`size_t`) and what was done to the outside. -/
structure RapResult where
  state : RapState
  ioResult : Nat
  events : List RapEvent

/-- A `size_t` stored in an `int` (32 bit, two's complement). -/
def toInt32 (n : Nat) : Int :=
  if n % 2 ^ 32 < 2 ^ 31 then (n % 2 ^ 32 : Nat) else (n % 2 ^ 32 : Nat) - 2 ^ 32

/-- `respond` (lines 21-24): the value returned and the event. -/
def respond (env : RapEnv) (result : RapConstant) (fd : Int) : Nat × List RapEvent :=
  let message : Message := { mID := result, fd := fd, bufferCount := 0, buffers := [] }
  (toSizeT (env.sendResult message), [RapEvent.sendMessage message])

/-- A handler that ends with `return respond(result, -1)` after `events`. -/
def respondWith (env : RapEnv) (state : RapState) (events : List RapEvent)
    (result : RapConstant) : RapResult :=
  let r := respond env result (-1)
  { state := state, ioResult := r.1, events := events ++ r.2 }

/-! ### RAP: mime lookup (rap.c 30-73) -/

/-- The entry `UNKNOWN_MIME_TYPE`. -/
def UNKNOWN_MIME_TYPE : MimeType :=
  { ext := "", type := "application/octet-stream",
    typeStringSize := "application/octet-stream".length + 1 }

/-- The entry `XML_MIME_TYPE`. -/
def XML_MIME_TYPE : MimeType :=
  { ext := "", type := "application/xml; charset=utf-8",
    typeStringSize := "application/xml; charset=utf-8".length + 1 }

/-- `compareExt`. -/
def compareExt (a b : MimeType) : Int := strcmp a.ext b.ext

/-- The loop of `findMimeType` (lines 57-69): `ext` is the offset of the pointer
`type.ext` from `file`. The result is the offset of the extension, or `none`
for the return of `UNKNOWN_MIME_TYPE` from inside the loop, together with the
offsets the loop read, in order. Offset `file.length` holds the terminating
NUL; any other offset outside the characters is outside the string (it reads
as NUL here). The loop makes at most one iteration per character. -/
def scanExt (file : List Char) : Nat → Int → Option Int × List Int
  | 0, _ => (none, [])
  | fuel + 1, ext =>
    let c := if 0 ≤ ext then file.getD ext.toNat '\x00' else '\x00'
    if c = '/' then (none, [ext])
    else if c = '.' then (some (ext + 1), [ext])
    else if ext - 1 < 0 then (none, [ext])
    else
      let r := scanExt file fuel (ext - 1)
      (r.1, ext :: r.2)

/-- `findMimeType` (lines 50-73). -/
def findMimeType (mimeTypes : List MimeType) (file : Option String) : MimeType :=
  match file with
  | none => UNKNOWN_MIME_TYPE
  | some f =>
    match (scanExt f.toList (f.length + 1) (f.length - 1)).1 with
    | none => UNKNOWN_MIME_TYPE
    | some ext =>
      match bsearch compareExt
        { ext := String.mk (f.toList.drop ext.toNat), type := "", typeStringSize := 0 }
        mimeTypes with
      | none => UNKNOWN_MIME_TYPE
      | some i => mimeTypes.getD i UNKNOWN_MIME_TYPE

/-! ### RAP: the mime file (rap.c 75-147) -/

/-- An element of `mimeTypes` as `initializeMimeTypes` stores it: `ext` and
`type` are offsets into `mimeFileBuffer`. -/
structure MimeTypePtr where
  ext : Nat
  type : Nat
  typeStringSize : Nat
  deriving DecidableEq, Repr

/-- The variables of `initializeMimeTypes` that live across the iterations of
its outer loop: the buffer, `type` (`none` for `NULL`) and the table. -/
structure MimeParse where
  buffer : List Char
  type : Option Nat
  mimeTypes : List MimeTypePtr
  deriving DecidableEq, Repr

/-- The four cases `' '`, `'\t'`, `'\r'`, `'\n'` of the two switches. -/
def isPartEnd (c : Char) : Bool := c = ' ' || c = '\t' || c = '\r' || c = '\n'

/-- The loop of lines 93-95: to the end of the line or of the buffer. -/
def skipComment (buffer : List Char) : Nat → Nat → Nat
  | 0, partStartPtr => partStartPtr
  | fuel + 1, partStartPtr =>
    if partStartPtr < buffer.length ∧ buffer.getD partStartPtr '\x00' ≠ '\n' then
      skipComment buffer fuel (partStartPtr + 1)
    else partStartPtr

/-- The loop of lines 89-112 that finds the start of a part: the new
`partStartPtr` and `type`. After a comment the pointer steps over the end of
the line; `type` is only cleared in the case of the white space characters. -/
def findPartStart (buffer : List Char) : Nat → Nat → Option Nat → Nat × Option Nat
  | 0, partStartPtr, type => (partStartPtr, type)
  | fuel + 1, partStartPtr, type =>
    if partStartPtr < buffer.length then
      let c := buffer.getD partStartPtr '\x00'
      if c = '#' then
        findPartStart buffer fuel (skipComment buffer buffer.length partStartPtr + 1) type
      else if isPartEnd c then
        findPartStart buffer fuel (partStartPtr + 1) (if c = '\n' then none else type)
      else (partStartPtr, type)
    else (partStartPtr, type)

/-- The search of the loop of lines 117-142 for the end of a part: the offset
of the first white space character from `partEndPtr` on, `none` when the end of
the buffer comes first (the loop then ends with `found = 0`). -/
def findPartEnd (buffer : List Char) : Nat → Nat → Option Nat
  | 0, _ => none
  | fuel + 1, partEndPtr =>
    if partEndPtr < buffer.length then
      if isPartEnd (buffer.getD partEndPtr '\x00') then some partEndPtr
      else findPartEnd buffer fuel (partEndPtr + 1)
    else none

/-- The outer loop of `initializeMimeTypes` (lines 86-144). Every iteration
moves `partStartPtr` forward, so `buffer.length + 1` iterations are more than
the loop can make. -/
def parseMimeParts : Nat → MimeParse → Nat → MimeParse
  | 0, s, _ => s
  | fuel + 1, s, partStartPtr =>
    let start := findPartStart s.buffer (s.buffer.length + 1) partStartPtr s.type
    let partStartPtr := start.1
    match findPartEnd s.buffer (s.buffer.length + 1) (partStartPtr + 1) with
    | none => { s with type := start.2 }
    | some partEndPtr =>
      let mimeTypes := match start.2 with
        | none => s.mimeTypes
        | some type =>
          s.mimeTypes ++ [{ type := type, ext := partStartPtr,
                            typeStringSize := partEndPtr - partStartPtr + 1 }]
      let type := match start.2 with
        | none => some partStartPtr
        | some type => some type
      let type := if s.buffer.getD partEndPtr '\x00' = '\n' then none else type
      let s := { buffer := s.buffer.set partEndPtr '\x00', type := type, mimeTypes := mimeTypes }
      if partEndPtr + 1 < s.buffer.length then parseMimeParts fuel s (partEndPtr + 1) else s

/-- The C string at an offset of the buffer: the characters up to the first
NUL (or the end of the buffer). -/
def cString (buffer : List Char) (offset : Nat) : String :=
  String.mk ((buffer.drop offset).takeWhile (fun c => c ≠ '\x00'))

/-- `initializeMimeTypes` (lines 75-147) on the content of the mime file, once
`loadFileToBuffer` has delivered it: the table `mimeTypes` after `qsort`, with
the strings its pointers refer to. -/
def initializeMimeTypes (mimeFileBuffer : List Char) : List MimeType :=
  let s := parseMimeParts (mimeFileBuffer.length + 1)
    { buffer := mimeFileBuffer, type := none, mimeTypes := [] } 0
  qsort compareExt (s.mimeTypes.map (fun m =>
    { ext := cString s.buffer m.ext, type := cString s.buffer m.type,
      typeStringSize := m.typeStringSize }))

/-! ### RAP: PROPFIND (rap.c 176-182, 292-494) -/

/-- `xmlTextWriterWriteElementString`: an element of the `d` prefix with text. -/
def xmlTextWriterWriteElementString (elementName string : String) : List XmlEvent :=
  [XmlEvent.startElementNS "d" elementName none, XmlEvent.writeString string, XmlEvent.endElement]

/-- The text `snprintf` produces for `%llu` of an `unsigned long long`. -/
def formatULL (n : Nat) : String := toString (n % 2 ^ 64)

/-- The property elements `writePropFindResponsePart` writes inside `d:prop`
(lines 300-358), and the `statvfs` calls it makes. -/
def writeProperties (env : RapEnv) (mimeTypes : List MimeType) (fileName : String)
    (properties : PropertySet) (fileStat : Stat) : List XmlEvent :=
  let etag := if properties.etag then
      xmlTextWriterWriteElementString "getetag"
        ("\"" ++ toString fileStat.st_size ++ "-" ++ toString fileStat.st_mtime ++ "\"")
    else []
  let creationDate := if properties.creationDate then
      xmlTextWriterWriteElementString "creationdate" (env.getWebDate fileStat.st_ctime)
    else []
  let lastModified := if properties.lastModified then
      xmlTextWriterWriteElementString "getlastmodified" (env.getWebDate fileStat.st_ctime)
    else []
  let resourceType := if properties.resourceType then
      [XmlEvent.startElementNS "d" "resourcetype" none] ++
        (if fileStat.isDir then [XmlEvent.startElementNS "d" "collection" none, XmlEvent.endElement]
         else []) ++
        [XmlEvent.endElement]
    else []
  let rest :=
    if fileStat.isDir then
      if properties.availableBytes then
        match env.statvfs fileName with
        | some fsStat =>
          xmlTextWriterWriteElementString "quota-available-bytes"
              (formatULL (fsStat.f_bavail * fsStat.f_bsize)) ++
            (if properties.usedBytes then
              xmlTextWriterWriteElementString "quota-used-bytes"
                (formatULL ((fsStat.f_blocks + 2 ^ 64 - fsStat.f_bfree % 2 ^ 64) * fsStat.f_bsize))
             else [])
        | none => []
      else if properties.usedBytes then
        match env.statvfs fileName with
        | some fsStat =>
          xmlTextWriterWriteElementString "quota-used-bytes"
            (formatULL ((fsStat.f_blocks + 2 ^ 64 - fsStat.f_bfree % 2 ^ 64) * fsStat.f_bsize))
        | none => []
      else []
    else
      (if properties.contentLength then
        xmlTextWriterWriteElementString "getcontentlength" (toString fileStat.st_size)
       else []) ++
      (if properties.contentType then
        xmlTextWriterWriteElementString "getcontenttype" (findMimeType mimeTypes (some fileName)).type
       else [])
  etag ++ creationDate ++ lastModified ++ resourceType ++ rest

/-- `writePropFindResponsePart` (lines 292-364); the parameter `displayName`
is not used by the function and is left out. -/
def writePropFindResponsePart (env : RapEnv) (mimeTypes : List MimeType) (fileName : String)
    (properties : PropertySet) (fileStat : Stat) : List XmlEvent :=
  [XmlEvent.startElementNS "d" "response" none] ++
    xmlTextWriterWriteElementString "href" fileName ++
    [XmlEvent.startElementNS "d" "propstat" none, XmlEvent.startElementNS "d" "prop" none] ++
    writeProperties env mimeTypes fileName properties fileStat ++
    [XmlEvent.endElement] ++
    xmlTextWriterWriteElementString "status" "HTTP/1.1 200 OK" ++
    [XmlEvent.endElement, XmlEvent.endElement]

/-- The test of line 436 on a directory entry. -/
def propfindListsEntry (dp : Dirent) : Bool :=
  dp.at 0 ≠ '.' || (dp.at 1 ≠ '\x00' && dp.at 1 ≠ '.') || dp.at 2 ≠ '\x00'

/-- The body of the `readdir` loop of `respondToPropFind` (lines 436-450) for
one entry: the system calls and the element written. -/
def propfindChild (env : RapEnv) (mimeTypes : List MimeType) (filePath : String)
    (properties : PropertySet) (dp : Dirent) : List RapEvent × List XmlEvent :=
  if propfindListsEntry dp then
    let childFileName := filePath ++ dp.name
    match env.stat childFileName with
    | Except.ok fileStat =>
      let childFileName := if fileStat.isDir then childFileName ++ "/" else childFileName
      ([RapEvent.stat (filePath ++ dp.name)],
        writePropFindResponsePart env mimeTypes childFileName properties fileStat)
    | Except.error _ => ([RapEvent.stat childFileName], [])
  else ([], [])

/-- The document `respondToPropFind` writes (lines 427-455) once the reply has
been sent: the calls of the text writer, and the system calls made meanwhile. -/
def propfindDocument (env : RapEnv) (mimeTypes : List MimeType) (filePath : String)
    (properties : PropertySet) (fileStat : Stat) (depth : Int) : List RapEvent × List XmlEvent :=
  let head := [XmlEvent.startDocument "1.0" "utf-8",
    XmlEvent.startElementNS "d" "multistatus" (some "DAV:")] ++
    writePropFindResponsePart env mimeTypes filePath properties fileStat
  let children : List (List RapEvent × List XmlEvent) :=
    if depth > 1 ∧ fileStat.isDir then
      match env.opendir filePath with
      | some entries => entries.map (propfindChild env mimeTypes filePath properties)
      | none => []
    else []
  let sys := (if depth > 1 ∧ fileStat.isDir then [RapEvent.opendir filePath] else []) ++
    (children.map (fun c => c.1)).flatten
  (sys, head ++ (children.map (fun c => c.2)).flatten ++ [XmlEvent.endElement])

/-- The path `respondToPropFind` reports (lines 387-398): the path of a
directory gets a trailing '/' when it has none. -/
def propfindFilePath (file : String) (fileStat : Stat) : String :=
  if fileStat.isDir ∧ file.back ≠ '/' then file ++ "/" else file

/-- `respondToPropFind` (lines 366-461). The message is declared with
`bufferCount = 2`; its third buffer is set but not counted. `messageResult` is
a `size_t`; the value returned here is the one before the conversion to the
function's result type `int`, which `propfind` applies. -/
def respondToPropFind (env : RapEnv) (state : RapState) (file host : String)
    (properties : PropertySet) (depth : Int) : RapResult :=
  match env.stat file with
  | Except.error e =>
    if e = EACCES then
      respondWith env state
        [RapEvent.stat file, RapEvent.stdLogError ("PROPFIND access denied " ++ host ++ " " ++ file)]
        RapConstant.RAP_ACCESS_DENIED
    else
      respondWith env state
        [RapEvent.stat file, RapEvent.stdLogError ("PROPFIND not found " ++ host ++ " " ++ file)]
        RapConstant.RAP_NOT_FOUND
  | Except.ok fileStat =>
    match env.pipe with
    | none =>
      respondWith env state
        [RapEvent.stat file, RapEvent.pipe, RapEvent.stdLogError "Could not create pipe to write content"]
        RapConstant.RAP_INTERNAL_ERROR
    | some (pipeRead, pipeWrite) =>
      let filePath := propfindFilePath file fileStat
      let message : Message :=
        { mID := RapConstant.RAP_MULTISTATUS, fd := pipeRead, bufferCount := 2,
          buffers := [{ iov_base := IovBase.timeT env.time, iov_len := 8 },
            { iov_base := IovBase.chars XML_MIME_TYPE.type, iov_len := XML_MIME_TYPE.typeStringSize }] }
      let messageResult := toSizeT (env.sendResult message)
      let ev := [RapEvent.stat file, RapEvent.pipe, RapEvent.time, RapEvent.sendMessage message]
      if messageResult ≤ 0 then
        { state := state, ioResult := messageResult, events := ev ++ [RapEvent.close pipeWrite] }
      else
        let doc := propfindDocument env state.mimeTypes filePath properties fileStat depth
        { state := state, ioResult := messageResult,
          events := ev ++ doc.1 ++ doc.2.map (RapEvent.xml pipeWrite) ++ [RapEvent.close pipeWrite] }

/-- The content of `*properties` after `memset(properties, 1, ...)`. -/
def PropertySet.allSet : PropertySet :=
  { creationDate := true, displayName := true, contentLength := true, contentType := true,
    etag := true, lastModified := true, resourceType := true, usedBytes := true,
    availableBytes := true }

/-- The content of `*properties` after `memset(properties, 0, ...)`. -/
def PropertySet.noneSet : PropertySet :=
  { creationDate := false, displayName := false, contentLength := false, contentType := false,
    etag := false, lastModified := false, resourceType := false, usedBytes := false,
    availableBytes := false }

/-- The loop of lines 241-243: `stepOver` until the reader is at depth 0 or on
`DAV:prop`. The value of `readResult` does not change in the loop. -/
def skipToProp (env : RapEnv) : List (Int × XmlNode) → XmlNode → XmlReader
  | [], current =>
    if current.depth > 0 ∧ env.elementMatches current "DAV:" "prop" = false then
      { current := XmlNode.absent, answers := [] }
    else { current := current, answers := [] }
  | answer :: rest, current =>
    if current.depth > 0 ∧ env.elementMatches current "DAV:" "prop" = false then
      skipToProp env rest answer.2
    else { current := current, answers := answer :: rest }

/-- The body of the loop of lines 250-274 without the `stepOver`: the flag of
the property the node names is set. -/
def markProperty (node : XmlNode) (properties : PropertySet) : PropertySet :=
  if strcmp node.namespaceUri "DAV:" = 0 then
    let nodeName := node.localName
    if strcmp nodeName "resourcetype" = 0 then { properties with resourceType := true }
    else if strcmp nodeName "creationdate" = 0 then { properties with creationDate := true }
    else if strcmp nodeName "getcontentlength" = 0 then { properties with contentLength := true }
    else if strcmp nodeName "getlastmodified" = 0 then { properties with lastModified := true }
    else if strcmp nodeName "displayname" = 0 then { properties with displayName := true }
    else if strcmp nodeName "getcontenttype" = 0 then { properties with contentType := true }
    else if strcmp nodeName "quota-available-bytes" = 0 then
      { properties with availableBytes := true }
    else if strcmp nodeName "quota-used-bytes" = 0 then { properties with usedBytes := true }
    else if strcmp nodeName "getetag" = 0 then { properties with etag := true }
    else properties
  else properties

/-- The loop of lines 250-274: every node at a depth above 1 is looked at and
stepped over. The value of `readResult` does not change in the loop. -/
def readProperties : List (Int × XmlNode) → XmlNode → PropertySet → PropertySet
  | [], current, properties =>
    if current.depth > 1 then markProperty current properties else properties
  | answer :: rest, current, properties =>
    if current.depth > 1 then readProperties rest answer.2 (markProperty current properties)
    else properties

/-- `parsePropFind` (lines 214-290): the value returned, `*properties` and what
was done to the outside. `readResult` is declared without a value; on the path
of line 229 it is returned as it was. The loop of lines 281-283 only uses up
the rest of the input and is not written out. -/
def parsePropFind (env : RapEnv) (fd : Int) (properties : PropertySet) :
    Int × PropertySet × List RapEvent :=
  let failed := (0, properties,
    [RapEvent.stdLogError "could not create xml reader", RapEvent.close fd])
  match env.xmlReaderForFd fd with
  | none => failed
  | some reader =>
    let first := reader.step
    if first.1 = 0 then failed
    else if first.2.current.nodeType = XML_READER_TYPE_NONE then
      (env.uninitReadResult, PropertySet.allSet, [RapEvent.close fd])
    else
      let properties := PropertySet.noneSet
      if env.elementMatches first.2.current "DAV:" "propfind" = false then
        (0, properties,
          [RapEvent.stdLogError "Request body was not a propfind document", RapEvent.close fd])
      else
        let second := first.2.step
        let reader := skipToProp env second.2.answers second.2.current
        if second.1 = 0 then (second.1, properties, [RapEvent.close fd])
        else
          let third := reader.step
          if third.1 = 0 then (third.1, properties, [RapEvent.close fd])
          else
            (third.1, readProperties third.2.answers third.2.current properties,
              [RapEvent.close fd])

/-- `propfind` (lines 463-494). `ret` is an `int`. -/
def propfind (env : RapEnv) (state : RapState) (requestMessage : Message) : RapResult :=
  if requestMessage.fd = -1 then
    respondWith env state [RapEvent.stdLogError "No body sent in propfind request"]
      RapConstant.RAP_BAD_CLIENT_REQUEST
  else if state.authenticated = 0 ∨ requestMessage.bufferCount ≠ 3 then
    respondWith env state
      [RapEvent.stdLogError (if state.authenticated = 0 then "Not authenticated RAP"
          else "Get request did not provide correct buffers"),
        RapEvent.close requestMessage.fd]
      RapConstant.RAP_BAD_RAP_REQUEST
  else
    let c := respond env RapConstant.RAP_CONTINUE (-1)
    let ret := toInt32 c.1
    if ret < 0 then
      { state := state, ioResult := toSizeT ret, events := c.2 }
    else
      let depthString := iovecToString requestMessage.buffers[RAP_DEPTH_INDEX]?
      let parsed := parsePropFind env requestMessage.fd env.uninitProperties
      if parsed.1 = 0 then
        respondWith env state (c.2 ++ parsed.2.2) RapConstant.RAP_BAD_CLIENT_REQUEST
      else
        let file := iovecToString requestMessage.buffers[RAP_FILE_INDEX]?
        let r := respondToPropFind env state file
          (iovecToString requestMessage.buffers[RAP_HOST_INDEX]?) parsed.2.1
          (if strcmp "0" depthString ≠ 0 then 2 else 1)
        { r with ioResult := toSizeT (toInt32 r.ioResult),
                 events := c.2 ++ parsed.2.2 ++ r.events }

/-- The text written into the `d:href` elements of a document, in order. -/
def responseHrefs : List XmlEvent → List String
  | [] => []
  | e :: rest =>
    match e, rest with
    | XmlEvent.startElementNS _ name _, XmlEvent.writeString s :: _ =>
      if name = "href" then s :: responseHrefs rest else responseHrefs rest
    | _, _ => responseHrefs rest

/-- The number of `d:response` elements opened in a document. -/
def responseCount (doc : List XmlEvent) : Nat :=
  doc.countP (fun e => decide (e = XmlEvent.startElementNS "d" "response" none))

/-- The calls of the text writer among the events of a handler. -/
def documentOf : List RapEvent → List XmlEvent
  | [] => []
  | RapEvent.xml _ call :: rest => call :: documentOf rest
  | _ :: rest => documentOf rest

/-! ### RAP: PUT, GET, AUTHENTICATE and the main loop (rap.c 500-793) -/

/-- The copy loop of `writeFile` (lines 536-544) over the chunks `read`
delivers, each with the result of its `write`: the calls made, and whether a
write fell short. An empty chunk is the end of the body. -/
def writeLoop (fd bodyFd : Int) : List (String × Int) → List RapEvent × Bool
  | [] => ([RapEvent.read bodyFd], false)
  | (data, written) :: rest =>
    if data.length = 0 then ([RapEvent.read bodyFd], false)
    else if written < data.length then
      ([RapEvent.read bodyFd, RapEvent.write fd data written], true)
    else
      let r := writeLoop fd bodyFd rest
      (RapEvent.read bodyFd :: RapEvent.write fd data written :: r.1, r.2)

/-- `writeFile` (lines 500-549). -/
def writeFile (env : RapEnv) (state : RapState) (requestMessage : Message) : RapResult :=
  if requestMessage.fd = -1 then
    respondWith env state [RapEvent.stdLogError "write file request sent without incoming data!"]
      RapConstant.RAP_BAD_RAP_REQUEST
  else if state.authenticated = 0 ∨ requestMessage.bufferCount ≠ 2 then
    respondWith env state
      [RapEvent.stdLogError (if state.authenticated = 0 then "Not authenticated RAP"
          else "Get request did not provide correct buffers")]
      RapConstant.RAP_BAD_RAP_REQUEST
  else
    let host := iovecToString requestMessage.buffers[RAP_HOST_INDEX]?
    let file := iovecToString requestMessage.buffers[RAP_FILE_INDEX]?
    match env.openFile file true with
    | Except.error e =>
      if e = EACCES then
        respondWith env state
          [RapEvent.openFile file true, RapEvent.stdLogError ("PUT access denied " ++ host ++ " " ++ file)]
          RapConstant.RAP_ACCESS_DENIED
      else
        respondWith env state
          [RapEvent.openFile file true, RapEvent.stdLogError ("PUT not found " ++ host ++ " " ++ file)]
          RapConstant.RAP_CONFLICT
    | Except.ok fd =>
      let c := respond env RapConstant.RAP_CONTINUE (-1)
      let ret := toInt32 c.1
      let ev := RapEvent.openFile file true :: c.2
      if ret < 0 then
        { state := state, ioResult := toSizeT ret, events := ev }
      else
        let copied := writeLoop fd requestMessage.fd (env.body requestMessage.fd)
        let ev := ev ++ copied.1
        if copied.2 then
          respondWith env state
            (ev ++ [RapEvent.stdLogError "Could wite data to file", RapEvent.close fd,
              RapEvent.close requestMessage.fd])
            RapConstant.RAP_INSUFFICIENT_STORAGE
        else
          respondWith env state (ev ++ [RapEvent.close fd, RapEvent.close requestMessage.fd])
            RapConstant.RAP_SUCCESS

/-- The list items `readFile` prints for the entries of a directory (lines
613-621). -/
def listingItems (outPipe : Int) (file sep : String) : List Dirent → List RapEvent
  | [] => []
  | dp :: rest =>
    if dp.at 0 ≠ '.' then
      (if dp.d_type = DT_DIR then
        RapEvent.fprintf outPipe
          ("<li><a href=\"" ++ file ++ sep ++ dp.name ++ "/\">" ++ dp.name ++ "/</a></li>")
      else
        RapEvent.fprintf outPipe
          ("<li><a href=\"" ++ file ++ sep ++ dp.name ++ "\">" ++ dp.name ++ "</a></li>"))
        :: listingItems outPipe file sep rest
    else listingItems outPipe file sep rest

/-- `readFile` (lines 551-637). -/
def readFile (env : RapEnv) (state : RapState) (requestMessage : Message) : RapResult :=
  let ev0 := if requestMessage.fd ≠ -1 then
      [RapEvent.stdLogError "read file request sent incoming data!", RapEvent.close requestMessage.fd]
    else []
  if state.authenticated = 0 ∨ requestMessage.bufferCount ≠ 2 then
    respondWith env state
      (ev0 ++ [RapEvent.stdLogError (if state.authenticated = 0 then "Not authenticated RAP"
          else "Get request did not provide correct buffers")])
      RapConstant.RAP_BAD_RAP_REQUEST
  else
    let host := iovecToString requestMessage.buffers[RAP_HOST_INDEX]?
    let file := iovecToString requestMessage.buffers[RAP_FILE_INDEX]?
    let pathBuffer : IoVec := requestMessage.buffers.getD RAP_FILE_INDEX (stringBuffer "")
    match env.openFile file false with
    | Except.error e =>
      if e = EACCES then
        respondWith env state
          (ev0 ++ [RapEvent.openFile file false,
            RapEvent.stdLogError ("GET access denied " ++ host ++ " " ++ file)])
          RapConstant.RAP_ACCESS_DENIED
      else
        respondWith env state
          (ev0 ++ [RapEvent.openFile file false,
            RapEvent.stdLogError ("GET not found " ++ host ++ " " ++ file)])
          RapConstant.RAP_NOT_FOUND
    | Except.ok fd =>
      let statinfo := env.fstat fd
      let ev := ev0 ++ [RapEvent.openFile file false, RapEvent.fstat fd]
      if statinfo.isDir then
        match env.pipe with
        | none =>
          respondWith env state
            (ev ++ [RapEvent.pipe, RapEvent.stdLogError "Could not create pipe to write content",
              RapEvent.close fd])
            RapConstant.RAP_INTERNAL_ERROR
        | some (pipeRead, pipeWrite) =>
          let message : Message :=
            { mID := RapConstant.RAP_SUCCESS, fd := pipeRead, bufferCount := 3,
              buffers := [{ iov_base := IovBase.timeT env.time, iov_len := 8 },
                { iov_base := IovBase.chars "text/html", iov_len := "text/html".length + 1 },
                pathBuffer] }
          let messageResult := toSizeT (env.sendResult message)
          let ev := ev ++ [RapEvent.pipe, RapEvent.time, RapEvent.sendMessage message]
          if messageResult ≤ 0 then
            { state := state, ioResult := messageResult,
              events := ev ++ [RapEvent.close fd, RapEvent.close pipeWrite] }
          else
            let sep := if file.back = '/' then "" else "/"
            { state := state, ioResult := messageResult,
              events := ev ++ [RapEvent.fdopendir fd,
                  RapEvent.fprintf pipeWrite
                    ("<html><head><title>" ++ file ++ sep ++ "</title></head><body><h1>" ++ file ++
                      sep ++ "</h1><ul>")] ++
                listingItems pipeWrite file sep (env.fdopendir fd) ++
                [RapEvent.fprintf pipeWrite "</ul></body></html>", RapEvent.close fd,
                  RapEvent.close pipeWrite] }
      else
        let mimeType := findMimeType state.mimeTypes (some file)
        let message : Message :=
          { mID := RapConstant.RAP_SUCCESS, fd := fd, bufferCount := 3,
            buffers := [{ iov_base := IovBase.timeT statinfo.st_mtime, iov_len := 8 },
              { iov_base := IovBase.chars mimeType.type, iov_len := mimeType.typeStringSize },
              pathBuffer] }
        { state := state, ioResult := toSizeT (env.sendResult message),
          events := ev ++ [RapEvent.sendMessage message] }

/-- `pamAuthenticate` (lines 656-711): the PAM conversation, the switch of
environment and user, taken as one call whose success is decided outside; on
success the globals `authenticatedUser` and `authenticated` are set. -/
def pamAuthenticate (env : RapEnv) (state : RapState) (user password hostname : String) :
    RapState × Bool × List RapEvent :=
  match env.pam user password hostname with
  | some pamUser =>
    ({ state with authenticatedUser := some pamUser, authenticated := 1 }, true,
      [RapEvent.pamAuthenticate user password hostname])
  | none => (state, false, [RapEvent.pamAuthenticate user password hostname])

/-- `authenticate` (lines 713-737). -/
def authenticate (env : RapEnv) (state : RapState) (message : Message) : RapResult :=
  let ev0 := if message.fd ≠ -1 then
      [RapEvent.stdLogError "authenticate request send incoming data!", RapEvent.close message.fd]
    else []
  if state.authenticated ≠ 0 ∨ message.bufferCount ≠ 3 then
    respondWith env state
      (ev0 ++ [RapEvent.stdLogError (if state.authenticated ≠ 0 then "Login for already logged in RAP"
          else "Login provided the wrong number of buffer(s) instead of 3")])
      RapConstant.RAP_BAD_RAP_REQUEST
  else
    let user := iovecToString message.buffers[RAP_USER_INDEX]?
    let password := iovecToString message.buffers[RAP_PASSWORD_INDEX]?
    let rhost := iovecToString message.buffers[RAP_RHOST_INDEX]?
    let p := pamAuthenticate env state user password rhost
    if p.2.1 then respondWith env p.1 (ev0 ++ p.2.2) RapConstant.RAP_SUCCESS
    else respondWith env p.1 (ev0 ++ p.2.2) RapConstant.RAP_AUTH_FAILLED

/-- Modelled from the spec: `RAP_MIN_REQUEST` and `RAP_MAX_REQUEST` are
declared in shared.h (absent); the request kinds of section 3 are
AUTHENTICATE, READ_FILE, WRITE_FILE and PROPFIND. -/
def isRequest : RapConstant → Bool
  | RapConstant.RAP_AUTHENTICATE => true
  | RapConstant.RAP_READ_FILE => true
  | RapConstant.RAP_WRITE_FILE => true
  | RapConstant.RAP_PROPFIND => true
  | _ => false

/-- The `switch` of `main` (lines 771-784); `ioResult` is the value the
variable holds before it, which stays when no case applies. -/
def dispatch (env : RapEnv) (state : RapState) (ioResult : Nat) (message : Message) : RapResult :=
  match message.mID with
  | RapConstant.RAP_AUTHENTICATE => authenticate env state message
  | RapConstant.RAP_READ_FILE => readFile env state message
  | RapConstant.RAP_WRITE_FILE => writeFile env state message
  | RapConstant.RAP_PROPFIND => propfind env state message
  | _ => { state := state, ioResult := ioResult, events := [] }

/-- The result of one iteration of the loop of `main`: the globals, the value
of `ioResult` when the loop condition is tested, what was done to the outside,
and the exit status when the iteration ended the process with `exit`. -/
structure IterationResult where
  state : RapState
  ioResult : Nat
  events : List RapEvent
  exitStatus : Option Int

/-- One iteration of the loop of `main` (lines 755-789) when `recvMessage`
returns `recvResult` (signed) and leaves `message`. `ioResult` is a `size_t`. -/
def mainIteration (env : RapEnv) (state : RapState) (recvResult : Int) (message : Message) :
    IterationResult :=
  let ioResult := toSizeT recvResult
  if ioResult ≤ 0 then
    if ioResult < 0 then
      { state := state, ioResult := ioResult, events := [], exitStatus := some 1 }
    else
      { state := state, ioResult := ioResult, events := [], exitStatus := none }
  else if ¬ isRequest message.mID then
    let r := respond env RapConstant.RAP_BAD_RAP_REQUEST (-1)
    { state := state, ioResult := r.1, events := r.2, exitStatus := none }
  else
    let r := dispatch env state ioResult message
    let ioResult := if r.ioResult < 0 then 0 else r.ioResult
    { state := r.state, ioResult := ioResult, events := r.events, exitStatus := none }

/-- The kinds of the messages sent, in order. -/
def repliesOf : List RapEvent → List RapConstant
  | [] => []
  | RapEvent.sendMessage message :: rest => message.mID :: repliesOf rest
  | _ :: rest => repliesOf rest

/-- Whether an event is a call that reads or changes the file system. -/
def RapEvent.isFileSystem : RapEvent → Bool
  | RapEvent.openFile _ _ => true
  | RapEvent.stat _ => true
  | RapEvent.fstat _ => true
  | RapEvent.statvfs _ => true
  | RapEvent.opendir _ => true
  | RapEvent.fdopendir _ => true
  | RapEvent.write _ _ _ => true
  | _ => false

/-- An element node of the namespace "DAV:". -/
def davNode (nodeType depth : Int) (localName : String) : XmlNode :=
  { nodeType := nodeType, depth := depth, namespaceUri := "DAV:", localName := localName }

/-- A reader on the body `<propfind xmlns="DAV:"><prop><resourcetype/></prop></propfind>`:
each step succeeds and stands on the next node (1 is an element, 15 the end of
an element). -/
def exampleReader : XmlReader :=
  { current := XmlNode.absent,
    answers := [(1, davNode 1 0 "propfind"), (1, davNode 1 1 "prop"),
      (1, davNode 1 2 "resourcetype"), (1, davNode 15 1 "prop"), (1, davNode 15 0 "propfind")] }

/-- A RAP environment for the examples: every message is sent in full, PAM
accepts the password "pw", the file system holds the directory "/dir/" with
the entries ".", "..", ".hidden", "a" and "sub" (a directory), nothing else. -/
def exampleRapEnv : RapEnv :=
  { sendResult := fun _ => 1,
    pam := fun user password _ => if password = "pw" then some user else none,
    openFile := fun _ _ => Except.error ENOENT,
    stat := fun file =>
      if file = "/dir/" ∨ file = "/dir/sub" then
        Except.ok { st_mode := 0o040755, st_size := 4096, st_mtime := 50, st_ctime := 50 }
      else if file = "/dir/a" ∨ file = "/dir/.hidden" then
        Except.ok { st_mode := 0o100644, st_size := 11, st_mtime := 60, st_ctime := 60 }
      else Except.error ENOENT,
    fstat := fun _ => { st_mode := 0o100644, st_size := 11, st_mtime := 60, st_ctime := 60 },
    pipe := some (10, 11),
    opendir := fun file =>
      if file = "/dir/" then
        some [{ d_name := ['.', '\x00', '\x00'], d_type := 4 }, { d_name := ['.', '.', '\x00'], d_type := 4 },
          { d_name := ".hidden".toList ++ ['\x00'], d_type := 8 }, { d_name := ['a', '\x00'], d_type := 8 },
          { d_name := "sub".toList ++ ['\x00'], d_type := 4 }]
      else none,
    fdopendir := fun _ => [],
    statvfs := fun _ => none,
    time := 1000,
    getWebDate := fun _ => "Thu, 01 Jan 1970 00:00:00 GMT",
    xmlReaderForFd := fun _ => some exampleReader,
    elementMatches := fun node namespaceUri nodeName =>
      node.nodeType == 1 && node.namespaceUri == namespaceUri && node.localName == nodeName,
    uninitReadResult := 0,
    uninitProperties := PropertySet.noneSet,
    body := fun _ => [] }

/-- The globals of a RAP with the flag `authenticated` as given. -/
def exampleRapState (authenticated : Int) : RapState :=
  { authenticated := authenticated,
    authenticatedUser := if authenticated = 0 then none else some "bob",
    mimeTypes := [] }

/-- A request message of kind `mID` for the path `file` with descriptor `fd`. -/
def exampleMessage (mID : RapConstant) (fd : Int) (file : String) : Message :=
  if mID = RapConstant.RAP_PROPFIND then
    { mID := mID, fd := fd, bufferCount := 3,
      buffers := [stringBuffer "localhost", stringBuffer file, stringBuffer "1"] }
  else if mID = RapConstant.RAP_AUTHENTICATE then
    { mID := mID, fd := fd, bufferCount := 3,
      buffers := [stringBuffer "bob", stringBuffer "pw", stringBuffer "10.0.0.1"] }
  else
    { mID := mID, fd := fd, bufferCount := 2, buffers := [stringBuffer "localhost", stringBuffer file] }

/-- The property set with every flag set. -/
def allProperties : PropertySet :=
  { creationDate := true, displayName := true, contentLength := true, contentType := true,
    etag := true, lastModified := true, resourceType := true, usedBytes := true,
    availableBytes := true }

/-- The paths of the children `respondToPropFind` reports for a directory
listing, in the words of the amended claim: every entry other than "." and
".." that can be stat'ed, a directory with a trailing '/'. -/
def childHrefs (env : RapEnv) (filePath : String) (entries : List Dirent) : List String :=
  (entries.filter (fun dp => dp.name ≠ "." ∧ dp.name ≠ "..")).filterMap (fun dp =>
    match env.stat (filePath ++ dp.name) with
    | Except.ok fileStat => some (filePath ++ dp.name ++ (if fileStat.isDir then "/" else ""))
    | Except.error _ => none)

/-- The `stat` record of the directories of the example file system. -/
def exampleDirStat : Stat := { st_mode := 0o040755, st_size := 4096, st_mtime := 50, st_ctime := 50 }

/-- The entries of "/dir/" in the example file system. -/
def exampleEntries : List Dirent :=
  [{ d_name := ['.', '\x00', '\x00'], d_type := 4 }, { d_name := ['.', '.', '\x00'], d_type := 4 },
   { d_name := ".hidden".toList ++ ['\x00'], d_type := 8 }, { d_name := ['a', '\x00'], d_type := 8 },
   { d_name := "sub".toList ++ ['\x00'], d_type := 4 }]

/-- The kinds of the messages the server sends to RAPs, in order. -/
def sentKinds : List ServerEvent → List RapConstant
  | [] => []
  | ServerEvent.sendMessage _ message :: rest => message.mID :: sentKinds rest
  | _ :: rest => sentKinds rest

/-- A PUT request of "bob" that announces a body of five bytes. -/
def examplePut : MHD_Connection :=
  { exampleRequest with headers := [("Host", "localhost"), ("Content-Length", "5")] }

/-- The key of a group. -/
def RapGroup.key (g : RapGroup) : String × String := (g.user, g.password)

/-- The invariant of the pool: the table is sorted, every group has its
`rapMaxSessionsPerUser` slots, and a slot in use has an open socket. -/
def PoolInv (config : WebdavdConfiguration) (rapDB : List RapGroup) : Prop :=
  WellFormed config rapDB ∧
    ∀ g ∈ rapDB, ∀ s ∈ g.rapSession, s.rapSessionInUse ≠ 0 → s.socketFd ≠ -1

/-- A slot in use has an open socket. -/
def SlotsOk (slots : List RestrictedAccessProcessor) : Prop :=
  ∀ s ∈ slots, s.rapSessionInUse ≠ 0 → s.socketFd ≠ -1

/-- Every slot in use of the first table is found unchanged, at the same
index of the group with the same key, in the second. -/
def LeasedKept (db db' : List RapGroup) : Prop :=
  ∀ g ∈ db, ∀ (i : Nat) (s : RestrictedAccessProcessor), g.rapSession[i]? = some s →
    s.rapSessionInUse ≠ 0 → ∃ g' ∈ db', g'.key = g.key ∧ g'.rapSession[i]? = some s

/-- The session `addRapToDb` stores for `rapSession` in a group of `user`. -/
def storedSession (rapSession : RestrictedAccessProcessor) (user : String) :
    RestrictedAccessProcessor :=
  { rapSession with user := user, rapSessionInUse := 1 }

/-- The result of the slot loop of `addRapToDb` on the array of `g`. -/
def addScanOf (config : WebdavdConfiguration) (now : Int) (g : RapGroup) :
    List RestrictedAccessProcessor × Option Nat × List Int :=
  addScan (now - config.rapMaxSessionLife) config.rapMaxSessionsPerUser 0 g.rapSession none

/-- The group `g` with another array. -/
def withSlots (g : RapGroup) (slots : List RestrictedAccessProcessor) : RapGroup :=
  { g with rapSession := slots }

/-- The group `addRapToDb` allocates for a session, with the session in slot 0
carrying the user name `lastUser`. -/
def allocatedGroup (config : WebdavdConfiguration) (rapSession : RestrictedAccessProcessor)
    (password lastUser : String) : RapGroup :=
  { user := rapSession.user, password := password,
    rapSession := (newGroupSlots config.rapMaxSessionsPerUser).set 0
      (storedSession rapSession lastUser) }

/-- One step of the pool state machine: `acquireRapFromDb`, `addRapToDb` for a
session `createRap` has filled in (its socket is open), `releaseRap` called by
the holder of a slot in use, or one pass of `rapTimeoutWorker`. -/
inductive PoolStep (config : WebdavdConfiguration) : List RapGroup → List RapGroup → Prop where
  | acquire (rapDB : List RapGroup) (now : Int) (user password : String) :
      PoolStep config rapDB (acquireRapFromDb config rapDB now user password).1
  | add (rapDB : List RapGroup) (now : Int) (rapSession : RestrictedAccessProcessor)
      (password : String) (hlive : rapSession.socketFd ≠ -1) :
      PoolStep config rapDB (addRapToDb config rapDB now rapSession password).1
  | release (rapDB : List RapGroup) (ptr : SlotPtr) (s : RestrictedAccessProcessor)
      (hslot : getSlot rapDB ptr = some s) (hheld : s.rapSessionInUse ≠ 0) :
      PoolStep config rapDB (releaseRap rapDB ptr)
  | timeout (rapDB : List RapGroup) (now : Int) :
      PoolStep config rapDB (rapTimeoutWorker config now rapDB).1

/-- The tables the pool state machine reaches from the empty table. -/
inductive PoolReachable (config : WebdavdConfiguration) : List RapGroup → Prop where
  | empty : PoolReachable config []
  | step {a b : List RapGroup} (ha : PoolReachable config a) (hstep : PoolStep config a b) :
      PoolReachable config b

/-- The pool after a session of "bob" on socket 5 was added to the empty table. -/
def examplePool1 : List RapGroup :=
  (addRapToDb exampleConfig [] 1000 (exampleSession 0 5 "bob" 1000) "pw").1

/-- The pool `examplePool1` after the holder released the session. -/
def examplePool2 : List RapGroup := releaseRap examplePool1 (0, 0)

/-- A RAP child started by `createRap` whose control socket `destroyRap` has
not closed: the credentials it was started for and its socket. -/
abbrev Child := String × String × Int

/-- The children held by the slots of one group: a slot with an open socket
holds the child on that socket. -/
def liveSlots (g : RapGroup) : List Child :=
  (g.rapSession.filter (fun s => decide (s.socketFd ≠ -1))).map
    (fun s => (g.user, g.password, s.socketFd))

/-- The children held by the slots of the table. -/
def liveOf (rapDB : List RapGroup) : List Child := rapDB.flatMap liveSlots

/-- The effect of one event on the set of children: `forkRapProcess` for the
credentials (user, password) adds a child, `destroyRap` removes the child on
the socket it closes. -/
def childrenAfterEvent (user password : String) (children : List Child) :
    ServerEvent → List Child
  | ServerEvent.forkRapProcess _ socketFd => children ++ [(user, password, socketFd)]
  | ServerEvent.destroyRap socketFd => children.filter (fun c => decide (c.2.2 ≠ socketFd))
  | _ => children

/-- The effect of a list of events on the set of children. -/
def childrenAfter (user password : String) (children : List Child) (events : List ServerEvent) :
    List Child :=
  events.foldl (childrenAfterEvent user password) children

/-- A request inside `acquireRap` at a point where `rapDBLock` is not held:
after `acquireRapFromDb` returned `NULL` with a session count below
`rapMaxSessionsPerUser` (line 815) and before `createRap` (line 820); inside
`createRap` after `forkRapProcess` started the child (line 664), with the
answers the system and the child are going to give; or after `createRap`
returned the session it filled in and before `addRapToDb` (line 824). -/
inductive InFlight where
  | beforeCreate (user password rhost : String)
  | insideCreate (io : CreateRapIO) (newSession : RestrictedAccessProcessor)
      (user password rhost : String)
  | beforeAdd (rapSession : RestrictedAccessProcessor) (password : String)
  deriving DecidableEq, Repr

/-- The state of the server for the per-user cap: the pool table, the RAP
children that exist (started by `createRap`, control socket not closed by
`destroyRap`), and the requests that are inside `acquireRap` between two of
its calls. -/
structure DaemonState where
  rapDB : List RapGroup
  children : List Child
  inFlight : List InFlight
  deriving DecidableEq, Repr

/-- The steps of the server that change the pool or the children, each as far
as `rapDBLock` or the life of a child reaches: the call of `acquireRapFromDb`
by a request (lines 808-811); for the request at place `i` of those in flight
the call of `forkRapProcess` in `createRap` (line 664), the rest of `createRap`
(lines 669-704), and the call of `addRapToDb` (line 824); `releaseRap`; and one
pass of `rapTimeoutWorker`. Requests are handled by one thread for each daemon,
so the steps of different requests can alternate. -/
inductive DaemonAction where
  | lookup (request : MHD_Connection) (now : Int)
  | fork (i : Nat) (io : CreateRapIO) (newSession : RestrictedAccessProcessor)
  | finish (i : Nat)
  | add (i : Nat) (now : Int)
  | release (ptr : SlotPtr)
  | timeout (now : Int)
  deriving DecidableEq, Repr

/-- The state after one step. A `fork`, `finish` or `add` step for a place that
holds no request at that point of `acquireRap` changes nothing. -/
def daemonStep (config : WebdavdConfiguration) (st : DaemonState) : DaemonAction → DaemonState
  | DaemonAction.lookup request now =>
    match request.basicAuthUser, request.basicAuthPassword with
    | some user, some password =>
      let r := acquireRapFromDb config st.rapDB now user password
      match r.2.1 with
      | some _ => { st with rapDB := r.1 }
      | none =>
        if r.2.2 < config.rapMaxSessionsPerUser then
          { st with
            rapDB := r.1,
            inFlight := st.inFlight ++ [InFlight.beforeCreate user password request.clientIp] }
        else { st with rapDB := r.1 }
    | _, _ => st
  | DaemonAction.fork i io newSession =>
    match st.inFlight[i]? with
    | some (InFlight.beforeCreate user password rhost) =>
      if io.forkResult = 0 then { st with inFlight := st.inFlight.eraseIdx i }
      else
        { st with
          children := childrenAfter user password st.children
            [ServerEvent.forkRapProcess io.forkResult io.newSockFd],
          inFlight := st.inFlight.eraseIdx i ++
            [InFlight.insideCreate io newSession user password rhost] }
    | _ => st
  | DaemonAction.finish i =>
    match st.inFlight[i]? with
    | some (InFlight.insideCreate io newSession user password rhost) =>
      match (createRap io newSession user password rhost).1 with
      | CreateRapResult.created rapSession =>
        { st with
          inFlight := st.inFlight.eraseIdx i ++ [InFlight.beforeAdd rapSession password] }
      | _ =>
        { st with
          children := childrenAfter user password st.children
            [ServerEvent.destroyRap io.newSockFd],
          inFlight := st.inFlight.eraseIdx i }
    | _ => st
  | DaemonAction.add i now =>
    match st.inFlight[i]? with
    | some (InFlight.beforeAdd rapSession password) =>
      let a := addRapToDb config st.rapDB now rapSession password
      { rapDB := a.1,
        children := childrenAfter rapSession.user password st.children
          (a.2.2.map ServerEvent.destroyRap),
        inFlight := st.inFlight.eraseIdx i }
    | _ => st
  | DaemonAction.release ptr => { st with rapDB := releaseRap st.rapDB ptr }
  | DaemonAction.timeout now =>
    { st with
      rapDB := (rapTimeoutWorker config now st.rapDB).1,
      children := childrenAfter "" "" st.children
        ((rapTimeoutWorker config now st.rapDB).2.map ServerEvent.destroyRap) }

/-- What the system guarantees for a step: the socket `forkRapProcess` hands
out for a new child is an open descriptor, so it is neither -1 nor the socket
of a child that exists. -/
def possible (st : DaemonState) : DaemonAction → Bool
  | DaemonAction.fork _ io _ =>
    decide (io.forkResult ≠ 0 →
      io.newSockFd ≠ -1 ∧ io.newSockFd ∉ st.children.map (fun c => c.2.2))
  | _ => true

/-- The state after a sequence of steps. -/
def runDaemon (config : WebdavdConfiguration) : DaemonState → List DaemonAction → DaemonState
  | st, [] => st
  | st, a :: rest => runDaemon config (daemonStep config st a) rest

/-- Every step of the sequence is possible in the state it is taken in. -/
def feasible (config : WebdavdConfiguration) : DaemonState → List DaemonAction → Bool
  | _, [] => true
  | st, a :: rest => possible st a && feasible config (daemonStep config st a) rest

/-- The server after `initializeRapDatabase`: an empty pool, no child, no
request. -/
def emptyDaemon : DaemonState := { rapDB := [], children := [], inFlight := [] }

/-- The children in flight: those `forkRapProcess` has started for a request
that `addRapToDb` has not yet stored or destroyed, and that `createRap` has not
destroyed. -/
def inFlightChildren (inFlight : List InFlight) : List Child :=
  inFlight.flatMap (fun f =>
    match f with
    | InFlight.beforeCreate _ _ _ => []
    | InFlight.insideCreate io _ user password _ => [(user, password, io.newSockFd)]
    | InFlight.beforeAdd rapSession password =>
      [(rapSession.user, password, rapSession.socketFd)])

/-- The invariant for the per-user cap: the invariant of the pool, the
children are the sessions held by the slots and those in flight, no two
children share a socket, and the socket of a child is open. -/
def DaemonInv (config : WebdavdConfiguration) (st : DaemonState) : Prop :=
  PoolInv config st.rapDB ∧
    st.children.Perm (liveOf st.rapDB ++ inFlightChildren st.inFlight) ∧
    (st.children.map (fun c => c.2.2)).Nodup ∧
    ∀ c ∈ st.children, c.2.2 ≠ -1

/-- A request of "bob" with the password "pw". -/
def bobRequest : MHD_Connection :=
  { headers := [], basicAuthUser := some "bob", basicAuthPassword := some "pw",
    clientIp := "10.0.0.1" }

/-- The answers during `createRap` when the child starts on socket `fd` with
process id `1000 + fd` and accepts the login at time `t`. -/
def childStarts (fd t : Int) : CreateRapIO :=
  { forkResult := 1000 + fd, newSockFd := fd, sendResult := 1, recvResult := 1,
    recvMID := RapConstant.RAP_SUCCESS, created := t }

/-- Two requests of "bob" start a session each (sockets 5 and 6, times 100 and
101) and release it. -/
def exampleTwoSessions : List DaemonAction :=
  [DaemonAction.lookup bobRequest 100,
   DaemonAction.fork 0 (childStarts 5 100) AUTH_FAILED_RAP,
   DaemonAction.finish 0,
   DaemonAction.add 0 100,
   DaemonAction.lookup bobRequest 101,
   DaemonAction.fork 0 (childStarts 6 101) AUTH_FAILED_RAP,
   DaemonAction.finish 0,
   DaemonAction.add 0 101,
   DaemonAction.release (0, 0),
   DaemonAction.release (0, 1)]

/-- After `exampleTwoSessions` a third request of "bob" arrives at time 1000,
when both sessions are expired, and has come as far as the return of
`createRap`, which started a child on socket 7. -/
def exampleThirdRequest : List DaemonAction :=
  exampleTwoSessions ++
    [DaemonAction.lookup bobRequest 1000,
     DaemonAction.fork 0 (childStarts 7 1000) AUTH_FAILED_RAP,
     DaemonAction.finish 0]

/-- The sockets of the slots with an open socket, tagged with a key. -/
def liveTagged (user password : String) (slots : List RestrictedAccessProcessor) : List Child :=
  (slots.filter (fun s => decide (s.socketFd ≠ -1))).map (fun s => (user, password, s.socketFd))

/-- A reader on an empty body: the first step returns 1 and the reader stands
on no node. -/
def exampleEmptyReader : XmlReader :=
  { current := XmlNode.absent, answers := [(1, XmlNode.absent)] }

/-- The example environment with empty request bodies, where the variable
`readResult` of `parsePropFind` happens to hold 1 before it is assigned. -/
def exampleEmptyBodyEnv : RapEnv :=
  { exampleRapEnv with xmlReaderForFd := fun _ => some exampleEmptyReader, uninitReadResult := 1 }

/-- The messages the RAP sent, in order. -/
def sentMessages : List RapEvent → List Message
  | [] => []
  | RapEvent.sendMessage message :: rest => message :: sentMessages rest
  | _ :: rest => sentMessages rest

/-- The MULTISTATUS message of the example RAP: the pipe's read end, the time
and the XML mime type. -/
def exampleMultistatus : Message :=
  { mID := RapConstant.RAP_MULTISTATUS, fd := 10, bufferCount := 2,
    buffers := [{ iov_base := IovBase.timeT 1000, iov_len := 8 },
      { iov_base := IovBase.chars "application/xml; charset=utf-8", iov_len := 31 }] }

/-- The keys of the headers of a response (`none` for no response). -/
def headerKeys (response : Option MHD_Response) : Option (List String) :=
  response.map (fun r => r.headers.map (fun h => h.1))

/-- An XML tree: an element with its children, or text. -/
inductive XmlTree where
  | element (pfx name : String) (namespaceUri : Option String) (children : List XmlTree)
  | text (content : String)

/-- A start tag that is still open while a sequence of writer calls is read,
with the trees that were completed before it at its level (last first). -/
structure OpenElement where
  pfx : String
  name : String
  namespaceUri : Option String
  before : List XmlTree

/-- The trees a sequence of writer calls forms: every `endElement` closes the
element opened last. `none` when an `endElement` has no open element, when an
element is left open at the end, or when a document start occurs. `stack` holds
the open elements, `done` the trees completed at the current level (last
first). -/
def parseXml : List XmlEvent → List OpenElement → List XmlTree → Option (List XmlTree)
  | [], [], done => some done.reverse
  | [], _ :: _, _ => none
  | XmlEvent.startDocument _ _ :: _, _, _ => none
  | XmlEvent.startElementNS pfx name ns :: rest, stack, done =>
    parseXml rest ({ pfx := pfx, name := name, namespaceUri := ns, before := done } :: stack) []
  | XmlEvent.writeString content :: rest, stack, done =>
    parseXml rest stack (XmlTree.text content :: done)
  | XmlEvent.endElement :: _, [], _ => none
  | XmlEvent.endElement :: rest, top :: stack, done =>
    parseXml rest stack
      (XmlTree.element top.pfx top.name top.namespaceUri done.reverse :: top.before)

mutual
/-- The writer calls that produce a tree. -/
def XmlTree.render : XmlTree → List XmlEvent
  | XmlTree.element pfx name ns children =>
    XmlEvent.startElementNS pfx name ns :: (renderAll children ++ [XmlEvent.endElement])
  | XmlTree.text content => [XmlEvent.writeString content]
/-- The writer calls that produce a sequence of trees. -/
def renderAll : List XmlTree → List XmlEvent
  | [] => []
  | t :: ts => t.render ++ renderAll ts
end

/-- An element of the `d` prefix that holds one text. -/
def textElement (name content : String) : XmlTree :=
  XmlTree.element "d" name none [XmlTree.text content]

/-- The element `d:resourcetype` for a file (`isDir = false`: empty) or for a
directory (one empty `d:collection`). -/
def resourceTypeElement (isDir : Bool) : XmlTree :=
  XmlTree.element "d" "resourcetype" none
    (if isDir then [XmlTree.element "d" "collection" none []] else [])

/-- The names of the property elements that hold text. -/
def textPropertyNames : List String :=
  ["getetag", "creationdate", "getlastmodified", "quota-available-bytes", "quota-used-bytes",
   "getcontentlength", "getcontenttype"]

/-- The name of an element (the empty string for text). -/
def XmlTree.name : XmlTree → String
  | XmlTree.element _ name _ _ => name
  | XmlTree.text _ => ""

/-- The trees of the property elements `writePropFindResponsePart` writes inside
`d:prop`, read off lines 300-358 call by call. -/
def propertyTrees (env : RapEnv) (mimeTypes : List MimeType) (fileName : String)
    (properties : PropertySet) (fileStat : Stat) : List XmlTree :=
  let etag := if properties.etag then
      [textElement "getetag"
        ("\"" ++ toString fileStat.st_size ++ "-" ++ toString fileStat.st_mtime ++ "\"")]
    else []
  let creationDate := if properties.creationDate then
      [textElement "creationdate" (env.getWebDate fileStat.st_ctime)]
    else []
  let lastModified := if properties.lastModified then
      [textElement "getlastmodified" (env.getWebDate fileStat.st_ctime)]
    else []
  let resourceType := if properties.resourceType then [resourceTypeElement fileStat.isDir] else []
  let rest :=
    if fileStat.isDir then
      if properties.availableBytes then
        match env.statvfs fileName with
        | some fsStat =>
          [textElement "quota-available-bytes" (formatULL (fsStat.f_bavail * fsStat.f_bsize))] ++
            (if properties.usedBytes then
              [textElement "quota-used-bytes"
                (formatULL ((fsStat.f_blocks + 2 ^ 64 - fsStat.f_bfree % 2 ^ 64) * fsStat.f_bsize))]
             else [])
        | none => []
      else if properties.usedBytes then
        match env.statvfs fileName with
        | some fsStat =>
          [textElement "quota-used-bytes"
            (formatULL ((fsStat.f_blocks + 2 ^ 64 - fsStat.f_bfree % 2 ^ 64) * fsStat.f_bsize))]
        | none => []
      else []
    else
      (if properties.contentLength then
        [textElement "getcontentlength" (toString fileStat.st_size)]
       else []) ++
      (if properties.contentType then
        [textElement "getcontenttype" (findMimeType mimeTypes (some fileName)).type]
       else [])
  etag ++ creationDate ++ lastModified ++ resourceType ++ rest

/-- The `write` calls made, in order: the data handed over and the result. -/
def writesOf : List RapEvent → List (String × Int)
  | [] => []
  | RapEvent.write _ data written :: rest => (data, written) :: writesOf rest
  | _ :: rest => writesOf rest

/-- The chunks `read` delivers before the end of the body (a result of 0). -/
def chunksUntilEof (chunks : List (String × Int)) : List (String × Int) :=
  chunks.takeWhile (fun c => c.1.length ≠ 0)

/-- The example environment in which every file can be opened for writing (as
descriptor 12) and a request body holds "hello " and "world", both written in
full when `shortAt` is 5 or more; the second write stores `shortAt` bytes. -/
def exampleWriteEnv (shortAt : Int) : RapEnv :=
  { exampleRapEnv with
    openFile := fun _ _ => Except.ok 12,
    body := fun _ => [("hello ", 6), ("world", shortAt), ("", 0), ("lost", 4)] }

/-- The texts printed on a stream, in order. -/
def printedOn (fd : Int) : List RapEvent → List String
  | [] => []
  | RapEvent.fprintf outFd text :: rest =>
    if outFd = fd then text :: printedOn fd rest else printedOn fd rest
  | _ :: rest => printedOn fd rest

/-- Whether the name of a directory entry begins with '.'. -/
def Dirent.isDotEntry (dp : Dirent) : Bool := dp.name.toList.head? == some '.'

/-- The list item of an entry in the words of the listing rule: the link
target is the requested path, the separator, the entry name and a trailing
'/' exactly for an entry of type directory; the link text is the name with the
same trailing '/'. -/
def listItem (file sep : String) (dp : Dirent) : String :=
  let slash := if dp.d_type = DT_DIR then "/" else ""
  "<li><a href=\"" ++ (file ++ sep ++ dp.name ++ slash) ++ "\">" ++ (dp.name ++ slash) ++ "</a></li>"

/-- The example environment in which every path opens (as descriptor 12) as a
directory that holds ".", "..", ".hidden", "a" and "sub" (a directory). -/
def exampleListEnv : RapEnv :=
  { exampleRapEnv with
    openFile := fun _ _ => Except.ok 12,
    fstat := fun _ => exampleDirStat,
    fdopendir := fun _ => exampleEntries }

/-- The example environment in which every path opens (as descriptor 12) as a
regular file. -/
def exampleFileEnv : RapEnv :=
  { exampleRapEnv with openFile := fun _ _ => Except.ok 12 }

/-- The globals of an authenticated RAP started with a mime file of the given
content. -/
def exampleMimeState (mimeFile : String) : RapState :=
  { authenticated := 1, authenticatedUser := some "bob",
    mimeTypes := initializeMimeTypes mimeFile.toList }

/-- The backward scan over the characters of a file name from the last to the
first, in the words of the lookup rule: the number of characters after the
last '.', or `none` when a '/' comes first or there is no '.'. -/
def revScan : List Char → Option Nat
  | [] => none
  | c :: rest =>
    if c = '/' then none else if c = '.' then some 0 else (revScan rest).map (fun k => k + 1)

/-- The responses queued, in order, each with its status. -/
def queuedResponses : List ServerEvent → List (Int × Option MHD_Response)
  | [] => []
  | ServerEvent.queueResponse statusCode response :: rest =>
    (statusCode, response) :: queuedResponses rest
  | _ :: rest => queuedResponses rest

/-- An OPTIONS request without credentials. -/
def exampleAnonymousRequest : MHD_Connection :=
  { headers := [("Host", "localhost")], basicAuthUser := none, basicAuthPassword := none,
    clientIp := "10.0.0.1" }

/-- A slot the janitor destroys at time `now` in the words of the rule: not in
use, socket open, created before `now - rapMaxSessionLife`. -/
def idleExpired (config : WebdavdConfiguration) (now : Int) (s : RestrictedAccessProcessor) :
    Bool :=
  decide (s.rapSessionInUse = 0 ∧ s.socketFd ≠ -1 ∧ s.rapCreated < now - config.rapMaxSessionLife)

/-- The slot after a janitor pass in the words of the rule: `socketFd` is -1 if
the slot was idle and expired, and nothing else changes. -/
def afterJanitor (config : WebdavdConfiguration) (now : Int) (s : RestrictedAccessProcessor) :
    RestrictedAccessProcessor :=
  if idleExpired config now s then { s with socketFd := -1 } else s

/-- One operation on the group table, with any arguments: `acquireRapFromDb`,
`addRapToDb`, `releaseRap` or one pass of `rapTimeoutWorker`. -/
inductive TableStep (config : WebdavdConfiguration) : List RapGroup → List RapGroup → Prop where
  | acquire (rapDB : List RapGroup) (now : Int) (user password : String) :
      TableStep config rapDB (acquireRapFromDb config rapDB now user password).1
  | add (rapDB : List RapGroup) (now : Int) (rapSession : RestrictedAccessProcessor)
      (password : String) :
      TableStep config rapDB (addRapToDb config rapDB now rapSession password).1
  | release (rapDB : List RapGroup) (ptr : SlotPtr) :
      TableStep config rapDB (releaseRap rapDB ptr)
  | timeout (rapDB : List RapGroup) (now : Int) :
      TableStep config rapDB (rapTimeoutWorker config now rapDB).1

/-- The tables these operations reach from the empty table. -/
inductive TableReachable (config : WebdavdConfiguration) : List RapGroup → Prop where
  | empty : TableReachable config []
  | step {a b : List RapGroup} (ha : TableReachable config a) (hstep : TableStep config a b) :
      TableReachable config b

/-- The table after sessions of "bob" and then of "al" were added to the empty
table. -/
def exampleTwoAdds : List RapGroup :=
  (addRapToDb exampleConfig (addRapToDb exampleConfig [] 1000 (exampleSession 0 5 "bob" 1000) "pw").1
    1001 (exampleSession 0 7 "al" 1001) "x").1

/-- A table with the one group of "bob", whose two sessions (sockets 5 and 6,
created at 100 and 200) are both idle. -/
def exampleIdleDB : List RapGroup :=
  [{ user := "bob", password := "pw",
     rapSession := [exampleSession 0 5 "bob" 100, exampleSession 0 6 "bob" 200] }]

/-- The loop of `main` (lines 755-789) and the lines after it, driven by the
results of the successive `recvMessage` calls (signed result and content of
`message`). Returns what was done to the outside, the number of iterations made
and the exit status of the process; the status is `none` when the results are
used up, where the process waits in `recvMessage`. Standard input and output
are the descriptors 0 and 1. -/
def mainLoop (env : RapEnv) : List (Int × Message) → RapState → List RapEvent × Nat × Option Int
  | [], _ => ([], 0, none)
  | (recvResult, message) :: rest, state =>
    let it := mainIteration env state recvResult message
    match it.exitStatus with
    | some status => (it.events, 1, some status)
    | none =>
      if it.ioResult ≠ 0 then
        let r := mainLoop env rest it.state
        (it.events ++ r.1, r.2.1 + 1, r.2.2)
      else (it.events ++ [RapEvent.close 0, RapEvent.close 1], 1, some 0)

/-- An AUTHENTICATE message for "bob" with the given password. -/
def exampleLogin (password : String) : Message :=
  { mID := RapConstant.RAP_AUTHENTICATE, fd := -1, bufferCount := 3,
    buffers := [stringBuffer "bob", stringBuffer password, stringBuffer "10.0.0.1"] }

/-- The largest value of a `long` (64 bit). -/
def LONG_MAX : Int := 2 ^ 63 - 1

/-- A result of `long` arithmetic, wrapped to 64 bit. -/
def toLong (x : Int) : Int := (x + 2 ^ 63) % 2 ^ 64 - 2 ^ 63

/-- The white space `strtol` skips. -/
def isspace (c : Char) : Bool :=
  c = ' ' || c = '\t' || c = '\n' || c = '\x0b' || c = '\x0c' || c = '\r'

/-- The digits `strtol` reads in base 10: the value so far and the number of
characters read. -/
def strtolDigits : List Char → Nat → Nat → Nat × Nat
  | [], value, count => (value, count)
  | c :: rest, value, count =>
    if c.isDigit then strtolDigits rest (10 * value + (c.toNat - '0'.toNat)) (count + 1)
    else (value, count)

/-- The C library function `strtol` in base 10 on the characters of a string:
the value (clamped to the range of `long`) and the offset of `*endptr` from the
start, which is 0 when there is no digit. -/
def strtol (nptr : List Char) : Int × Nat :=
  let spaces := (nptr.takeWhile isspace).length
  let afterSpaces := nptr.drop spaces
  let sign : Option Bool := match afterSpaces.head? with
    | some '-' => some true
    | some '+' => some false
    | _ => none
  let signLength := if sign.isSome then 1 else 0
  let digits := strtolDigits (afterSpaces.drop signLength) 0 0
  if digits.2 = 0 then (0, 0)
  else
    let value : Int := if sign = some true then -(digits.1 : Int) else (digits.1 : Int)
    (max (-(LONG_MAX + 1)) (min LONG_MAX value), spaces + signLength + digits.2)

/-- The character a pointer into a C string refers to: NUL at the end. -/
def charAt (s : List Char) (offset : Nat) : Char := s.getD offset '\x00'

/-- The branch of `configureServer` for the element session-timeout (lines
1278-1314) on the text `stepOverText` delivers (`none` for `NULL`): the new
value of `rapMaxSessionLife`, or `none` when the server ends with `exit(1)`. -/
def sessionTimeout (rapMaxSessionLife : Int) (sessionTimeoutString : Option String) :
    Option Int :=
  match sessionTimeoutString with
  | none => some rapMaxSessionLife
  | some text =>
    let s := text.toList
    let first := strtol s
    let endPtr := first.2
    if charAt s endPtr ≠ '\x00' then
      if charAt s endPtr ≠ ':' ∨ endPtr = 0 then none
      else
        let minute := first.1
        let endPtr := endPtr + 1
        let second := strtol (s.drop endPtr)
        let endPtr2 := endPtr + second.2
        if charAt s endPtr2 ≠ '\x00' then
          if charAt s endPtr2 ≠ ':' ∨ endPtr2 = endPtr then none
          else
            let hour := minute
            let minute := second.1
            let endPtr2 := endPtr2 + 1
            let third := strtol (s.drop endPtr2)
            if charAt s (endPtr2 + third.2) ≠ '\x00' then none
            else some (toLong (toLong (toLong (toLong (hour * 60) + minute) * 60) + third.1))
        else some (toLong (toLong (toLong (toLong (0 * 60) + minute) * 60) + second.1))
    else some (toLong (toLong (toLong (toLong (0 * 60) + 0) * 60) + first.1))

/-- The values `configureServer` gives the two pool settings before it reads
the file (lines 1202-1203). -/
def defaultConfiguration : WebdavdConfiguration :=
  { rapMaxSessionLife := 60 * 5, rapMaxSessionsPerUser := 10 }

/-- The value of a sequence of decimal digits. -/
def decimalValue (field : List Char) : Nat :=
  field.foldl (fun value c => 10 * value + (c.toNat - '0'.toNat)) 0

/-- A field of the session timeout: one or more decimal digits. -/
abbrev isDecimalField (field : List Char) : Prop :=
  field ≠ [] ∧ ∀ c ∈ field, c.isDigit = true

/-! ### Server: the client address (webdavd.c 182-267) -/

/-- The socket address of the client as `getRequestIP` reads it: the family and
the bytes of `sin_addr` (4) or `sin6_addr` (16). -/
inductive SockAddr where
  | AF_INET (address : List Nat)
  | AF_INET6 (address : List Nat)
  | other
  deriving DecidableEq, Repr

/-- The array `IPV4_PREFIX`. -/
def IPV4_PREFIX : List Nat := [0, 0, 0, 0, 0, 0, 0, 0, 0, 0, 0xFF, 0xFF]

/-- The text `snprintf` writes for `%d` of a value that is not negative. -/
def formatD (n : Nat) : List Char := Nat.toDigits 10 n

/-- The text `snprintf` writes for `%x`. -/
def formatX (n : Nat) : List Char := Nat.toDigits 16 n

/-- The text `snprintf` writes for `%02x`. -/
def format02X (n : Nat) : List Char :=
  List.replicate (2 - (Nat.toDigits 16 n).length) '0' ++ Nat.toDigits 16 n

/-- The text of the `snprintf` call "%d.%d.%d.%d" for four bytes. -/
def printIPv4 (a b c d : Nat) : List Char :=
  formatD a ++ ['.'] ++ formatD b ++ ['.'] ++ formatD c ++ ['.'] ++ formatD d

/-- The variables of the search for the longest run of zero groups (lines
214-217); a pointer is its offset from `address`, `none` for `NULL`. -/
structure ZeroRun where
  longestRun : Option Nat
  longestRunSize : Nat
  currentRun : Option Nat
  currentRunSize : Nat
  deriving DecidableEq, Repr

/-- The loop of lines 218-233 from offset `i` on; `zero i` is the test of line
219 at offset `i`. The loop makes eight iterations. -/
def findZeroRun (zero : Nat → Bool) : Nat → Nat → ZeroRun → ZeroRun
  | 0, _, r => r
  | fuel + 1, i, r =>
    if i < 16 then
      let next : ZeroRun :=
        if zero i then
          if r.currentRunSize = 0 then { r with currentRunSize := 2, currentRun := some i }
          else if r.currentRunSize + 2 > r.longestRunSize then
            { longestRun := r.currentRun, longestRunSize := r.currentRunSize + 2,
              currentRun := r.currentRun, currentRunSize := r.currentRunSize + 2 }
          else { r with currentRunSize := r.currentRunSize + 2 }
        else { r with currentRunSize := 0 }
      findZeroRun zero fuel (i + 2) next
    else r

/-- The loop of lines 241-259 from offset `i` on; `group i` is the text the
`snprintf` calls of lines 248 and 252 write for the group at offset `i`,
without the colon. The loop makes at most eight iterations. -/
def printGroups (group : Nat → List Char) (longestRun : Option Nat) (longestRunSize : Nat) :
    Nat → Nat → List Char
  | 0, _ => []
  | fuel + 1, i =>
    if i < 16 then
      if longestRun = some i then
        (if i > 0 then [':'] else [':', ':']) ++
          printGroups group longestRun longestRunSize fuel (i + (longestRunSize - 2) + 2)
      else
        group i ++ (if i < 14 then [':'] else []) ++
          printGroups group longestRun longestRunSize fuel (i + 2)
    else []

/-- The text lines 247-254 write for the group at offset `i`, without the
colon: `%x` of the second byte when the first is 0, `%x%02x` of both otherwise. -/
def groupText (address : List Nat) (i : Nat) : List Char :=
  if address.getD i 0 = 0 then formatX (address.getD (i + 1) 0)
  else formatX (address.getD i 0) ++ format02X (address.getD (i + 1) 0)

/-- `getRequestIP` (lines 182-267) on the client address: the text written to
`buffer`. The callers pass a buffer of 100 bytes, which holds every text the
function writes, so `bufferSize` is left out. -/
def getRequestIP (addressInfo : SockAddr) : String :=
  match addressInfo with
  | SockAddr.AF_INET address =>
    String.mk (printIPv4 (address.getD 0 0) (address.getD 1 0) (address.getD 2 0)
      (address.getD 3 0))
  | SockAddr.AF_INET6 address =>
    if address.take 12 = IPV4_PREFIX then
      String.mk (printIPv4 (address.getD 12 0) (address.getD 13 0) (address.getD 14 0)
        (address.getD 15 0))
    else
      let run := findZeroRun
        (fun i => decide (address.getD i 0 = 0 ∧ address.getD (i + 1) 0 = 0)) 8 0
        { longestRun := none, longestRunSize := 0, currentRun := none, currentRunSize := 0 }
      if run.longestRunSize = 16 then String.mk [':', ':']
      else String.mk (printGroups (groupText address) run.longestRun run.longestRunSize 8 0)
  | SockAddr.other => "<unknown address>"

/-- The eight 16-bit groups of a 16-byte address, in order. -/
def groupsOf (address : List Nat) : List Nat :=
  (List.range 8).map (fun k => 256 * address.getD (2 * k) 0 + address.getD (2 * k + 1) 0)

/-- The bytes of a sequence of 16-bit groups, in order. -/
def bytesOf (groups : List Nat) : List Nat :=
  groups.flatMap (fun g => [g / 256, g % 256])

/-- Fields separated by ':'. -/
def joinColon : List (List Char) → List Char
  | [] => []
  | [f] => f
  | f :: g :: fs => f ++ ':' :: joinColon (g :: fs)

/-- The places a run of groups can take among `n` groups, as (start, length)
with a length of two or more: longer runs first, and among runs of one length
the leftmost first. -/
def runCandidates (n : Nat) : List (Nat × Nat) :=
  ((List.range (n - 1)).map (fun k => n - k)).flatMap
    (fun len => (List.range (n - len + 1)).map (fun start => (start, len)))

/-- Whether `len` groups from `start` on are all zero; `zeros` tells for every
group whether it is zero. -/
def isZeroRun (zeros : List Bool) (start len : Nat) : Bool :=
  decide (start + len ≤ zeros.length) && ((zeros.drop start).take len).all id

/-- The first longest run of two or more zero groups, from the flags of the
groups. -/
def firstLongestRun (zeros : List Bool) : Option (Nat × Nat) :=
  (runCandidates zeros.length).find? (fun c => isZeroRun zeros c.1 c.2)

/-- The first longest run of two or more all-zero groups, as (start, length). -/
def firstLongestZeroRun (groups : List Nat) : Option (Nat × Nat) :=
  firstLongestRun (groups.map (fun g => decide (g = 0)))

/-- A group in lower-case hexadecimal without leading zeros. -/
def hexGroup (g : Nat) : List Char := Nat.toDigits 16 g

/-- The text of an address in the form of RFC 5952 section 4, in the words of
the rule: the groups in lower-case hexadecimal without leading zeros, separated
by ':', with the first longest run of two or more zero groups replaced by
"::". -/
def rfc5952 (groups : List Nat) : List Char :=
  match firstLongestZeroRun groups with
  | none => joinColon (groups.map hexGroup)
  | some (start, len) =>
    joinColon ((groups.take start).map hexGroup) ++ [':', ':'] ++
      joinColon ((groups.drop (start + len)).map hexGroup)

/-- The value of a hexadecimal digit. -/
def hexDigitValue (c : Char) : Option Nat :=
  if '0' ≤ c ∧ c ≤ '9' then some (c.toNat - '0'.toNat)
  else if 'a' ≤ c ∧ c ≤ 'f' then some (c.toNat - 'a'.toNat + 10)
  else if 'A' ≤ c ∧ c ≤ 'F' then some (c.toNat - 'A'.toNat + 10)
  else none

/-- The value of a sequence of hexadecimal digits after the value `acc`. -/
def hexValue : List Char → Nat → Option Nat
  | [], acc => some acc
  | c :: rest, acc =>
    match hexDigitValue c with
    | some d => hexValue rest (16 * acc + d)
    | none => none

/-- A group of an address text: one to four hexadecimal digits. -/
def parseGroup (field : List Char) : Option Nat :=
  if field = [] ∨ 4 < field.length then none else hexValue field 0

/-- The groups of a sequence of fields. -/
def parseGroups : List (List Char) → Option (List Nat)
  | [] => some []
  | f :: fs =>
    match parseGroup f, parseGroups fs with
    | some g, some gs => some (g :: gs)
    | _, _ => none

/-- The fields of a text that are separated by ':'. -/
def splitColon : List Char → List (List Char)
  | [] => [[]]
  | c :: rest =>
    if c = ':' then [] :: splitColon rest
    else
      match splitColon rest with
      | f :: fs => (c :: f) :: fs
      | [] => [[c]]

/-- The text before and after the first "::", if there is one. -/
def splitDoubleColon : List Char → Option (List Char × List Char)
  | [] => none
  | c :: rest =>
    if c = ':' ∧ rest.head? = some ':' then some ([], rest.tail)
    else (splitDoubleColon rest).map (fun p => (c :: p.1, p.2))

/-- The groups on one side of "::": none for the empty text. -/
def parseSide (text : List Char) : Option (List Nat) :=
  if text = [] then some [] else parseGroups (splitColon text)

/-- The eight groups an address text stands for: without "::" the text holds
eight groups; with "::" the groups on both sides are at most seven and the gap
is filled with zero groups. -/
def parseIPv6 (text : List Char) : Option (List Nat) :=
  match splitDoubleColon text with
  | none =>
    match parseGroups (splitColon text) with
    | some groups => if groups.length = 8 then some groups else none
    | none => none
  | some (left, right) =>
    match parseSide left, parseSide right with
    | some l, some r =>
      if l.length + r.length ≤ 7 then
        some (l ++ List.replicate (8 - (l.length + r.length)) 0 ++ r)
      else none
    | _, _ => none

/-- An address with the runs of zero groups 0:0 and 0:0:0, written
2001:0:0:1::ab0c. -/
def exampleAddress : List Nat := [0x20, 0x01, 0, 0, 0, 0, 0, 1, 0, 0, 0, 0, 0, 0, 0xab, 0x0c]

/-- The dotted decimal text of a sequence of bytes. -/
def dottedDecimal (bytes : List Nat) : List Char :=
  List.intercalate ['.'] (bytes.map (Nat.toDigits 10))

/-- The lower-case hexadecimal digits. -/
def lowerHexDigits : List Char := "0123456789abcdef".toList

/-- An IPv4-mapped address, written 10.0.0.1. -/
def exampleMappedAddress : List Nat := [0, 0, 0, 0, 0, 0, 0, 0, 0, 0, 0xFF, 0xFF, 10, 0, 0, 1]

/-! ## Part 2: properties -/

/-! ### strcmp, bsearch, qsort -/

theorem strcmpAux_eq_zero (a b : List Char) : strcmpAux a b = 0 ↔ a = b := by
  induction a generalizing b with
  | nil => cases b <;> simp [strcmpAux]
  | cons x xs ih =>
    cases b with
    | nil => simp [strcmpAux]
    | cons y ys =>
      simp only [strcmpAux]
      split_ifs with h1 h2
      · simp; exact fun h => absurd (h ▸ h1) (lt_irrefl _)
      · simp; exact fun h => absurd (h ▸ h2) (lt_irrefl _)
      · have : x = y := le_antisymm (not_lt.mp h2) (not_lt.mp h1)
        simp [this, ih]

theorem strcmpAux_cons_neg (x y : Char) (xs ys : List Char) :
    strcmpAux (x :: xs) (y :: ys) < 0 ↔ x < y ∨ (x = y ∧ strcmpAux xs ys < 0) := by
  simp only [strcmpAux]
  split_ifs with h1 h2
  · simp [h1]
  · simp only [Int.reduceLT, false_iff, not_or, not_and]
    exact ⟨h1, fun h => absurd (h ▸ h2) (lt_irrefl _)⟩
  · have : x = y := le_antisymm (not_lt.mp h2) (not_lt.mp h1)
    simp [this]

theorem strcmpAux_cons_pos (x y : Char) (xs ys : List Char) :
    0 < strcmpAux (x :: xs) (y :: ys) ↔ y < x ∨ (x = y ∧ 0 < strcmpAux xs ys) := by
  simp only [strcmpAux]
  split_ifs with h1 h2
  · simp only [Int.reduceLT, false_iff, not_or, not_and]
    exact ⟨not_lt.mpr (le_of_lt h1), fun h => absurd (h ▸ h1) (lt_irrefl _)⟩
  · simp [h2]
  · have : x = y := le_antisymm (not_lt.mp h2) (not_lt.mp h1)
    simp [this]

theorem strcmpAux_swap (a b : List Char) : 0 < strcmpAux a b ↔ strcmpAux b a < 0 := by
  induction a generalizing b with
  | nil => cases b <;> simp [strcmpAux]
  | cons x xs ih =>
    cases b with
    | nil => simp [strcmpAux]
    | cons y ys =>
      rw [strcmpAux_cons_pos, strcmpAux_cons_neg, ih]
      constructor <;> rintro (h | ⟨h, h'⟩)
      · exact Or.inl h
      · exact Or.inr ⟨h.symm, h'⟩
      · exact Or.inl h
      · exact Or.inr ⟨h.symm, h'⟩

theorem strcmpAux_trans (a b c : List Char) (h1 : strcmpAux a b < 0)
    (h2 : strcmpAux b c < 0) : strcmpAux a c < 0 := by
  induction a generalizing b c with
  | nil => cases b <;> cases c <;> simp_all [strcmpAux]
  | cons x xs ih =>
    cases b with
    | nil => simp [strcmpAux] at h1
    | cons y ys =>
      cases c with
      | nil => simp [strcmpAux] at h2
      | cons z zs =>
        rw [strcmpAux_cons_neg] at h1 h2 ⊢
        rcases h1 with h1 | ⟨rfl, h1⟩
        · rcases h2 with h2 | ⟨rfl, _⟩
          · exact Or.inl (lt_trans h1 h2)
          · exact Or.inl h1
        · rcases h2 with h2 | ⟨rfl, h2⟩
          · exact Or.inl h2
          · exact Or.inr ⟨rfl, ih _ _ h1 h2⟩

theorem strcmp_eq_zero (a b : String) : strcmp a b = 0 ↔ a = b := by
  unfold strcmp
  rw [strcmpAux_eq_zero]
  constructor
  · intro h
    exact String.ext h
  · intro h
    rw [h]

theorem pairwise_getElem? {α : Type} {R : α → α → Prop} {l : List α} (h : l.Pairwise R)
    {i j : Nat} {a b : α} (hi : l[i]? = some a) (hj : l[j]? = some b) (hij : i < j) : R a b := by
  rw [List.pairwise_iff_getElem] at h
  obtain ⟨hi', rfl⟩ := List.getElem?_eq_some.mp hi
  obtain ⟨hj', rfl⟩ := List.getElem?_eq_some.mp hj
  exact h i j hi' hj' hij

theorem bsearchLoop_spec {α : Type} (compar : α → α → Int) (key : α) (base : List α)
    (hs : base.Pairwise (fun a b => compar a b < 0))
    (htrans : ∀ a b c, compar a b < 0 → compar b c < 0 → compar a c < 0)
    (hswap : ∀ a b, 0 < compar a b ↔ compar b a < 0) :
    ∀ fuel l u, u ≤ base.length → u - l < fuel →
      (∀ (j : Nat) p, base[j]? = some p → compar key p = 0 → l ≤ j ∧ j < u) →
      (∀ i, bsearchLoop compar key base fuel l u = some i →
          ∃ p, base[i]? = some p ∧ compar key p = 0) ∧
      (bsearchLoop compar key base fuel l u = none →
          ∀ (j : Nat) p, base[j]? = some p → compar key p ≠ 0) := by
  intro fuel
  induction fuel with
  | zero => intro l u _ h; omega
  | succ fuel ih =>
    intro l u hu hf hrange
    simp only [bsearchLoop]
    by_cases hlu : l < u
    · simp only [hlu, if_true]
      have hidx : (l + u) / 2 < base.length := by omega
      have hget : base[(l + u) / 2]? = some (base[(l + u) / 2]) := List.getElem?_eq_getElem hidx
      rw [hget]
      simp only
      by_cases hneg : compar key base[(l + u) / 2] < 0
      · simp only [hneg, if_true]
        apply ih l ((l + u) / 2) (by omega) (by omega)
        intro j p hj hp
        have hr := hrange j p hj hp
        refine ⟨hr.1, ?_⟩
        by_contra hcon
        have hge : (l + u) / 2 ≤ j := by omega
        rcases Nat.eq_or_lt_of_le hge with heq | hlt
        · rw [← heq, hget] at hj
          cases hj
          omega
        · have := pairwise_getElem? hs hget hj hlt
          have := htrans _ _ _ hneg this
          omega
      · simp only [hneg, if_false]
        by_cases hpos : compar key base[(l + u) / 2] > 0
        · simp only [hpos, if_true]
          apply ih ((l + u) / 2 + 1) u hu (by omega)
          intro j p hj hp
          have hr := hrange j p hj hp
          refine ⟨?_, hr.2⟩
          by_contra hcon
          have hle : j ≤ (l + u) / 2 := by omega
          rcases Nat.eq_or_lt_of_le hle with heq | hlt
          · rw [heq, hget] at hj
            cases hj
            omega
          · have h1 := pairwise_getElem? hs hj hget hlt
            have h2 := (hswap _ _).mp hpos
            have h3 := htrans _ _ _ h1 h2
            have h4 := (hswap _ _).mpr h3
            omega
        · simp only [hpos, if_false]
          refine ⟨?_, by simp⟩
          intro i hi
          cases hi
          exact ⟨_, hget, by omega⟩
    · simp only [hlu, if_false]
      refine ⟨by simp, ?_⟩
      intro _ j p hj hp
      have := hrange j p hj hp
      omega

theorem bsearch_spec {α : Type} (compar : α → α → Int) (key : α) (base : List α)
    (hs : base.Pairwise (fun a b => compar a b < 0))
    (htrans : ∀ a b c, compar a b < 0 → compar b c < 0 → compar a c < 0)
    (hswap : ∀ a b, 0 < compar a b ↔ compar b a < 0) :
    (∀ i, bsearch compar key base = some i → ∃ p, base[i]? = some p ∧ compar key p = 0) ∧
    (bsearch compar key base = none → ∀ (j : Nat) p, base[j]? = some p → compar key p ≠ 0) := by
  apply bsearchLoop_spec compar key base hs htrans hswap
  · exact le_refl _
  · omega
  · intro j p hj _
    exact ⟨Nat.zero_le _, (List.getElem?_eq_some.mp hj).1⟩

theorem strcmp_swap (a b : String) : 0 < strcmp a b ↔ strcmp b a < 0 :=
  strcmpAux_swap _ _

theorem strcmp_trans (a b c : String) (h1 : strcmp a b < 0) (h2 : strcmp b c < 0) :
    strcmp a c < 0 :=
  strcmpAux_trans _ _ _ h1 h2

theorem compareRapGroup_neg (a b : RapGroup) :
    compareRapGroup a b < 0 ↔
      strcmp a.user b.user < 0 ∨ (a.user = b.user ∧ strcmp a.password b.password < 0) := by
  unfold compareRapGroup
  by_cases h : strcmp a.user b.user = 0
  · have hu := (strcmp_eq_zero _ _).mp h
    simp only [h, if_true]
    simp [hu]
  · have hu : a.user ≠ b.user := fun e => h ((strcmp_eq_zero _ _).mpr e)
    simp [h, hu]

theorem compareRapGroup_pos (a b : RapGroup) :
    0 < compareRapGroup a b ↔
      0 < strcmp a.user b.user ∨ (a.user = b.user ∧ 0 < strcmp a.password b.password) := by
  unfold compareRapGroup
  by_cases h : strcmp a.user b.user = 0
  · have hu := (strcmp_eq_zero _ _).mp h
    simp only [h, if_true]
    simp [hu]
  · have hu : a.user ≠ b.user := fun e => h ((strcmp_eq_zero _ _).mpr e)
    simp [h, hu]

theorem compareRapGroup_eq_zero (a b : RapGroup) :
    compareRapGroup a b = 0 ↔ a.user = b.user ∧ a.password = b.password := by
  unfold compareRapGroup
  by_cases h : strcmp a.user b.user = 0
  · have hu := (strcmp_eq_zero _ _).mp h
    simp [h, hu, strcmp_eq_zero]
  · have hu : a.user ≠ b.user := fun e => h ((strcmp_eq_zero _ _).mpr e)
    simp [h, hu]

theorem compareRapGroup_swap (a b : RapGroup) :
    0 < compareRapGroup a b ↔ compareRapGroup b a < 0 := by
  rw [compareRapGroup_pos, compareRapGroup_neg, strcmp_swap, strcmp_swap]
  constructor <;> rintro (h | ⟨h, h'⟩)
  · exact Or.inl h
  · exact Or.inr ⟨h.symm, h'⟩
  · exact Or.inl h
  · exact Or.inr ⟨h.symm, h'⟩

theorem compareRapGroup_trans (a b c : RapGroup) (h1 : compareRapGroup a b < 0)
    (h2 : compareRapGroup b c < 0) : compareRapGroup a c < 0 := by
  rw [compareRapGroup_neg] at h1 h2 ⊢
  rcases h1 with h1 | ⟨e1, h1⟩
  · rcases h2 with h2 | ⟨e2, _⟩
    · exact Or.inl (strcmp_trans _ _ _ h1 h2)
    · exact Or.inl (e2 ▸ h1)
  · rcases h2 with h2 | ⟨e2, h2⟩
    · exact Or.inl (e1 ▸ h2)
    · exact Or.inr ⟨e1.trans e2, strcmp_trans _ _ _ h1 h2⟩

/-- In a sorted table a key occurs at one index at most. -/
theorem sorted_key_unique {rapDB : List RapGroup} (hs : SortedDB rapDB) {i j : Nat}
    {a b : RapGroup} (hi : rapDB[i]? = some a) (hj : rapDB[j]? = some b)
    (hu : a.user = b.user) (hp : a.password = b.password) : i = j := by
  have key : ∀ {i j : Nat} {a b : RapGroup}, rapDB[i]? = some a → rapDB[j]? = some b →
      a.user = b.user → a.password = b.password → ¬ i < j := by
    intro i j a b hi hj hu hp hlt
    have h := pairwise_getElem? hs hi hj hlt
    have h0 := (compareRapGroup_eq_zero a b).mpr ⟨hu, hp⟩
    omega
  rcases Nat.lt_trichotomy i j with h | h | h
  · exact absurd h (key hi hj hu hp)
  · exact h
  · exact absurd h (key hj hi hu.symm hp.symm)

/-- On a sorted table `bsearch` finds the group with the key, if there is one. -/
theorem bsearch_rapDB {rapDB : List RapGroup} (hs : SortedDB rapDB) (user password : String)
    (slots : List RestrictedAccessProcessor) :
    (∀ gi g, rapDB[gi]? = some g → g.user = user → g.password = password →
      bsearch compareRapGroup { user := user, password := password, rapSession := slots } rapDB
        = some gi) ∧
    ((∀ g ∈ rapDB, ¬ (g.user = user ∧ g.password = password)) →
      bsearch compareRapGroup { user := user, password := password, rapSession := slots } rapDB
        = none) := by
  have hspec := bsearch_spec compareRapGroup
    { user := user, password := password, rapSession := slots } rapDB hs
    compareRapGroup_trans compareRapGroup_swap
  constructor
  · intro gi g hg hu hp
    cases hb : bsearch compareRapGroup
      { user := user, password := password, rapSession := slots } rapDB with
    | none =>
      have := hspec.2 hb gi g hg
      rw [ne_eq, compareRapGroup_eq_zero] at this
      exact absurd ⟨hu.symm, hp.symm⟩ this
    | some k =>
      obtain ⟨p, hp1, hp2⟩ := hspec.1 k hb
      rw [compareRapGroup_eq_zero] at hp2
      simp only at hp2
      have := sorted_key_unique hs hp1 hg (hp2.1.symm.trans hu.symm) (hp2.2.symm.trans hp.symm)
      rw [this]
  · intro hnone
    cases hb : bsearch compareRapGroup
      { user := user, password := password, rapSession := slots } rapDB with
    | none => rfl
    | some k =>
      obtain ⟨p, hp1, hp2⟩ := hspec.1 k hb
      rw [compareRapGroup_eq_zero] at hp2
      exact absurd ⟨hp2.1.symm, hp2.2.symm⟩ (hnone p (List.getElem?_mem hp1))

theorem modify_eq_set_of_getElem? {α : Type} (f : α → α) :
    ∀ (l : List α) (n : Nat) (a : α), l[n]? = some a → l.modify f n = l.set n (f a)
  | [], _, _, h => by simp at h
  | b :: l, 0, a, h => by simp at h; simp [h]
  | b :: l, n + 1, a, h => by
    simp at h
    simp [modify_eq_set_of_getElem? f l n a h]

theorem acquireScan_spec (e : Int) :
    ∀ (n i : Nat) (slots : List RestrictedAccessProcessor) (a : Int),
      (∀ r, (acquireScan e n i slots a).1 = some r →
        ∃ k s, r = i + k ∧ k < n ∧ slots[k]? = some s ∧ Leasable e s ∧
          ∀ j t, j < k → slots[j]? = some t → ¬ Leasable e t) ∧
      ((acquireScan e n i slots a).1 = none →
        (∀ s ∈ slots.take n, ¬ Leasable e s) ∧
          (acquireScan e n i slots a).2 = a + inUseCount (slots.take n)) := by
  intro n
  induction n with
  | zero => intro i slots a; simp [acquireScan, inUseCount]
  | succ n ih =>
    intro i slots a
    cases slots with
    | nil => simp [acquireScan, inUseCount]
    | cons s rest =>
      simp only [acquireScan]
      by_cases hl : s.socketFd ≠ -1 ∧ s.rapSessionInUse = 0 ∧ s.rapCreated ≥ e
      · rw [if_pos hl]
        refine ⟨?_, by simp⟩
        intro r hr
        simp only [Option.some.injEq] at hr
        exact ⟨0, s, by omega, by omega, by simp, hl, by intro j t hj; omega⟩
      · rw [if_neg hl]
        have lift : ∀ a', (∀ r, (acquireScan e n (i + 1) rest a').1 = some r →
            ∃ k s', r = i + k ∧ k < n + 1 ∧ (s :: rest)[k]? = some s' ∧ Leasable e s' ∧
              ∀ j t, j < k → (s :: rest)[j]? = some t → ¬ Leasable e t) := by
          intro a' r hr
          obtain ⟨k, s', h1, h2, h3, h4, h5⟩ := (ih (i + 1) rest a').1 r hr
          refine ⟨k + 1, s', by omega, by omega, by simpa using h3, h4, ?_⟩
          intro j t hj ht
          cases j with
          | zero => simp at ht; subst ht; exact hl
          | succ j => exact h5 j t (by omega) (by simpa using ht)
        by_cases hu : s.rapSessionInUse ≠ 0
        · rw [if_pos hu]
          refine ⟨lift _, ?_⟩
          intro hnone
          obtain ⟨h1, h2⟩ := (ih (i + 1) rest (a + 1)).2 hnone
          refine ⟨?_, ?_⟩
          · intro x hx
            simp only [List.take_succ_cons, List.mem_cons] at hx
            rcases hx with rfl | hx
            · exact hl
            · exact h1 x hx
          · rw [h2]
            simp only [inUseCount, List.take_succ_cons]
            rw [List.countP_cons_of_pos _ _ (by simpa using hu)]
            push_cast
            ring
        · rw [if_neg hu]
          refine ⟨lift _, ?_⟩
          intro hnone
          obtain ⟨h1, h2⟩ := (ih (i + 1) rest a).2 hnone
          refine ⟨?_, ?_⟩
          · intro x hx
            simp only [List.take_succ_cons, List.mem_cons] at hx
            rcases hx with rfl | hx
            · exact hl
            · exact h1 x hx
          · rw [h2]
            simp only [inUseCount, List.take_succ_cons]
            rw [List.countP_cons_of_neg _ _ (by simpa using hu)]

theorem setInUse_eq_set {rapDB : List RapGroup} {gi i : Nat} {g : RapGroup}
    {s : RestrictedAccessProcessor} (hg : rapDB[gi]? = some g) (hs : g.rapSession[i]? = some s)
    (v : Int) :
    setInUse rapDB (gi, i) v =
      rapDB.set gi { g with rapSession := g.rapSession.set i { s with rapSessionInUse := v } } := by
  unfold setInUse
  rw [modify_eq_set_of_getElem? _ _ _ _ hg]
  simp only
  rw [modify_eq_set_of_getElem? _ _ _ _ hs]

/-- What `bsearch` returns in `acquireRapFromDb` and `addRapToDb` is a group with the key. -/
theorem bsearch_rapDB_some {rapDB : List RapGroup} (hs : SortedDB rapDB) {user password : String}
    {slots : List RestrictedAccessProcessor} {gi : Nat}
    (h : bsearch compareRapGroup { user := user, password := password, rapSession := slots } rapDB
      = some gi) :
    ∃ g, rapDB[gi]? = some g ∧ g.user = user ∧ g.password = password := by
  obtain ⟨p, hp1, hp2⟩ := (bsearch_spec compareRapGroup _ rapDB hs
    compareRapGroup_trans compareRapGroup_swap).1 gi h
  rw [compareRapGroup_eq_zero] at hp2
  exact ⟨p, hp1, hp2.1.symm, hp2.2.symm⟩

/-- C2: on a well-formed pool table (sorted by key, every group with its
`rapMaxSessionsPerUser` slots), if the group of (user, password) has a slot with
an open socket, not in use and not expired, `acquireRapFromDb` returns the
lowest-indexed such slot and the only change to the table is that slot's
`rapSessionInUse` set to 1; if there is no such slot (or no such group) it
returns `NULL` and the table is unchanged. -/
theorem acquireRapFromDb_leases_lowest (config : WebdavdConfiguration)
    (rapDB : List RapGroup) (now : Int) (user password : String)
    (hwf : WellFormed config rapDB) :
    (∀ (gi : Nat) (g : RapGroup) (i : Nat) (s : RestrictedAccessProcessor),
      rapDB[gi]? = some g → g.user = user → g.password = password →
      g.rapSession[i]? = some s → Leasable (now - config.rapMaxSessionLife) s →
      (∀ (j : Nat) (t : RestrictedAccessProcessor), j < i → g.rapSession[j]? = some t →
        ¬ Leasable (now - config.rapMaxSessionLife) t) →
      (acquireRapFromDb config rapDB now user password).1 =
          rapDB.set gi { g with rapSession := g.rapSession.set i { s with rapSessionInUse := 1 } } ∧
        (acquireRapFromDb config rapDB now user password).2.1 = some (gi, i)) ∧
    ((∀ g ∈ rapDB, g.user = user → g.password = password →
        ∀ s ∈ g.rapSession, ¬ Leasable (now - config.rapMaxSessionLife) s) →
      (acquireRapFromDb config rapDB now user password).1 = rapDB ∧
        (acquireRapFromDb config rapDB now user password).2.1 = none) := by
  obtain ⟨hsorted, hlen⟩ := hwf
  constructor
  · intro gi g i s hg hu hp hs hl hlow
    have hb := (bsearch_rapDB hsorted user password []).1 gi g hg hu hp
    have hspec := acquireScan_spec (now - config.rapMaxSessionLife)
      config.rapMaxSessionsPerUser 0 g.rapSession 0
    have hglen := hlen g (List.getElem?_mem hg)
    unfold acquireRapFromDb
    simp only [hb, hg]
    cases hscan : acquireScan (now - config.rapMaxSessionLife) config.rapMaxSessionsPerUser 0
      g.rapSession 0 with
    | mk r a =>
      rw [hscan] at hspec
      cases r with
      | none =>
        have hno := (hspec.2 rfl).1
        rw [← hglen, List.take_length] at hno
        exact absurd hl (hno s (List.getElem?_mem hs))
      | some r =>
        obtain ⟨k, s', hr, _, hk, hkl, hklow⟩ := hspec.1 r rfl
        have hik : i = k := by
          rcases Nat.lt_trichotomy i k with h | h | h
          · exact absurd hl (hklow i s h hs)
          · exact h
          · exact absurd hkl (hlow k s' h hk)
        have hri : r = i := by omega
        subst hri
        exact ⟨setInUse_eq_set hg hs 1, rfl⟩
  · intro hnone
    unfold acquireRapFromDb
    cases hb : bsearch compareRapGroup
      { user := user, password := password, rapSession := [] } rapDB with
    | none => simp only [hb, and_self]
    | some gi =>
      obtain ⟨g, hg, hu, hp⟩ := bsearch_rapDB_some hsorted hb
      simp only [hb, hg]
      have hspec := acquireScan_spec (now - config.rapMaxSessionLife)
        config.rapMaxSessionsPerUser 0 g.rapSession 0
      cases hscan : acquireScan (now - config.rapMaxSessionLife) config.rapMaxSessionsPerUser 0
        g.rapSession 0 with
      | mk r a =>
        rw [hscan] at hspec
        cases r with
        | none => exact ⟨rfl, rfl⟩
        | some r =>
          obtain ⟨k, s', _, _, hk, hkl, _⟩ := hspec.1 r rfl
          exact absurd hkl (hnone g (List.getElem?_mem hg) hu hp s' (List.getElem?_mem hk))

/-- Witness for C2: in `exampleDB` the second slot of "bob" is the lowest
leasable one (the first is in use). -/
theorem acquireRapFromDb_leases_lowest_witness :
    (acquireRapFromDb exampleConfig exampleDB 1000 "bob" "pw").1 = exampleDB.set 1 (exampleBob 1) ∧
    (acquireRapFromDb exampleConfig exampleDB 1000 "bob" "pw").2.1 = some (1, 1) :=
  (acquireRapFromDb_leases_lowest exampleConfig exampleDB 1000 "bob" "pw" (by decide)).1 1
    (exampleBob 0) 1 (exampleSession 0 6 "bob" 960) rfl rfl rfl rfl (by decide)
    (by
      intro j t hj ht
      obtain rfl : j = 0 := by omega
      simp only [exampleBob, List.getElem?_cons_zero, Option.some.injEq] at ht
      subst ht
      simp [exampleSession])

/-- C8: `createRapResponse` returns 200 for SUCCESS, 207 for MULTISTATUS, 403
for ACCESS_DENIED, 404 for NOT_FOUND, 400 for BAD_CLIENT_REQUEST and 500 for
every other kind of message (BAD_RAP_REQUEST, INTERNAL_ERROR, and any kind
without a case of its own, known or unknown). -/
theorem createRapResponse_status (env : ServerEnv) (message : Message) :
    (createRapResponse env message).statusCode =
      match message.mID with
      | RapConstant.RAP_SUCCESS => 200
      | RapConstant.RAP_MULTISTATUS => 207
      | RapConstant.RAP_ACCESS_DENIED => 403
      | RapConstant.RAP_NOT_FOUND => 404
      | RapConstant.RAP_BAD_CLIENT_REQUEST => 400
      | _ => 500 := by
  unfold createRapResponse
  cases h : message.mID <;>
    simp [MHD_HTTP_OK, MHD_HTTP_FORBIDDEN, MHD_HTTP_NOT_FOUND, MHD_HTTP_BAD_REQUEST,
      MHD_HTTP_INTERNAL_SERVER_ERROR]

/-- When `acquireRapFromDb` finds no session the table is the one it was given. -/
theorem acquireRapFromDb_none_table (config : WebdavdConfiguration) (rapDB : List RapGroup)
    (now : Int) (user password : String)
    (h : (acquireRapFromDb config rapDB now user password).2.1 = none) :
    (acquireRapFromDb config rapDB now user password).1 = rapDB := by
  unfold acquireRapFromDb at h ⊢
  cases hb : bsearch compareRapGroup
    { user := user, password := password, rapSession := [] } rapDB with
  | none => simp only [hb]
  | some gi =>
    simp only [hb] at h ⊢
    cases hg : rapDB[gi]? with
    | none => simp only [hg]
    | some g =>
      simp only [hg] at h ⊢
      cases hscan : acquireScan (now - config.rapMaxSessionLife) config.rapMaxSessionsPerUser 0
        g.rapSession 0 with
      | mk r a =>
        rw [hscan] at h
        cases r with
        | none => rfl
        | some r => simp at h

/-- The counter `acquireRapFromDb` reports when it finds no session. -/
theorem acquireRapFromDb_none_count (config : WebdavdConfiguration) (rapDB : List RapGroup)
    (now : Int) (user password : String) (hwf : WellFormed config rapDB)
    (h : (acquireRapFromDb config rapDB now user password).2.1 = none) :
    (∀ g ∈ rapDB, g.user = user → g.password = password →
      (acquireRapFromDb config rapDB now user password).2.2 = inUseCount g.rapSession) ∧
    ((∀ g ∈ rapDB, ¬ (g.user = user ∧ g.password = password)) →
      (acquireRapFromDb config rapDB now user password).2.2 = 0) := by
  obtain ⟨hsorted, hlen⟩ := hwf
  constructor
  · intro g hg hu hp
    obtain ⟨gi, hgi⟩ := List.mem_iff_getElem?.mp hg
    have hb := (bsearch_rapDB hsorted user password []).1 gi g hgi hu hp
    have hspec := acquireScan_spec (now - config.rapMaxSessionLife)
      config.rapMaxSessionsPerUser 0 g.rapSession 0
    unfold acquireRapFromDb at h ⊢
    simp only [hb, hgi] at h ⊢
    cases hscan : acquireScan (now - config.rapMaxSessionLife) config.rapMaxSessionsPerUser 0
      g.rapSession 0 with
    | mk r a =>
      rw [hscan] at hspec h
      cases r with
      | some r => simp at h
      | none =>
        have h2 := (hspec.2 rfl).2
        rw [← hlen g hg, List.take_length] at h2
        simp only at h2 ⊢
        rw [h2]
        simp
  · intro hno
    have hb := (bsearch_rapDB hsorted user password []).2 hno
    unfold acquireRapFromDb
    simp only [hb]

/-- C3: backoff at the cap. On a well-formed table, when `acquireRapFromDb`
finds no session for the credentials of the request, the counter it reports is
the number of slots of the group with `rapSessionInUse` set (0 without a
group); and when that counter is at least `rapMaxSessionsPerUser`, `acquireRap`
returns the `AUTH_BACKOFF` place holder with the table unchanged and without
any call to the outside (no RAP is started), and `answerToRequest` only logs
the access and queues the 401 page. -/
theorem backoff_at_cap (config : WebdavdConfiguration) (env : ServerEnv) (io : RequestIO)
    (rapDB : List RapGroup) (request : MHD_Connection) (url method : String) (n : Nat)
    (user password : String) (hwf : WellFormed config rapDB)
    (hu : request.basicAuthUser = some user) (hp : request.basicAuthPassword = some password)
    (hnone : (acquireRapFromDb config rapDB io.acquire.now user password).2.1 = none) :
    (∀ g ∈ rapDB, g.user = user → g.password = password →
      (acquireRapFromDb config rapDB io.acquire.now user password).2.2
        = inUseCount g.rapSession) ∧
    ((∀ g ∈ rapDB, ¬ (g.user = user ∧ g.password = password)) →
      (acquireRapFromDb config rapDB io.acquire.now user password).2.2 = 0) ∧
    ((acquireRapFromDb config rapDB io.acquire.now user password).2.2
        ≥ config.rapMaxSessionsPerUser →
      acquireRap config rapDB request io.acquire = (rapDB, RapPtr.AUTH_BACKOFF, []) ∧
      (answerToRequest config env io rapDB request url method n none).rapDB = rapDB ∧
      (answerToRequest config env io rapDB request url method n none).events =
        [ServerEvent.logAccess 401 method "<backoff>" url request.clientIp,
          ServerEvent.queueResponse 401 (some UNAUTHORIZED_PAGE)]) := by
  have hcount := acquireRapFromDb_none_count config rapDB io.acquire.now user password hwf hnone
  refine ⟨hcount.1, hcount.2, ?_⟩
  intro hcap
  have htable := acquireRapFromDb_none_table config rapDB io.acquire.now user password hnone
  have hacq : acquireRap config rapDB request io.acquire = (rapDB, RapPtr.AUTH_BACKOFF, []) := by
    unfold acquireRap
    simp only [hu, hp, hnone]
    rw [if_neg (by omega), htable]
  refine ⟨hacq, ?_, ?_⟩
  · unfold answerToRequest
    simp [hacq, sendResponse, modifyPtr]
  · unfold answerToRequest
    simp [hacq, sendResponse, modifyPtr, deref, AUTH_ERROR_BACKOFF, AUTH_FAILED_RAP,
      MHD_HTTP_UNAUTHORIZED, MHD_HTTP_INTERNAL_SERVER_ERROR]

/-- Witness for C3: both slots of "bob" are leased and a further request with
the credentials of "bob" arrives. -/
theorem backoff_at_cap_witness :
    (acquireRapFromDb exampleConfig exampleFullDB 1000 "bob" "pw").2.2
        = inUseCount (exampleBob 1).rapSession ∧
    acquireRap exampleConfig exampleFullDB exampleRequest exampleIO.acquire
        = (exampleFullDB, RapPtr.AUTH_BACKOFF, []) ∧
    (answerToRequest exampleConfig exampleEnv exampleIO exampleFullDB exampleRequest
        "/file.txt" "GET" 0 none).events =
      [ServerEvent.logAccess 401 "GET" "<backoff>" "/file.txt" exampleRequest.clientIp,
        ServerEvent.queueResponse 401 (some UNAUTHORIZED_PAGE)] :=
  have h := backoff_at_cap exampleConfig exampleEnv exampleIO exampleFullDB exampleRequest
    "/file.txt" "GET" 0 "bob" "pw" (by decide) rfl rfl (by decide)
  ⟨h.1 (exampleBob 1) (by decide) rfl rfl, (h.2.2 (by decide)).1, (h.2.2 (by decide)).2.2⟩

theorem respondWith_state (env : RapEnv) (state : RapState) (events : List RapEvent)
    (result : RapConstant) : (respondWith env state events result).state = state := rfl

theorem repliesOf_append (a b : List RapEvent) : repliesOf (a ++ b) = repliesOf a ++ repliesOf b := by
  induction a with
  | nil => rfl
  | cons e a ih => cases e <;> simp [repliesOf, ih]

/-- C5 as stated fails: an unauthenticated PROPFIND without a descriptor is
answered BAD_CLIENT_REQUEST, not BAD_RAP_REQUEST. -/
theorem unauthenticated_propfind_without_body :
    repliesOf (mainIteration exampleRapEnv (exampleRapState 0) 1
        (exampleMessage RapConstant.RAP_PROPFIND (-1) "/dir/")).events
      = [RapConstant.RAP_BAD_CLIENT_REQUEST] ∧
    repliesOf (mainIteration exampleRapEnv (exampleRapState 0) 1
        (exampleMessage RapConstant.RAP_PROPFIND (-1) "/dir/")).events
      ≠ [RapConstant.RAP_BAD_RAP_REQUEST] := by
  decide

/-- C5, amended: while the RAP is not authenticated, a READ_FILE or WRITE_FILE
message (with or without descriptor, any buffers) and a PROPFIND message with a
descriptor get BAD_RAP_REQUEST as the only reply; a PROPFIND message without a
descriptor gets BAD_CLIENT_REQUEST as the only reply; in all these cases no
call on the file system is made and the globals are unchanged. -/
theorem authentication_gate (env : RapEnv) (state : RapState) (recvResult : Int)
    (message : Message) (hrecv : 0 < toSizeT recvResult) (hauth : state.authenticated = 0)
    (hkind : message.mID = RapConstant.RAP_READ_FILE ∨ message.mID = RapConstant.RAP_WRITE_FILE ∨
      message.mID = RapConstant.RAP_PROPFIND) :
    repliesOf (mainIteration env state recvResult message).events =
      [if message.mID = RapConstant.RAP_PROPFIND ∧ message.fd = -1
        then RapConstant.RAP_BAD_CLIENT_REQUEST else RapConstant.RAP_BAD_RAP_REQUEST] ∧
    (∀ e ∈ (mainIteration env state recvResult message).events, e.isFileSystem = false) ∧
    (mainIteration env state recvResult message).state = state := by
  have h0 : ¬ toSizeT recvResult ≤ 0 := by omega
  unfold mainIteration
  simp only [h0, if_false]
  rcases hkind with h | h | h
  · simp only [h, isRequest, dispatch, readFile, hauth, true_or, if_true]
    by_cases hfd : message.fd = -1 <;>
      simp [hfd, respondWith, respond, repliesOf, RapEvent.isFileSystem]
  · simp only [h, isRequest, dispatch, writeFile, hauth, true_or, if_true]
    by_cases hfd : message.fd = -1 <;>
      simp [hfd, respondWith, respond, repliesOf, RapEvent.isFileSystem]
  · simp only [h, isRequest, dispatch, propfind, hauth, true_or, if_true]
    by_cases hfd : message.fd = -1 <;>
      simp [hfd, respondWith, respond, repliesOf, RapEvent.isFileSystem]

/-- Witness for C5 (amended): an unauthenticated READ_FILE. -/
theorem authentication_gate_witness :
    repliesOf (mainIteration exampleRapEnv (exampleRapState 0) 1
        (exampleMessage RapConstant.RAP_READ_FILE (-1) "/dir/a")).events =
      [RapConstant.RAP_BAD_RAP_REQUEST] ∧
    (∀ e ∈ (mainIteration exampleRapEnv (exampleRapState 0) 1
        (exampleMessage RapConstant.RAP_READ_FILE (-1) "/dir/a")).events, e.isFileSystem = false) ∧
    (mainIteration exampleRapEnv (exampleRapState 0) 1
        (exampleMessage RapConstant.RAP_READ_FILE (-1) "/dir/a")).state = exampleRapState 0 :=
  authentication_gate exampleRapEnv (exampleRapState 0) 1
    (exampleMessage RapConstant.RAP_READ_FILE (-1) "/dir/a") (by decide) rfl (Or.inl rfl)

theorem readFile_state (env : RapEnv) (state : RapState) (m : Message) :
    (readFile env state m).state = state := by
  unfold readFile
  simp only []
  repeat' split
  all_goals rfl

theorem writeFile_state (env : RapEnv) (state : RapState) (m : Message) :
    (writeFile env state m).state = state := by
  unfold writeFile
  simp only []
  repeat' split
  all_goals rfl

theorem respondToPropFind_state (env : RapEnv) (state : RapState) (file host : String)
    (properties : PropertySet) (depth : Int) :
    (respondToPropFind env state file host properties depth).state = state := by
  unfold respondToPropFind
  simp only []
  repeat' split
  all_goals rfl

theorem propfind_state (env : RapEnv) (state : RapState) (m : Message) :
    (propfind env state m).state = state := by
  unfold propfind
  simp only []
  repeat' split
  all_goals first | rfl | exact respondToPropFind_state _ _ _ _ _ _

/-- C6: no re-authentication. Once `authenticated` is 1 it is 1 after every
iteration of the main loop, whatever is received; and an AUTHENTICATE message
(any descriptor, any buffers) received then is answered BAD_RAP_REQUEST and
nothing else, `pamAuthenticate` is not called, and the globals (`authenticated`,
`authenticatedUser`) are unchanged. -/
theorem no_reauthentication (env : RapEnv) (state : RapState) (recvResult : Int)
    (message : Message) (hauth : state.authenticated = 1) :
    (mainIteration env state recvResult message).state.authenticated = 1 ∧
    (0 < toSizeT recvResult → message.mID = RapConstant.RAP_AUTHENTICATE →
      repliesOf (mainIteration env state recvResult message).events
        = [RapConstant.RAP_BAD_RAP_REQUEST] ∧
      (∀ user password hostname, RapEvent.pamAuthenticate user password hostname ∉
        (mainIteration env state recvResult message).events) ∧
      (mainIteration env state recvResult message).state = state) := by
  have hne : state.authenticated ≠ 0 := by omega
  constructor
  · unfold mainIteration
    simp only []
    split
    · split <;> exact hauth
    · split
      · exact hauth
      · simp only [dispatch]
        split
        · simp only [authenticate, hne, ne_eq, not_false_eq_true, true_or, if_true,
            respondWith_state]
          exact hauth
        · rw [readFile_state]; exact hauth
        · rw [writeFile_state]; exact hauth
        · rw [propfind_state]; exact hauth
        · exact hauth
  · intro hrecv hkind
    have h0 : ¬ toSizeT recvResult ≤ 0 := by omega
    unfold mainIteration
    simp only [h0, if_false, hkind, isRequest, dispatch, authenticate, hne, ne_eq,
      not_false_eq_true, true_or, if_true]
    by_cases hfd : message.fd = -1 <;>
      simp [hfd, respondWith, respond, repliesOf]

/-- Witness for C6: an authenticated RAP receives AUTHENTICATE with the right
password. -/
theorem no_reauthentication_witness :
    (mainIteration exampleRapEnv (exampleRapState 1) 1
        (exampleMessage RapConstant.RAP_AUTHENTICATE (-1) "")).state.authenticated = 1 ∧
    repliesOf (mainIteration exampleRapEnv (exampleRapState 1) 1
        (exampleMessage RapConstant.RAP_AUTHENTICATE (-1) "")).events
      = [RapConstant.RAP_BAD_RAP_REQUEST] ∧
    (mainIteration exampleRapEnv (exampleRapState 1) 1
        (exampleMessage RapConstant.RAP_AUTHENTICATE (-1) "")).state = exampleRapState 1 :=
  have h := no_reauthentication exampleRapEnv (exampleRapState 1) 1
    (exampleMessage RapConstant.RAP_AUTHENTICATE (-1) "") rfl
  ⟨h.1, (h.2 (by decide) rfl).1, (h.2 (by decide) rfl).2.2⟩

/-- C10 as stated fails: with depth "1" the document for "/dir/" has a
`d:response` for the hidden file "/dir/.hidden". -/
theorem propfind_lists_hidden_files :
    responseHrefs (documentOf (respondToPropFind exampleRapEnv (exampleRapState 1) "/dir/"
        "localhost" allProperties 2).events)
      = ["/dir/", "/dir/.hidden", "/dir/a", "/dir/sub/"] := by
  decide

theorem dirent_name_eq (dp : Dirent) (s : String) :
    dp.name = s ↔ dp.d_name.takeWhile (fun c => c ≠ '\x00') = s.toList := by
  unfold Dirent.name
  constructor
  · intro h; rw [← h]; rfl
  · intro h; exact String.ext h

/-- The test of line 436 lets through every entry but "..", and "." when the
character after its terminator is NUL. -/
theorem propfindListsEntry_iff (dp : Dirent) (h : dp.name = "." → dp.at 2 = '\x00') :
    propfindListsEntry dp = true ↔ (dp.name ≠ "." ∧ dp.name ≠ "..") := by
  rw [dirent_name_eq] at h
  rw [ne_eq, ne_eq, dirent_name_eq, dirent_name_eq]
  obtain ⟨d_name, d_type⟩ := dp
  simp only [propfindListsEntry, Dirent.at] at h ⊢
  have e1 : (".").toList = ['.'] := rfl
  have e2 : ("..").toList = ['.', '.'] := rfl
  rw [e1] at h ⊢
  rw [e2]
  rcases d_name with _ | ⟨c0, _ | ⟨c1, _ | ⟨c2, r⟩⟩⟩
  · simp
  · by_cases h0 : c0 = '.'
    · subst h0; simp [List.takeWhile] 
    · by_cases h0' : c0 = '\x00' <;> simp [List.takeWhile, h0, h0']
  · by_cases h0 : c0 = '.'
    · subst h0
      by_cases h1 : c1 = '.'
      · subst h1; simp [List.takeWhile]
      · by_cases h1' : c1 = '\x00' <;> simp [List.takeWhile, h1, h1']
    · by_cases h0' : c0 = '\x00' <;> simp [List.takeWhile, h0, h0']
  · by_cases h0 : c0 = '.'
    · subst h0
      by_cases h1 : c1 = '.'
      · subst h1
        by_cases h2 : c2 = '\x00' <;> simp [List.takeWhile, h2]
      · by_cases h1' : c1 = '\x00'
        · subst h1'
          simp [List.takeWhile] at h ⊢
          exact h
        · simp [List.takeWhile, h1, h1']
    · by_cases h0' : c0 = '\x00' <;> simp [List.takeWhile, h0, h0']

theorem documentOf_append (a b : List RapEvent) :
    documentOf (a ++ b) = documentOf a ++ documentOf b := by
  induction a with
  | nil => rfl
  | cons e a ih => cases e <;> simp [documentOf, ih]

theorem documentOf_map_xml (fd : Int) (l : List XmlEvent) :
    documentOf (l.map (RapEvent.xml fd)) = l := by
  induction l with
  | nil => rfl
  | cons e l ih => simp [documentOf, ih]

theorem documentOf_propfindChild (env : RapEnv) (mimeTypes : List MimeType) (filePath : String)
    (properties : PropertySet) (dp : Dirent) :
    documentOf (propfindChild env mimeTypes filePath properties dp).1 = [] := by
  unfold propfindChild
  by_cases hl : propfindListsEntry dp = true
  · simp only [hl, if_true]
    cases env.stat (filePath ++ dp.name) <;> simp [documentOf]
  · simp only [hl]
    rfl

theorem documentOf_children (env : RapEnv) (mimeTypes : List MimeType) (filePath : String)
    (properties : PropertySet) (entries : List Dirent) :
    documentOf ((entries.map (propfindChild env mimeTypes filePath properties)).map
      (fun c => c.1)).flatten = [] := by
  induction entries with
  | nil => rfl
  | cons dp entries ih =>
    simp only [List.map_cons, List.flatten_cons, documentOf_append, ih,
      documentOf_propfindChild, List.append_nil]

theorem documentOf_propfindDocument (env : RapEnv) (mimeTypes : List MimeType) (filePath : String)
    (properties : PropertySet) (fileStat : Stat) (depth : Int) :
    documentOf (propfindDocument env mimeTypes filePath properties fileStat depth).1 = [] := by
  unfold propfindDocument
  simp only [documentOf_append]
  split
  · split
    · rename_i entries _
      have h := documentOf_children env mimeTypes filePath properties entries
      rw [List.map_map] at h
      simp [documentOf, h]
    · simp [documentOf]
  · simp [documentOf]

/-- The elements `writeProperties` opens are property elements. -/
theorem writeProperties_names (env : RapEnv) (mimeTypes : List MimeType) (fileName : String)
    (properties : PropertySet) (fileStat : Stat) :
    ∀ e ∈ writeProperties env mimeTypes fileName properties fileStat, ∀ p name ns,
      e = XmlEvent.startElementNS p name ns →
        name ∈ ["getetag", "creationdate", "getlastmodified", "resourcetype", "collection",
          "quota-available-bytes", "quota-used-bytes", "getcontentlength", "getcontenttype"] := by
  intro e he p name ns heq
  subst heq
  simp only [writeProperties, xmlTextWriterWriteElementString, List.mem_append] at he
  rcases he with (((he | he) | he) | he) | he
  · split at he <;> simp at he
    simp [he.2.1]
  · split at he <;> simp at he
    simp [he.2.1]
  · split at he <;> simp at he
    simp [he.2.1]
  · split at he
    · simp only [List.mem_append, List.mem_singleton, List.mem_cons] at he
      rcases he with (he | he) | he
      · simp at he; simp [he.2.1]
      · split at he <;> simp at he
        simp [he.2.1]
      · simp at he
    · simp at he
  · repeat' split at he
    all_goals simp at he
    all_goals first
      | (rcases he with he | he <;> simp [he.2.1])
      | simp_all

theorem responseHrefs_cons_skip (e : XmlEvent) (rest : List XmlEvent)
    (h : ∀ p ns, e ≠ XmlEvent.startElementNS p "href" ns) :
    responseHrefs (e :: rest) = responseHrefs rest := by
  cases e with
  | startElementNS p name ns =>
    have hn : name ≠ "href" := fun hc => h p ns (by rw [hc])
    cases rest with
    | nil => simp [responseHrefs]
    | cons r rest => cases r <;> simp [responseHrefs, hn]
  | _ => cases rest <;> simp [responseHrefs]

theorem responseHrefs_skip (l1 l2 : List XmlEvent)
    (h : ∀ e ∈ l1, ∀ p ns, e ≠ XmlEvent.startElementNS p "href" ns) :
    responseHrefs (l1 ++ l2) = responseHrefs l2 := by
  induction l1 with
  | nil => rfl
  | cons e l1 ih =>
    rw [List.cons_append, responseHrefs_cons_skip e _ (h e (List.mem_cons_self _ _))]
    exact ih (fun e' he' => h e' (List.mem_cons_of_mem _ he'))

theorem writeProperties_no_href (env : RapEnv) (mimeTypes : List MimeType) (fileName : String)
    (properties : PropertySet) (fileStat : Stat) :
    ∀ e ∈ writeProperties env mimeTypes fileName properties fileStat, ∀ p ns,
      e ≠ XmlEvent.startElementNS p "href" ns := by
  intro e he p ns heq
  have := writeProperties_names env mimeTypes fileName properties fileStat e he p "href" ns heq
  simp at this

theorem writeProperties_no_response (env : RapEnv) (mimeTypes : List MimeType)
    (fileName : String) (properties : PropertySet) (fileStat : Stat) :
    responseCount (writeProperties env mimeTypes fileName properties fileStat) = 0 := by
  unfold responseCount
  rw [List.countP_eq_zero]
  intro e he
  simp only [decide_eq_true_eq]
  intro heq
  have := writeProperties_names env mimeTypes fileName properties fileStat e he "d" "response"
    none heq
  simp at this

theorem responseCount_append (a b : List XmlEvent) :
    responseCount (a ++ b) = responseCount a + responseCount b := by
  simp [responseCount, List.countP_append]

/-- One part holds one `d:response` and one `d:href`, with the file name. -/
theorem writePropFindResponsePart_hrefs (env : RapEnv) (mimeTypes : List MimeType)
    (fileName : String) (properties : PropertySet) (fileStat : Stat) (rest : List XmlEvent) :
    responseHrefs (writePropFindResponsePart env mimeTypes fileName properties fileStat ++ rest)
      = fileName :: responseHrefs rest := by
  unfold writePropFindResponsePart xmlTextWriterWriteElementString
  simp only [List.cons_append, List.nil_append, List.append_assoc]
  rw [responseHrefs_cons_skip _ _ (by simp)]
  rw [responseHrefs]
  simp only [if_true]
  rw [responseHrefs_cons_skip _ _ (by simp), responseHrefs_cons_skip _ _ (by simp),
    responseHrefs_cons_skip _ _ (by simp), responseHrefs_cons_skip _ _ (by simp)]
  rw [responseHrefs_skip _ _ (writeProperties_no_href env mimeTypes fileName properties fileStat)]
  rw [responseHrefs_cons_skip _ _ (by simp), responseHrefs_cons_skip _ _ (by simp),
    responseHrefs_cons_skip _ _ (by simp), responseHrefs_cons_skip _ _ (by simp),
    responseHrefs_cons_skip _ _ (by simp), responseHrefs_cons_skip _ _ (by simp)]

theorem writePropFindResponsePart_count (env : RapEnv) (mimeTypes : List MimeType)
    (fileName : String) (properties : PropertySet) (fileStat : Stat) :
    responseCount (writePropFindResponsePart env mimeTypes fileName properties fileStat) = 1 := by
  unfold writePropFindResponsePart xmlTextWriterWriteElementString
  simp only [responseCount_append, writeProperties_no_response]
  simp [responseCount]

/-- The parts written for the entries of a directory. -/
theorem children_hrefs (env : RapEnv) (mimeTypes : List MimeType) (filePath : String)
    (properties : PropertySet) (entries : List Dirent)
    (hdot : ∀ dp ∈ entries, dp.name = "." → dp.at 2 = '\x00') (rest : List XmlEvent) :
    responseHrefs (((entries.map (propfindChild env mimeTypes filePath properties)).map
        (fun c => c.2)).flatten ++ rest)
      = childHrefs env filePath entries ++ responseHrefs rest ∧
    responseCount ((entries.map (propfindChild env mimeTypes filePath properties)).map
        (fun c => c.2)).flatten
      = (childHrefs env filePath entries).length := by
  induction entries with
  | nil => exact ⟨rfl, rfl⟩
  | cons dp entries ih =>
    have ih' := ih (fun d hd => hdot d (List.mem_cons_of_mem _ hd))
    have hl := propfindListsEntry_iff dp (hdot dp (List.mem_cons_self _ _))
    simp only [List.map_cons, List.flatten_cons, List.append_assoc, responseCount_append]
    unfold childHrefs at ih' ⊢
    by_cases hin : dp.name ≠ "." ∧ dp.name ≠ ".."
    · have hlt : propfindListsEntry dp = true := hl.mpr hin
      rw [List.filter_cons_of_pos (by simpa using hin)]
      simp only [propfindChild, hlt, if_true, List.filterMap_cons]
      cases hst : env.stat (filePath ++ dp.name) with
      | error e =>
        simp only [List.nil_append]
        exact ⟨ih'.1, by simpa [responseCount] using ih'.2⟩
      | ok st =>
        simp only [List.cons_append, List.length_cons]
        rw [writePropFindResponsePart_hrefs, writePropFindResponsePart_count, ih'.1, ih'.2]
        refine ⟨?_, by omega⟩
        by_cases hd : st.isDir = true <;> simp [hd]
    · have hlf : propfindListsEntry dp = false := by
        cases hc : propfindListsEntry dp with
        | false => rfl
        | true => exact absurd (hl.mp hc) hin
      rw [List.filter_cons_of_neg (by simpa using hin)]
      simp only [propfindChild, hlf, Bool.false_eq_true, if_false, List.nil_append]
      exact ⟨ih'.1, by simpa [responseCount] using ih'.2⟩

/-- C10, amended: for an existing path, when the pipe is created and the reply
is sent, the document `respondToPropFind` writes holds first one `d:response`
for the path itself (slash-terminated for a directory) and then, if and only if
the depth string is not "0" and the path is a directory (which can be opened),
exactly one `d:response` for each directory entry that can be stat'ed and whose
name is neither "." nor ".." (hidden dot-files are reported), in `readdir`
order, and none for "..". What is written for an entry "." whose array holds a
character other than NUL after the terminator is left open. -/
theorem propfind_response_set (env : RapEnv) (state : RapState) (file host : String)
    (properties : PropertySet) (depthString : String) (fileStat : Stat) (pipeRead pipeWrite : Int)
    (entries : List Dirent)
    (hstat : env.stat file = Except.ok fileStat) (hpipe : env.pipe = some (pipeRead, pipeWrite))
    (hsend : ∀ m, 0 < toSizeT (env.sendResult m))
    (hopen : fileStat.isDir = true → env.opendir (propfindFilePath file fileStat) = some entries)
    (hdot : ∀ dp ∈ entries, dp.name = "." → dp.at 2 = '\x00') :
    responseHrefs (documentOf (respondToPropFind env state file host properties
        (if strcmp "0" depthString ≠ 0 then 2 else 1)).events)
      = propfindFilePath file fileStat ::
        (if depthString ≠ "0" ∧ fileStat.isDir = true
          then childHrefs env (propfindFilePath file fileStat) entries else []) ∧
    responseCount (documentOf (respondToPropFind env state file host properties
        (if strcmp "0" depthString ≠ 0 then 2 else 1)).events)
      = 1 + (if depthString ≠ "0" ∧ fileStat.isDir = true
          then (childHrefs env (propfindFilePath file fileStat) entries).length else 0) := by
  have hdepth : ((if strcmp "0" depthString ≠ 0 then (2 : Int) else 1) > 1) ↔ depthString ≠ "0" := by
    by_cases h : strcmp "0" depthString = 0
    · have := (strcmp_eq_zero _ _).mp h
      subst this
      simp [h]
    · have hne : depthString ≠ "0" := fun e => h ((strcmp_eq_zero _ _).mpr e.symm)
      simp [h, hne]
  unfold respondToPropFind
  simp only [hstat, hpipe]
  have hnot : ∀ m, ¬ toSizeT (env.sendResult m) ≤ 0 := fun m => by
    have := hsend m
    omega
  simp only [hnot, if_false]
  simp only [documentOf_append, documentOf_map_xml, documentOf_propfindDocument]
  simp only [documentOf, List.nil_append, List.append_nil]
  unfold propfindDocument
  simp only [hdepth]
  by_cases hc : depthString ≠ "0" ∧ fileStat.isDir = true
  · have ho := hopen hc.2
    simp only [if_pos hc, ho]
    have hch := children_hrefs env state.mimeTypes (propfindFilePath file fileStat) properties
      entries hdot [XmlEvent.endElement]
    constructor
    · simp only [List.cons_append, List.nil_append, List.append_assoc]
      rw [responseHrefs_cons_skip _ _ (by simp), responseHrefs_cons_skip _ _ (by simp),
        writePropFindResponsePart_hrefs, hch.1]
      simp [responseHrefs]
    · simp only [responseCount_append, writePropFindResponsePart_count, hch.2]
      simp [responseCount]
  · simp only [if_neg hc]
    constructor
    · simp only [List.cons_append, List.nil_append, List.append_assoc, List.map_nil,
        List.flatten_nil]
      rw [responseHrefs_cons_skip _ _ (by simp), responseHrefs_cons_skip _ _ (by simp),
        writePropFindResponsePart_hrefs]
      simp [responseHrefs]
    · simp only [responseCount_append, writePropFindResponsePart_count]
      simp [responseCount]

/-- Witness for C10 (amended): "/dir/" at depth "1" in the example file system. -/
theorem propfind_response_set_witness :
    responseHrefs (documentOf (respondToPropFind exampleRapEnv (exampleRapState 1) "/dir/"
        "localhost" allProperties (if strcmp "0" "1" ≠ 0 then 2 else 1)).events)
      = propfindFilePath "/dir/" exampleDirStat ::
        (if "1" ≠ "0" ∧ exampleDirStat.isDir = true
          then childHrefs exampleRapEnv (propfindFilePath "/dir/" exampleDirStat) exampleEntries
          else []) :=
  (propfind_response_set exampleRapEnv (exampleRapState 1) "/dir/" "localhost" allProperties "1"
    exampleDirStat 10 11 exampleEntries rfl rfl (fun _ => (by decide : 0 < toSizeT 1))
    (fun _ => rfl) (by decide)).1

/-- C7 on the code: a GET without body is served by the idle session of "bob"
(slot 1 of group 1, socket 6). When `recvMessage` returns 0 the status queued
is 500, and when the call returns the slot still has its socket (6, not -1) and
`rapSessionInUse = 0`: the session was released for reuse, not destroyed. When
`sendMessage` returns -1 the failure is not noticed at all (`ioResult` is a
`size_t`): the reply is awaited and translated, here to 404. -/
theorem control_failure_leaves_session_in_pool :
    queuedStatus (answerToRequest exampleConfig exampleEnv
        (exampleAnswers 1 0 RapConstant.RAP_SUCCESS) exampleDB exampleRequest "/file.txt" "GET" 0
        none).events = [500] ∧
    (answerToRequest exampleConfig exampleEnv
        (exampleAnswers 1 0 RapConstant.RAP_SUCCESS) exampleDB exampleRequest "/file.txt" "GET" 0
        none).s = some (RapPtr.slot (1, 1)) ∧
    getSlot (answerToRequest exampleConfig exampleEnv
        (exampleAnswers 1 0 RapConstant.RAP_SUCCESS) exampleDB exampleRequest "/file.txt" "GET" 0
        none).rapDB (1, 1) = some (exampleSession 0 6 "bob" 960) ∧
    queuedStatus (answerToRequest exampleConfig exampleEnv
        (exampleAnswers (-1) 1 RapConstant.RAP_NOT_FOUND) exampleDB exampleRequest "/file.txt" "GET"
        0 none).events = [404] := by
  decide

/-- C9 as stated fails: a PUT with a body and valid credentials is answered
with 405, not 409, and no message goes to a RAP. -/
theorem put_is_answered_405 :
    queuedStatus (answerToRequest exampleConfig exampleEnv exampleIO exampleDB examplePut
        "/newfile" "PUT" 0 none).events = [405] ∧
    sentKinds (answerToRequest exampleConfig exampleEnv exampleIO exampleDB examplePut
        "/newfile" "PUT" 0 none).events = [] := by
  decide

theorem queuedStatus_append (a b : List ServerEvent) :
    queuedStatus (a ++ b) = queuedStatus a ++ queuedStatus b := by
  induction a with
  | nil => rfl
  | cons e a ih => cases e <;> simp [queuedStatus, ih]

theorem sentKinds_append (a b : List ServerEvent) :
    sentKinds (a ++ b) = sentKinds a ++ sentKinds b := by
  induction a with
  | nil => rfl
  | cons e a ih => cases e <;> simp [sentKinds, ih]

theorem queuedStatus_destroyRap (l : List Int) :
    queuedStatus (l.map ServerEvent.destroyRap) = [] := by
  induction l with
  | nil => rfl
  | cons a l ih => simpa [queuedStatus] using ih

theorem sentKinds_destroyRap (l : List Int) :
    sentKinds (l.map ServerEvent.destroyRap) = [] := by
  induction l with
  | nil => rfl
  | cons a l ih => simpa [sentKinds] using ih

theorem createRap_events (io : CreateRapIO) (processor : RestrictedAccessProcessor)
    (user password rhost : String) :
    queuedStatus (createRap io processor user password rhost).2 = [] ∧
    ∀ k ∈ sentKinds (createRap io processor user password rhost).2,
      k = RapConstant.RAP_AUTHENTICATE := by
  unfold createRap
  simp only []
  repeat' split
  all_goals simp [queuedStatus, sentKinds]

/-- `acquireRap` queues no response and sends nothing but AUTHENTICATE. -/
theorem acquireRap_events (config : WebdavdConfiguration) (rapDB : List RapGroup)
    (request : MHD_Connection) (io : AcquireIO) :
    queuedStatus (acquireRap config rapDB request io).2.2 = [] ∧
    ∀ k ∈ sentKinds (acquireRap config rapDB request io).2.2,
      k = RapConstant.RAP_AUTHENTICATE := by
  unfold acquireRap
  split
  · rename_i user password _ _
    simp only []
    split
    · simp [queuedStatus, sentKinds]
    · split
      · have hc := createRap_events io.create io.newSession user password request.clientIp
        split
        · exact hc
        · exact hc
        · simp only [queuedStatus_append, sentKinds_append, queuedStatus_destroyRap,
            sentKinds_destroyRap, List.append_nil]
          exact hc
      · simp [queuedStatus, sentKinds]
  · simp [queuedStatus, sentKinds]

theorem sendResponse_events (io : RequestIO) (rapDB : List RapGroup) (request : MHD_Connection)
    (statusCode : Int) (response : Option MHD_Response) (rapSession : RapPtr)
    (method url : String) :
    queuedStatus (sendResponse io rapDB request statusCode response rapSession method url).2.2
      = [statusCode] ∧
    sentKinds (sendResponse io rapDB request statusCode response rapSession method url).2.2
      = [] := by
  unfold sendResponse
  simp only [queuedStatus_append, sentKinds_append]
  constructor
  · split_ifs <;> simp_all [queuedStatus]
  · split_ifs <;> simp [sentKinds]

/-- C9, amended: a PUT request with a body for which a session is leased or
started (valid credentials) and the body pipe is made is answered with 405;
`processNewRequest` has no case for PUT and sends nothing to the RAP, so no
WRITE_FILE is forwarded. The two further steps of the scenario, taken alone:
an authenticated RAP that is given WRITE_FILE with a descriptor and two buffers
for a path whose `open` fails with ENOENT replies CONFLICT and nothing else,
and `createRapResponse` has no case for CONFLICT and translates it to 500. -/
theorem put_not_forwarded (config : WebdavdConfiguration) (env : ServerEnv) (io : RequestIO)
    (rapDB : List RapGroup) (request : MHD_Connection) (url : String) (n : Nat) (ptr : SlotPtr)
    (readEnd writeEnd : Int)
    (hacq : (acquireRap config rapDB request io.acquire).2.1 = RapPtr.slot ptr)
    (hdata : requestHasData request = true) (hpipe : io.pipeResult = some (readEnd, writeEnd)) :
    queuedStatus (answerToRequest config env io rapDB request url "PUT" n none).events = [405] ∧
    RapConstant.RAP_WRITE_FILE ∉
      sentKinds (answerToRequest config env io rapDB request url "PUT" n none).events ∧
    (∀ (renv : RapEnv) (state : RapState) (m : Message), state.authenticated ≠ 0 → m.fd ≠ -1 →
      m.bufferCount = 2 →
      renv.openFile (iovecToString m.buffers[RAP_FILE_INDEX]?) true = Except.error ENOENT →
      repliesOf (writeFile renv state m).events = [RapConstant.RAP_CONFLICT]) ∧
    (∀ (m : Message), m.mID = RapConstant.RAP_CONFLICT →
      (createRapResponse env m).statusCode = 500) := by
  have hacqev := acquireRap_events config rapDB request io.acquire
  have hne1 : ¬ (RapPtr.slot ptr = RapPtr.AUTH_FAILED ∨ RapPtr.slot ptr = RapPtr.AUTH_BACKOFF) := by
    simp
  have hne2 : ¬ (RapPtr.slot ptr = RapPtr.AUTH_ERROR) := by simp
  have hev : (answerToRequest config env io rapDB request url "PUT" n none).events =
      (acquireRap config rapDB request io.acquire).2.2 ++
        [ServerEvent.pipe readEnd writeEnd, ServerEvent.stdLogError "Can not cope with method"] ++
        (sendResponse io
          (modifyPtr (modifyPtr (acquireRap config rapDB request io.acquire).1 (RapPtr.slot ptr)
            (fun s => { s with readDataFd := readEnd, writeDataFd := writeEnd }))
            (RapPtr.slot ptr) (fun s => { s with responseAlreadyGiven := 1 }))
          request MHD_HTTP_METHOD_NOT_ALLOWED none (RapPtr.slot ptr) "PUT" url).2.2 := by
    unfold answerToRequest
    simp only [hacq, hne1, hne2, if_false, hdata, if_true, hpipe, processNewRequest]
    simp [MHD_HTTP_METHOD_NOT_ALLOWED, MHD_HTTP_CONTINUE]
  refine ⟨?_, ?_, ?_, ?_⟩
  · rw [hev]
    simp only [queuedStatus_append, hacqev.1, sendResponse_events]
    simp [queuedStatus, MHD_HTTP_METHOD_NOT_ALLOWED]
  · rw [hev]
    simp only [sentKinds_append, sendResponse_events, List.append_nil, List.mem_append]
    intro h
    rcases h with h | h
    · have := hacqev.2 _ h
      cases this
    · simp [sentKinds] at h
  · intro renv state m hauth hfd hcount hopen
    unfold writeFile
    simp only [hfd, if_false, hauth, hcount, ne_eq, not_true_eq_false, or_self, hopen]
    simp [ENOENT, EACCES, respondWith, respond, repliesOf_append, repliesOf]
  · intro m hm
    unfold createRapResponse
    simp [hm, MHD_HTTP_INTERNAL_SERVER_ERROR]

/-- Witness for C9 (amended): the PUT of "bob" in the example pool. -/
theorem put_not_forwarded_witness :
    queuedStatus (answerToRequest exampleConfig exampleEnv exampleIO exampleDB examplePut
        "/newfile" "PUT" 0 none).events = [405] ∧
    RapConstant.RAP_WRITE_FILE ∉
      sentKinds (answerToRequest exampleConfig exampleEnv exampleIO exampleDB examplePut
        "/newfile" "PUT" 0 none).events :=
  have h := put_not_forwarded exampleConfig exampleEnv exampleIO exampleDB examplePut "/newfile" 0
    (1, 1) 8 9 (by decide) (by decide) rfl
  ⟨h.1, h.2.1⟩

theorem compareRapGroup_key (a b a' b' : RapGroup) (ha : a.key = a'.key) (hb : b.key = b'.key) :
    compareRapGroup a b = compareRapGroup a' b' := by
  simp only [RapGroup.key, Prod.mk.injEq] at ha hb
  unfold compareRapGroup
  rw [ha.1, ha.2, hb.1, hb.2]

/-- Sortedness only depends on the keys. -/
theorem sortedDB_of_keys {db db' : List RapGroup} (h : db.map RapGroup.key = db'.map RapGroup.key)
    (hs : SortedDB db) : SortedDB db' := by
  induction db generalizing db' with
  | nil =>
    cases db' with
    | nil => exact List.Pairwise.nil
    | cons b db' => simp at h
  | cons a db ih =>
    cases db' with
    | nil => simp at h
    | cons b db' =>
      simp only [List.map_cons, List.cons.injEq] at h
      have hs' := List.pairwise_cons.mp hs
      refine List.pairwise_cons.mpr ⟨?_, ih h.2 hs'.2⟩
      intro x hx
      have hxk : x.key ∈ db.map RapGroup.key := by
        rw [h.2]
        exact List.mem_map_of_mem _ hx
      obtain ⟨y, hy, hyk⟩ := List.mem_map.mp hxk
      rw [compareRapGroup_key b x a y h.1.symm hyk.symm]
      exact hs'.1 y hy

theorem map_key_modify (f : RapGroup → RapGroup) (hf : ∀ g, (f g).key = g.key) :
    ∀ (db : List RapGroup) (n : Nat), (db.modify f n).map RapGroup.key = db.map RapGroup.key
  | [], _ => by simp
  | g :: db, 0 => by simp [hf]
  | g :: db, n + 1 => by simp [map_key_modify f hf db n]

theorem map_key_set {db : List RapGroup} {gi : Nat} {g g' : RapGroup} (hg : db[gi]? = some g)
    (hk : g'.key = g.key) : (db.set gi g').map RapGroup.key = db.map RapGroup.key := by
  induction db generalizing gi with
  | nil => simp
  | cons a db ih =>
    cases gi with
    | zero =>
      simp only [List.getElem?_cons_zero, Option.some.injEq] at hg
      subst hg
      simp [hk]
    | succ gi =>
      simp only [List.getElem?_cons_succ] at hg
      simp [ih hg]

/-- Membership in a table after a store into one group. -/
theorem mem_set_iff {α : Type} {l : List α} {n : Nat} {b x : α} :
    x ∈ l.set n b → x = b ∨ x ∈ l := by
  intro hx
  obtain ⟨k, hk⟩ := List.mem_iff_getElem?.mp hx
  rw [List.getElem?_set] at hk
  split at hk
  · split at hk
    · simp at hk; exact Or.inl hk.symm
    · simp at hk
  · exact Or.inr (List.getElem?_mem hk)

theorem qsortInsert_perm {α : Type} (compar : α → α → Int) (a : α) (l : List α) :
    (qsortInsert compar a l).Perm (a :: l) := by
  induction l with
  | nil => exact List.Perm.refl _
  | cons b l ih =>
    simp only [qsortInsert]
    split
    · exact List.Perm.refl _
    · exact (List.Perm.cons b ih).trans (List.Perm.swap a b l)

theorem qsort_perm {α : Type} (compar : α → α → Int) (l : List α) : (qsort compar l).Perm l := by
  induction l with
  | nil => exact List.Perm.refl _
  | cons a l ih => exact (qsortInsert_perm compar a _).trans (List.Perm.cons a ih)

theorem qsortInsert_sorted (a : RapGroup) (l : List RapGroup) (hs : SortedDB l)
    (hne : ∀ b ∈ l, compareRapGroup a b ≠ 0) : SortedDB (qsortInsert compareRapGroup a l) := by
  induction l with
  | nil => simp [qsortInsert, SortedDB]
  | cons b l ih =>
    have hs' := List.pairwise_cons.mp hs
    simp only [qsortInsert]
    split
    · rename_i hle
      have hlt : compareRapGroup a b < 0 := by
        have := hne b (List.mem_cons_self _ _)
        omega
      refine List.pairwise_cons.mpr ⟨?_, hs⟩
      intro x hx
      rcases List.mem_cons.mp hx with rfl | hx
      · exact hlt
      · exact compareRapGroup_trans _ _ _ hlt (hs'.1 x hx)
    · rename_i hle
      have hgt : compareRapGroup b a < 0 := (compareRapGroup_swap a b).mp (by omega)
      refine List.pairwise_cons.mpr ⟨?_, ih hs'.2 (fun x hx => hne x (List.mem_cons_of_mem _ hx))⟩
      intro x hx
      rcases List.mem_cons.mp ((qsortInsert_perm compareRapGroup a l).subset hx) with rfl | hx
      · exact hgt
      · exact hs'.1 x hx

/-- Sorting a sorted table with one group of a new key appended gives a sorted
table. -/
theorem qsort_append_sorted (db : List RapGroup) (g : RapGroup) (hs : SortedDB db)
    (hne : ∀ b ∈ db, compareRapGroup g b ≠ 0) :
    SortedDB (qsort compareRapGroup (db ++ [g])) := by
  induction db with
  | nil => simp [qsort, qsortInsert, SortedDB]
  | cons a db ih =>
    have hs' := List.pairwise_cons.mp hs
    simp only [List.cons_append, qsort]
    apply qsortInsert_sorted
    · exact ih hs'.2 (fun b hb => hne b (List.mem_cons_of_mem _ hb))
    · intro b hb
      have hb' := (qsort_perm compareRapGroup (db ++ [g])).subset hb
      rcases List.mem_append.mp hb' with hb' | hb'
      · have := hs'.1 b hb'
        omega
      · simp only [List.mem_singleton] at hb'
        subst hb'
        intro h0
        have h1 := hne a (List.mem_cons_self _ _)
        rw [compareRapGroup_eq_zero] at h0
        rw [ne_eq, compareRapGroup_eq_zero] at h1
        exact h1 ⟨h0.1.symm, h0.2.symm⟩

/-- What the loop of `addRapToDb` does to the array: a slot is left as it is
or, being idle with an open socket, destroyed; the slot chosen is empty
afterwards and was empty or idle before. -/
theorem addScan_spec (e : Int) :
    ∀ (n i : Nat) (slots : List RestrictedAccessProcessor) (new : Option Nat),
      (addScan e n i slots new).1.length = slots.length ∧
      (∀ k : Nat, (addScan e n i slots new).1[k]? = slots[k]? ∨
        ∃ s, slots[k]? = some s ∧ s.rapSessionInUse = 0 ∧ s.socketFd ≠ -1 ∧
          (addScan e n i slots new).1[k]? = some (destroyRap s)) ∧
      (∀ j, (addScan e n i slots new).2.1 = some j → new = some j ∨
        ∃ k t s, j = i + k ∧ k < n ∧ (addScan e n i slots new).1[k]? = some t ∧
          t.socketFd = -1 ∧ slots[k]? = some s ∧ (s.socketFd = -1 ∨ s.rapSessionInUse = 0)) := by
  intro n
  induction n with
  | zero => intro i slots new; simp [addScan]
  | succ n ih =>
    intro i slots new
    cases slots with
    | nil => simp [addScan]
    | cons s rest =>
      simp only [addScan]
      by_cases h1 : s.socketFd = -1
      · rw [if_pos h1]
        refine ⟨rfl, fun k => Or.inl rfl, ?_⟩
        intro j hj
        simp only [Option.some.injEq] at hj
        exact Or.inr ⟨0, s, s, by omega, by omega, by simp, h1, by simp, Or.inl h1⟩
      · rw [if_neg h1]
        by_cases h2 : s.rapCreated < e ∧ s.rapSessionInUse = 0
        · rw [if_pos h2]
          obtain ⟨hl, hp, hj⟩ := ih (i + 1) rest (some i)
          refine ⟨by simp [hl], ?_, ?_⟩
          · intro k
            cases k with
            | zero => exact Or.inr ⟨s, by simp, h2.2, h1, by simp⟩
            | succ k => simpa using hp k
          · intro j hjeq
            rcases hj j hjeq with hnew | ⟨k, t, s', h3, h4, h5, h6, h7, h8⟩
            · simp only [Option.some.injEq] at hnew
              exact Or.inr ⟨0, destroyRap s, s, by omega, by omega, by simp, by simp [destroyRap],
                by simp, Or.inr h2.2⟩
            · exact Or.inr ⟨k + 1, t, s', by omega, by omega, by simpa using h5, h6,
                by simpa using h7, h8⟩
        · rw [if_neg h2]
          obtain ⟨hl, hp, hj⟩ := ih (i + 1) rest new
          refine ⟨by simp [hl], ?_, ?_⟩
          · intro k
            cases k with
            | zero => exact Or.inl (by simp)
            | succ k => simpa using hp k
          · intro j hjeq
            rcases hj j hjeq with hnew | ⟨k, t, s', h3, h4, h5, h6, h7, h8⟩
            · exact Or.inl hnew
            · exact Or.inr ⟨k + 1, t, s', by omega, by omega, by simpa using h5, h6,
                by simpa using h7, h8⟩

/-- What the inner loop of `rapTimeoutWorker` does to the array. -/
theorem timeoutSlots_spec (e : Int) :
    ∀ (n : Nat) (slots : List RestrictedAccessProcessor),
      (timeoutSlots e n slots).1.length = slots.length ∧
      (∀ k : Nat, (timeoutSlots e n slots).1[k]? = slots[k]? ∨
        ∃ s, slots[k]? = some s ∧ s.rapSessionInUse = 0 ∧ s.socketFd ≠ -1 ∧
          (timeoutSlots e n slots).1[k]? = some (destroyRap s)) := by
  intro n
  induction n with
  | zero => intro slots; simp [timeoutSlots]
  | succ n ih =>
    intro slots
    cases slots with
    | nil => simp [timeoutSlots]
    | cons s rest =>
      obtain ⟨hl, hp⟩ := ih rest
      simp only [timeoutSlots]
      by_cases h : s.rapSessionInUse = 0 ∧ s.socketFd ≠ -1 ∧ s.rapCreated < e
      · rw [if_pos h]
        refine ⟨by simp [hl], ?_⟩
        intro k
        cases k with
        | zero => exact Or.inr ⟨s, by simp, h.1, h.2.1, by simp⟩
        | succ k => simpa using hp k
      · rw [if_neg h]
        refine ⟨by simp [hl], ?_⟩
        intro k
        cases k with
        | zero => exact Or.inl (by simp)
        | succ k => simpa using hp k

/-- Destroying idle slots keeps `SlotsOk` and every slot in use. -/
theorem slotsOk_of_pointwise {slots slots' : List RestrictedAccessProcessor}
    (hp : ∀ k : Nat, slots'[k]? = slots[k]? ∨
      ∃ s, slots[k]? = some s ∧ s.rapSessionInUse = 0 ∧ s.socketFd ≠ -1 ∧
        slots'[k]? = some (destroyRap s))
    (hok : SlotsOk slots) : SlotsOk slots' := by
  intro s hs hin
  obtain ⟨k, hk⟩ := List.mem_iff_getElem?.mp hs
  rcases hp k with h | ⟨t, _, ht0, _, ht⟩
  · rw [h] at hk
    exact hok s (List.getElem?_mem hk) hin
  · rw [ht] at hk
    simp only [Option.some.injEq] at hk
    subst hk
    simp [destroyRap] at hin
    exact absurd ht0 hin

theorem kept_of_pointwise {slots slots' : List RestrictedAccessProcessor}
    (hp : ∀ k : Nat, slots'[k]? = slots[k]? ∨
      ∃ s, slots[k]? = some s ∧ s.rapSessionInUse = 0 ∧ s.socketFd ≠ -1 ∧
        slots'[k]? = some (destroyRap s))
    {i : Nat} {s : RestrictedAccessProcessor} (hs : slots[i]? = some s)
    (hin : s.rapSessionInUse ≠ 0) : slots'[i]? = some s := by
  rcases hp i with h | ⟨t, ht, ht0, _, _⟩
  · rw [h, hs]
  · rw [hs] at ht
    simp only [Option.some.injEq] at ht
    subst ht
    exact absurd ht0 hin

theorem getSlot_eq {db : List RapGroup} {gi i : Nat} {g : RapGroup} (hg : db[gi]? = some g) :
    getSlot db (gi, i) = g.rapSession[i]? := by
  simp [getSlot, hg]

theorem getElem?_set_self' {α : Type} {l : List α} {n : Nat} {a b : α} (h : l[n]? = some a) :
    (l.set n b)[n]? = some b := by
  have hn : n < l.length := (List.getElem?_eq_some.mp h).1
  rw [List.getElem?_set]
  simp [hn]

theorem slotsOk_set {slots : List RestrictedAccessProcessor} {i : Nat}
    {t : RestrictedAccessProcessor} (hok : SlotsOk slots) (ht : t.socketFd ≠ -1) :
    SlotsOk (slots.set i t) := by
  intro s hs hin
  rcases mem_set_iff hs with rfl | hs
  · exact ht
  · exact hok s hs hin

/-- A store into one group that keeps its key, its number of slots and
`SlotsOk` keeps the invariant. -/
theorem poolInv_set {config : WebdavdConfiguration} {db : List RapGroup} {gi : Nat}
    {g g' : RapGroup} (hinv : PoolInv config db) (hg : db[gi]? = some g) (hk : g'.key = g.key)
    (hl : g'.rapSession.length = g.rapSession.length) (hok : SlotsOk g'.rapSession) :
    PoolInv config (db.set gi g') := by
  obtain ⟨⟨hs, hlen⟩, hslots⟩ := hinv
  refine ⟨⟨sortedDB_of_keys (map_key_set hg hk).symm hs, ?_⟩, ?_⟩
  · intro x hx
    rcases mem_set_iff hx with rfl | hx
    · rw [hl]; exact hlen g (List.getElem?_mem hg)
    · exact hlen x hx
  · intro x hx
    rcases mem_set_iff hx with rfl | hx
    · exact hok
    · exact hslots x hx

/-- A store into one group that keeps its key and its slots in use keeps the
leased slots of the table. -/
theorem leasedKept_set {db : List RapGroup} {gi : Nat} {g g' : RapGroup}
    (hg : db[gi]? = some g) (hk : g'.key = g.key)
    (hkeep : ∀ (i : Nat) (s : RestrictedAccessProcessor), g.rapSession[i]? = some s →
      s.rapSessionInUse ≠ 0 → g'.rapSession[i]? = some s) :
    LeasedKept db (db.set gi g') := by
  intro x hx i s hs hin
  obtain ⟨k, hk'⟩ := List.mem_iff_getElem?.mp hx
  by_cases hkg : k = gi
  · subst hkg
    rw [hg] at hk'
    simp only [Option.some.injEq] at hk'
    subst hk'
    exact ⟨g', List.getElem?_mem (getElem?_set_self' hg), hk, hkeep i s hs hin⟩
  · refine ⟨x, ?_, rfl, hs⟩
    have : (db.set gi g')[k]? = some x := by
      rw [List.getElem?_set_ne (Ne.symm hkg)]
      exact hk'
    exact List.getElem?_mem this

/-- What `acquireRapFromDb` did when it returns a slot. -/
theorem acquireRapFromDb_some {config : WebdavdConfiguration} {db : List RapGroup} {now : Int}
    {user password : String} {gi i : Nat}
    (h : (acquireRapFromDb config db now user password).2.1 = some (gi, i)) :
    ∃ g s, db[gi]? = some g ∧ g.rapSession[i]? = some s ∧
      Leasable (now - config.rapMaxSessionLife) s ∧
      (acquireRapFromDb config db now user password).1 =
        db.set gi { g with rapSession := g.rapSession.set i { s with rapSessionInUse := 1 } } := by
  unfold acquireRapFromDb at h ⊢
  cases hb : bsearch compareRapGroup
    { user := user, password := password, rapSession := [] } db with
  | none => simp [hb] at h
  | some gi' =>
    simp only [hb] at h ⊢
    cases hg : db[gi']? with
    | none => simp [hg] at h
    | some g =>
      simp only [hg] at h ⊢
      have hspec := acquireScan_spec (now - config.rapMaxSessionLife)
        config.rapMaxSessionsPerUser 0 g.rapSession 0
      cases hscan : acquireScan (now - config.rapMaxSessionLife) config.rapMaxSessionsPerUser 0
        g.rapSession 0 with
      | mk r a =>
        rw [hscan] at hspec h
        cases r with
        | none => simp at h
        | some r =>
          simp only [Option.some.injEq, Prod.mk.injEq] at h
          obtain ⟨rfl, rfl⟩ := h
          obtain ⟨k, s, hr, _, hk, hkl, _⟩ := hspec.1 r rfl
          have hrk : r = k := by omega
          subst hrk
          exact ⟨g, s, hg, hk, hkl, setInUse_eq_set hg hk 1⟩

theorem acquireRapFromDb_inv {config : WebdavdConfiguration} {db : List RapGroup}
    (hinv : PoolInv config db) (now : Int) (user password : String) :
    PoolInv config (acquireRapFromDb config db now user password).1 ∧
    LeasedKept db (acquireRapFromDb config db now user password).1 := by
  cases hres : (acquireRapFromDb config db now user password).2.1 with
  | none =>
    rw [acquireRapFromDb_none_table config db now user password hres]
    exact ⟨hinv, fun g hg i s hs _ => ⟨g, hg, rfl, hs⟩⟩
  | some ptr =>
    obtain ⟨gi, i⟩ := ptr
    obtain ⟨g, s, hg, hs, hl, htab⟩ := acquireRapFromDb_some hres
    rw [htab]
    constructor
    · refine poolInv_set hinv hg ?_ ?_ ?_
      · rfl
      · simp
      · exact slotsOk_set (hinv.2 g (List.getElem?_mem hg)) hl.1
    · refine leasedKept_set hg ?_ ?_
      · rfl
      intro i' s' hs' hin
      simp only
      by_cases hii : i = i'
      · subst hii
        rw [hs] at hs'
        simp only [Option.some.injEq] at hs'
        subst hs'
        exact absurd hl.2.1 hin
      · rw [List.getElem?_set_ne hii]
        exact hs'

theorem newGroupSlots_length (n : Nat) : (newGroupSlots n).length = n := by
  cases n <;> simp [newGroupSlots]

theorem newGroupSlots_inUse (n : Nat) : ∀ s ∈ newGroupSlots n, s.rapSessionInUse = 0 := by
  intro s hs
  cases n with
  | zero => simp [newGroupSlots] at hs
  | succ k =>
    simp only [newGroupSlots, List.mem_cons, List.mem_replicate] at hs
    rcases hs with rfl | ⟨_, rfl⟩ <;> rfl

/-- The two ways `addRapToDb` goes on a sorted table: the group exists, its
array is scanned and the session is stored in the slot chosen, or refused; or a
group is allocated with the session in slot 0 and the table sorted. -/
theorem addRapToDb_cases (config : WebdavdConfiguration) (db : List RapGroup) (now : Int)
    (rapSession : RestrictedAccessProcessor) (password : String) (hs : SortedDB db) :
    (∃ gi g, db[gi]? = some g ∧ g.user = rapSession.user ∧ g.password = password ∧
      (((addScanOf config now g).2.1 = none ∧
          addRapToDb config db now rapSession password =
            (db.set gi (withSlots g (addScanOf config now g).1), AddResult.backoff,
              (addScanOf config now g).2.2 ++ [rapSession.socketFd])) ∨
        (∃ i, (addScanOf config now g).2.1 = some i ∧
          addRapToDb config db now rapSession password =
            (db.set gi (withSlots g
                ((addScanOf config now g).1.set i (storedSession rapSession g.user))),
              AddResult.slot (gi, i), (addScanOf config now g).2.2)))) ∨
    ((∀ g ∈ db, ¬ (g.user = rapSession.user ∧ g.password = password)) ∧
      ∃ lastUser, addRapToDb config db now rapSession password =
        (qsort compareRapGroup (db ++ [allocatedGroup config rapSession password lastUser]),
          AddResult.slot
            ((qsort compareRapGroup
                (db ++ [allocatedGroup config rapSession password lastUser])).findIdx
              (fun g => compareRapGroup (allocatedGroup config rapSession password lastUser) g = 0),
              0),
          [])) := by
  cases hb : bsearch compareRapGroup
    { user := rapSession.user, password := password, rapSession := [] } db with
  | some gi =>
    left
    obtain ⟨g, hg, hu, hp⟩ := bsearch_rapDB_some hs hb
    refine ⟨gi, g, hg, hu, hp, ?_⟩
    unfold addRapToDb
    simp only [hb, hg]
    cases hr : (addScanOf config now g).2.1 with
    | none =>
      left
      unfold addScanOf at hr
      simp only [hr]
      exact ⟨trivial, rfl⟩
    | some i =>
      right
      unfold addScanOf at hr
      simp only [hr]
      exact ⟨i, rfl, rfl⟩
  | none =>
    right
    have hno := (bsearch_spec compareRapGroup
      { user := rapSession.user, password := password, rapSession := [] } db hs
      compareRapGroup_trans compareRapGroup_swap).2 hb
    constructor
    · intro g hg hkey
      obtain ⟨j, hj⟩ := List.mem_iff_getElem?.mp hg
      have := hno j g hj
      rw [ne_eq, compareRapGroup_eq_zero] at this
      exact this ⟨hkey.1.symm, hkey.2.symm⟩
    · unfold addRapToDb
      simp only [hb]
      exact ⟨_, rfl⟩

theorem slotsOk_inUse_zero {slots : List RestrictedAccessProcessor} (hok : SlotsOk slots)
    {s : RestrictedAccessProcessor} (hs : s ∈ slots)
    (h : s.socketFd = -1 ∨ s.rapSessionInUse = 0) : s.rapSessionInUse = 0 := by
  rcases h with h | h
  · by_contra hin
    exact hok s hs hin h
  · exact h

/-- In a sorted table `findIdx` on the key of a member finds that member. -/
theorem findIdx_key {db : List RapGroup} (hs : SortedDB db) {g : RapGroup} (hg : g ∈ db) :
    db[db.findIdx (fun x => compareRapGroup g x = 0)]? = some g := by
  have hex : ∃ x ∈ db, (fun x => decide (compareRapGroup g x = 0)) x = true :=
    ⟨g, hg, by simp [compareRapGroup_eq_zero]⟩
  have hlt := List.findIdx_lt_length_of_exists hex
  have hp := (compareRapGroup_eq_zero _ _).mp (of_decide_eq_true (List.findIdx_getElem (w := hlt)))
  obtain ⟨j, hj⟩ := List.mem_iff_getElem?.mp hg
  have hi := List.getElem?_eq_getElem hlt
  have := sorted_key_unique hs hi hj hp.1.symm hp.2.symm
  rw [this]
  exact hj

/-- What `addRapToDb` keeps and gives for a live session: the invariant, the
slots in use, and for the slot returned its state after and before the call. -/
theorem addRapToDb_inv {config : WebdavdConfiguration} {db : List RapGroup}
    (hmax : 1 ≤ config.rapMaxSessionsPerUser) (hinv : PoolInv config db) (now : Int)
    (rapSession : RestrictedAccessProcessor) (password : String)
    (hlive : rapSession.socketFd ≠ -1) :
    PoolInv config (addRapToDb config db now rapSession password).1 ∧
    LeasedKept db (addRapToDb config db now rapSession password).1 ∧
    (∀ ptr, (addRapToDb config db now rapSession password).2.1 = AddResult.slot ptr →
      (∃ s', getSlot (addRapToDb config db now rapSession password).1 ptr = some s' ∧
        s'.rapSessionInUse = 1 ∧ s'.socketFd = rapSession.socketFd) ∧
      ((∃ g s, db[ptr.1]? = some g ∧ g.user = rapSession.user ∧ g.password = password ∧
          g.rapSession[ptr.2]? = some s ∧ s.rapSessionInUse = 0) ∨
        (∀ g ∈ db, ¬ (g.user = rapSession.user ∧ g.password = password)))) := by
  rcases addRapToDb_cases config db now rapSession password hinv.1.1 with
    ⟨gi, g, hg, hu, hp, hcase⟩ | ⟨hnew, lastUser, hres⟩
  · have hgm := List.getElem?_mem hg
    have hspec := addScan_spec (now - config.rapMaxSessionLife) config.rapMaxSessionsPerUser 0
      g.rapSession none
    have hok := hinv.2 g hgm
    rcases hcase with ⟨_, hres⟩ | ⟨i, hi, hres⟩
    · rw [hres]
      refine ⟨poolInv_set hinv hg rfl hspec.1 (slotsOk_of_pointwise hspec.2.1 hok), ?_, ?_⟩
      · exact leasedKept_set hg rfl (fun i s hs hin => kept_of_pointwise hspec.2.1 hs hin)
      · intro ptr hptr
        simp at hptr
    · rw [hres]
      rcases hspec.2.2 i hi with hc | ⟨k, t, s, hik, _, hk, htfd, hsk, hsz⟩
      · simp at hc
      have hik' : i = k := by omega
      subst hik'
      refine ⟨?_, ?_, ?_⟩
      · refine poolInv_set hinv hg rfl ?_ ?_
        · simp [withSlots]
          exact hspec.1
        · exact slotsOk_set (slotsOk_of_pointwise hspec.2.1 hok) hlive
      · refine leasedKept_set hg rfl ?_
        intro i' s' hs' hin
        have hkept := kept_of_pointwise hspec.2.1 hs' hin
        have hne : i ≠ i' := by
          intro heq
          subst heq
          rw [hk] at hkept
          simp only [Option.some.injEq] at hkept
          subst hkept
          exact hok _ (List.getElem?_mem hs') hin htfd
        simp only [withSlots, addScanOf]
        rw [List.getElem?_set_ne hne]
        exact hkept
      · intro ptr hptr
        simp only [AddResult.slot.injEq] at hptr
        subst hptr
        constructor
        · refine ⟨storedSession rapSession g.user, ?_, rfl, rfl⟩
          rw [getSlot_eq (getElem?_set_self' hg)]
          simp only [withSlots, addScanOf]
          exact getElem?_set_self' hk
        · left
          exact ⟨g, s, hg, hu, hp, hsk, slotsOk_inUse_zero hok (List.getElem?_mem hsk) hsz⟩
  · rw [hres]
    have hperm := qsort_perm compareRapGroup
      (db ++ [allocatedGroup config rapSession password lastUser])
    have hne : ∀ b ∈ db,
        compareRapGroup (allocatedGroup config rapSession password lastUser) b ≠ 0 := by
      intro b hb h0
      rw [compareRapGroup_eq_zero] at h0
      exact hnew b hb ⟨h0.1.symm, h0.2.symm⟩
    have hsorted := qsort_append_sorted db _ hinv.1.1 hne
    have hmem : ∀ x, x ∈ qsort compareRapGroup
        (db ++ [allocatedGroup config rapSession password lastUser]) ↔
        x ∈ db ∨ x = allocatedGroup config rapSession password lastUser := by
      intro x
      rw [hperm.mem_iff]
      simp
    obtain ⟨k, hk⟩ : ∃ k, config.rapMaxSessionsPerUser = k + 1 := ⟨_, (Nat.sub_add_cancel hmax).symm⟩
    have hslot0 : (allocatedGroup config rapSession password lastUser).rapSession[0]?
        = some (storedSession rapSession lastUser) := by
      simp [allocatedGroup, hk, newGroupSlots]
    refine ⟨⟨⟨hsorted, ?_⟩, ?_⟩, ?_, ?_⟩
    · intro x hx
      rcases (hmem x).mp hx with hx | rfl
      · exact hinv.1.2 x hx
      · simp [allocatedGroup, newGroupSlots_length]
    · intro x hx
      rcases (hmem x).mp hx with hx | rfl
      · exact hinv.2 x hx
      · intro s hs hin
        rcases mem_set_iff hs with rfl | hs
        · exact hlive
        · exact absurd (newGroupSlots_inUse _ s hs) hin
    · intro g hg i s hs _
      exact ⟨g, (hmem g).mpr (Or.inl hg), rfl, hs⟩
    · intro ptr hptr
      simp only [AddResult.slot.injEq] at hptr
      subst hptr
      constructor
      · refine ⟨storedSession rapSession lastUser, ?_, rfl, rfl⟩
        have hfi := findIdx_key hsorted ((hmem _).mpr (Or.inr rfl))
        simp only [getSlot]
        rw [hfi]
        exact hslot0
      · right
        exact hnew

theorem mem_modify {α : Type} (f : α → α) :
    ∀ (l : List α) (n : Nat) (x : α), x ∈ l.modify f n → x ∈ l ∨ ∃ a ∈ l, x = f a
  | [], _, x, h => by simp at h
  | a :: l, 0, x, h => by
    simp only [List.modify_zero_cons, List.mem_cons] at h
    rcases h with rfl | h
    · exact Or.inr ⟨a, List.mem_cons_self _ _, rfl⟩
    · exact Or.inl (List.mem_cons_of_mem _ h)
  | a :: l, n + 1, x, h => by
    simp only [List.modify_succ_cons, List.mem_cons] at h
    rcases h with rfl | h
    · exact Or.inl (List.mem_cons_self _ _)
    · rcases mem_modify f l n x h with h | ⟨b, hb, rfl⟩
      · exact Or.inl (List.mem_cons_of_mem _ h)
      · exact Or.inr ⟨b, List.mem_cons_of_mem _ hb, rfl⟩

/-- `releaseRap` keeps the invariant and touches no other slot. -/
theorem releaseRap_inv {config : WebdavdConfiguration} {db : List RapGroup}
    (hinv : PoolInv config db) (ptr : SlotPtr) :
    PoolInv config (releaseRap db ptr) ∧
    ∀ ptr' : SlotPtr, ptr' ≠ ptr → getSlot (releaseRap db ptr) ptr' = getSlot db ptr' := by
  unfold releaseRap setInUse
  refine ⟨⟨⟨?_, ?_⟩, ?_⟩, ?_⟩
  · refine sortedDB_of_keys (Eq.symm ?_) hinv.1.1
    apply map_key_modify
    intro g
    rfl
  · intro x hx
    rcases mem_modify _ _ _ _ hx with hx | ⟨g, hg, rfl⟩
    · exact hinv.1.2 x hx
    · simp only [List.length_modify]
      exact hinv.1.2 g hg
  · intro x hx
    rcases mem_modify _ _ _ _ hx with hx | ⟨g, hg, rfl⟩
    · exact hinv.2 x hx
    · intro s hs hin
      rcases mem_modify _ _ _ _ hs with hs | ⟨t, ht, rfl⟩
      · exact hinv.2 g hg s hs hin
      · simp at hin
  · intro ptr' hne
    obtain ⟨gi, i⟩ := ptr
    obtain ⟨gi', i'⟩ := ptr'
    simp only [getSlot, List.getElem?_modify]
    cases hg : db[gi']? with
    | none => simp
    | some g =>
      by_cases hgi : gi = gi'
      · subst hgi
        have hi : i ≠ i' := by
          intro h
          subst h
          exact hne rfl
        simp [List.getElem?_modify, hi]
      · simp [hgi]

/-- What one pass of `rapTimeoutWorker` does to the table: group by group the
key and the number of slots stay, a slot stays or, being idle with an open
socket, is destroyed. -/
theorem rapTimeoutWorker_spec (config : WebdavdConfiguration) (now : Int) :
    ∀ db : List RapGroup,
      ((rapTimeoutWorker config now db).1.map RapGroup.key = db.map RapGroup.key) ∧
      (∀ g' ∈ (rapTimeoutWorker config now db).1, ∃ g ∈ db,
        g'.rapSession.length = g.rapSession.length ∧
        ∀ k : Nat, g'.rapSession[k]? = g.rapSession[k]? ∨
          ∃ s, g.rapSession[k]? = some s ∧ s.rapSessionInUse = 0 ∧ s.socketFd ≠ -1 ∧
            g'.rapSession[k]? = some (destroyRap s)) ∧
      (∀ g ∈ db, ∃ g' ∈ (rapTimeoutWorker config now db).1, g'.key = g.key ∧
        ∀ k : Nat, g'.rapSession[k]? = g.rapSession[k]? ∨
          ∃ s, g.rapSession[k]? = some s ∧ s.rapSessionInUse = 0 ∧ s.socketFd ≠ -1 ∧
            g'.rapSession[k]? = some (destroyRap s)) := by
  intro db
  induction db with
  | nil => simp [rapTimeoutWorker]
  | cons g db ih =>
    obtain ⟨ih1, ih2, ih3⟩ := ih
    have hspec := timeoutSlots_spec (now - config.rapMaxSessionLife)
      config.rapMaxSessionsPerUser g.rapSession
    simp only [rapTimeoutWorker]
    refine ⟨?_, ?_, ?_⟩
    · simp only [List.map_cons, ih1]
      rfl
    · intro g' hg'
      rcases List.mem_cons.mp hg' with rfl | hg'
      · exact ⟨g, List.mem_cons_self _ _, hspec.1, hspec.2⟩
      · obtain ⟨x, hx, h⟩ := ih2 g' hg'
        exact ⟨x, List.mem_cons_of_mem _ hx, h⟩
    · intro x hx
      rcases List.mem_cons.mp hx with rfl | hx
      · exact ⟨_, List.mem_cons_self _ _, rfl, hspec.2⟩
      · obtain ⟨g', hg', h⟩ := ih3 x hx
        exact ⟨g', List.mem_cons_of_mem _ hg', h⟩

theorem rapTimeoutWorker_inv {config : WebdavdConfiguration} {db : List RapGroup}
    (hinv : PoolInv config db) (now : Int) :
    PoolInv config (rapTimeoutWorker config now db).1 ∧
    LeasedKept db (rapTimeoutWorker config now db).1 := by
  obtain ⟨h1, h2, h3⟩ := rapTimeoutWorker_spec config now db
  refine ⟨⟨⟨sortedDB_of_keys h1.symm hinv.1.1, ?_⟩, ?_⟩, ?_⟩
  · intro g' hg'
    obtain ⟨g, hg, hl, _⟩ := h2 g' hg'
    rw [hl]
    exact hinv.1.2 g hg
  · intro g' hg'
    obtain ⟨g, hg, _, hp⟩ := h2 g' hg'
    exact slotsOk_of_pointwise hp (hinv.2 g hg)
  · intro g hg i s hs hin
    obtain ⟨g', hg', hk, hp⟩ := h3 g hg
    exact ⟨g', hg', hk, kept_of_pointwise hp hs hin⟩

theorem poolInv_empty (config : WebdavdConfiguration) : PoolInv config [] := by
  simp [PoolInv, WellFormed, SortedDB]

/-- Every reachable table satisfies the invariant. -/
theorem poolInv_of_reachable {config : WebdavdConfiguration}
    (hmax : 1 ≤ config.rapMaxSessionsPerUser) {db : List RapGroup}
    (h : PoolReachable config db) : PoolInv config db := by
  induction h with
  | empty => exact poolInv_empty config
  | step _ hstep ih =>
    cases hstep with
    | acquire now user password => exact (acquireRapFromDb_inv ih now user password).1
    | add now rapSession password hlive =>
      exact (addRapToDb_inv hmax ih now rapSession password hlive).1
    | release ptr s _ _ => exact (releaseRap_inv ih ptr).1
    | timeout now => exact (rapTimeoutWorker_inv ih now).1

/-- C1: exclusive leasing. In every table the pool state machine reaches from
the empty table (with `rapMaxSessionsPerUser >= 1`): a slot in use has an open
socket; a slot returned by `acquireRapFromDb` was not in use before the call
and is in use, otherwise unchanged, after it; a slot returned by `addRapToDb`
was not in use before the call, or belongs to a group allocated by the call,
and after it is in use and holds the socket of the new session; and
`acquireRapFromDb`, `addRapToDb` and a pass of `rapTimeoutWorker` leave every
slot in use as it was (same group key, same index, same content), while
`releaseRap` changes no slot but the one released. So a slot in use is not
handed out again, overwritten or destroyed before its holder releases it. -/
theorem exclusive_leasing (config : WebdavdConfiguration)
    (hmax : 1 ≤ config.rapMaxSessionsPerUser) (rapDB : List RapGroup)
    (hreach : PoolReachable config rapDB) :
    (∀ g ∈ rapDB, ∀ s ∈ g.rapSession, s.rapSessionInUse ≠ 0 → s.socketFd ≠ -1) ∧
    (∀ now user password ptr,
      (acquireRapFromDb config rapDB now user password).2.1 = some ptr →
      ∃ s, getSlot rapDB ptr = some s ∧ s.rapSessionInUse = 0 ∧ s.socketFd ≠ -1 ∧
        getSlot (acquireRapFromDb config rapDB now user password).1 ptr
          = some { s with rapSessionInUse := 1 }) ∧
    (∀ now rapSession password ptr, rapSession.socketFd ≠ -1 →
      (addRapToDb config rapDB now rapSession password).2.1 = AddResult.slot ptr →
      (∃ s', getSlot (addRapToDb config rapDB now rapSession password).1 ptr = some s' ∧
        s'.rapSessionInUse = 1 ∧ s'.socketFd = rapSession.socketFd) ∧
      ((∃ g s, rapDB[ptr.1]? = some g ∧ g.user = rapSession.user ∧ g.password = password ∧
          g.rapSession[ptr.2]? = some s ∧ s.rapSessionInUse = 0) ∨
        (∀ g ∈ rapDB, ¬ (g.user = rapSession.user ∧ g.password = password)))) ∧
    (∀ now user password,
      LeasedKept rapDB (acquireRapFromDb config rapDB now user password).1) ∧
    (∀ now rapSession password, rapSession.socketFd ≠ -1 →
      LeasedKept rapDB (addRapToDb config rapDB now rapSession password).1) ∧
    (∀ now, LeasedKept rapDB (rapTimeoutWorker config now rapDB).1) ∧
    (∀ ptr ptr' : SlotPtr, ptr' ≠ ptr →
      getSlot (releaseRap rapDB ptr) ptr' = getSlot rapDB ptr') := by
  have hinv := poolInv_of_reachable hmax hreach
  refine ⟨hinv.2, ?_, ?_, ?_, ?_, ?_, ?_⟩
  · intro now user password ptr hres
    obtain ⟨gi, i⟩ := ptr
    obtain ⟨g, s, hg, hs, hl, htab⟩ := acquireRapFromDb_some hres
    refine ⟨s, ?_, hl.2.1, hl.1, ?_⟩
    · rw [getSlot_eq hg]
      exact hs
    · rw [htab, getSlot_eq (getElem?_set_self' hg)]
      exact getElem?_set_self' hs
  · intro now rapSession password ptr hlive hres
    exact (addRapToDb_inv hmax hinv now rapSession password hlive).2.2 ptr hres
  · intro now user password
    exact (acquireRapFromDb_inv hinv now user password).2
  · intro now rapSession password hlive
    exact (addRapToDb_inv hmax hinv now rapSession password hlive).2.1
  · intro now
    exact (rapTimeoutWorker_inv hinv now).2
  · intro ptr ptr' hne
    exact (releaseRap_inv hinv ptr).2 ptr' hne

/-- Witness for C1: a session is added to the empty table and released; the
next `acquireRapFromDb` for its credentials returns that slot, which was not in
use and is in use afterwards. -/
theorem exclusive_leasing_witness :
    ∃ s, getSlot examplePool2 (0, 0) = some s ∧ s.rapSessionInUse = 0 ∧ s.socketFd ≠ -1 ∧
      getSlot (acquireRapFromDb exampleConfig examplePool2 1001 "bob" "pw").1 (0, 0)
        = some { s with rapSessionInUse := 1 } :=
  (exclusive_leasing exampleConfig (by decide) examplePool2
    (PoolReachable.step
      (PoolReachable.step PoolReachable.empty
        (PoolStep.add [] 1000 (exampleSession 0 5 "bob" 1000) "pw" (by decide)))
      (PoolStep.release examplePool1 (0, 0) (exampleSession 1 5 "bob" 1000) (by decide)
        (by decide)))).2.1 1001 "bob" "pw" (0, 0) (by decide)

theorem liveSlots_eq (g : RapGroup) : liveSlots g = liveTagged g.user g.password g.rapSession :=
  rfl

theorem liveOf_cons (g : RapGroup) (db : List RapGroup) :
    liveOf (g :: db) = liveSlots g ++ liveOf db := by
  simp [liveOf]

theorem liveOf_append (a b : List RapGroup) : liveOf (a ++ b) = liveOf a ++ liveOf b := by
  simp [liveOf]

theorem liveTagged_fd (user password : String) (slots : List RestrictedAccessProcessor) :
    (liveTagged user password slots).map (fun c => c.2.2)
      = (slots.filter (fun s => decide (s.socketFd ≠ -1))).map (fun s => s.socketFd) := by
  simp [liveTagged]

/-- Replacing the array of one group: the children of the table change as the
children of the group do, up to order. -/
theorem liveOf_set_perm {db : List RapGroup} {gi : Nat} {g g' : RapGroup} {x y : List Child}
    (hg : db[gi]? = some g) (h : (x ++ liveSlots g).Perm (y ++ liveSlots g')) :
    (x ++ liveOf db).Perm (y ++ liveOf (db.set gi g')) := by
  induction db generalizing gi with
  | nil => simp at hg
  | cons a db ih =>
    cases gi with
    | zero =>
      simp only [List.getElem?_cons_zero, Option.some.injEq] at hg
      subst hg
      simp only [List.set_cons_zero, liveOf_cons]
      rw [← List.append_assoc, ← List.append_assoc]
      exact List.Perm.append_right _ h
    | succ gi =>
      simp only [List.getElem?_cons_succ] at hg
      simp only [List.set_cons_succ, liveOf_cons]
      have h1 : (x ++ (liveSlots a ++ liveOf db)).Perm (liveSlots a ++ (x ++ liveOf db)) := by
        rw [← List.append_assoc, ← List.append_assoc]
        exact List.Perm.append_right _ List.perm_append_comm
      have h2 : (liveSlots a ++ (y ++ liveOf (db.set gi g'))).Perm
          (y ++ (liveSlots a ++ liveOf (db.set gi g'))) := by
        rw [← List.append_assoc, ← List.append_assoc]
        exact List.Perm.append_right _ List.perm_append_comm
      exact (h1.trans (List.Perm.append_left _ (ih hg))).trans h2

theorem liveOf_modify_eq (f : RapGroup → RapGroup) (hf : ∀ g, liveSlots (f g) = liveSlots g) :
    ∀ (db : List RapGroup) (n : Nat), liveOf (db.modify f n) = liveOf db
  | [], _ => by simp
  | g :: db, 0 => by simp [liveOf_cons, hf]
  | g :: db, n + 1 => by simp [liveOf_cons, liveOf_modify_eq f hf db n]

theorem filter_map_modify_inUse (v : Int) :
    ∀ (slots : List RestrictedAccessProcessor) (i : Nat),
      ((slots.modify (fun s => { s with rapSessionInUse := v }) i).filter
          (fun s => decide (s.socketFd ≠ -1))).map (fun s => s.socketFd)
        = (slots.filter (fun s => decide (s.socketFd ≠ -1))).map (fun s => s.socketFd)
  | [], _ => by simp
  | s :: slots, 0 => by
    simp only [List.modify_zero_cons]
    by_cases h : s.socketFd = -1 <;> simp [List.filter_cons, h]
  | s :: slots, i + 1 => by
    simp only [List.modify_succ_cons]
    have ih := filter_map_modify_inUse v slots i
    by_cases h : s.socketFd = -1 <;> simpa [List.filter_cons, h] using ih

/-- Setting the lease flag of a slot does not change the children held. -/
theorem liveOf_setInUse (db : List RapGroup) (ptr : SlotPtr) (v : Int) :
    liveOf (setInUse db ptr v) = liveOf db := by
  unfold setInUse
  apply liveOf_modify_eq
  intro g
  have h := filter_map_modify_inUse v g.rapSession ptr.2
  simp only [liveSlots]
  have h2 : ∀ l : List RestrictedAccessProcessor,
      l.map (fun s => (g.user, g.password, s.socketFd))
        = (l.map (fun s => s.socketFd)).map (fun fd => (g.user, g.password, fd)) := by
    intro l
    simp
  rw [h2, h2, h]

theorem liveTagged_cons_live (user password : String) (s : RestrictedAccessProcessor)
    (rest : List RestrictedAccessProcessor) (h : s.socketFd ≠ -1) :
    liveTagged user password (s :: rest)
      = (user, password, s.socketFd) :: liveTagged user password rest := by
  simp [liveTagged, List.filter_cons, h]

theorem liveTagged_cons_dead (user password : String) (s : RestrictedAccessProcessor)
    (rest : List RestrictedAccessProcessor) (h : s.socketFd = -1) :
    liveTagged user password (s :: rest) = liveTagged user password rest := by
  simp [liveTagged, List.filter_cons, h]

/-- The loop of `addRapToDb` removes from the children of the group those on
the sockets it closed. -/
theorem addScan_perm (user password : String) (e : Int) :
    ∀ (n i : Nat) (slots : List RestrictedAccessProcessor) (new : Option Nat),
      (liveTagged user password slots).Perm
        ((addScan e n i slots new).2.2.map (fun fd => (user, password, fd)) ++
          liveTagged user password (addScan e n i slots new).1) := by
  intro n
  induction n with
  | zero => intro i slots new; simp [addScan]
  | succ n ih =>
    intro i slots new
    cases slots with
    | nil => simp [addScan]
    | cons s rest =>
      simp only [addScan]
      by_cases h1 : s.socketFd = -1
      · rw [if_pos h1]
        simp
      · rw [if_neg h1]
        by_cases h2 : s.rapCreated < e ∧ s.rapSessionInUse = 0
        · rw [if_pos h2]
          simp only [List.map_cons, List.cons_append]
          rw [liveTagged_cons_live _ _ _ _ h1,
            liveTagged_cons_dead _ _ (destroyRap s) _ (by simp [destroyRap])]
          exact List.Perm.cons _ (ih (i + 1) rest (some i))
        · rw [if_neg h2]
          simp only
          rw [liveTagged_cons_live _ _ _ _ h1, liveTagged_cons_live _ _ _ _ h1]
          exact (List.Perm.cons _ (ih (i + 1) rest new)).trans List.perm_middle.symm

/-- The inner loop of `rapTimeoutWorker` removes from the children of the
group those on the sockets it closed. -/
theorem timeoutSlots_perm (user password : String) (e : Int) :
    ∀ (n : Nat) (slots : List RestrictedAccessProcessor),
      (liveTagged user password slots).Perm
        ((timeoutSlots e n slots).2.map (fun fd => (user, password, fd)) ++
          liveTagged user password (timeoutSlots e n slots).1) := by
  intro n
  induction n with
  | zero => intro slots; simp [timeoutSlots]
  | succ n ih =>
    intro slots
    cases slots with
    | nil => simp [timeoutSlots]
    | cons s rest =>
      simp only [timeoutSlots]
      by_cases h : s.rapSessionInUse = 0 ∧ s.socketFd ≠ -1 ∧ s.rapCreated < e
      · rw [if_pos h]
        simp only [List.map_cons, List.cons_append]
        rw [liveTagged_cons_live _ _ _ _ h.2.1,
          liveTagged_cons_dead _ _ (destroyRap s) _ (by simp [destroyRap])]
        exact List.Perm.cons _ (ih rest)
      · rw [if_neg h]
        simp only
        by_cases h1 : s.socketFd = -1
        · rw [liveTagged_cons_dead _ _ _ _ h1, liveTagged_cons_dead _ _ _ _ h1]
          exact ih rest
        · rw [liveTagged_cons_live _ _ _ _ h1, liveTagged_cons_live _ _ _ _ h1]
          exact (List.Perm.cons _ (ih rest)).trans List.perm_middle.symm

/-- Storing a live session in an empty slot adds its child. -/
theorem liveTagged_set (user password : String) (new : RestrictedAccessProcessor)
    (hnew : new.socketFd ≠ -1) :
    ∀ (slots : List RestrictedAccessProcessor) (i : Nat) (t : RestrictedAccessProcessor),
      slots[i]? = some t → t.socketFd = -1 →
      ((user, password, new.socketFd) :: liveTagged user password slots).Perm
        (liveTagged user password (slots.set i new))
  | [], _, _, h, _ => by simp at h
  | s :: rest, 0, t, h, ht => by
    simp only [List.getElem?_cons_zero, Option.some.injEq] at h
    subst h
    simp only [List.set_cons_zero]
    rw [liveTagged_cons_dead _ _ _ _ ht, liveTagged_cons_live _ _ _ _ hnew]
  | s :: rest, i + 1, t, h, ht => by
    simp only [List.getElem?_cons_succ] at h
    simp only [List.set_cons_succ]
    have ih := liveTagged_set user password new hnew rest i t h ht
    by_cases h1 : s.socketFd = -1
    · rw [liveTagged_cons_dead _ _ _ _ h1, liveTagged_cons_dead _ _ _ _ h1]
      exact ih
    · rw [liveTagged_cons_live _ _ _ _ h1, liveTagged_cons_live _ _ _ _ h1]
      exact (List.Perm.swap _ _ _).trans (List.Perm.cons _ ih)

/-- One pass of `rapTimeoutWorker` removes from the children of the table
those on the sockets it closed. -/
theorem rapTimeoutWorker_perm (config : WebdavdConfiguration) (now : Int) :
    ∀ db : List RapGroup, ∃ closed : List Child,
      closed.map (fun c => c.2.2) = (rapTimeoutWorker config now db).2 ∧
      (liveOf db).Perm (closed ++ liveOf (rapTimeoutWorker config now db).1) := by
  intro db
  induction db with
  | nil => exact ⟨[], rfl, by simp [rapTimeoutWorker, liveOf]⟩
  | cons g db ih =>
    obtain ⟨closed, hc, hp⟩ := ih
    have hg := timeoutSlots_perm g.user g.password (now - config.rapMaxSessionLife)
      config.rapMaxSessionsPerUser g.rapSession
    refine ⟨(timeoutSlots (now - config.rapMaxSessionLife) config.rapMaxSessionsPerUser
      g.rapSession).2.map (fun fd => (g.user, g.password, fd)) ++ closed, ?_, ?_⟩
    · simp only [rapTimeoutWorker, List.map_append, List.map_map, hc]
      congr 1
      exact List.map_id _
    · simp only [rapTimeoutWorker, liveOf_cons]
      have h1 := List.Perm.append hg hp
      refine h1.trans ?_
      simp only [liveSlots_eq, List.append_assoc]
      refine List.Perm.append_left _ ?_
      rw [← List.append_assoc, ← List.append_assoc]
      exact List.Perm.append_right _ List.perm_append_comm

theorem childrenAfter_destroy (user password : String) (closed : List Int) :
    ∀ children : List Child,
      childrenAfter user password children (closed.map ServerEvent.destroyRap)
        = children.filter (fun c => decide (c.2.2 ∉ closed)) := by
  induction closed with
  | nil => intro children; simp [childrenAfter]
  | cons fd closed ih =>
    intro children
    simp only [childrenAfter, List.map_cons, List.foldl_cons, childrenAfterEvent] at ih ⊢
    rw [ih, List.filter_filter]
    congr 1
    funext c
    simp only [List.mem_cons, not_or, Bool.decide_and, Bool.and_comm]

theorem childrenAfter_append (user password : String) (children : List Child)
    (a b : List ServerEvent) :
    childrenAfter user password children (a ++ b)
      = childrenAfter user password (childrenAfter user password children a) b := by
  simp [childrenAfter]

/-- Removing the children on the closed sockets, when no two children share a
socket. -/
theorem children_filter_closed {children closed rest : List Child}
    (hperm : children.Perm (closed ++ rest))
    (hnodup : (children.map (fun c => c.2.2)).Nodup) :
    (children.filter (fun c => decide (c.2.2 ∉ closed.map (fun c => c.2.2)))).Perm rest ∧
    ((children.filter (fun c => decide (c.2.2 ∉ closed.map (fun c => c.2.2)))).map
      (fun c => c.2.2)).Nodup := by
  constructor
  · have hn : ((closed ++ rest).map (fun c : Child => c.2.2)).Nodup :=
      (List.Perm.nodup_iff (List.Perm.map _ hperm)).mp hnodup
    rw [List.map_append, List.nodup_append] at hn
    have h1 := List.Perm.filter (fun c : Child => decide (c.2.2 ∉ closed.map (fun c => c.2.2))) hperm
    rw [List.filter_append] at h1
    have h2 : closed.filter (fun c : Child => decide (c.2.2 ∉ closed.map (fun c => c.2.2))) = [] := by
      rw [List.filter_eq_nil_iff]
      intro c hc
      simp only [decide_eq_true_eq, not_not]
      exact List.mem_map_of_mem _ hc
    have h3 : rest.filter (fun c : Child => decide (c.2.2 ∉ closed.map (fun c => c.2.2))) = rest := by
      rw [List.filter_eq_self]
      intro c hc
      simp only [decide_eq_true_eq]
      intro hmem
      exact hn.2.2 hmem (List.mem_map_of_mem _ hc)
    rw [h2, h3, List.nil_append] at h1
    exact h1
  · exact List.Nodup.sublist (List.Sublist.map _ (List.filter_sublist _)) hnodup

/-- In a sorted table with all arrays of `rapMaxSessionsPerUser` slots the
children of one key number at most `rapMaxSessionsPerUser`. -/
theorem liveOf_key_le (config : WebdavdConfiguration) (user password : String) :
    ∀ db : List RapGroup, WellFormed config db →
      ((liveOf db).filter (fun c => decide (c.1 = user ∧ c.2.1 = password))).length
        ≤ config.rapMaxSessionsPerUser ∧
      ((∀ g ∈ db, ¬ (g.user = user ∧ g.password = password)) →
        (liveOf db).filter (fun c => decide (c.1 = user ∧ c.2.1 = password)) = []) := by
  intro db
  induction db with
  | nil => intro _; simp [liveOf]
  | cons g db ih =>
    intro hwf
    have hs := List.pairwise_cons.mp hwf.1
    have hwf' : WellFormed config db := ⟨hs.2, fun x hx => hwf.2 x (List.mem_cons_of_mem _ hx)⟩
    obtain ⟨ih1, ih2⟩ := ih hwf'
    have hnokey : ¬ (g.user = user ∧ g.password = password) →
        (liveSlots g).filter (fun c => decide (c.1 = user ∧ c.2.1 = password)) = [] := by
      intro hk
      rw [List.filter_eq_nil_iff]
      intro c hc
      simp only [liveSlots, List.mem_map] at hc
      obtain ⟨s, _, rfl⟩ := hc
      simpa using hk
    constructor
    · rw [liveOf_cons, List.filter_append, List.length_append]
      by_cases hk : g.user = user ∧ g.password = password
      · have hrest : (liveOf db).filter (fun c => decide (c.1 = user ∧ c.2.1 = password)) = [] := by
          apply ih2
          intro x hx hxk
          have hlt := hs.1 x hx
          have h0 := (compareRapGroup_eq_zero g x).mpr
            ⟨hk.1.trans hxk.1.symm, hk.2.trans hxk.2.symm⟩
          omega
        rw [hrest, List.length_nil, Nat.add_zero]
        refine le_trans (List.length_filter_le _ _) ?_
        simp only [liveSlots, List.length_map]
        refine le_trans (List.length_filter_le _ _) ?_
        exact le_of_eq (hwf.2 g (List.mem_cons_self _ _))
      · rw [hnokey hk, List.length_nil, Nat.zero_add]
        exact ih1
    · intro hno
      rw [liveOf_cons, List.filter_append,
        hnokey (hno g (List.mem_cons_self _ _)),
        ih2 (fun x hx => hno x (List.mem_cons_of_mem _ hx))]
      rfl

theorem liveSlots_allocatedGroup (config : WebdavdConfiguration)
    (hmax : 1 ≤ config.rapMaxSessionsPerUser) (rapSession : RestrictedAccessProcessor)
    (password lastUser : String) (hlive : rapSession.socketFd ≠ -1) :
    liveSlots (allocatedGroup config rapSession password lastUser)
      = [(rapSession.user, password, rapSession.socketFd)] := by
  obtain ⟨k, hk⟩ : ∃ k, config.rapMaxSessionsPerUser = k + 1 := ⟨_, (Nat.sub_add_cancel hmax).symm⟩
  simp only [liveSlots, allocatedGroup, hk, newGroupSlots, List.set_cons_zero]
  rw [List.filter_cons_of_pos (by simpa [storedSession] using hlive)]
  rw [List.filter_eq_nil_iff.mpr]
  · simp [storedSession]
  · intro s hs
    rw [List.mem_replicate] at hs
    simp [hs.2]

/-- `addRapToDb` for a live session: the children held by the table afterwards
are those held before and the new one, less those on the sockets closed. -/
theorem addRapToDb_perm {config : WebdavdConfiguration} {db : List RapGroup}
    (hmax : 1 ≤ config.rapMaxSessionsPerUser) (hs : SortedDB db) (now : Int)
    (rapSession : RestrictedAccessProcessor) (password : String)
    (hlive : rapSession.socketFd ≠ -1) :
    ∃ closed : List Child,
      closed.map (fun c => c.2.2) = (addRapToDb config db now rapSession password).2.2 ∧
      (liveOf db ++ [(rapSession.user, password, rapSession.socketFd)]).Perm
        (closed ++ liveOf (addRapToDb config db now rapSession password).1) := by
  have hmapfd : ∀ (u p : String) (l : List Int),
      (l.map (fun fd => ((u, p, fd) : Child))).map (fun c => c.2.2) = l := by
    intro u p l
    rw [List.map_map]
    exact List.map_id _
  rcases addRapToDb_cases config db now rapSession password hs with
    ⟨gi, g, hg, hu, hp, hcase⟩ | ⟨hnew, lastUser, hres⟩
  · have hscan := addScan_perm g.user g.password (now - config.rapMaxSessionLife)
      config.rapMaxSessionsPerUser 0 g.rapSession none
    have hspec := addScan_spec (now - config.rapMaxSessionLife) config.rapMaxSessionsPerUser 0
      g.rapSession none
    rcases hcase with ⟨_, hres⟩ | ⟨i, hi, hres⟩
    · rw [hres]
      refine ⟨(addScanOf config now g).2.2.map (fun fd => (g.user, g.password, fd)) ++
        [(rapSession.user, password, rapSession.socketFd)], ?_, ?_⟩
      · rw [List.map_append, hmapfd]
        rfl
      · have h1 : ([] ++ liveOf db).Perm
            ((addScanOf config now g).2.2.map (fun fd => (g.user, g.password, fd)) ++
              liveOf (db.set gi (withSlots g (addScanOf config now g).1))) :=
          liveOf_set_perm hg (by simpa [liveSlots_eq, withSlots, addScanOf] using hscan)
        simp only [List.nil_append] at h1
        refine (List.Perm.append_right _ h1).trans ?_
        rw [List.append_assoc, List.append_assoc]
        exact List.Perm.append_left _ List.perm_append_comm
    · rw [hres]
      rcases hspec.2.2 i hi with hc | ⟨k, t, s, hik, _, hk, htfd, _, _⟩
      · simp at hc
      have hik' : i = k := by omega
      subst hik'
      refine ⟨(addScanOf config now g).2.2.map (fun fd => (g.user, g.password, fd)), ?_, ?_⟩
      · rw [hmapfd]
      · have hset := liveTagged_set g.user g.password (storedSession rapSession g.user)
          (by simpa [storedSession] using hlive) _ i t hk htfd
        have hgroup : ([(rapSession.user, password, rapSession.socketFd)] ++ liveSlots g).Perm
            ((addScanOf config now g).2.2.map (fun fd => (g.user, g.password, fd)) ++
              liveSlots (withSlots g
                ((addScanOf config now g).1.set i (storedSession rapSession g.user)))) := by
          simp only [liveSlots_eq, withSlots, addScanOf]
          rw [← hu, ← hp]
          refine (List.Perm.append_left _ hscan).trans ?_
          simp only [List.singleton_append]
          refine List.perm_middle.symm.trans ?_
          exact List.Perm.append_left _ hset
        exact List.perm_append_comm.trans (liveOf_set_perm hg hgroup)
  · rw [hres]
    refine ⟨[], rfl, ?_⟩
    simp only [List.nil_append]
    have hperm := qsort_perm compareRapGroup
      (db ++ [allocatedGroup config rapSession password lastUser])
    have h2 : (liveOf (qsort compareRapGroup
        (db ++ [allocatedGroup config rapSession password lastUser]))).Perm
        (liveOf (db ++ [allocatedGroup config rapSession password lastUser])) :=
      List.Perm.flatMap_right _ hperm
    refine List.Perm.trans ?_ h2.symm
    rw [liveOf_append]
    simp only [liveOf, List.flatMap_cons, List.flatMap_nil, List.append_nil]
    rw [liveSlots_allocatedGroup config hmax rapSession password lastUser hlive]

/-- What `createRap` does to the set of children: a session filled in is a new
child on the socket handed out; after a failure there are the children there
were. -/
theorem createRap_children (io : CreateRapIO) (processor : RestrictedAccessProcessor)
    (user password rhost : String) (children : List Child)
    (hfresh : io.forkResult ≠ 0 → io.newSockFd ∉ children.map (fun c => c.2.2)) :
    (∀ p, (createRap io processor user password rhost).1 = CreateRapResult.created p →
      p.socketFd = io.newSockFd ∧ p.user = user ∧ io.forkResult ≠ 0 ∧
      childrenAfter user password children (createRap io processor user password rhost).2
        = children ++ [(user, password, io.newSockFd)]) ∧
    ((∀ p, (createRap io processor user password rhost).1 ≠ CreateRapResult.created p) →
      childrenAfter user password children (createRap io processor user password rhost).2
        = children) := by
  have hfilter : io.forkResult ≠ 0 →
      (children ++ [((user, password, io.newSockFd) : Child)]).filter
        (fun c => decide (c.2.2 ≠ io.newSockFd)) = children := by
    intro hf
    rw [List.filter_append]
    have h1 : children.filter (fun c => decide (c.2.2 ≠ io.newSockFd)) = children := by
      rw [List.filter_eq_self]
      intro c hc
      simp only [decide_eq_true_eq]
      intro heq
      exact hfresh hf (heq ▸ List.mem_map_of_mem (fun c : Child => c.2.2) hc)
    rw [h1]
    simp
  unfold createRap
  by_cases hf : io.forkResult = 0
  · simp [hf, childrenAfter]
  · simp only [hf, if_false]
    by_cases hsend : io.sendResult ≤ 0
    · simp only [hsend, if_true]
      refine ⟨fun p hp => by simp at hp, fun _ => ?_⟩
      simpa [childrenAfter, childrenAfterEvent] using hfilter hf
    · simp only [hsend, if_false]
      by_cases hrecv : io.recvResult ≤ 0 ∨ io.recvMID ≠ RapConstant.RAP_SUCCESS
      · simp only [hrecv, if_true]
        refine ⟨fun p hp => ?_, fun _ => ?_⟩
        · split_ifs at hp
        · have := hfilter hf
          split_ifs <;> simpa [childrenAfter, childrenAfterEvent] using this
      · simp only [hrecv, if_false]
        refine ⟨fun p hp => ?_, fun h => absurd rfl (h _)⟩
        simp only [CreateRapResult.created.injEq] at hp
        subst hp
        exact ⟨rfl, rfl, hf, by simp [childrenAfter, childrenAfterEvent]⟩

theorem eraseIdx_perm {α : Type} : ∀ (l : List α) (i : Nat) (x : α), l[i]? = some x →
    l.Perm (x :: l.eraseIdx i) := by
  intro l
  induction l with
  | nil => intro i x h; simp at h
  | cons a l ih =>
    intro i x h
    cases i with
    | zero =>
      simp only [List.getElem?_cons_zero, Option.some.injEq] at h
      subst h
      simp
    | succ i =>
      simp only [List.getElem?_cons_succ] at h
      simp only [List.eraseIdx_cons_succ]
      exact (List.Perm.cons a (ih i x h)).trans (List.Perm.swap x a _)

theorem inFlightChildren_append (a b : List InFlight) :
    inFlightChildren (a ++ b) = inFlightChildren a ++ inFlightChildren b := by
  simp [inFlightChildren]

theorem inFlightChildren_eraseIdx (inFlight : List InFlight) (i : Nat) (x : InFlight)
    (h : inFlight[i]? = some x) :
    (inFlightChildren inFlight).Perm
      (inFlightChildren [x] ++ inFlightChildren (inFlight.eraseIdx i)) := by
  unfold inFlightChildren
  refine (List.Perm.flatMap_right _ (eraseIdx_perm inFlight i x h)).trans ?_
  simp

theorem liveOf_acquireRapFromDb (config : WebdavdConfiguration) (db : List RapGroup) (now : Int)
    (user password : String) :
    liveOf (acquireRapFromDb config db now user password).1 = liveOf db := by
  cases hres : (acquireRapFromDb config db now user password).2.1 with
  | none => rw [acquireRapFromDb_none_table config db now user password hres]
  | some ptr =>
    obtain ⟨gi, i⟩ := ptr
    obtain ⟨g, s, hg, hs, _, htab⟩ := acquireRapFromDb_some hres
    rw [htab, ← setInUse_eq_set hg hs 1, liveOf_setInUse]

/-- The session `createRap` fills in is on the socket handed out and carries
the user of the request. -/
theorem createRap_created (io : CreateRapIO) (processor : RestrictedAccessProcessor)
    (user password rhost : String) (q : RestrictedAccessProcessor)
    (h : (createRap io processor user password rhost).1 = CreateRapResult.created q) :
    q.socketFd = io.newSockFd ∧ q.user = user ∧ io.forkResult ≠ 0 := by
  have := (createRap_children io processor user password rhost [] (by simp)).1 q h
  exact ⟨this.1, this.2.1, this.2.2.1⟩

/-- A step that is possible keeps the invariant. -/
theorem daemonInv_step {config : WebdavdConfiguration} (hmax : 1 ≤ config.rapMaxSessionsPerUser)
    {st : DaemonState} (hinv : DaemonInv config st) (a : DaemonAction)
    (hposs : possible st a = true) : DaemonInv config (daemonStep config st a) := by
  obtain ⟨hpool, hperm, hnodup, hopen⟩ := hinv
  cases a with
  | lookup request now =>
    simp only [daemonStep]
    cases hu : request.basicAuthUser with
    | none => exact ⟨hpool, hperm, hnodup, hopen⟩
    | some user =>
      cases hp : request.basicAuthPassword with
      | none => exact ⟨hpool, hperm, hnodup, hopen⟩
      | some password =>
        simp only []
        have hp1 := (acquireRapFromDb_inv hpool now user password).1
        have hl := liveOf_acquireRapFromDb config st.rapDB now user password
        cases hres : (acquireRapFromDb config st.rapDB now user password).2.1 with
        | some ptr =>
          simp only []
          exact ⟨hp1, by rw [hl]; exact hperm, hnodup, hopen⟩
        | none =>
          simp only []
          split
          · refine ⟨hp1, ?_, hnodup, hopen⟩
            simp only [inFlightChildren_append, hl]
            simpa [inFlightChildren] using hperm
          · exact ⟨hp1, by rw [hl]; exact hperm, hnodup, hopen⟩
  | fork i io newSession =>
    simp only [daemonStep]
    cases hi : st.inFlight[i]? with
    | none => exact ⟨hpool, hperm, hnodup, hopen⟩
    | some x =>
      cases x with
      | insideCreate io2 ns user password rhost => exact ⟨hpool, hperm, hnodup, hopen⟩
      | beforeAdd s p => exact ⟨hpool, hperm, hnodup, hopen⟩
      | beforeCreate user password rhost =>
        simp only []
        simp only [possible, decide_eq_true_eq] at hposs
        have herase := inFlightChildren_eraseIdx st.inFlight i _ hi
        have hnone : inFlightChildren [InFlight.beforeCreate user password rhost] = [] := by
          simp [inFlightChildren]
        rw [hnone, List.nil_append] at herase
        have hperm' : st.children.Perm
            (liveOf st.rapDB ++ inFlightChildren (st.inFlight.eraseIdx i)) :=
          hperm.trans (List.Perm.append_left _ herase)
        by_cases hf : io.forkResult = 0
        · rw [if_pos hf]
          exact ⟨hpool, hperm', hnodup, hopen⟩
        · rw [if_neg hf]
          have hch : childrenAfter user password st.children
              [ServerEvent.forkRapProcess io.forkResult io.newSockFd]
              = st.children ++ [(user, password, io.newSockFd)] := by
            simp [childrenAfter, childrenAfterEvent]
          simp only [hch]
          refine ⟨hpool, ?_, ?_, ?_⟩
          · rw [inFlightChildren_append, ← List.append_assoc]
            have : inFlightChildren [InFlight.insideCreate io newSession user password rhost]
                = [((user, password, io.newSockFd) : Child)] := by
              simp [inFlightChildren]
            rw [this]
            exact List.Perm.append_right _ hperm'
          · rw [List.map_append, List.nodup_append]
            refine ⟨hnodup, by simp, ?_⟩
            intro fd ha hb
            simp only [List.map_cons, List.map_nil, List.mem_singleton] at hb
            subst hb
            exact (hposs hf).2 ha
          · intro c hc
            rw [List.mem_append] at hc
            rcases hc with hc | hc
            · exact hopen c hc
            · simp only [List.mem_singleton] at hc
              subst hc
              exact (hposs hf).1
  | finish i =>
    simp only [daemonStep]
    cases hi : st.inFlight[i]? with
    | none => exact ⟨hpool, hperm, hnodup, hopen⟩
    | some x =>
      cases x with
      | beforeCreate user password rhost => exact ⟨hpool, hperm, hnodup, hopen⟩
      | beforeAdd s p => exact ⟨hpool, hperm, hnodup, hopen⟩
      | insideCreate io ns user password rhost =>
        simp only []
        have herase := inFlightChildren_eraseIdx st.inFlight i _ hi
        have hone : inFlightChildren [InFlight.insideCreate io ns user password rhost]
            = [((user, password, io.newSockFd) : Child)] := by
          simp [inFlightChildren]
        rw [hone] at herase
        have hfail : DaemonInv config
            { st with
              children := childrenAfter user password st.children
                [ServerEvent.destroyRap io.newSockFd],
              inFlight := st.inFlight.eraseIdx i } := by
          have hall : st.children.Perm
              ([((user, password, io.newSockFd) : Child)] ++
                (liveOf st.rapDB ++ inFlightChildren (st.inFlight.eraseIdx i))) := by
            refine (hperm.trans (List.Perm.append_left _ herase)).trans ?_
            rw [← List.append_assoc, ← List.append_assoc]
            exact List.Perm.append_right _ List.perm_append_comm
          have h := children_filter_closed hall hnodup
          have hev : [ServerEvent.destroyRap io.newSockFd]
              = [io.newSockFd].map ServerEvent.destroyRap := rfl
          rw [hev, childrenAfter_destroy]
          refine ⟨hpool, h.1, h.2, ?_⟩
          intro c hc
          exact hopen c (List.mem_of_mem_filter hc)
        cases hcr : (createRap io ns user password rhost).1 with
        | AUTH_ERROR => exact hfail
        | AUTH_FAILED => exact hfail
        | created q =>
          simp only []
          obtain ⟨hqfd, hqu, _⟩ := createRap_created io ns user password rhost q hcr
          refine ⟨hpool, ?_, hnodup, hopen⟩
          rw [inFlightChildren_append]
          have : inFlightChildren [InFlight.beforeAdd q password]
              = [((user, password, io.newSockFd) : Child)] := by
            simp [inFlightChildren, hqfd, hqu]
          rw [this]
          exact hperm.trans (List.Perm.append_left _ (herase.trans List.perm_append_comm))
  | add i now =>
    simp only [daemonStep]
    cases hi : st.inFlight[i]? with
    | none => exact ⟨hpool, hperm, hnodup, hopen⟩
    | some x =>
      cases x with
      | beforeCreate user password rhost => exact ⟨hpool, hperm, hnodup, hopen⟩
      | insideCreate io ns user password rhost => exact ⟨hpool, hperm, hnodup, hopen⟩
      | beforeAdd s p =>
        simp only []
        have herase := inFlightChildren_eraseIdx st.inFlight i _ hi
        have hone : inFlightChildren [InFlight.beforeAdd s p]
            = [((s.user, p, s.socketFd) : Child)] := by
          simp [inFlightChildren]
        rw [hone] at herase
        have hmem : ((s.user, p, s.socketFd) : Child) ∈ st.children := by
          apply hperm.symm.subset
          apply List.mem_append_right
          apply herase.symm.subset
          simp
        have hlive : s.socketFd ≠ -1 := hopen _ hmem
        have hadd := addRapToDb_inv hmax hpool now s p hlive
        obtain ⟨closed, hc, hp⟩ := addRapToDb_perm hmax hpool.1.1 now s p hlive
        have hall : st.children.Perm
            (closed ++ (liveOf (addRapToDb config st.rapDB now s p).1 ++
              inFlightChildren (st.inFlight.eraseIdx i))) := by
          refine (hperm.trans (List.Perm.append_left _ herase)).trans ?_
          rw [← List.append_assoc, ← List.append_assoc]
          exact List.Perm.append_right _ hp
        have h := children_filter_closed hall hnodup
        rw [hc] at h
        rw [childrenAfter_destroy]
        refine ⟨hadd.1, h.1, h.2, ?_⟩
        intro c hc
        exact hopen c (List.mem_of_mem_filter hc)
  | release ptr =>
    simp only [daemonStep]
    refine ⟨(releaseRap_inv hpool ptr).1, ?_, hnodup, hopen⟩
    simp only [releaseRap, liveOf_setInUse]
    exact hperm
  | timeout now =>
    simp only [daemonStep]
    obtain ⟨closed, hc, hp⟩ := rapTimeoutWorker_perm config now st.rapDB
    have hall : st.children.Perm
        (closed ++ (liveOf (rapTimeoutWorker config now st.rapDB).1 ++
          inFlightChildren st.inFlight)) := by
      refine hperm.trans ?_
      rw [← List.append_assoc]
      exact List.Perm.append_right _ hp
    have h := children_filter_closed hall hnodup
    rw [hc] at h
    rw [childrenAfter_destroy]
    refine ⟨(rapTimeoutWorker_inv hpool now).1, h.1, h.2, ?_⟩
    intro c hc
    exact hopen c (List.mem_of_mem_filter hc)

theorem daemonInv_run {config : WebdavdConfiguration} (hmax : 1 ≤ config.rapMaxSessionsPerUser) :
    ∀ (actions : List DaemonAction) (st : DaemonState), DaemonInv config st →
      feasible config st actions = true → DaemonInv config (runDaemon config st actions) := by
  intro actions
  induction actions with
  | nil => intro st h _; exact h
  | cons a rest ih =>
    intro st h hf
    simp only [feasible, Bool.and_eq_true] at hf
    exact ih _ (daemonInv_step hmax h a hf.1) hf.2

theorem daemonInv_empty (config : WebdavdConfiguration) : DaemonInv config emptyDaemon :=
  ⟨poolInv_empty config, by simp [emptyDaemon, liveOf, inFlightChildren], by simp [emptyDaemon],
    by simp [emptyDaemon]⟩

theorem getElem?_append_length {α : Type} (l : List α) (x : α) :
    (l ++ [x])[l.length]? = some x := by
  simp

theorem eraseIdx_append_length {α : Type} : ∀ (l : List α) (x : α),
    (l ++ [x]).eraseIdx l.length = l := by
  intro l
  induction l with
  | nil => intro x; rfl
  | cons a l ih =>
    intro x
    simp only [List.cons_append, List.length_cons, List.eraseIdx_cons_succ, ih]

/-- The four steps of one request, taken in a row, are `acquireRap`. -/
theorem acquireRap_phases (config : WebdavdConfiguration) (st : DaemonState)
    (request : MHD_Connection) (io : AcquireIO) :
    runDaemon config st
        [DaemonAction.lookup request io.now,
         DaemonAction.fork st.inFlight.length io.create io.newSession,
         DaemonAction.finish st.inFlight.length,
         DaemonAction.add st.inFlight.length io.nowAdd]
      = { rapDB := (acquireRap config st.rapDB request io).1,
          children := childrenAfter (request.basicAuthUser.getD "")
            (request.basicAuthPassword.getD "") st.children
            (acquireRap config st.rapDB request io).2.2,
          inFlight := st.inFlight } := by
  obtain ⟨db, children, inFlight⟩ := st
  simp only [runDaemon]
  cases hu : request.basicAuthUser with
  | none =>
    simp [daemonStep, acquireRap, hu, childrenAfter, childrenAfterEvent]
  | some user =>
    cases hp : request.basicAuthPassword with
    | none =>
      simp [daemonStep, acquireRap, hu, hp, childrenAfter, childrenAfterEvent]
    | some password =>
      cases hres : (acquireRapFromDb config db io.now user password).2.1 with
      | some ptr =>
        simp [daemonStep, acquireRap, hu, hp, hres, childrenAfter]
      | none =>
        by_cases hcount : (acquireRapFromDb config db io.now user password).2.2
            < (config.rapMaxSessionsPerUser : Int)
        · by_cases hf : io.create.forkResult = 0
          · have hcr : createRap io.create io.newSession user password request.clientIp
                = (CreateRapResult.AUTH_ERROR, []) := by
              simp [createRap, hf]
            simp [daemonStep, acquireRap, hu, hp, hres, hcount, hf, hcr,
              eraseIdx_append_length, childrenAfter]
          · have hev : ∃ rest, (createRap io.create io.newSession user password
                  request.clientIp).2
                = ServerEvent.forkRapProcess io.create.forkResult io.create.newSockFd :: rest ∧
                (∀ q, (createRap io.create io.newSession user password request.clientIp).1
                  = CreateRapResult.created q →
                  childrenAfter user password
                    (children ++ [(user, password, io.create.newSockFd)]) rest
                  = children ++ [(user, password, io.create.newSockFd)]) ∧
                ((∀ q, (createRap io.create io.newSession user password request.clientIp).1
                  ≠ CreateRapResult.created q) →
                  childrenAfter user password
                    (children ++ [(user, password, io.create.newSockFd)]) rest
                  = childrenAfter user password
                    (children ++ [(user, password, io.create.newSockFd)])
                    [ServerEvent.destroyRap io.create.newSockFd]) := by
              unfold createRap
              simp only [hf, if_false]
              by_cases hsend : io.create.sendResult ≤ 0
              · simp only [hsend, if_true]
                exact ⟨_, rfl, fun q hq => by simp at hq,
                  fun _ => by simp [childrenAfter, childrenAfterEvent]⟩
              · simp only [hsend, if_false]
                by_cases hrecv : io.create.recvResult ≤ 0 ∨
                    io.create.recvMID ≠ RapConstant.RAP_SUCCESS
                · simp only [hrecv, if_true]
                  split_ifs
                  all_goals
                    exact ⟨_, rfl, fun q hq => by simp at hq,
                      fun _ => by simp [childrenAfter, childrenAfterEvent]⟩
                · simp only [hrecv, if_false]
                  exact ⟨_, rfl, fun q _ => by simp [childrenAfter, childrenAfterEvent],
                    fun h => absurd rfl (h _)⟩
            obtain ⟨rest, hrest, hcreated, hfailed⟩ := hev
            have hfork : childrenAfter user password children
                [ServerEvent.forkRapProcess io.create.forkResult io.create.newSockFd]
                = children ++ [(user, password, io.create.newSockFd)] := by
              simp [childrenAfter, childrenAfterEvent]
            have hwhole : childrenAfter user password children
                (createRap io.create io.newSession user password request.clientIp).2
                = childrenAfter user password
                  (children ++ [(user, password, io.create.newSockFd)]) rest := by
              rw [hrest]
              simp [childrenAfter, childrenAfterEvent]
            cases hcr : (createRap io.create io.newSession user password request.clientIp).1 with
            | AUTH_ERROR =>
              have h2 := hfailed (by rw [hcr]; intro q; simp)
              simp only [daemonStep, acquireRap, hu, hp, hres, hcount, hf, hcr, if_true, if_false,
                getElem?_append_length, eraseIdx_append_length, Option.getD_some, hfork, hwhole,
                h2, List.getElem?_eq_none (le_refl _)]
            | AUTH_FAILED =>
              have h2 := hfailed (by rw [hcr]; intro q; simp)
              simp only [daemonStep, acquireRap, hu, hp, hres, hcount, hf, hcr, if_true, if_false,
                getElem?_append_length, eraseIdx_append_length, Option.getD_some, hfork, hwhole,
                h2, List.getElem?_eq_none (le_refl _)]
            | created q =>
              have h2 := hcreated q hcr
              simp only [daemonStep, acquireRap, hu, hp, hres, hcount, hf, hcr, if_true, if_false,
                getElem?_append_length, eraseIdx_append_length, Option.getD_some, hfork,
                childrenAfter_append, childrenAfter_destroy, hwhole, h2]
        · simp [daemonStep, acquireRap, hu, hp, hres, hcount, childrenAfter]

/-- C4 as stated fails: with `rapMaxSessionsPerUser` = 2, two sessions of "bob"
are started (sockets 5 and 6) and released; at time 1000 both are expired. A
third request finds no session to lease and none in use, so `createRap` starts
a child on socket 7. Until `addRapToDb` runs for it, three children of "bob"
exist, none of them closed. -/
theorem in_flight_child_exceeds_cap :
    feasible exampleConfig emptyDaemon exampleThirdRequest = true ∧
    (runDaemon exampleConfig emptyDaemon exampleThirdRequest).children
      = [("bob", "pw", 5), ("bob", "pw", 6), ("bob", "pw", 7)] ∧
    (runDaemon exampleConfig emptyDaemon exampleThirdRequest).rapDB
      = [{ user := "bob", password := "pw",
           rapSession := [exampleSession 0 5 "bob" 100, exampleSession 0 6 "bob" 101] }] ∧
    (runDaemon exampleConfig emptyDaemon exampleThirdRequest).inFlight
      = [InFlight.beforeAdd (exampleSession 0 7 "bob" 1000) "pw"] ∧
    ¬ (((runDaemon exampleConfig emptyDaemon exampleThirdRequest).children.filter
        (fun c => decide (c.1 = "bob" ∧ c.2.1 = "pw"))).length
      ≤ exampleConfig.rapMaxSessionsPerUser) := by
  decide

/-- C4, amended: in every state the server reaches from the empty pool by the
steps of `daemonStep` (inside `acquireRap` the call of `acquireRapFromDb`, the
fork in `createRap`, the rest of `createRap` and the call of `addRapToDb`,
taken by any number of requests in any order; `releaseRap`; passes of
`rapTimeoutWorker`; with `rapMaxSessionsPerUser >= 1`), the RAP children of one
(user, password) whose control socket `destroyRap` has not closed number at
most `rapMaxSessionsPerUser` plus the children of that key in flight: started
by the fork in `createRap` and neither stored nor destroyed yet by `createRap`
or `addRapToDb`. When no child of the key is in flight, in particular between
whole calls of `acquireRap`, they number at most `rapMaxSessionsPerUser`. -/
theorem per_user_cap_in_flight (config : WebdavdConfiguration)
    (hmax : 1 ≤ config.rapMaxSessionsPerUser) (actions : List DaemonAction)
    (hfeasible : feasible config emptyDaemon actions = true) (user password : String) :
    ((runDaemon config emptyDaemon actions).children.filter
        (fun c => decide (c.1 = user ∧ c.2.1 = password))).length
      ≤ config.rapMaxSessionsPerUser
        + ((inFlightChildren (runDaemon config emptyDaemon actions).inFlight).filter
            (fun c => decide (c.1 = user ∧ c.2.1 = password))).length ∧
    ((∀ c ∈ inFlightChildren (runDaemon config emptyDaemon actions).inFlight,
        ¬ (c.1 = user ∧ c.2.1 = password)) →
      ((runDaemon config emptyDaemon actions).children.filter
        (fun c => decide (c.1 = user ∧ c.2.1 = password))).length
      ≤ config.rapMaxSessionsPerUser) := by
  have hinv := daemonInv_run hmax actions emptyDaemon (daemonInv_empty config) hfeasible
  have hlen : ((runDaemon config emptyDaemon actions).children.filter
        (fun c => decide (c.1 = user ∧ c.2.1 = password))).length
      = ((liveOf (runDaemon config emptyDaemon actions).rapDB).filter
          (fun c => decide (c.1 = user ∧ c.2.1 = password))).length
        + ((inFlightChildren (runDaemon config emptyDaemon actions).inFlight).filter
            (fun c => decide (c.1 = user ∧ c.2.1 = password))).length := by
    rw [(List.Perm.filter _ hinv.2.1).length_eq, List.filter_append, List.length_append]
  have hpool := (liveOf_key_le config user password _ hinv.1.1).1
  refine ⟨by omega, fun hnone => ?_⟩
  have hempty : (inFlightChildren (runDaemon config emptyDaemon actions).inFlight).filter
      (fun c => decide (c.1 = user ∧ c.2.1 = password)) = [] := by
    rw [List.filter_eq_nil_iff]
    intro c hc
    simpa using hnone c hc
  rw [hempty] at hlen
  simp only [List.length_nil, Nat.add_zero] at hlen
  omega

/-- Witness for C4 (amended), with `rapMaxSessionsPerUser` = 2: while the
session of the third request is in flight there are three children of "bob",
the cap and the one in flight; after the second request, with nothing in
flight, there are two, the cap; and when `addRapToDb` has run for the third
request the expired sessions are destroyed and one child is left. -/
theorem per_user_cap_in_flight_witness :
    (((runDaemon exampleConfig emptyDaemon exampleThirdRequest).children.filter
        (fun c => decide (c.1 = "bob" ∧ c.2.1 = "pw"))).length = 3 ∧
      3 ≤ exampleConfig.rapMaxSessionsPerUser
        + ((inFlightChildren
            (runDaemon exampleConfig emptyDaemon exampleThirdRequest).inFlight).filter
            (fun c => decide (c.1 = "bob" ∧ c.2.1 = "pw"))).length) ∧
    ((runDaemon exampleConfig emptyDaemon exampleTwoSessions).children
        = [("bob", "pw", 5), ("bob", "pw", 6)] ∧
      ((runDaemon exampleConfig emptyDaemon exampleTwoSessions).children.filter
        (fun c => decide (c.1 = "bob" ∧ c.2.1 = "pw"))).length
        ≤ exampleConfig.rapMaxSessionsPerUser) ∧
    (runDaemon exampleConfig emptyDaemon
      (exampleThirdRequest ++ [DaemonAction.add 0 1000])).children = [("bob", "pw", 7)] :=
  ⟨⟨by decide,
      (by decide : ((runDaemon exampleConfig emptyDaemon exampleThirdRequest).children.filter
        (fun c => decide (c.1 = "bob" ∧ c.2.1 = "pw"))).length = 3) ▸
      (per_user_cap_in_flight exampleConfig (by decide) exampleThirdRequest (by decide)
        "bob" "pw").1⟩,
    ⟨by decide,
      (per_user_cap_in_flight exampleConfig (by decide) exampleTwoSessions (by decide)
        "bob" "pw").2 (fun c h => by
          rw [(by decide :
            (runDaemon exampleConfig emptyDaemon exampleTwoSessions).inFlight = [])] at h
          simp [inFlightChildren] at h)⟩,
    by decide⟩

theorem getSlot_modifySlot (db : List RapGroup) (ptr : SlotPtr)
    (f : RestrictedAccessProcessor → RestrictedAccessProcessor) :
    getSlot (modifySlot db ptr f) ptr = (getSlot db ptr).map f := by
  unfold getSlot modifySlot
  rw [List.getElem?_modify]
  simp only [if_true]
  cases h : db[ptr.1]? with
  | none => simp
  | some g =>
    simp only [Option.map_some', Functor.map, Option.map]
    rw [List.getElem?_modify]
    simp only [if_true, Functor.map]
    cases g.rapSession[ptr.2]? <;> rfl

/-- C20: a request without a body (GET or PROPFIND) for which `acquireRap`
hands out the slot `ptr` holding `p`, and to which the RAP replies NOT_FOUND
(both transfers on the control socket succeed), is answered with status 404;
when `answerToRequest` returns, the slot has `rapSessionInUse = 0` and the same
`socketFd`, `pid`, `rapCreated` and `user` as `p`, and after `acquireRap` the
handler only sent the request, received the reply, logged and queued the
response: the socket is neither closed nor destroyed. -/
theorem no_lease_leak_not_found (config : WebdavdConfiguration) (env : ServerEnv)
    (io : RequestIO) (rapDB : List RapGroup) (request : MHD_Connection) (url method : String)
    (n : Nat) (ptr : SlotPtr) (p : RestrictedAccessProcessor)
    (hacq : (acquireRap config rapDB request io.acquire).2.1 = RapPtr.slot ptr)
    (hslot : getSlot (acquireRap config rapDB request io.acquire).1 ptr = some p)
    (hdata : requestHasData request = false)
    (hmethod : method = "GET" ∨ method = "PROPFIND")
    (hsend : 0 < toSizeT io.sendResult) (hrecv : 0 < toSizeT io.recvResult)
    (hreply : io.recvMessage.mID = RapConstant.RAP_NOT_FOUND) :
    queuedStatus (answerToRequest config env io rapDB request url method n none).events = [404] ∧
    (answerToRequest config env io rapDB request url method n none).s = some (RapPtr.slot ptr) ∧
    (∃ p', getSlot (answerToRequest config env io rapDB request url method n none).rapDB ptr
        = some p' ∧
      p'.rapSessionInUse = 0 ∧ p'.socketFd = p.socketFd ∧ p'.pid = p.pid ∧
      p'.rapCreated = p.rapCreated ∧ p'.user = p.user) ∧
    (∃ message response,
      (answerToRequest config env io rapDB request url method n none).events =
        (acquireRap config rapDB request io.acquire).2.2 ++
          [ServerEvent.sendMessage p.socketFd message, ServerEvent.recvMessage p.socketFd,
           ServerEvent.logAccess 404 method p.user url request.clientIp,
           ServerEvent.queueResponse 404 response]) := by
  have hne1 : ¬ (RapPtr.slot ptr = RapPtr.AUTH_FAILED ∨ RapPtr.slot ptr = RapPtr.AUTH_BACKOFF) := by
    simp
  have hne2 : ¬ (RapPtr.slot ptr = RapPtr.AUTH_ERROR) := by simp
  have hs : ¬ toSizeT io.sendResult ≤ 0 := by omega
  have hr : ¬ toSizeT io.recvResult ≤ 0 := by omega
  have hnc : ¬ RapConstant.RAP_NOT_FOUND = RapConstant.RAP_CONTINUE := by decide
  have hst : (createRapResponse env io.recvMessage).statusCode = 404 := by
    unfold createRapResponse
    simp [hreply, MHD_HTTP_NOT_FOUND]
  have hacqev := acquireRap_events config rapDB request io.acquire
  rcases hmethod with hm | hm
  all_goals
    subst hm
    unfold answerToRequest
    simp only [hacq, hne1, hne2, if_false, hdata, processNewRequest, hs, hr, hreply, hnc,
      Bool.false_eq_true, hst, ↓reduceIte]
    simp only [sendResponse, releaseRapPtr, modifyPtr, deref, getSlot_modifySlot, hslot,
      MHD_HTTP_CONTINUE, MHD_HTTP_INTERNAL_SERVER_ERROR, MHD_HTTP_UNAUTHORIZED,
      MHD_HTTP_METHOD_NOT_ALLOWED]
    simp [queuedStatus_append, hacqev.1, queuedStatus, getSlot_modifySlot, hslot]

/-- Witness for C20: the GET of "bob" in the example pool is served by the idle
slot (1, 1) on socket 6. -/
theorem no_lease_leak_not_found_witness :
    queuedStatus (answerToRequest exampleConfig exampleEnv exampleIO exampleDB exampleRequest
      "/missing" "GET" 0 none).events = [404] ∧
    ∃ p', getSlot (answerToRequest exampleConfig exampleEnv exampleIO exampleDB exampleRequest
        "/missing" "GET" 0 none).rapDB (1, 1) = some p' ∧
      p'.rapSessionInUse = 0 ∧ p'.socketFd = 6 ∧ p'.pid = (exampleSession 0 6 "bob" 900).pid ∧
      p'.rapCreated = 960 ∧ p'.user = "bob" :=
  have h := no_lease_leak_not_found exampleConfig exampleEnv exampleIO exampleDB exampleRequest
    "/missing" "GET" 0 (1, 1) (exampleSession 1 6 "bob" 960) (by decide) (by decide) (by decide)
    (Or.inl rfl) (by decide) (by decide) rfl
  ⟨h.1, h.2.2.1⟩

theorem repliesOf_map_xml (fd : Int) (l : List XmlEvent) :
    repliesOf (l.map (RapEvent.xml fd)) = [] := by
  induction l with
  | nil => rfl
  | cons e l ih => simp [repliesOf, ih]

theorem repliesOf_propfindChild (env : RapEnv) (mimeTypes : List MimeType) (filePath : String)
    (properties : PropertySet) (dp : Dirent) :
    repliesOf (propfindChild env mimeTypes filePath properties dp).1 = [] := by
  unfold propfindChild
  by_cases hl : propfindListsEntry dp = true
  · simp only [hl, if_true]
    cases env.stat (filePath ++ dp.name) <;> simp [repliesOf]
  · simp only [hl, Bool.false_eq_true, if_false]
    rfl

theorem repliesOf_children (env : RapEnv) (mimeTypes : List MimeType) (filePath : String)
    (properties : PropertySet) (entries : List Dirent) :
    repliesOf ((entries.map (propfindChild env mimeTypes filePath properties)).map
      (fun c => c.1)).flatten = [] := by
  induction entries with
  | nil => rfl
  | cons dp entries ih =>
    simp only [List.map_cons, List.flatten_cons, repliesOf_append, repliesOf_propfindChild,
      List.nil_append]
    exact ih

theorem repliesOf_propfindDocument (env : RapEnv) (mimeTypes : List MimeType) (filePath : String)
    (properties : PropertySet) (fileStat : Stat) (depth : Int) :
    repliesOf (propfindDocument env mimeTypes filePath properties fileStat depth).1 = [] := by
  unfold propfindDocument
  simp only [repliesOf_append]
  split
  · split
    · simp only [repliesOf, List.nil_append]
      exact repliesOf_children _ _ _ _ _
    · rfl
  · rfl

/-- For a path that exists, when the pipe can be made, `respondToPropFind`
sends MULTISTATUS and nothing else. -/
theorem respondToPropFind_replies (env : RapEnv) (state : RapState) (file host : String)
    (properties : PropertySet) (depth : Int) (fileStat : Stat) (pipeEnds : Int × Int)
    (hstat : env.stat file = Except.ok fileStat) (hpipe : env.pipe = some pipeEnds) :
    repliesOf (respondToPropFind env state file host properties depth).events
      = [RapConstant.RAP_MULTISTATUS] := by
  unfold respondToPropFind
  simp only [hstat, hpipe]
  split
  · simp [repliesOf_append, repliesOf]
  · simp only [repliesOf_append, repliesOf_map_xml, repliesOf_propfindDocument]
    simp [repliesOf]

/-- On the path of line 229 `parsePropFind` returns `readResult` as it was
before any assignment. -/
theorem parsePropFind_empty_body (env : RapEnv) (fd : Int) (properties : PropertySet)
    (reader : XmlReader) (hreader : env.xmlReaderForFd fd = some reader)
    (hstep : reader.step.1 ≠ 0)
    (hnone : reader.step.2.current.nodeType = XML_READER_TYPE_NONE) :
    parsePropFind env fd properties
      = (env.uninitReadResult, PropertySet.allSet, [RapEvent.close fd]) := by
  unfold parsePropFind
  simp only [hreader, hstep, if_false, hnone, if_true]

/-- C11 as stated fails: an authenticated PROPFIND for the existing directory
"/dir/" whose message carries no descriptor is answered BAD_CLIENT_REQUEST and
not MULTISTATUS. -/
theorem propfind_without_descriptor_rejected :
    (exampleRapState 1).authenticated ≠ 0 ∧
    exampleRapEnv.stat "/dir/" = Except.ok exampleDirStat ∧
    (exampleMessage RapConstant.RAP_PROPFIND (-1) "/dir/").fd = -1 ∧
    repliesOf (propfind exampleRapEnv (exampleRapState 1)
      (exampleMessage RapConstant.RAP_PROPFIND (-1) "/dir/")).events
      = [RapConstant.RAP_BAD_CLIENT_REQUEST] :=
  ⟨by decide, rfl, rfl, by decide⟩

/-- C11, amended: an authenticated PROPFIND with three buffers whose message
carries no descriptor is answered BAD_CLIENT_REQUEST and nothing else. With a
descriptor whose body is empty (the reader is made, the first step succeeds and
the reader stands on no node) `parsePropFind` sets all nine flags. Whenever
`parsePropFind` returns a value other than 0, CONTINUE was sent, the path
exists and the pipe can be made, the replies are CONTINUE and MULTISTATUS. -/
theorem propfind_body_rule (env : RapEnv) (state : RapState) (m : Message)
    (hauth : state.authenticated ≠ 0) (hcount : m.bufferCount = 3) :
    (m.fd = -1 →
      repliesOf (propfind env state m).events = [RapConstant.RAP_BAD_CLIENT_REQUEST]) ∧
    (∀ reader, env.xmlReaderForFd m.fd = some reader → reader.step.1 ≠ 0 →
      reader.step.2.current.nodeType = XML_READER_TYPE_NONE →
      (parsePropFind env m.fd env.uninitProperties).2.1 = PropertySet.allSet) ∧
    (∀ fileStat pipeEnds, m.fd ≠ -1 →
      0 ≤ toInt32 (respond env RapConstant.RAP_CONTINUE (-1)).1 →
      (parsePropFind env m.fd env.uninitProperties).1 ≠ 0 →
      env.stat (iovecToString m.buffers[RAP_FILE_INDEX]?) = Except.ok fileStat →
      env.pipe = some pipeEnds →
      repliesOf (propfind env state m).events
        = [RapConstant.RAP_CONTINUE, RapConstant.RAP_MULTISTATUS]) := by
  refine ⟨?_, ?_, ?_⟩
  · intro hfd
    unfold propfind
    simp [hfd, respondWith, respond, repliesOf]
  · intro reader hreader hstep hnone
    rw [parsePropFind_empty_body env m.fd _ reader hreader hstep hnone]
  · intro fileStat pipeEnds hfd hcont hparsed hstat hpipe
    have hc : ¬ toInt32 (respond env RapConstant.RAP_CONTINUE (-1)).1 < 0 := by omega
    have hrep : repliesOf (parsePropFind env m.fd env.uninitProperties).2.2 = [] := by
      unfold parsePropFind
      simp only []
      repeat' split
      all_goals rfl
    unfold propfind
    simp only [hfd, if_false, hauth, hcount, ne_eq, not_true_eq_false, or_self, hc, hparsed]
    simp only [repliesOf_append, hrep,
      respondToPropFind_replies env state _ _ _ _ fileStat pipeEnds hstat hpipe]
    simp [respond, repliesOf]

/-- Witness for C11 (amended): a PROPFIND for "/dir/" with an empty body in
an environment where `readResult` happens to hold 1. -/
theorem propfind_body_rule_witness :
    (parsePropFind exampleEmptyBodyEnv 5 exampleEmptyBodyEnv.uninitProperties).2.1
      = PropertySet.allSet ∧
    repliesOf (propfind exampleEmptyBodyEnv (exampleRapState 1)
      (exampleMessage RapConstant.RAP_PROPFIND 5 "/dir/")).events
      = [RapConstant.RAP_CONTINUE, RapConstant.RAP_MULTISTATUS] :=
  have h := propfind_body_rule exampleEmptyBodyEnv (exampleRapState 1)
    (exampleMessage RapConstant.RAP_PROPFIND 5 "/dir/") (by decide) rfl
  ⟨h.2.1 exampleEmptyReader rfl (by decide) (by decide),
    h.2.2 exampleDirStat (10, 11) (by decide) (by decide) (by decide) rfl rfl⟩

/-- C13: for the existing directory "/dir/sub" the only message
`respondToPropFind` sends is MULTISTATUS declared with `bufferCount = 2` (time
and mime type; the path stored as third buffer is not counted), and
`createRapResponse` builds from it a 207 response without a Location header. -/
theorem multistatus_reply_lacks_location :
    sentMessages (respondToPropFind exampleRapEnv (exampleRapState 1) "/dir/sub" "localhost"
      allProperties 1).events = [exampleMultistatus] ∧
    exampleMultistatus.bufferCount = 2 ∧
    (createRapResponse exampleEnv exampleMultistatus).statusCode = 207 ∧
    headerKeys (createRapResponse exampleEnv exampleMultistatus).response
      = some ["Date", "Content-Type", "DAV", "Accept-Ranges", "Keep-Alive", "Connection",
          "Server", "Expires", "Cache-Control", "Pragma"] :=
  ⟨by decide, by decide, by decide, by decide⟩

mutual
theorem parseXml_render (t : XmlTree) (rest : List XmlEvent) (stack : List OpenElement)
    (done : List XmlTree) :
    parseXml (t.render ++ rest) stack done = parseXml rest stack (t :: done) := by
  cases t with
  | element pfx name ns children =>
    simp only [XmlTree.render, List.cons_append, parseXml, List.append_eq, List.append_assoc]
    rw [parseXml_renderAll children]
    simp [parseXml]
  | text content => simp [XmlTree.render, parseXml]
theorem parseXml_renderAll (ts : List XmlTree) (rest : List XmlEvent) (stack : List OpenElement)
    (done : List XmlTree) :
    parseXml (renderAll ts ++ rest) stack done = parseXml rest stack (ts.reverse ++ done) := by
  cases ts with
  | nil => simp [renderAll]
  | cons t ts =>
    simp only [renderAll, List.append_assoc]
    rw [parseXml_render t, parseXml_renderAll ts]
    simp
end

theorem renderAll_append (a b : List XmlTree) : renderAll (a ++ b) = renderAll a ++ renderAll b := by
  induction a with
  | nil => simp [renderAll]
  | cons t a ih => simp [renderAll, ih]

theorem render_textElement (name content : String) :
    (textElement name content).render = xmlTextWriterWriteElementString name content := by
  simp [renderAll, XmlTree.render, textElement, xmlTextWriterWriteElementString]

theorem renderAll_resourceTypeElement (isDir : Bool) :
    renderAll [resourceTypeElement isDir] =
      [XmlEvent.startElementNS "d" "resourcetype" none] ++
        (if isDir then [XmlEvent.startElementNS "d" "collection" none, XmlEvent.endElement]
         else []) ++ [XmlEvent.endElement] := by
  cases isDir <;> simp [renderAll, XmlTree.render, resourceTypeElement]

theorem writeProperties_eq_render (env : RapEnv) (mimeTypes : List MimeType) (fileName : String)
    (properties : PropertySet) (fileStat : Stat) :
    writeProperties env mimeTypes fileName properties fileStat
      = renderAll (propertyTrees env mimeTypes fileName properties fileStat) := by
  unfold writeProperties propertyTrees
  simp only [renderAll_append]
  generalize env.statvfs fileName = sv
  congr 1
  · congr 1
    · congr 1
      · congr 1
        · split <;> simp [render_textElement, renderAll]
        · split <;> simp [render_textElement, renderAll]
      · split <;> simp [render_textElement, renderAll]
    · split
      · rw [renderAll_resourceTypeElement]
      · rfl
  · cases sv <;> split_ifs <;> simp [renderAll_append, render_textElement, renderAll]

theorem textPropertyNames_ne {name : String} (h : name ∈ textPropertyNames) :
    (name == "resourcetype") = false := by
  simp only [textPropertyNames, List.mem_cons, List.mem_singleton, List.not_mem_nil, or_false]
    at h
  rcases h with h | h | h | h | h | h | h <;> subst h <;> decide

/-- The trees inside `d:prop`: text elements, then `d:resourcetype` when it is
requested, then text elements. -/
theorem propertyTrees_shape (env : RapEnv) (mimeTypes : List MimeType) (fileName : String)
    (properties : PropertySet) (fileStat : Stat) :
    ∃ pre post, propertyTrees env mimeTypes fileName properties fileStat
        = pre ++ (if properties.resourceType then [resourceTypeElement fileStat.isDir] else [])
          ++ post ∧
      ∀ t, t ∈ pre ∨ t ∈ post →
        ∃ name content, name ∈ textPropertyNames ∧ t = textElement name content := by
  have text : ∀ (t : XmlTree) (b : Prop) [Decidable b] (name content : String),
      name ∈ textPropertyNames → t ∈ (if b then [textElement name content] else []) →
      ∃ name content, name ∈ textPropertyNames ∧ t = textElement name content := by
    intro t b _ name content hn h
    split at h
    · exact ⟨name, content, hn, by simpa using h⟩
    · simp at h
  refine ⟨_, _, rfl, ?_⟩
  intro t ht
  rcases ht with ht | ht
  · simp only [List.mem_append] at ht
    rcases ht with (h | h) | h
    · exact text t _ _ _ (by simp [textPropertyNames]) h
    · exact text t _ _ _ (by simp [textPropertyNames]) h
    · exact text t _ _ _ (by simp [textPropertyNames]) h
  · generalize env.statvfs fileName = sv at ht
    cases sv <;> split_ifs at ht <;> simp only [List.mem_append, List.mem_singleton,
      List.not_mem_nil, or_false, false_or] at ht
    all_goals first
      | rcases ht with h | h <;> exact ⟨_, _, by simp [textPropertyNames], h⟩
      | exact ⟨_, _, by simp [textPropertyNames], ht⟩

theorem propertyTrees_members (env : RapEnv) (mimeTypes : List MimeType) (fileName : String)
    (properties : PropertySet) (fileStat : Stat) :
    ∀ t ∈ propertyTrees env mimeTypes fileName properties fileStat,
      (∃ name content, name ∈ textPropertyNames ∧ t = textElement name content) ∨
        t = resourceTypeElement fileStat.isDir := by
  obtain ⟨pre, post, heq, htext⟩ := propertyTrees_shape env mimeTypes fileName properties fileStat
  intro t ht
  rw [heq] at ht
  simp only [List.mem_append] at ht
  rcases ht with (h | h) | h
  · exact Or.inl (htext t (Or.inl h))
  · split at h
    · exact Or.inr (by simpa using h)
    · simp at h
  · exact Or.inl (htext t (Or.inr h))

theorem propertyTrees_resourcetype (env : RapEnv) (mimeTypes : List MimeType) (fileName : String)
    (properties : PropertySet) (fileStat : Stat) :
    (propertyTrees env mimeTypes fileName properties fileStat).filter
        (fun t => t.name == "resourcetype")
      = if properties.resourceType then [resourceTypeElement fileStat.isDir] else [] := by
  obtain ⟨pre, post, heq, htext⟩ := propertyTrees_shape env mimeTypes fileName properties fileStat
  have hnil : ∀ l : List XmlTree, (∀ t ∈ l, ∃ name content, name ∈ textPropertyNames ∧
      t = textElement name content) → l.filter (fun t => t.name == "resourcetype") = [] := by
    intro l hl
    rw [List.filter_eq_nil_iff]
    intro t ht
    obtain ⟨name, content, hn, rfl⟩ := hl t ht
    simp [textElement, XmlTree.name, textPropertyNames_ne hn]
  rw [heq, List.filter_append, List.filter_append, hnil pre (fun t ht => htext t (Or.inl ht)),
    hnil post (fun t ht => htext t (Or.inr ht))]
  split <;> simp [resourceTypeElement, XmlTree.name]

/-- C12: for every file name, stat record and property set the calls
`writePropFindResponsePart` makes on the writer form exactly one tree, a
`d:response` whose children are one `d:href` holding the file name and one
`d:propstat`, whose children are one `d:prop` and one `d:status` holding
"HTTP/1.1 200 OK". The children of `d:prop` are text elements with property
names and `d:resourcetype` elements; there is one `d:resourcetype` when it is
requested and none otherwise, and it holds one empty `d:collection` when the
stat mode is a directory and nothing when it is not. -/
theorem propfind_response_structure (env : RapEnv) (mimeTypes : List MimeType)
    (fileName : String) (properties : PropertySet) (fileStat : Stat) :
    ∃ props : List XmlTree,
      parseXml (writePropFindResponsePart env mimeTypes fileName properties fileStat) [] []
        = some [XmlTree.element "d" "response" none
            [XmlTree.element "d" "href" none [XmlTree.text fileName],
             XmlTree.element "d" "propstat" none
              [XmlTree.element "d" "prop" none props,
               XmlTree.element "d" "status" none [XmlTree.text "HTTP/1.1 200 OK"]]]] ∧
      (∀ t ∈ props,
        (∃ name content, name ∈ textPropertyNames ∧
          t = XmlTree.element "d" name none [XmlTree.text content]) ∨
        t = XmlTree.element "d" "resourcetype" none
          (if fileStat.isDir then [XmlTree.element "d" "collection" none []] else [])) ∧
      props.filter (fun t => t.name == "resourcetype")
        = if properties.resourceType then
            [XmlTree.element "d" "resourcetype" none
              (if fileStat.isDir then [XmlTree.element "d" "collection" none []] else [])]
          else [] := by
  refine ⟨propertyTrees env mimeTypes fileName properties fileStat, ?_,
    propertyTrees_members env mimeTypes fileName properties fileStat,
    propertyTrees_resourcetype env mimeTypes fileName properties fileStat⟩
  unfold writePropFindResponsePart
  rw [writeProperties_eq_render]
  simp only [xmlTextWriterWriteElementString, List.cons_append, List.nil_append, List.append_assoc,
    parseXml, List.append_eq]
  rw [parseXml_renderAll]
  simp [parseXml]

theorem writesOf_append (a b : List RapEvent) : writesOf (a ++ b) = writesOf a ++ writesOf b := by
  induction a with
  | nil => rfl
  | cons e a ih => cases e <;> simp [writesOf, ih]

/-- The copy loop when every chunk up to the end of the body is written in
full: no write falls short and the writes are these chunks in order. -/
theorem writeLoop_full (fd bodyFd : Int) (chunks : List (String × Int))
    (hfull : ∀ c ∈ chunksUntilEof chunks, (c.1.length : Int) ≤ c.2) :
    (writeLoop fd bodyFd chunks).2 = false ∧
    writesOf (writeLoop fd bodyFd chunks).1 = chunksUntilEof chunks ∧
    repliesOf (writeLoop fd bodyFd chunks).1 = [] := by
  induction chunks with
  | nil => simp [writeLoop, writesOf, chunksUntilEof, repliesOf]
  | cons c rest ih =>
    obtain ⟨data, written⟩ := c
    by_cases h0 : data.length = 0
    · simp [writeLoop, h0, writesOf, chunksUntilEof, repliesOf]
    · have htw : chunksUntilEof ((data, written) :: rest) = (data, written) :: chunksUntilEof rest := by
        simp [chunksUntilEof, List.takeWhile_cons, h0]
      rw [htw] at hfull
      have hc : ¬ written < (data.length : Int) := by
        have := hfull (data, written) (List.mem_cons_self _ _)
        simp only at this
        omega
      have ih' := ih (fun c hcm => hfull c (List.mem_cons_of_mem _ hcm))
      simp only [writeLoop, h0, if_false, hc, writesOf, repliesOf, htw]
      exact ⟨ih'.1, by rw [ih'.2.1], ih'.2.2⟩

/-- The copy loop when a write falls short: copying stops there. -/
theorem writeLoop_short (fd bodyFd : Int) (chunks pre post : List (String × Int))
    (c : String × Int) (hsplit : chunksUntilEof chunks = pre ++ c :: post)
    (hpre : ∀ d ∈ pre, (d.1.length : Int) ≤ d.2) (hshort : c.2 < (c.1.length : Int)) :
    (writeLoop fd bodyFd chunks).2 = true ∧
    writesOf (writeLoop fd bodyFd chunks).1 = pre ++ [c] ∧
    repliesOf (writeLoop fd bodyFd chunks).1 = [] := by
  induction chunks generalizing pre with
  | nil => simp [chunksUntilEof] at hsplit
  | cons d rest ih =>
    obtain ⟨data, written⟩ := d
    by_cases h0 : data.length = 0
    · simp [chunksUntilEof, List.takeWhile_cons, h0] at hsplit
    · have htw : chunksUntilEof ((data, written) :: rest) = (data, written) :: chunksUntilEof rest := by
        simp [chunksUntilEof, List.takeWhile_cons, h0]
      rw [htw] at hsplit
      cases pre with
      | nil =>
        simp only [List.nil_append, List.cons.injEq] at hsplit
        obtain ⟨hd, _⟩ := hsplit
        subst hd
        simp only at hshort
        simp [writeLoop, h0, hshort, writesOf, repliesOf]
      | cons p pre =>
        simp only [List.cons_append, List.cons.injEq] at hsplit
        obtain ⟨hd, hrest⟩ := hsplit
        subst hd
        have hc : ¬ written < (data.length : Int) := by
          have := hpre (data, written) (List.mem_cons_self _ _)
          simp only at this
          omega
        have ih' := ih pre hrest (fun d hd => hpre d (List.mem_cons_of_mem _ hd))
        simp only [writeLoop, h0, if_false, hc, writesOf, repliesOf, List.cons_append]
        exact ⟨ih'.1, by rw [ih'.2.1], ih'.2.2⟩

/-- C14: for an authenticated WRITE_FILE message with two buffers and a body
descriptor: when `open` fails the only reply is ACCESS_DENIED for EACCES and
CONFLICT for any other errno. When it opens and CONTINUE is sent, the replies
are CONTINUE and one final reply: SUCCESS when every chunk read before the end
of the body is written in full, and the writes are then exactly these chunks in
order; INSUFFICIENT_STORAGE when a write falls short, and the writes are then
the chunks up to and including that one. -/
theorem writeFile_reply_protocol (env : RapEnv) (state : RapState) (m : Message)
    (hauth : state.authenticated ≠ 0) (hcount : m.bufferCount = 2) (hfd : m.fd ≠ -1) :
    (∀ e, env.openFile (iovecToString m.buffers[RAP_FILE_INDEX]?) true = Except.error e →
      repliesOf (writeFile env state m).events
        = [if e = EACCES then RapConstant.RAP_ACCESS_DENIED else RapConstant.RAP_CONFLICT]) ∧
    (∀ fd, env.openFile (iovecToString m.buffers[RAP_FILE_INDEX]?) true = Except.ok fd →
      0 ≤ toInt32 (respond env RapConstant.RAP_CONTINUE (-1)).1 →
      ((∀ c ∈ chunksUntilEof (env.body m.fd), (c.1.length : Int) ≤ c.2) →
        repliesOf (writeFile env state m).events
          = [RapConstant.RAP_CONTINUE, RapConstant.RAP_SUCCESS] ∧
        writesOf (writeFile env state m).events = chunksUntilEof (env.body m.fd)) ∧
      (∀ pre c post, chunksUntilEof (env.body m.fd) = pre ++ c :: post →
        (∀ d ∈ pre, (d.1.length : Int) ≤ d.2) → c.2 < (c.1.length : Int) →
        repliesOf (writeFile env state m).events
          = [RapConstant.RAP_CONTINUE, RapConstant.RAP_INSUFFICIENT_STORAGE] ∧
        writesOf (writeFile env state m).events = pre ++ [c])) := by
  constructor
  · intro e he
    unfold writeFile
    simp only [hfd, if_false, hauth, hcount, ne_eq, not_true_eq_false, or_self, he]
    split <;> simp [respondWith, respond, repliesOf_append, repliesOf]
  · intro fd hopen hcont
    have hc : ¬ toInt32 (respond env RapConstant.RAP_CONTINUE (-1)).1 < 0 := by omega
    constructor
    · intro hfull
      obtain ⟨h2, hw, hr⟩ := writeLoop_full fd m.fd (env.body m.fd) hfull
      unfold writeFile
      simp only [hfd, if_false, hauth, hcount, ne_eq, not_true_eq_false, or_self, hopen, hc, h2,
        Bool.false_eq_true]
      simp [respondWith, respond, repliesOf_append, repliesOf, writesOf_append, writesOf, hw, hr]
    · intro pre c post hsplit hpre hshort
      obtain ⟨h2, hw, hr⟩ := writeLoop_short fd m.fd (env.body m.fd) pre post c hsplit hpre hshort
      unfold writeFile
      simp only [hfd, if_false, hauth, hcount, ne_eq, not_true_eq_false, or_self, hopen, hc, h2,
        if_true]
      simp [respondWith, respond, repliesOf_append, repliesOf, writesOf_append, writesOf, hw, hr]

/-- Witness for C14: the body "hello world" is stored in two writes and
answered CONTINUE, SUCCESS; when the second write stores 3 bytes the answer is
CONTINUE, INSUFFICIENT_STORAGE. -/
theorem writeFile_reply_protocol_witness :
    (repliesOf (writeFile (exampleWriteEnv 5) (exampleRapState 1)
        (exampleMessage RapConstant.RAP_WRITE_FILE 5 "/dir/a")).events
      = [RapConstant.RAP_CONTINUE, RapConstant.RAP_SUCCESS] ∧
      writesOf (writeFile (exampleWriteEnv 5) (exampleRapState 1)
        (exampleMessage RapConstant.RAP_WRITE_FILE 5 "/dir/a")).events
      = [("hello ", 6), ("world", 5)]) ∧
    (repliesOf (writeFile (exampleWriteEnv 3) (exampleRapState 1)
        (exampleMessage RapConstant.RAP_WRITE_FILE 5 "/dir/a")).events
      = [RapConstant.RAP_CONTINUE, RapConstant.RAP_INSUFFICIENT_STORAGE] ∧
      writesOf (writeFile (exampleWriteEnv 3) (exampleRapState 1)
        (exampleMessage RapConstant.RAP_WRITE_FILE 5 "/dir/a")).events
      = [("hello ", 6), ("world", 3)]) :=
  ⟨((writeFile_reply_protocol (exampleWriteEnv 5) (exampleRapState 1)
      (exampleMessage RapConstant.RAP_WRITE_FILE 5 "/dir/a") (by decide) (by decide)
      (by decide)).2 12 rfl (by decide)).1 (by decide),
   ((writeFile_reply_protocol (exampleWriteEnv 3) (exampleRapState 1)
      (exampleMessage RapConstant.RAP_WRITE_FILE 5 "/dir/a") (by decide) (by decide)
      (by decide)).2 12 rfl (by decide)).2 [("hello ", 6)] ("world", 3) [] (by decide)
      (by decide) (by decide)⟩

theorem printedOn_append (fd : Int) (a b : List RapEvent) :
    printedOn fd (a ++ b) = printedOn fd a ++ printedOn fd b := by
  induction a with
  | nil => rfl
  | cons e a ih =>
    cases e with
    | fprintf outFd text =>
      simp only [List.cons_append, printedOn]
      split <;> simp [ih]
    | _ => simpa [printedOn] using ih

theorem sentMessages_append (a b : List RapEvent) :
    sentMessages (a ++ b) = sentMessages a ++ sentMessages b := by
  induction a with
  | nil => rfl
  | cons e a ih => cases e <;> simp [sentMessages, ih]

theorem dirent_isDotEntry (dp : Dirent) : dp.isDotEntry = true ↔ dp.at 0 = '.' := by
  unfold Dirent.isDotEntry Dirent.name Dirent.at
  cases h : dp.d_name with
  | nil => simp
  | cons c rest =>
    by_cases hc : c = '\x00'
    · subst hc
      simp [List.takeWhile_cons]
    · simp [List.takeWhile_cons, hc]

/-- The items `readFile` prints: one for every entry that is not a dot entry,
in order. -/
theorem listingItems_spec (outPipe : Int) (file sep : String) (entries : List Dirent) :
    printedOn outPipe (listingItems outPipe file sep entries)
      = (entries.filter (fun dp => !dp.isDotEntry)).map (listItem file sep) ∧
    sentMessages (listingItems outPipe file sep entries) = [] := by
  induction entries with
  | nil => exact ⟨rfl, rfl⟩
  | cons dp rest ih =>
    by_cases hdot : dp.at 0 = '.'
    · have hd : dp.isDotEntry = true := (dirent_isDotEntry dp).mpr hdot
      simp only [listingItems, hdot, ne_eq, not_true_eq_false, if_false, hd, Bool.not_true,
        List.filter_cons_of_neg, Bool.false_eq_true, not_false_eq_true]
      exact ih
    · have hd : dp.isDotEntry = false := by
        cases h : dp.isDotEntry
        · rfl
        · exact absurd ((dirent_isDotEntry dp).mp h) hdot
      simp only [listingItems, hdot, ne_eq, not_false_eq_true, if_true]
      rw [List.filter_cons_of_pos (by simp [hd])]
      by_cases hdir : dp.d_type = DT_DIR
      · simp only [hdir, if_true, printedOn, sentMessages, List.map_cons, ih.1, ih.2, listItem]
        simp [String.append_assoc]
      · simp only [hdir, if_false, printedOn, sentMessages, List.map_cons, ih.1, ih.2, listItem]
        simp [String.append_assoc]

/-- C19: for an authenticated READ_FILE with two buffers on a path that opens
as a directory, when the pipe is made and the reply is sent: the only message
is SUCCESS with the pipe's read end and the mime buffer "text/html", and what is
printed on the pipe is the page head, then one list item for every entry whose
name does not begin with '.', in `readdir` order, then the page end. The link
of an item is the requested path, a '/' only when the path does not end in
'/', the entry name and a trailing '/' exactly for an entry of type directory. -/
theorem directory_listing (env : RapEnv) (state : RapState) (m : Message)
    (fd pipeRead pipeWrite : Int)
    (hauth : state.authenticated ≠ 0) (hcount : m.bufferCount = 2)
    (hopen : env.openFile (iovecToString m.buffers[RAP_FILE_INDEX]?) false = Except.ok fd)
    (hdir : (env.fstat fd).isDir = true) (hpipe : env.pipe = some (pipeRead, pipeWrite))
    (hsend : ∀ message, 0 < toSizeT (env.sendResult message)) :
    sentMessages (readFile env state m).events
      = [{ mID := RapConstant.RAP_SUCCESS, fd := pipeRead, bufferCount := 3,
           buffers := [{ iov_base := IovBase.timeT env.time, iov_len := 8 },
             { iov_base := IovBase.chars "text/html", iov_len := 10 },
             m.buffers.getD RAP_FILE_INDEX (stringBuffer "")] }] ∧
    printedOn pipeWrite (readFile env state m).events
      = ["<html><head><title>" ++ iovecToString m.buffers[RAP_FILE_INDEX]? ++
          (if (iovecToString m.buffers[RAP_FILE_INDEX]?).back = '/' then "" else "/") ++
          "</title></head><body><h1>" ++ iovecToString m.buffers[RAP_FILE_INDEX]? ++
          (if (iovecToString m.buffers[RAP_FILE_INDEX]?).back = '/' then "" else "/") ++
          "</h1><ul>"] ++
        ((env.fdopendir fd).filter (fun dp => !dp.isDotEntry)).map
          (listItem (iovecToString m.buffers[RAP_FILE_INDEX]?)
            (if (iovecToString m.buffers[RAP_FILE_INDEX]?).back = '/' then "" else "/")) ++
        ["</ul></body></html>"] := by
  have hnot : ∀ message, ¬ toSizeT (env.sendResult message) ≤ 0 := fun message => by
    have := hsend message
    omega
  have hitems := listingItems_spec pipeWrite (iovecToString m.buffers[RAP_FILE_INDEX]?)
    (if (iovecToString m.buffers[RAP_FILE_INDEX]?).back = '/' then "" else "/") (env.fdopendir fd)
  unfold readFile
  simp only [hauth, hcount, ne_eq, not_true_eq_false, or_self, if_false, hopen, hdir, if_true,
    hpipe, hnot]
  simp only [sentMessages_append, printedOn_append, hitems.1, hitems.2]
  constructor
  · have hlen : "text/html".length = 9 := by decide
    split <;> simp [sentMessages, hlen]
  · split <;> simp [printedOn]

/-- Witness for C19: the listing of "/dir" holds an item for "a" and one for
the directory "sub", and none for ".", ".." and ".hidden". -/
theorem directory_listing_witness :
    printedOn 11 (readFile exampleListEnv (exampleRapState 1)
        (exampleMessage RapConstant.RAP_READ_FILE (-1) "/dir")).events
      = ["<html><head><title>/dir/</title></head><body><h1>/dir/</h1><ul>",
         "<li><a href=\"/dir/a\">a</a></li>", "<li><a href=\"/dir/sub/\">sub/</a></li>",
         "</ul></body></html>"] :=
  (directory_listing exampleListEnv (exampleRapState 1)
    (exampleMessage RapConstant.RAP_READ_FILE (-1) "/dir") 12 10 11 (by decide) (by decide) rfl
    (by decide) rfl (fun _ => (by decide : 0 < toSizeT 1))).2.trans (by decide)

/-- C15: with the mime file "text/plain txt" (one line) the table entry for
"txt" has `typeStringSize = 4`, the length of the extension plus one, and the
SUCCESS reply of `readFile` for "/file.txt" carries a mime buffer that starts
at "text/plain" with length 4, not 11: no complete media type with its NUL. -/
theorem mime_buffer_length_from_extension :
    initializeMimeTypes "text/plain txt\n".toList
      = [{ ext := "txt", type := "text/plain", typeStringSize := 4 }] ∧
    sentMessages (readFile exampleFileEnv (exampleMimeState "text/plain txt\n")
        (exampleMessage RapConstant.RAP_READ_FILE (-1) "/file.txt")).events
      = [{ mID := RapConstant.RAP_SUCCESS, fd := 12, bufferCount := 3,
           buffers := [{ iov_base := IovBase.timeT 60, iov_len := 8 },
             { iov_base := IovBase.chars "text/plain", iov_len := 4 },
             stringBuffer "/file.txt"] }] ∧
    (4 : Nat) ≠ "text/plain".length + 1 :=
  ⟨by decide, by decide, by decide⟩

/-- C17: a mime file whose last line does not end with a newline loses the
last token of that line: "text/plain txt" gives an empty table, and after
"text/plain txt" the line "image/png png jpg" without a newline only gives the
entry for "png"; with the newline both files give all their entries. -/
theorem last_line_without_newline_loses_entry :
    initializeMimeTypes "text/plain txt".toList = [] ∧
    initializeMimeTypes "text/plain txt\n".toList
      = [{ ext := "txt", type := "text/plain", typeStringSize := 4 }] ∧
    initializeMimeTypes "text/plain txt\nimage/png png jpg".toList
      = [{ ext := "png", type := "image/png", typeStringSize := 4 },
         { ext := "txt", type := "text/plain", typeStringSize := 4 }] ∧
    initializeMimeTypes "text/plain txt\nimage/png png jpg\n".toList
      = [{ ext := "jpg", type := "image/png", typeStringSize := 4 },
         { ext := "png", type := "image/png", typeStringSize := 4 },
         { ext := "txt", type := "text/plain", typeStringSize := 4 }] :=
  ⟨by decide, by decide, by decide, by decide⟩

/-- C18: after a line that ends with a comment the next line is not parsed with
its own type: in "text/plain txt # note" followed by "image/png png" the tokens
"image/png" and "png" both become extensions of "text/plain"; without the
comment the second line gives "png" the type "image/png". -/
theorem trailing_comment_keeps_type :
    initializeMimeTypes "text/plain txt # note\nimage/png png\n".toList
      = [{ ext := "image/png", type := "text/plain", typeStringSize := 10 },
         { ext := "png", type := "text/plain", typeStringSize := 4 },
         { ext := "txt", type := "text/plain", typeStringSize := 4 }] ∧
    initializeMimeTypes "text/plain txt\nimage/png png\n".toList
      = [{ ext := "png", type := "image/png", typeStringSize := 4 },
         { ext := "txt", type := "text/plain", typeStringSize := 4 }] :=
  ⟨by decide, by decide⟩

/-- The loop of `bsearch` on a table ordered by `compar` in which equal keys may
repeat. -/
theorem bsearchLoop_weak {α : Type} (compar : α → α → Int) (key : α) (base : List α)
    (hs : base.Pairwise (fun a b => compar a b ≤ 0))
    (hlt_le : ∀ a b c, compar a b < 0 → compar b c ≤ 0 → compar a c < 0)
    (hle_lt : ∀ a b c, compar a b ≤ 0 → compar b c < 0 → compar a c < 0)
    (hswap : ∀ a b, 0 < compar a b ↔ compar b a < 0) :
    ∀ fuel l u, u ≤ base.length → u - l < fuel →
      (∀ (j : Nat) p, base[j]? = some p → compar key p = 0 → l ≤ j ∧ j < u) →
      (∀ i, bsearchLoop compar key base fuel l u = some i →
          ∃ p, base[i]? = some p ∧ compar key p = 0) ∧
      (bsearchLoop compar key base fuel l u = none →
          ∀ (j : Nat) p, base[j]? = some p → compar key p ≠ 0) := by
  intro fuel
  induction fuel with
  | zero => intro l u _ h; omega
  | succ fuel ih =>
    intro l u hu hf hrange
    simp only [bsearchLoop]
    by_cases hlu : l < u
    · simp only [hlu, if_true]
      have hidx : (l + u) / 2 < base.length := by omega
      have hget : base[(l + u) / 2]? = some (base[(l + u) / 2]) := List.getElem?_eq_getElem hidx
      rw [hget]
      simp only
      by_cases hneg : compar key base[(l + u) / 2] < 0
      · simp only [hneg, if_true]
        apply ih l ((l + u) / 2) (by omega) (by omega)
        intro j p hj hp
        have hr := hrange j p hj hp
        refine ⟨hr.1, ?_⟩
        by_contra hcon
        have hge : (l + u) / 2 ≤ j := by omega
        rcases Nat.eq_or_lt_of_le hge with heq | hlt
        · rw [← heq, hget] at hj
          cases hj
          omega
        · have := pairwise_getElem? hs hget hj hlt
          have := hlt_le _ _ _ hneg this
          omega
      · simp only [hneg, if_false]
        by_cases hpos : compar key base[(l + u) / 2] > 0
        · simp only [hpos, if_true]
          apply ih ((l + u) / 2 + 1) u hu (by omega)
          intro j p hj hp
          have hr := hrange j p hj hp
          refine ⟨?_, hr.2⟩
          by_contra hcon
          have hle : j ≤ (l + u) / 2 := by omega
          rcases Nat.eq_or_lt_of_le hle with heq | hlt
          · rw [heq, hget] at hj
            cases hj
            omega
          · have h1 := pairwise_getElem? hs hj hget hlt
            have h2 := (hswap _ _).mp hpos
            have h3 := hle_lt _ _ _ h1 h2
            have h4 := (hswap _ _).mpr h3
            omega
        · simp only [hpos, if_false]
          refine ⟨?_, by simp⟩
          intro i hi
          cases hi
          exact ⟨_, hget, by omega⟩
    · simp only [hlu, if_false]
      refine ⟨by simp, ?_⟩
      intro _ j p hj hp
      have := hrange j p hj hp
      omega

/-- The function `bsearch` on the mime table ordered by extension: an index
returned holds an entry with the extension of the key, and nothing is returned
only when no entry has it. -/
theorem bsearch_mimeTypes (key : MimeType) (mimeTypes : List MimeType)
    (hs : mimeTypes.Pairwise (fun a b => compareExt a b ≤ 0)) :
    (∀ i, bsearch compareExt key mimeTypes = some i →
      ∃ p, mimeTypes[i]? = some p ∧ p.ext = key.ext) ∧
    (bsearch compareExt key mimeTypes = none → ∀ p ∈ mimeTypes, p.ext ≠ key.ext) := by
  have hzero : ∀ a b : MimeType, compareExt a b = 0 ↔ a.ext = b.ext := fun a b =>
    strcmp_eq_zero _ _
  have hlt_le : ∀ a b c : MimeType, compareExt a b < 0 → compareExt b c ≤ 0 →
      compareExt a c < 0 := by
    intro a b c h1 h2
    rcases lt_or_eq_of_le h2 with h | h
    · exact strcmp_trans _ _ _ h1 h
    · have := (hzero b c).mp h
      unfold compareExt at h1 ⊢
      rw [← this]
      exact h1
  have hle_lt : ∀ a b c : MimeType, compareExt a b ≤ 0 → compareExt b c < 0 →
      compareExt a c < 0 := by
    intro a b c h1 h2
    rcases lt_or_eq_of_le h1 with h | h
    · exact strcmp_trans _ _ _ h h2
    · have := (hzero a b).mp h
      unfold compareExt at h2 ⊢
      rw [this]
      exact h2
  have hswap : ∀ a b : MimeType, 0 < compareExt a b ↔ compareExt b a < 0 := fun a b =>
    strcmp_swap _ _
  have h := bsearchLoop_weak compareExt key mimeTypes hs hlt_le hle_lt hswap
    (mimeTypes.length + 1) 0 mimeTypes.length (le_refl _) (by omega)
    (fun j p hj _ => ⟨Nat.zero_le _, (List.getElem?_eq_some.mp hj).1⟩)
  constructor
  · intro i hi
    obtain ⟨p, hp, hc⟩ := h.1 i hi
    exact ⟨p, hp, ((hzero key p).mp hc).symm⟩
  · intro hnone p hp heq
    obtain ⟨j, hj⟩ := List.getElem?_of_mem hp
    exact h.2 hnone j p hj ((hzero key p).mpr heq.symm)

theorem revScan_no_dot (l : List Char) (h : '.' ∉ l) : revScan l = none := by
  induction l with
  | nil => rfl
  | cons c rest ih =>
    simp only [List.mem_cons, not_or] at h
    have hc : ¬ c = '.' := fun e => h.1 e.symm
    simp only [revScan, hc, if_false, ih h.2, Option.map_none']
    split <;> rfl

theorem revScan_slash (l rest : List Char) (h : '.' ∉ l) : revScan (l ++ '/' :: rest) = none := by
  induction l with
  | nil => simp [revScan]
  | cons c l ih =>
    simp only [List.mem_cons, not_or] at h
    have hc : ¬ c = '.' := fun e => h.1 e.symm
    simp only [List.cons_append, revScan, hc, if_false, List.append_eq, ih h.2, Option.map_none']
    split <;> rfl

theorem revScan_dot (l rest : List Char) (h : ∀ c ∈ l, c ≠ '.' ∧ c ≠ '/') :
    revScan (l ++ '.' :: rest) = some l.length := by
  induction l with
  | nil => simp [revScan]
  | cons c l ih =>
    have hc := h c (List.mem_cons_self _ _)
    simp only [List.cons_append, revScan, hc.1, hc.2, if_false, List.append_eq,
      ih (fun d hd => h d (List.mem_cons_of_mem _ hd)), Option.map_some', List.length_cons]
theorem scanExt_eq_revScan : ∀ (rev post : List Char) (fuel : Nat), rev ≠ [] →
    rev.length ≤ fuel →
    (scanExt (rev.reverse ++ post) fuel ((rev.length : Int) - 1)).1
      = (revScan rev).map (fun k => ((rev.length - k : Nat) : Int)) ∧
    ∀ p ∈ (scanExt (rev.reverse ++ post) fuel ((rev.length : Int) - 1)).2,
      0 ≤ p ∧ p < (rev.length : Int) := by
  intro rev
  induction rev with
  | nil => intro _ _ h; exact absurd rfl h
  | cons c rest ih =>
    intro post fuel _ hfuel
    cases fuel with
    | zero => simp at hfuel
    | succ fuel =>
      have hext : (((c :: rest).length : Nat) : Int) - 1 = (rest.length : Int) := by
        simp
      have hfile : (c :: rest).reverse ++ post = rest.reverse ++ (c :: post) := by simp
      rw [hext, hfile]
      have hget : (rest.reverse ++ (c :: post)).getD rest.length '\x00' = c := by
        rw [List.getD_eq_getElem?_getD, List.getElem?_append_right (by simp)]
        simp
      have hnn : (0 : Int) ≤ (rest.length : Int) := Int.natCast_nonneg _
      simp only [scanExt, hnn, if_true, Int.toNat_ofNat, hget, revScan]
      by_cases h1 : c = '/'
      · simp [h1]
      · by_cases h2 : c = '.'
        · simp [h2]
        · simp only [h1, h2, if_false]
          cases rest with
          | nil => simp [revScan]
          | cons d rest =>
            have hneg : ¬ (((d :: rest).length : Nat) : Int) - 1 < 0 := by
              simp only [List.length_cons, Nat.cast_add, Nat.cast_one]
              omega
            simp only [hneg, if_false]
            have hfuel' : (d :: rest).length ≤ fuel := by
              simp only [List.length_cons] at hfuel ⊢
              omega
            have ih' := ih (c :: post) fuel (by simp) hfuel'
            refine ⟨?_, ?_⟩
            · rw [ih'.1, Option.map_map]
              cases revScan (d :: rest) with
              | none => rfl
              | some k =>
                simp only [Option.map_some', Function.comp, List.length_cons]
                congr 1
                congr 1
                omega
            · intro p hp
              simp only [List.mem_cons] at hp
              rcases hp with hp | hp
              · subst hp
                simp only [List.length_cons, Nat.cast_add, Nat.cast_one]
                omega
              · have := ih'.2 p hp
                simp only [List.length_cons, Nat.cast_add, Nat.cast_one] at this ⊢
                omega
/-- The scan of `findMimeType` on a non-empty file name: its result in the
words of the lookup rule, and the offsets it reads. -/
theorem scanExt_file (file : String) (hne : file ≠ "") :
    (scanExt file.toList (file.length + 1) (file.length - 1)).1
      = (revScan file.toList.reverse).map (fun k => ((file.length - k : Nat) : Int)) ∧
    ∀ p ∈ (scanExt file.toList (file.length + 1) (file.length - 1)).2,
      0 ≤ p ∧ p < (file.length : Int) := by
  have hrev : file.toList.reverse ≠ [] := by
    intro h
    apply hne
    have : file.toList = [] := by simpa using h
    exact String.ext this
  have h := scanExt_eq_revScan file.toList.reverse [] (file.length + 1) hrev
    (by
      have : file.toList.length = file.length := rfl
      rw [List.length_reverse, this]
      omega)
  have hl : file.toList.length = file.length := rfl
  simp only [List.reverse_reverse, List.append_nil, List.length_reverse, hl] at h
  exact h

/-- C16: for a non-empty file name and a table ordered by extension:
when the name is `pre ++ "." ++ s` with no '.' and no '/' in `s` (so `s` is the
text after the last '.') and `s` is an extension of the table, `findMimeType`
returns an entry of the table whose extension is `s`; it returns the
application/octet-stream entry when the name holds no '.', when a '/' is
followed by no '.', and when the text after the last '.' is no extension of the
table. Every offset the backward scan reads lies inside the name. -/
theorem findMimeType_lookup (mimeTypes : List MimeType) (file : String) (hne : file ≠ "")
    (hs : mimeTypes.Pairwise (fun a b => compareExt a b ≤ 0)) :
    (∀ pre s, file.toList = pre ++ '.' :: s → '.' ∉ s → '/' ∉ s →
      (∃ entry ∈ mimeTypes, entry.ext = String.mk s) →
      findMimeType mimeTypes (some file) ∈ mimeTypes ∧
      (findMimeType mimeTypes (some file)).ext = String.mk s) ∧
    ('.' ∉ file.toList → findMimeType mimeTypes (some file) = UNKNOWN_MIME_TYPE) ∧
    (∀ pre s, file.toList = pre ++ '/' :: s → '.' ∉ s →
      findMimeType mimeTypes (some file) = UNKNOWN_MIME_TYPE) ∧
    (∀ pre s, file.toList = pre ++ '.' :: s → '.' ∉ s →
      (∀ entry ∈ mimeTypes, entry.ext ≠ String.mk s) →
      findMimeType mimeTypes (some file) = UNKNOWN_MIME_TYPE) ∧
    (∀ p ∈ (scanExt file.toList (file.length + 1) (file.length - 1)).2,
      0 ≤ p ∧ p < (file.length : Int)) := by
  obtain ⟨hscan, hreads⟩ := scanExt_file file hne
  have hslash : ∀ pre s, file.toList = pre ++ '/' :: s → '.' ∉ s →
      findMimeType mimeTypes (some file) = UNKNOWN_MIME_TYPE := by
    intro pre s hfile hdot
    have hr : revScan file.toList.reverse = none := by
      rw [hfile]
      simp only [List.reverse_append, List.reverse_cons, List.append_assoc, List.singleton_append]
      exact revScan_slash _ _ (by simpa using hdot)
    unfold findMimeType
    simp only [hscan, hr, Option.map_none']
  have hkey : ∀ pre s, file.toList = pre ++ '.' :: s → (∀ c ∈ s, c ≠ '.' ∧ c ≠ '/') →
      (scanExt file.toList (file.length + 1) (file.length - 1)).1 = some ((pre.length + 1 : Nat) : Int) ∧
      file.toList.drop (pre.length + 1) = s := by
    intro pre s hfile hclean
    have hr : revScan file.toList.reverse = some s.length := by
      rw [hfile]
      simp only [List.reverse_append, List.reverse_cons, List.append_assoc, List.singleton_append]
      have := revScan_dot s.reverse pre.reverse (by simpa using hclean)
      simpa using this
    have hlen : file.length = pre.length + 1 + s.length := by
      have : file.length = file.toList.length := rfl
      rw [this, hfile]
      simp only [List.length_append, List.length_cons]
      omega
    refine ⟨?_, ?_⟩
    · rw [hscan, hr, Option.map_some', hlen]
      congr 2
      omega
    · rw [hfile]
      have : pre ++ '.' :: s = (pre ++ ['.']) ++ s := by simp
      rw [this, List.drop_left' (by simp)]
  refine ⟨?_, ?_, hslash, ?_, hreads⟩
  · intro pre s hfile hdot hsl hentry
    obtain ⟨hres, hdrop⟩ := hkey pre s hfile (fun c hc =>
      ⟨fun e => hdot (e ▸ hc), fun e => hsl (e ▸ hc)⟩)
    obtain ⟨entry, hmem, hext⟩ := hentry
    have hb := bsearch_mimeTypes
      { ext := String.mk s, type := "", typeStringSize := 0 } mimeTypes hs
    unfold findMimeType
    simp only [hres, Int.toNat_ofNat, hdrop]
    cases hfound : bsearch compareExt { ext := String.mk s, type := "", typeStringSize := 0 }
        mimeTypes with
    | none => exact absurd hext (hb.2 hfound entry hmem)
    | some i =>
      obtain ⟨p, hp, hpe⟩ := hb.1 i hfound
      have hget : mimeTypes.getD i UNKNOWN_MIME_TYPE = p := by
        rw [List.getD_eq_getElem?_getD, hp]
        rfl
      simp only [hget]
      exact ⟨List.getElem?_mem hp, hpe⟩
  · intro hdot
    have hr : revScan file.toList.reverse = none :=
      revScan_no_dot _ (by simpa using hdot)
    unfold findMimeType
    simp only [hscan, hr, Option.map_none']
  · intro pre s hfile hdot hno
    by_cases hsl : '/' ∈ s
    · obtain ⟨s1, s2, hsplit⟩ := List.append_of_mem hsl
      apply hslash (pre ++ '.' :: s1) s2
      · rw [hfile, hsplit]
        simp
      · intro h
        apply hdot
        rw [hsplit]
        simp [h]
    · obtain ⟨hres, hdrop⟩ := hkey pre s hfile (fun c hc =>
        ⟨fun e => hdot (e ▸ hc), fun e => hsl (e ▸ hc)⟩)
      have hb := bsearch_mimeTypes
        { ext := String.mk s, type := "", typeStringSize := 0 } mimeTypes (by
          exact hs)
      unfold findMimeType
      simp only [hres, Int.toNat_ofNat, hdrop]
      cases hfound : bsearch compareExt { ext := String.mk s, type := "", typeStringSize := 0 }
          mimeTypes with
      | none => rfl
      | some i =>
        obtain ⟨p, hp, hpe⟩ := hb.1 i hfound
        exact absurd hpe (hno p (List.getElem?_mem hp))

/-- Witness for C16: with the table of the mime file "text/plain txt",
"image/png png" the name "file.txt" finds the entry of "txt". -/
theorem findMimeType_lookup_witness :
    findMimeType (initializeMimeTypes "text/plain txt\nimage/png png\n".toList) (some "file.txt")
      ∈ initializeMimeTypes "text/plain txt\nimage/png png\n".toList ∧
    (findMimeType (initializeMimeTypes "text/plain txt\nimage/png png\n".toList)
      (some "file.txt")).ext = "txt" :=
  (findMimeType_lookup (initializeMimeTypes "text/plain txt\nimage/png png\n".toList) "file.txt"
    (by decide) (by decide)).1 "file".toList "txt".toList (by decide) (by decide) (by decide)
    ⟨{ ext := "txt", type := "text/plain", typeStringSize := 4 }, by decide, by decide⟩

theorem queuedResponses_append (a b : List ServerEvent) :
    queuedResponses (a ++ b) = queuedResponses a ++ queuedResponses b := by
  induction a with
  | nil => rfl
  | cons e a ih => cases e <;> simp [queuedResponses, ih]

theorem queuedResponses_destroyRap (l : List Int) :
    queuedResponses (l.map ServerEvent.destroyRap) = [] := by
  induction l with
  | nil => rfl
  | cons a l ih => simpa [queuedResponses] using ih

theorem acquireRap_queues_nothing (config : WebdavdConfiguration) (rapDB : List RapGroup)
    (request : MHD_Connection) (io : AcquireIO) :
    queuedResponses (acquireRap config rapDB request io).2.2 = [] := by
  have hc : ∀ (cio : CreateRapIO) (p : RestrictedAccessProcessor) (u pw rh : String),
      queuedResponses (createRap cio p u pw rh).2 = [] := by
    intro cio p u pw rh
    unfold createRap
    repeat' split
    all_goals simp [queuedResponses]
  unfold acquireRap
  split
  · simp only []
    split
    · rfl
    · split
      · split
        · exact hc _ _ _ _ _
        · exact hc _ _ _ _ _
        · simp only [queuedResponses_append, queuedResponses_destroyRap, List.append_nil]
          exact hc _ _ _ _ _
      · rfl
  · rfl

/-- What `sendResponse` queues: the static page for 500, 401 and 405, the
response it was given for every other status. -/
theorem sendResponse_queues (io : RequestIO) (rapDB : List RapGroup) (request : MHD_Connection)
    (statusCode : Int) (response : Option MHD_Response) (rapSession : RapPtr)
    (method url : String) :
    queuedResponses (sendResponse io rapDB request statusCode response rapSession method url).2.2
      = [if statusCode = MHD_HTTP_INTERNAL_SERVER_ERROR then
          (MHD_HTTP_INTERNAL_SERVER_ERROR, some INTERNAL_SERVER_ERROR_PAGE)
        else if statusCode = MHD_HTTP_UNAUTHORIZED then
          (MHD_HTTP_UNAUTHORIZED, some UNAUTHORIZED_PAGE)
        else if statusCode = MHD_HTTP_METHOD_NOT_ALLOWED then
          (MHD_HTTP_METHOD_NOT_ALLOWED, some METHOD_NOT_SUPPORTED_PAGE)
        else (statusCode, response)] := by
  unfold sendResponse
  simp only [queuedResponses_append]
  split_ifs <;> simp [queuedResponses]

/-- C21 as stated fails: an OPTIONS request without credentials is answered
with 401, not 200. -/
theorem options_without_credentials_is_401 :
    queuedStatus (answerToRequest exampleConfig exampleEnv exampleIO exampleDB
      exampleAnonymousRequest "/" "OPTIONS" 0 none).events = [401] := by
  decide

/-- C21, amended: an OPTIONS request for which `acquireRap` hands out a session
(valid credentials, below the cap or served by an idle session), with the page
OPTIONS.html readable and, for a request with a body, the body pipe made, is
answered with status 200 and a response that carries the header Accept with the
list of verbs. After `acquireRap` nothing is sent to a RAP: the only messages
are the AUTHENTICATE messages of `acquireRap` itself. -/
theorem options_served_by_server (config : WebdavdConfiguration) (env : ServerEnv)
    (io : RequestIO) (rapDB : List RapGroup) (request : MHD_Connection) (url : String) (n : Nat)
    (ptr : SlotPtr) (file : Int × Nat × Int)
    (hacq : (acquireRap config rapDB request io.acquire).2.1 = RapPtr.slot ptr)
    (hopen : env.openFile "/usr/share/webdav/OPTIONS.html" = some file)
    (hpipe : requestHasData request = true → ∃ ends, io.pipeResult = some ends) :
    queuedResponses (answerToRequest config env io rapDB request url "OPTIONS" n none).events
      = [(200, some (addHeaderSafe
          (createFdFileResponse env file.2.1 file.1 (some "text/html") file.2.2) "Accept"
          ACCEPT_HEADER))] ∧
    ("Accept",
      "OPTIONS, GET, HEAD, DELETE, PROPFIND, PUT, PROPPATCH, COPY, MOVE, REPORT, LOCK, UNLOCK")
      ∈ (addHeaderSafe (createFdFileResponse env file.2.1 file.1 (some "text/html") file.2.2)
          "Accept" ACCEPT_HEADER).headers ∧
    sentKinds (answerToRequest config env io rapDB request url "OPTIONS" n none).events
      = sentKinds (acquireRap config rapDB request io.acquire).2.2 ∧
    ∀ k ∈ sentKinds (answerToRequest config env io rapDB request url "OPTIONS" n none).events,
      k = RapConstant.RAP_AUTHENTICATE := by
  have hne1 : ¬ (RapPtr.slot ptr = RapPtr.AUTH_FAILED ∨ RapPtr.slot ptr = RapPtr.AUTH_BACKOFF) := by
    simp
  have hne2 : ¬ (RapPtr.slot ptr = RapPtr.AUTH_ERROR) := by simp
  have hacqev := acquireRap_events config rapDB request io.acquire
  have hq := acquireRap_queues_nothing config rapDB request io.acquire
  have hpage : createFileResponse env "/usr/share/webdav/OPTIONS.html" "text/html"
      = some (createFdFileResponse env file.2.1 file.1 (some "text/html") file.2.2) := by
    unfold createFileResponse
    rw [hopen]
  have hhead : ("Accept",
      "OPTIONS, GET, HEAD, DELETE, PROPFIND, PUT, PROPPATCH, COPY, MOVE, REPORT, LOCK, UNLOCK")
      ∈ (addHeaderSafe (createFdFileResponse env file.2.1 file.1 (some "text/html") file.2.2)
          "Accept" ACCEPT_HEADER).headers := by
    simp [addHeaderSafe, ACCEPT_HEADER]
  have hkinds : sentKinds (answerToRequest config env io rapDB request url "OPTIONS" n none).events
      = sentKinds (acquireRap config rapDB request io.acquire).2.2 ∧
      queuedResponses (answerToRequest config env io rapDB request url "OPTIONS" n none).events
      = [(200, some (addHeaderSafe
          (createFdFileResponse env file.2.1 file.1 (some "text/html") file.2.2) "Accept"
          ACCEPT_HEADER))] := by
    by_cases hdata : requestHasData request = true
    · obtain ⟨ends, hends⟩ := hpipe hdata
      obtain ⟨readEnd, writeEnd⟩ := ends
      unfold answerToRequest
      simp only [hacq, hne1, hne2, if_false, hdata, if_true, hends, processNewRequest, hpage]
      simp [sentKinds_append, queuedResponses_append, hq, sentKinds, queuedResponses,
        sendResponse_events, sendResponse_queues, MHD_HTTP_OK, MHD_HTTP_CONTINUE,
        MHD_HTTP_INTERNAL_SERVER_ERROR, MHD_HTTP_UNAUTHORIZED, MHD_HTTP_METHOD_NOT_ALLOWED]
    · unfold answerToRequest
      simp only [hacq, hne1, hne2, if_false, hdata, processNewRequest, hpage]
      simp [sentKinds_append, queuedResponses_append, hq, sentKinds, queuedResponses,
        sendResponse_events, sendResponse_queues, MHD_HTTP_OK, MHD_HTTP_CONTINUE,
        MHD_HTTP_INTERNAL_SERVER_ERROR, MHD_HTTP_UNAUTHORIZED, MHD_HTTP_METHOD_NOT_ALLOWED]
  refine ⟨hkinds.2, hhead, hkinds.1, ?_⟩
  rw [hkinds.1]
  exact hacqev.2

/-- Witness for C21 (amended): the OPTIONS request of "bob" in the example
pool. -/
theorem options_served_by_server_witness :
    queuedStatus (answerToRequest exampleConfig exampleEnv exampleIO exampleDB exampleRequest
      "/" "OPTIONS" 0 none).events = [200] ∧
    sentKinds (answerToRequest exampleConfig exampleEnv exampleIO exampleDB exampleRequest
      "/" "OPTIONS" 0 none).events = [] :=
  have h := options_served_by_server exampleConfig exampleEnv exampleIO exampleDB exampleRequest
    "/" 0 (1, 1) (20, 100, 0) (by decide) rfl (fun h => absurd h (by decide))
  ⟨by decide, h.2.2.1.trans (by decide)⟩

/-- C22: the responses `sendResponse` queues for the statuses 401, 405 and 500
are the static pages, whatever response it is given, and these pages carry only
Content-Type (and WWW-Authenticate or Allow): none of DAV, Accept-Ranges,
Server, Expires, Cache-Control, Pragma, Connection and Keep-Alive. A GET
without credentials is answered that way. -/
theorem static_pages_lack_static_headers :
    (∀ (io : RequestIO) (rapDB : List RapGroup) (request : MHD_Connection)
        (response : Option MHD_Response) (rapSession : RapPtr) (method url : String),
      queuedResponses (sendResponse io rapDB request 401 response rapSession method url).2.2
        = [(401, some UNAUTHORIZED_PAGE)] ∧
      queuedResponses (sendResponse io rapDB request 405 response rapSession method url).2.2
        = [(405, some METHOD_NOT_SUPPORTED_PAGE)] ∧
      queuedResponses (sendResponse io rapDB request 500 response rapSession method url).2.2
        = [(500, some INTERNAL_SERVER_ERROR_PAGE)]) ∧
    headerKeys (some UNAUTHORIZED_PAGE) = some ["Content-Type", "WWW-Authenticate"] ∧
    headerKeys (some METHOD_NOT_SUPPORTED_PAGE) = some ["Content-Type", "Allow"] ∧
    headerKeys (some INTERNAL_SERVER_ERROR_PAGE) = some ["Content-Type"] ∧
    queuedResponses (answerToRequest exampleConfig exampleEnv exampleIO exampleDB
      exampleAnonymousRequest "/file.txt" "GET" 0 none).events = [(401, some UNAUTHORIZED_PAGE)] := by
  refine ⟨?_, by decide, by decide, by decide, by decide⟩
  intro io rapDB request response rapSession method url
  simp [sendResponse_queues, MHD_HTTP_INTERNAL_SERVER_ERROR, MHD_HTTP_UNAUTHORIZED,
    MHD_HTTP_METHOD_NOT_ALLOWED]

theorem timeoutSlots_eq_map (config : WebdavdConfiguration) (now : Int) :
    ∀ (n : Nat) (slots : List RestrictedAccessProcessor), slots.length ≤ n →
      timeoutSlots (now - config.rapMaxSessionLife) n slots
        = (slots.map (afterJanitor config now),
           (slots.filter (idleExpired config now)).map (fun s => s.socketFd)) := by
  intro n
  induction n with
  | zero =>
    intro slots h
    have : slots = [] := List.length_eq_zero.mp (Nat.le_zero.mp h)
    subst this
    rfl
  | succ n ih =>
    intro slots h
    cases slots with
    | nil => rfl
    | cons s rest =>
      have hr := ih rest (by simpa using h)
      simp only [timeoutSlots, hr, List.map_cons]
      by_cases he : idleExpired config now s = true
      · have he' := he
        simp only [idleExpired, decide_eq_true_eq] at he'
        simp [he, he', afterJanitor, destroyRap]
      · have he' := he
        simp only [idleExpired, decide_eq_true_eq] at he'
        simp [he, he', afterJanitor]

/-- C23: one pass of `rapTimeoutWorker` at time `now` over a table whose groups
have `rapMaxSessionsPerUser` slots sets `socketFd` to -1 in exactly the slots
that are not in use, have an open socket and were created before
`now - rapMaxSessionLife`, and changes nothing else; the sockets it closes are
those of these slots. A slot in use and a slot `acquireRapFromDb` would lease
at the same time are left as they are. -/
theorem janitor_pass (config : WebdavdConfiguration) (now : Int) (rapDB : List RapGroup)
    (hslots : ∀ g ∈ rapDB, g.rapSession.length = config.rapMaxSessionsPerUser) :
    (rapTimeoutWorker config now rapDB).1
      = rapDB.map (fun g => { g with rapSession := g.rapSession.map (afterJanitor config now) }) ∧
    (rapTimeoutWorker config now rapDB).2
      = (rapDB.flatMap (fun g =>
          g.rapSession.filter (idleExpired config now))).map
            (fun s => s.socketFd) ∧
    (∀ s, afterJanitor config now s
        = if s.rapSessionInUse = 0 ∧ s.socketFd ≠ -1 ∧ s.rapCreated < now - config.rapMaxSessionLife
          then { s with socketFd := -1 } else s) ∧
    (∀ s, s.rapSessionInUse ≠ 0 → afterJanitor config now s = s) ∧
    (∀ s, Leasable (now - config.rapMaxSessionLife) s → afterJanitor config now s = s) := by
  refine ⟨?_, ?_, ?_, ?_, ?_⟩
  · induction rapDB with
    | nil => rfl
    | cons g groups ih =>
      have hg := hslots g (List.mem_cons_self _ _)
      have ih' := ih (fun g' hg' => hslots g' (List.mem_cons_of_mem _ hg'))
      simp only [rapTimeoutWorker, List.map_cons, ih',
        timeoutSlots_eq_map config now _ g.rapSession (le_of_eq hg)]
  · induction rapDB with
    | nil => rfl
    | cons g groups ih =>
      have hg := hslots g (List.mem_cons_self _ _)
      have ih' := ih (fun g' hg' => hslots g' (List.mem_cons_of_mem _ hg'))
      simp only [rapTimeoutWorker, List.flatMap_cons, List.map_append, ih',
        timeoutSlots_eq_map config now _ g.rapSession (le_of_eq hg)]
  · intro s
    simp [afterJanitor, idleExpired]
  · intro s hs
    simp [afterJanitor, idleExpired, hs]
  · intro s hs
    have h3 : ¬ s.rapCreated < now - config.rapMaxSessionLife := by
      have := hs.2.2
      omega
    simp [afterJanitor, idleExpired, h3]

/-- Witness for C23: at time 1210 (sessions created before 910 are expired) the
pass over `exampleDB` closes socket 4 of "al" (idle, created at 900) and nothing
else: the sessions of "bob" are in use or were created at 960. -/
theorem janitor_pass_witness :
    (rapTimeoutWorker exampleConfig 1210 exampleDB).2 = [4] ∧
    (rapTimeoutWorker exampleConfig 1210 exampleDB).1
      = exampleDB.map (fun g =>
          { g with rapSession := g.rapSession.map (afterJanitor exampleConfig 1210) }) :=
  have h := janitor_pass exampleConfig 1210 exampleDB (by decide)
  ⟨h.2.1.trans (by decide), h.1⟩

theorem setInUse_keys (db : List RapGroup) (ptr : SlotPtr) (v : Int) :
    (setInUse db ptr v).map RapGroup.key = db.map RapGroup.key := by
  unfold setInUse
  apply map_key_modify
  intro g
  rfl

theorem acquireRapFromDb_keys (config : WebdavdConfiguration) (db : List RapGroup) (now : Int)
    (user password : String) :
    (acquireRapFromDb config db now user password).1.map RapGroup.key = db.map RapGroup.key := by
  unfold acquireRapFromDb
  simp only []
  repeat' split
  all_goals first | rfl | exact setInUse_keys _ _ _

/-- The step `addRapToDb` keeps the table strictly increasing. -/
theorem addRapToDb_sorted (config : WebdavdConfiguration) (db : List RapGroup) (now : Int)
    (rapSession : RestrictedAccessProcessor) (password : String) (hs : SortedDB db) :
    SortedDB (addRapToDb config db now rapSession password).1 := by
  rcases addRapToDb_cases config db now rapSession password hs with
    ⟨gi, g, hg, _, _, ⟨_, h⟩ | ⟨i, _, h⟩⟩ | ⟨hnone, lastUser, h⟩
  · rw [h]
    exact sortedDB_of_keys
      (@map_key_set db gi g (withSlots g (addScanOf config now g).1) hg rfl).symm hs
  · rw [h]
    exact sortedDB_of_keys
      (@map_key_set db gi g
        (withSlots g ((addScanOf config now g).1.set i (storedSession rapSession g.user)))
        hg rfl).symm hs
  · rw [h]
    apply qsort_append_sorted db _ hs
    intro b hb hzero
    have := (compareRapGroup_eq_zero _ _).mp hzero
    exact hnone b hb ⟨this.1.symm, this.2.symm⟩

theorem sortedDB_of_tableReachable {config : WebdavdConfiguration} {db : List RapGroup}
    (h : TableReachable config db) : SortedDB db := by
  induction h with
  | empty => exact List.Pairwise.nil
  | step _ hstep ih =>
    cases hstep with
    | acquire now user password =>
      exact sortedDB_of_keys (acquireRapFromDb_keys _ _ _ _ _).symm ih
    | add now rapSession password => exact addRapToDb_sorted _ _ _ _ _ ih
    | release ptr =>
      exact sortedDB_of_keys (setInUse_keys _ _ _).symm ih
    | timeout now =>
      exact sortedDB_of_keys (rapTimeoutWorker_spec _ _ _).1.symm ih

/-- C24: every table reached from the empty table by `addRapToDb` calls (and by
the other pool operations, which do not move groups) is strictly increasing
under `compareRapGroup`, that is ordered by user and then by password with no
key twice; and `bsearch` with a key returns an index if and only if a group
with that user and password is in the table, the index being that of the
group. -/
theorem sorted_group_table (config : WebdavdConfiguration) (rapDB : List RapGroup)
    (h : TableReachable config rapDB) :
    SortedDB rapDB ∧
    rapDB.Pairwise (fun a b =>
      strcmp a.user b.user < 0 ∨ (a.user = b.user ∧ strcmp a.password b.password < 0)) ∧
    ∀ (user password : String) (slots : List RestrictedAccessProcessor),
      ((∃ gi, bsearch compareRapGroup
          { user := user, password := password, rapSession := slots } rapDB = some gi) ↔
        ∃ g ∈ rapDB, g.user = user ∧ g.password = password) ∧
      ∀ gi, bsearch compareRapGroup
          { user := user, password := password, rapSession := slots } rapDB = some gi →
        ∃ g, rapDB[gi]? = some g ∧ g.user = user ∧ g.password = password := by
  have hs := sortedDB_of_tableReachable h
  refine ⟨hs, ?_, ?_⟩
  · exact hs.imp (fun {a b} hab => (compareRapGroup_neg a b).mp hab)
  · intro user password slots
    have hfound : ∀ gi, bsearch compareRapGroup
        { user := user, password := password, rapSession := slots } rapDB = some gi →
        ∃ g, rapDB[gi]? = some g ∧ g.user = user ∧ g.password = password :=
      fun gi hgi => bsearch_rapDB_some hs hgi
    refine ⟨⟨?_, ?_⟩, hfound⟩
    · rintro ⟨gi, hgi⟩
      obtain ⟨g, hg, hu, hp⟩ := hfound gi hgi
      exact ⟨g, List.getElem?_mem hg, hu, hp⟩
    · rintro ⟨g, hg, hu, hp⟩
      obtain ⟨gi, hgi⟩ := List.getElem?_of_mem hg
      exact ⟨gi, (bsearch_rapDB hs user password slots).1 gi g hgi hu hp⟩

/-- Witness for C24: after the sessions of "bob" and of "al" were added, the
group of "al" comes first and both keys are found. -/
theorem sorted_group_table_witness :
    SortedDB exampleTwoAdds ∧
    exampleTwoAdds.map RapGroup.key = [("al", "x"), ("bob", "pw")] :=
  ⟨(sorted_group_table exampleConfig exampleTwoAdds
      (TableReachable.step (TableReachable.step TableReachable.empty
        (TableStep.add [] 1000 (exampleSession 0 5 "bob" 1000) "pw"))
        (TableStep.add _ 1001 (exampleSession 0 7 "al" 1001) "x"))).1, by decide⟩

/-- C26: at time 1000 (sessions created before 700 are expired) a new session
of "bob" on socket 7 is added to his group, which has no free slot and two
expired idle sessions on the sockets 5 and 6. `addRapToDb` destroys both, not
only the first: slot 0 is left empty and the new session is stored in slot 1,
the last slot destroyed. -/
theorem eviction_destroys_every_expired_slot :
    addRapToDb exampleConfig exampleIdleDB 1000 (exampleSession 0 7 "bob" 1000) "pw"
      = ([{ user := "bob", password := "pw",
            rapSession := [destroyRap (exampleSession 0 5 "bob" 100), exampleSession 1 7 "bob" 1000] }],
         AddResult.slot (0, 1), [5, 6]) := by
  decide

/-- C29: a session created for "al" is added to a table that holds the group of
"bob". The new group sorts first, the slot returned is slot 0 of the group of
"al", and its `user` field is "bob", the user of the group that is last after
the sort. -/
theorem new_group_slot_has_user_of_last_group :
    (addRapToDb exampleConfig exampleIdleDB 1000 (exampleSession 0 7 "al" 1000) "x").2.1
      = AddResult.slot (0, 0) ∧
    ((addRapToDb exampleConfig exampleIdleDB 1000 (exampleSession 0 7 "al" 1000) "x").1.map
      RapGroup.key) = [("al", "x"), ("bob", "pw")] ∧
    getSlot (addRapToDb exampleConfig exampleIdleDB 1000 (exampleSession 0 7 "al" 1000) "x").1
      (0, 0) = some (exampleSession 1 7 "bob" 1000) ∧
    (exampleSession 0 7 "al" 1000).user = "al" := by
  decide

/-- C27: no result of `recvMessage` makes the RAP exit with status 1, because
`ioResult` is a `size_t` and the test `ioResult < 0` never holds. After the
result -1 the iteration goes on with what `message` holds: for a READ_FILE
message the handler is dispatched and replies (NOT_FOUND here), and the loop
continues. After the result 0 nothing is dispatched and the loop ends. -/
theorem receive_error_is_not_fatal :
    (∀ (env : RapEnv) (state : RapState) (recvResult : Int) (message : Message),
      (mainIteration env state recvResult message).exitStatus = none) ∧
    repliesOf (mainIteration exampleRapEnv (exampleRapState 1) (-1)
      (exampleMessage RapConstant.RAP_READ_FILE (-1) "/dir/a")).events
      = [RapConstant.RAP_NOT_FOUND] ∧
    (mainIteration exampleRapEnv (exampleRapState 1) (-1)
      (exampleMessage RapConstant.RAP_READ_FILE (-1) "/dir/a")).ioResult ≠ 0 ∧
    (mainLoop exampleRapEnv [(-1, exampleMessage RapConstant.RAP_READ_FILE (-1) "/dir/a"),
      (-1, exampleMessage RapConstant.RAP_READ_FILE (-1) "/dir/a")] (exampleRapState 1)).2
      = (2, none) ∧
    (∀ (env : RapEnv) (state : RapState) (message : Message),
      (mainIteration env state 0 message).events = [] ∧
      (mainIteration env state 0 message).ioResult = 0) := by
  refine ⟨?_, by decide, by decide, by decide, ?_⟩
  · intro env state recvResult message
    unfold mainIteration
    simp only [Nat.not_lt_zero, if_false]
    repeat' split
    all_goals rfl
  · intro env state message
    simp [mainIteration, toSizeT]

/-- C28 as stated fails: after the login with a wrong password is answered
AUTH_FAILED the RAP receives and dispatches the next two messages: a second
login, which succeeds, and a READ_FILE, which is served. -/
theorem failed_login_is_followed_by_requests :
    repliesOf (mainLoop exampleRapEnv
      [(1, exampleLogin "bad"), (1, exampleLogin "pw"),
       (1, exampleMessage RapConstant.RAP_READ_FILE (-1) "/dir/a")] (exampleRapState 0)).1
      = [RapConstant.RAP_AUTH_FAILLED, RapConstant.RAP_SUCCESS, RapConstant.RAP_NOT_FOUND] ∧
    (mainLoop exampleRapEnv
      [(1, exampleLogin "bad"), (1, exampleLogin "pw"),
       (1, exampleMessage RapConstant.RAP_READ_FILE (-1) "/dir/a")] (exampleRapState 0)).2
      = (3, none) := by
  decide

/-- C28, amended: an AUTHENTICATE message with three buffers received by a RAP
that is not authenticated, for which `pamAuthenticate` fails, is answered
AUTH_FAILED and leaves the globals as they were. When that reply was sent
(`ioResult` is not 0) the RAP stays in its loop and the next message is handled
by an iteration from the same state; it leaves the loop, closes standard input
and output and returns 0 when `recvMessage` then reports the end of the stream.
On the server `createRap` calls `destroyRap`, which closes the control socket,
when the reply to AUTHENTICATE is AUTH_FAILED, and returns `AUTH_FAILED_RAP`. -/
theorem failed_authentication_keeps_loop (env : RapEnv) (state : RapState) (recvResult : Int)
    (message : Message) (rest : List (Int × Message))
    (hrecv : 0 < toSizeT recvResult) (hstate : state.authenticated = 0)
    (hkind : message.mID = RapConstant.RAP_AUTHENTICATE) (hcount : message.bufferCount = 3)
    (hpam : env.pam (iovecToString message.buffers[RAP_USER_INDEX]?)
      (iovecToString message.buffers[RAP_PASSWORD_INDEX]?)
      (iovecToString message.buffers[RAP_RHOST_INDEX]?) = none)
    (hsent : (respond env RapConstant.RAP_AUTH_FAILLED (-1)).1 ≠ 0) :
    repliesOf (mainIteration env state recvResult message).events
      = [RapConstant.RAP_AUTH_FAILLED] ∧
    (mainIteration env state recvResult message).state = state ∧
    mainLoop env ((recvResult, message) :: rest) state
      = ((mainIteration env state recvResult message).events ++ (mainLoop env rest state).1,
         (mainLoop env rest state).2.1 + 1, (mainLoop env rest state).2.2) ∧
    (∀ (m : Message) (later : List (Int × Message)),
      mainLoop env ((0, m) :: later) state
        = ([RapEvent.close 0, RapEvent.close 1], 1, some 0)) ∧
    (∀ (io : CreateRapIO) (processor : RestrictedAccessProcessor) (user password rhost : String),
      io.forkResult ≠ 0 → 0 < io.sendResult → 0 < io.recvResult →
      io.recvMID = RapConstant.RAP_AUTH_FAILLED →
      (createRap io processor user password rhost).1 = CreateRapResult.AUTH_FAILED ∧
      ServerEvent.destroyRap io.newSockFd ∈ (createRap io processor user password rhost).2) := by
  have h0 : ¬ toSizeT recvResult ≤ 0 := by omega
  have hit : mainIteration env state recvResult message
      = { state := state, ioResult := (respond env RapConstant.RAP_AUTH_FAILLED (-1)).1,
          events := (if message.fd ≠ -1 then
              [RapEvent.stdLogError "authenticate request send incoming data!",
                RapEvent.close message.fd]
            else []) ++
            [RapEvent.pamAuthenticate (iovecToString message.buffers[RAP_USER_INDEX]?)
              (iovecToString message.buffers[RAP_PASSWORD_INDEX]?)
              (iovecToString message.buffers[RAP_RHOST_INDEX]?)] ++
            (respond env RapConstant.RAP_AUTH_FAILLED (-1)).2,
          exitStatus := none } := by
    unfold mainIteration
    simp only [h0, if_false, hkind, isRequest, dispatch, authenticate, hstate, hcount, ne_eq,
      not_true_eq_false, or_self, pamAuthenticate, hpam, Bool.false_eq_true, Nat.not_lt_zero,
      respondWith, not_false_eq_true, Bool.not_true, List.append_assoc]
  refine ⟨?_, ?_, ?_, ?_, ?_⟩
  · rw [hit]
    simp only [repliesOf_append]
    split <;> simp [repliesOf, respond]
  · rw [hit]
  · simp only [mainLoop, hit, hsent, ne_eq, not_false_eq_true, if_true]
  · intro m later
    simp [mainLoop, mainIteration, toSizeT]
  · intro io processor user password rhost hfork hsend hrecvd hmid
    have hs : ¬ io.sendResult ≤ 0 := by omega
    have hr0 : ¬ io.recvResult ≤ 0 := by omega
    have hr1 : ¬ io.recvResult < 0 := by omega
    have hr2 : ¬ io.recvResult = 0 := by omega
    unfold createRap
    simp [hfork, hs, hr0, hr1, hr2, hmid]

/-- Witness for C28 (amended): the login of "bob" with a wrong password to the
example RAP, followed by the end of the stream. -/
theorem failed_authentication_keeps_loop_witness :
    repliesOf (mainIteration exampleRapEnv (exampleRapState 0) 1 (exampleLogin "bad")).events
      = [RapConstant.RAP_AUTH_FAILLED] ∧
    (mainLoop exampleRapEnv [(1, exampleLogin "bad"), (0, exampleLogin "bad")]
      (exampleRapState 0)).2 = (2, some 0) :=
  have h := failed_authentication_keeps_loop exampleRapEnv (exampleRapState 0) 1
    (exampleLogin "bad") [(0, exampleLogin "bad")] (by decide) rfl rfl rfl (by decide) (by decide)
  ⟨h.1, by rw [h.2.2.1, h.2.2.2.1]⟩

theorem toLong_id (x : Int) (h0 : 0 ≤ x) (h1 : x ≤ LONG_MAX) : toLong x = x := by
  unfold toLong
  unfold LONG_MAX at h1
  have e63 : (2 : Int) ^ 63 = 9223372036854775808 := by norm_num
  have e64 : (2 : Int) ^ 64 = 18446744073709551616 := by norm_num
  rw [e63] at h1 ⊢
  rw [e64]
  omega

theorem digit_not_special {c : Char} (hd : c.isDigit = true) :
    isspace c = false ∧ c ≠ '-' ∧ c ≠ '+' ∧ c ≠ ':' ∧ c ≠ '\x00' := by
  have hne : ∀ d : Char, d.isDigit = false → c ≠ d := by
    intro d hdd h
    rw [h] at hd
    rw [hd] at hdd
    cases hdd
  refine ⟨?_, hne _ (by decide), hne _ (by decide), hne _ (by decide), hne _ (by decide)⟩
  simp only [isspace, Bool.or_eq_false_iff, decide_eq_false_iff_not]
  exact ⟨⟨⟨⟨⟨hne _ (by decide), hne _ (by decide)⟩, hne _ (by decide)⟩, hne _ (by decide)⟩,
    hne _ (by decide)⟩, hne _ (by decide)⟩

theorem strtolDigits_field (field rest : List Char) (hf : ∀ c ∈ field, c.isDigit = true)
    (hr : ∀ c, rest.head? = some c → c.isDigit = false) :
    ∀ value count, strtolDigits (field ++ rest) value count
      = (field.foldl (fun value c => 10 * value + (c.toNat - '0'.toNat)) value,
         count + field.length) := by
  induction field with
  | nil =>
    intro value count
    cases rest with
    | nil => rfl
    | cons c rest =>
      have := hr c rfl
      simp [strtolDigits, this]
  | cons c field ih =>
    intro value count
    have hc := hf c (List.mem_cons_self _ _)
    simp only [List.cons_append, strtolDigits, hc, if_true, List.foldl_cons, List.length_cons,
      List.append_eq]
    rw [ih (fun d hd => hf d (List.mem_cons_of_mem _ hd))]
    simp only [Prod.mk.injEq, true_and]
    omega

/-- The function `strtol` on a field of digits that is followed by a character
that is no digit, or by nothing. -/
theorem strtol_field (field rest : List Char) (hf : isDecimalField field)
    (hr : ∀ c, rest.head? = some c → c.isDigit = false)
    (hmax : (decimalValue field : Int) ≤ LONG_MAX) :
    strtol (field ++ rest) = ((decimalValue field : Int), field.length) := by
  obtain ⟨hne, hdig⟩ := hf
  cases field with
  | nil => exact absurd rfl hne
  | cons c field =>
    have hc := digit_not_special (hdig c (List.mem_cons_self _ _))
    have htw : ((c :: field ++ rest).takeWhile isspace) = [] := by
      simp [List.takeWhile_cons, hc.1]
    have hsign : (match (c :: field ++ rest).head? with
        | some '-' => some true
        | some '+' => some false
        | _ => (none : Option Bool)) = none := by
      simp only [List.cons_append, List.head?_cons]
      split
      · rename_i h
        exact absurd (Option.some.inj h) hc.2.1
      · rename_i h
        exact absurd (Option.some.inj h) hc.2.2.1
      · rfl
    unfold strtol
    simp only [htw, List.length_nil, List.drop_zero, hsign, Option.isSome_none,
      Bool.false_eq_true, if_false]
    rw [show c :: field ++ rest = (c :: field) ++ rest from rfl,
      strtolDigits_field (c :: field) rest hdig hr 0 0]
    have hlen : ¬ (0 + (c :: field).length = 0) := by simp
    simp only [hlen, if_false]
    have hval : (decimalValue (c :: field) : Int) ≤ LONG_MAX := hmax
    have hnn : (0 : Int) ≤ (decimalValue (c :: field) : Int) := Int.natCast_nonneg _
    have hlm : (0 : Int) ≤ LONG_MAX := by unfold LONG_MAX; norm_num
    simp only [decimalValue] at hval hnn ⊢
    simp only [reduceCtorEq, if_false, Prod.mk.injEq]
    constructor
    · rw [min_eq_right hval, max_eq_right (by omega)]
    · omega

theorem charAt_end (l : List Char) : charAt l l.length = '\x00' := by
  simp [charAt, List.getD_eq_getElem?_getD]

theorem charAt_append (a b : List Char) (c : Char) : charAt (a ++ c :: b) a.length = c := by
  unfold charAt
  rw [List.getD_eq_getElem?_getD, List.getElem?_append_right (le_refl _)]
  simp

theorem drop_append_cons (a b : List Char) (c : Char) : (a ++ c :: b).drop (a.length + 1) = b := by
  have : a ++ c :: b = (a ++ [c]) ++ b := by simp
  rw [this, List.drop_left' (by simp)]

/-- C25: for fields `h`, `m`, `s` of decimal digits whose combined value fits a
`long`, the branch of `configureServer` for session-timeout sets
`rapMaxSessionLife` to the value of `s` for the text "s", to 60 m + s for
"m:s" and to 3600 h + 60 m + s for "h:m:s"; without the element the value set
at the start, 300, stays. -/
theorem session_timeout_arithmetic (h m s : List Char) (life : Int)
    (hh : isDecimalField h) (hm : isDecimalField m) (hs : isDecimalField s)
    (hfit : (3600 * decimalValue h + 60 * decimalValue m + decimalValue s : Int) ≤ LONG_MAX) :
    sessionTimeout life (some (String.mk s)) = some (decimalValue s : Int) ∧
    sessionTimeout life (some (String.mk (m ++ ':' :: s)))
      = some (60 * decimalValue m + decimalValue s : Int) ∧
    sessionTimeout life (some (String.mk (h ++ ':' :: (m ++ ':' :: s))))
      = some (3600 * decimalValue h + 60 * decimalValue m + decimalValue s : Int) ∧
    defaultConfiguration.rapMaxSessionLife = 300 ∧
    sessionTimeout defaultConfiguration.rapMaxSessionLife none = some 300 := by
  have hH : (0 : Int) ≤ (decimalValue h : Int) := Int.natCast_nonneg _
  have hM : (0 : Int) ≤ (decimalValue m : Int) := Int.natCast_nonneg _
  have hS : (0 : Int) ≤ (decimalValue s : Int) := Int.natCast_nonneg _
  have hcolon : ∀ (rest : List Char) (c : Char), (':' :: rest).head? = some c →
      c.isDigit = false := by
    intro rest c hc
    simp only [List.head?_cons, Option.some.injEq] at hc
    subst hc
    decide
  have hnil : ∀ c : Char, ([] : List Char).head? = some c → c.isDigit = false := by
    intro c hc
    simp at hc
  have hsv := strtol_field s [] hs hnil (by omega)
  rw [List.append_nil] at hsv
  have hmv := fun rest => strtol_field m (':' :: rest) hm (hcolon rest) (by omega)
  have hhv := fun rest => strtol_field h (':' :: rest) hh (hcolon rest) (by omega)
  have hlenm : m.length ≠ 0 := fun e => hm.1 (List.length_eq_zero.mp e)
  have hlenh : h.length ≠ 0 := fun e => hh.1 (List.length_eq_zero.mp e)
  have hmax0 : (0 : Int) ≤ LONG_MAX := by simp [LONG_MAX]
  have hwhole2 : (m ++ ':' :: s).length = m.length + 1 + s.length := by
    simp only [List.length_append, List.length_cons]
    omega
  have hwhole3 : (h ++ ':' :: (m ++ ':' :: s)).length
      = h.length + 1 + (m.length + 1 + s.length) := by
    simp only [List.length_append, List.length_cons]
    omega
  have hsmax : (decimalValue s : Int) ≤ LONG_MAX := by omega
  have hmmax : (decimalValue m : Int) ≤ LONG_MAX := by omega
  have m1 : (0 : Int) ≤ (decimalValue m : Int) * 60 := by omega
  have m2 : (decimalValue m : Int) * 60 ≤ LONG_MAX := by omega
  have m3 : (0 : Int) ≤ (decimalValue m : Int) * 60 + decimalValue s := by omega
  have m4 : (decimalValue m : Int) * 60 + decimalValue s ≤ LONG_MAX := by omega
  have m5 : (decimalValue m : Int) * 60 + decimalValue s
      = 60 * decimalValue m + decimalValue s := by omega
  have n1 : (0 : Int) ≤ (decimalValue h : Int) * 60 := by omega
  have n2 : (decimalValue h : Int) * 60 ≤ LONG_MAX := by omega
  have n3 : (0 : Int) ≤ (decimalValue h : Int) * 60 + decimalValue m := by omega
  have n4 : (decimalValue h : Int) * 60 + decimalValue m ≤ LONG_MAX := by omega
  have n5 : (0 : Int) ≤ ((decimalValue h : Int) * 60 + decimalValue m) * 60 := by omega
  have n6 : ((decimalValue h : Int) * 60 + decimalValue m) * 60 ≤ LONG_MAX := by omega
  have n7 : (0 : Int) ≤ ((decimalValue h : Int) * 60 + decimalValue m) * 60 + decimalValue s := by
    omega
  have n8 : ((decimalValue h : Int) * 60 + decimalValue m) * 60 + decimalValue s ≤ LONG_MAX := by
    omega
  have n9 : ((decimalValue h : Int) * 60 + decimalValue m) * 60 + decimalValue s
      = 3600 * decimalValue h + 60 * decimalValue m + decimalValue s := by omega
  refine ⟨?_, ?_, ?_, rfl, rfl⟩
  · simp only [sessionTimeout, String.toList, hsv, charAt_end, ne_eq, not_true_eq_false,
      if_false, zero_mul, add_zero]
    simp only [toLong_id 0 (le_refl _) hmax0, zero_mul, zero_add, toLong_id _ hS hsmax]
  · have hc1 : charAt (m ++ ':' :: s) m.length = ':' := charAt_append _ _ _
    have hc2 : charAt (m ++ ':' :: s) (m.length + 1 + s.length) = '\x00' := by
      rw [← hwhole2]
      exact charAt_end _
    simp only [sessionTimeout, String.toList, hmv, hc1, ne_eq, hlenm, or_self, not_true_eq_false,
      not_false_eq_true, if_true, if_false, drop_append_cons, hsv, hc2, zero_mul, zero_add,
      Char.reduceEq, (by decide : ¬ (':' = '\x00'))]
    simp only [toLong_id 0 (le_refl _) hmax0, zero_mul, zero_add, toLong_id _ hM hmmax,
      toLong_id _ m1 m2, toLong_id _ m3 m4]
    exact congrArg some m5
  · have hc1 : charAt (h ++ ':' :: (m ++ ':' :: s)) h.length = ':' := charAt_append _ _ _
    have hc2 : charAt (h ++ ':' :: (m ++ ':' :: s)) (h.length + 1 + m.length) = ':' := by
      have : h ++ ':' :: (m ++ ':' :: s) = (h ++ ':' :: m) ++ ':' :: s := by simp
      rw [this]
      have hl : h.length + 1 + m.length = (h ++ ':' :: m).length := by
        simp only [List.length_append, List.length_cons]
        omega
      rw [hl]
      exact charAt_append _ _ _
    have hc3 : charAt (h ++ ':' :: (m ++ ':' :: s)) (h.length + 1 + m.length + 1 + s.length)
        = '\x00' := by
      have : h.length + 1 + m.length + 1 + s.length = (h ++ ':' :: (m ++ ':' :: s)).length := by
        rw [hwhole3]
        omega
      rw [this]
      exact charAt_end _
    have hd2 : (h ++ ':' :: (m ++ ':' :: s)).drop (h.length + 1 + m.length + 1) = s := by
      have : h ++ ':' :: (m ++ ':' :: s) = (h ++ ':' :: m) ++ ':' :: s := by simp
      rw [this]
      have hl : h.length + 1 + m.length = (h ++ ':' :: m).length := by
        simp only [List.length_append, List.length_cons]
        omega
      rw [hl]
      exact drop_append_cons _ _ _
    have hne : ¬ (h.length + 1 + m.length = h.length + 1) := by omega
    simp only [sessionTimeout, String.toList, hhv, hc1, ne_eq, hlenh, or_self, not_true_eq_false,
      not_false_eq_true, if_true, if_false, drop_append_cons, hmv, hc2, hne, hd2, hsv, hc3,
      (by decide : ¬ (':' = '\x00'))]
    simp only [toLong_id _ n1 n2, toLong_id _ n3 n4, toLong_id _ n5 n6, toLong_id _ n7 n8]
    exact congrArg some n9

/-- Witness for C25: "03" gives 3, "02:03" gives 123 and "1:02:03" gives 3723. -/
theorem session_timeout_arithmetic_witness :
    sessionTimeout 300 (some "03") = some 3 ∧
    sessionTimeout 300 (some "02:03") = some 123 ∧
    sessionTimeout 300 (some "1:02:03") = some 3723 :=
  have h := session_timeout_arithmetic "1".toList "02".toList "03".toList 300
    (by decide) (by decide) (by decide) (by decide)
  ⟨h.1.trans (by decide), h.2.1.trans (by decide), h.2.2.1.trans (by decide)⟩

theorem toDigitsCore_append (b : Nat) : ∀ (fuel n : Nat) (ds : List Char),
    Nat.toDigitsCore b fuel n ds = Nat.toDigitsCore b fuel n [] ++ ds := by
  intro fuel
  induction fuel with
  | zero => intro n ds; simp [Nat.toDigitsCore]
  | succ fuel ih =>
    intro n ds
    simp only [Nat.toDigitsCore]
    split
    · simp
    · rw [ih (n / b) (Nat.digitChar (n % b) :: ds), ih (n / b) [Nat.digitChar (n % b)]]
      simp

theorem toDigitsCore_fuel (b : Nat) (hb : 2 ≤ b) : ∀ (fuel1 fuel2 n : Nat) (ds : List Char),
    n < fuel1 → n < fuel2 → Nat.toDigitsCore b fuel1 n ds = Nat.toDigitsCore b fuel2 n ds := by
  intro fuel1
  induction fuel1 with
  | zero => intro _ _ _ h; omega
  | succ fuel1 ih =>
    intro fuel2 n ds h1 h2
    cases fuel2 with
    | zero => omega
    | succ fuel2 =>
      simp only [Nat.toDigitsCore]
      split
      · rfl
      · rename_i hne
        have hpos : 0 < n := by
          rcases Nat.eq_zero_or_pos n with h | h
          · subst h
            simp at hne
          · exact h
        have hlt : n / b < n := Nat.div_lt_self hpos hb
        exact ih fuel2 (n / b) _ (by omega) (by omega)

/-- The digits of a number: the digits of the quotient, then the last digit. -/
theorem toDigits_step (b : Nat) (hb : 2 ≤ b) (n : Nat) :
    Nat.toDigits b n =
      if n / b = 0 then [Nat.digitChar (n % b)]
      else Nat.toDigits b (n / b) ++ [Nat.digitChar (n % b)] := by
  have hcore : Nat.toDigits b n =
      if n / b = 0 then [Nat.digitChar (n % b)]
      else Nat.toDigitsCore b n (n / b) [Nat.digitChar (n % b)] := by
    unfold Nat.toDigits
    simp only [Nat.toDigitsCore]
  rw [hcore]
  split
  · rfl
  · rename_i hne
    have hpos : 0 < n := by
      rcases Nat.eq_zero_or_pos n with h | h
      · subst h
        simp at hne
      · exact h
    have hlt : n / b < n := Nat.div_lt_self hpos hb
    rw [toDigitsCore_append, toDigitsCore_fuel b hb n (n / b + 1) (n / b) [] hlt (by omega)]
    rfl

/-- The text written for a group of two bytes is the group in hexadecimal
without leading zeros. -/
theorem groupText_eq_hexGroup (hi lo : Nat) (hlo : lo < 256) :
    (if hi = 0 then formatX lo else formatX hi ++ format02X lo) = hexGroup (256 * hi + lo) := by
  by_cases h0 : hi = 0
  · subst h0
    simp [formatX, hexGroup]
  · simp only [h0, if_false, formatX, format02X, hexGroup]
    have hpos : 0 < hi := Nat.pos_of_ne_zero h0
    have e1 : (256 * hi + lo) / 16 = 16 * hi + lo / 16 := by omega
    have e2 : (256 * hi + lo) % 16 = lo % 16 := by omega
    have e3 : (16 * hi + lo / 16) / 16 = hi := by omega
    have e4 : (16 * hi + lo / 16) % 16 = lo / 16 := by omega
    rw [toDigits_step 16 (by omega) (256 * hi + lo), e1, e2,
      if_neg (by omega : ¬ (16 * hi + lo / 16 = 0)),
      toDigits_step 16 (by omega) (16 * hi + lo / 16), e3, e4, if_neg h0]
    have hpad : List.replicate (2 - (Nat.toDigits 16 lo).length) '0' ++ Nat.toDigits 16 lo
        = [Nat.digitChar (lo / 16), Nat.digitChar (lo % 16)] := by
      rw [toDigits_step 16 (by omega) lo]
      by_cases hs : lo / 16 = 0
      · simp only [hs, if_true, List.length_singleton]
        rfl
      · have e5 : lo / 16 / 16 = 0 := by omega
        have e6 : lo / 16 % 16 = lo / 16 := by omega
        rw [if_neg hs, toDigits_step 16 (by omega) (lo / 16), if_pos e5, e6]
        simp
    rw [hpad]
    simp

theorem findZeroRun_congr (z1 z2 : Nat → Bool) : ∀ (fuel i : Nat) (r : ZeroRun),
    (∀ j, i ≤ j → j < 16 → (j - i) % 2 = 0 → z1 j = z2 j) →
    findZeroRun z1 fuel i r = findZeroRun z2 fuel i r := by
  intro fuel
  induction fuel with
  | zero => intro i r _; rfl
  | succ fuel ih =>
    intro i r h
    simp only [findZeroRun]
    split
    · rename_i hi
      rw [h i (le_refl _) hi (by simp)]
      apply ih
      intro j hj1 hj2 hj3
      exact h j (by omega) hj2 (by omega)
    · rfl

set_option maxRecDepth 100000 in
/-- The run search finds the first longest run of two or more zero groups:
checked for each of the 256 ways the eight groups can be zero or not. -/
theorem findZeroRun_pattern : ∀ b0 b1 b2 b3 b4 b5 b6 b7 : Bool,
    ((findZeroRun (fun i => [b0, b1, b2, b3, b4, b5, b6, b7].getD (i / 2) false) 8 0
        { longestRun := none, longestRunSize := 0, currentRun := none,
          currentRunSize := 0 }).longestRun,
      (findZeroRun (fun i => [b0, b1, b2, b3, b4, b5, b6, b7].getD (i / 2) false) 8 0
        { longestRun := none, longestRunSize := 0, currentRun := none,
          currentRunSize := 0 }).longestRunSize)
      = match firstLongestRun [b0, b1, b2, b3, b4, b5, b6, b7] with
        | none => (none, 0)
        | some c => (some (2 * c.1), 2 * c.2) := by
  decide

theorem runCandidates_eight : runCandidates 8 =
    [(0, 8), (0, 7), (1, 7), (0, 6), (1, 6), (2, 6), (0, 5), (1, 5), (2, 5), (3, 5), (0, 4),
     (1, 4), (2, 4), (3, 4), (4, 4), (0, 3), (1, 3), (2, 3), (3, 3), (4, 3), (5, 3), (0, 2),
     (1, 2), (2, 2), (3, 2), (4, 2), (5, 2), (6, 2)] := by
  decide

theorem range_eight_map {α : Type} (f : Nat → α) :
    (List.range 8).map f = [f 0, f 1, f 2, f 3, f 4, f 5, f 6, f 7] := by
  simp [List.range_succ]

/-- Without a run the output loop writes the eight groups separated by ':'. -/
theorem printGroups_none (t : Nat → List Char) :
    printGroups t none 0 8 0 = joinColon ((List.range 8).map (fun k => t (2 * k))) := by
  rw [range_eight_map]
  simp [printGroups, joinColon]

/-- With a run the output loop writes the groups before it, "::", and the
groups after it. -/
theorem printGroups_run (t : Nat → List Char) (c : Nat × Nat) (hc : c ∈ runCandidates 8) :
    printGroups t (some (2 * c.1)) (2 * c.2) 8 0
      = joinColon (((List.range 8).map (fun k => t (2 * k))).take c.1) ++ [':', ':'] ++
        joinColon (((List.range 8).map (fun k => t (2 * k))).drop (c.1 + c.2)) := by
  rw [range_eight_map]
  rw [runCandidates_eight] at hc
  fin_cases hc <;> simp [printGroups, joinColon]

theorem getD_lt_of_bytes {address : List Nat} (hbytes : ∀ b ∈ address, b < 256) (i : Nat) :
    address.getD i 0 < 256 := by
  rw [List.getD_eq_getElem?_getD]
  cases h : address[i]? with
  | none => simp
  | some b => exact hbytes b (List.getElem?_mem h)

theorem groupTexts_eq (address : List Nat) (hbytes : ∀ b ∈ address, b < 256) :
    (List.range 8).map (fun k => groupText address (2 * k))
      = (groupsOf address).map hexGroup := by
  unfold groupsOf
  rw [List.map_map]
  apply List.map_congr_left
  intro k _
  simp only [Function.comp, groupText]
  exact groupText_eq_hexGroup _ _ (getD_lt_of_bytes hbytes _)

theorem firstLongestRun_some {zeros : List Bool} {c : Nat × Nat}
    (h : firstLongestRun zeros = some c) :
    c ∈ runCandidates zeros.length ∧ c.1 + c.2 ≤ zeros.length ∧
      ∀ b ∈ (zeros.drop c.1).take c.2, b = true := by
  unfold firstLongestRun at h
  have hp := List.find?_some h
  have hm := List.mem_of_find?_eq_some h
  simp only [isZeroRun, Bool.and_eq_true, decide_eq_true_eq, List.all_eq_true, id] at hp
  exact ⟨hm, hp.1, hp.2⟩

/-- The run search of `getRequestIP` on an address, in terms of the first
longest run of zero groups. -/
theorem findZeroRun_address (address : List Nat) :
    ((findZeroRun (fun i => decide (address.getD i 0 = 0 ∧ address.getD (i + 1) 0 = 0)) 8 0
        { longestRun := none, longestRunSize := 0, currentRun := none,
          currentRunSize := 0 }).longestRun,
      (findZeroRun (fun i => decide (address.getD i 0 = 0 ∧ address.getD (i + 1) 0 = 0)) 8 0
        { longestRun := none, longestRunSize := 0, currentRun := none,
          currentRunSize := 0 }).longestRunSize)
      = match firstLongestZeroRun (groupsOf address) with
        | none => (none, 0)
        | some c => (some (2 * c.1), 2 * c.2) := by
  have hz : (groupsOf address).map (fun g => decide (g = 0))
      = [decide (256 * address.getD (2 * 0) 0 + address.getD (2 * 0 + 1) 0 = 0),
         decide (256 * address.getD (2 * 1) 0 + address.getD (2 * 1 + 1) 0 = 0),
         decide (256 * address.getD (2 * 2) 0 + address.getD (2 * 2 + 1) 0 = 0),
         decide (256 * address.getD (2 * 3) 0 + address.getD (2 * 3 + 1) 0 = 0),
         decide (256 * address.getD (2 * 4) 0 + address.getD (2 * 4 + 1) 0 = 0),
         decide (256 * address.getD (2 * 5) 0 + address.getD (2 * 5 + 1) 0 = 0),
         decide (256 * address.getD (2 * 6) 0 + address.getD (2 * 6 + 1) 0 = 0),
         decide (256 * address.getD (2 * 7) 0 + address.getD (2 * 7 + 1) 0 = 0)] := by
    unfold groupsOf
    rw [List.map_map, range_eight_map]
    rfl
  unfold firstLongestZeroRun
  rw [hz, ← findZeroRun_pattern]
  have hcongr := findZeroRun_congr
    (fun i => decide (address.getD i 0 = 0 ∧ address.getD (i + 1) 0 = 0))
    (fun i => [decide (256 * address.getD (2 * 0) 0 + address.getD (2 * 0 + 1) 0 = 0),
         decide (256 * address.getD (2 * 1) 0 + address.getD (2 * 1 + 1) 0 = 0),
         decide (256 * address.getD (2 * 2) 0 + address.getD (2 * 2 + 1) 0 = 0),
         decide (256 * address.getD (2 * 3) 0 + address.getD (2 * 3 + 1) 0 = 0),
         decide (256 * address.getD (2 * 4) 0 + address.getD (2 * 4 + 1) 0 = 0),
         decide (256 * address.getD (2 * 5) 0 + address.getD (2 * 5 + 1) 0 = 0),
         decide (256 * address.getD (2 * 6) 0 + address.getD (2 * 6 + 1) 0 = 0),
         decide (256 * address.getD (2 * 7) 0 + address.getD (2 * 7 + 1) 0 = 0)].getD (i / 2) false)
    8 0 { longestRun := none, longestRunSize := 0, currentRun := none, currentRunSize := 0 }
    (by
      intro j _ hj hpar
      have hj' : j = 0 ∨ j = 2 ∨ j = 4 ∨ j = 6 ∨ j = 8 ∨ j = 10 ∨ j = 12 ∨ j = 14 := by omega
      rcases hj' with h | h | h | h | h | h | h | h <;> subst h <;>
        simp only [Nat.reduceDiv, List.getD_cons_zero, List.getD_cons_succ, Nat.reduceMul,
          Nat.reduceAdd, decide_eq_decide] <;> omega)
  rw [hcongr]

/-- The text `getRequestIP` writes for an address without the IPv4 prefix is
the text of its groups in the form of RFC 5952. -/
theorem getRequestIP_text (address : List Nat) (hbytes : ∀ b ∈ address, b < 256)
    (hmapped : address.take 12 ≠ IPV4_PREFIX) :
    getRequestIP (SockAddr.AF_INET6 address) = String.mk (rfc5952 (groupsOf address)) := by
  have hrun := findZeroRun_address address
  have htexts := groupTexts_eq address hbytes
  have hlen : ((groupsOf address).map (fun g => decide (g = 0))).length = 8 := by
    simp [groupsOf]
  unfold getRequestIP
  simp only [hmapped, if_false]
  unfold rfc5952
  cases hf : firstLongestZeroRun (groupsOf address) with
  | none =>
    rw [hf] at hrun
    simp only [Prod.mk.injEq] at hrun
    rw [hrun.1, hrun.2]
    simp only [(by decide : ¬ (0 = 16)), if_false]
    rw [printGroups_none, htexts]
  | some c =>
    obtain ⟨start, len⟩ := c
    rw [hf] at hrun
    simp only [Prod.mk.injEq] at hrun
    rw [hrun.1, hrun.2]
    have hprop := firstLongestRun_some hf
    rw [hlen] at hprop
    by_cases h16 : 2 * len = 16
    · have hl : len = 8 := by omega
      have hs : start = 0 := by
        have := hprop.2.1
        simp only at this
        omega
      subst hl
      subst hs
      simp [joinColon]
    · simp only [h16, if_false]
      rw [printGroups_run _ (start, len) hprop.1, htexts]
      simp only [List.map_take, List.map_drop]

theorem digitChar_lowerHex (d : Nat) (hd : d < 16) :
    Nat.digitChar d ∈ lowerHexDigits ∧ hexDigitValue (Nat.digitChar d) = some d := by
  interval_cases d <;> decide

theorem lowerHex_ne_colon (c : Char) (hc : c ∈ lowerHexDigits) : c ≠ ':' := by
  intro h
  subst h
  revert hc
  decide

/-- The digits of a group are lower-case hexadecimal digits. -/
theorem hexGroup_chars : ∀ (n : Nat), ∀ c ∈ hexGroup n, c ∈ lowerHexDigits := by
  intro n
  induction n using Nat.strong_induction_on with
  | _ n ih =>
    intro c hc
    unfold hexGroup at hc
    rw [toDigits_step 16 (by omega) n] at hc
    by_cases h0 : n / 16 = 0
    · rw [if_pos h0] at hc
      simp only [List.mem_singleton] at hc
      rw [hc]
      exact (digitChar_lowerHex _ (Nat.mod_lt _ (by omega))).1
    · rw [if_neg h0, List.mem_append] at hc
      rcases hc with hc | hc
      · exact ih (n / 16) (by omega) c hc
      · simp only [List.mem_singleton] at hc
        rw [hc]
        exact (digitChar_lowerHex _ (Nat.mod_lt _ (by omega))).1

theorem hexGroup_ne_nil (n : Nat) : hexGroup n ≠ [] := by
  unfold hexGroup
  rw [toDigits_step 16 (by omega) n]
  split <;> simp

theorem hexGroup_length : ∀ (k n : Nat), n < 16 ^ (k + 1) → (hexGroup n).length ≤ k + 1 := by
  intro k
  induction k with
  | zero =>
    intro n hn
    unfold hexGroup
    rw [toDigits_step 16 (by omega) n, if_pos (by omega)]
    simp
  | succ k ih =>
    intro n hn
    unfold hexGroup
    rw [toDigits_step 16 (by omega) n]
    split
    · simp
    · have hq : n / 16 < 16 ^ (k + 1) := by
        rw [Nat.div_lt_iff_lt_mul (by omega)]
        rw [pow_succ] at hn
        exact hn
      have := ih (n / 16) hq
      unfold hexGroup at this
      simp only [List.length_append, List.length_singleton]
      omega

theorem hexValue_append (c : Char) : ∀ (xs : List Char) (acc : Nat),
    hexValue (xs ++ [c]) acc
      = (hexValue xs acc).bind (fun v => (hexDigitValue c).map (fun d => 16 * v + d)) := by
  intro xs
  induction xs with
  | nil =>
    intro acc
    simp only [List.nil_append, hexValue, Option.some_bind]
    cases hexDigitValue c <;> rfl
  | cons x xs ih =>
    intro acc
    simp only [List.cons_append, hexValue]
    cases hexDigitValue x with
    | none => rfl
    | some d => exact ih _

/-- The value of the digits of a group is the group. -/
theorem hexValue_hexGroup : ∀ (n : Nat), hexValue (hexGroup n) 0 = some n := by
  intro n
  induction n using Nat.strong_induction_on with
  | _ n ih =>
    unfold hexGroup
    rw [toDigits_step 16 (by omega) n]
    by_cases h0 : n / 16 = 0
    · rw [if_pos h0]
      simp only [hexValue, (digitChar_lowerHex _ (Nat.mod_lt n (by omega))).2]
      exact congrArg some (by omega)
    · rw [if_neg h0, hexValue_append]
      have := ih (n / 16) (by omega)
      unfold hexGroup at this
      rw [this, (digitChar_lowerHex _ (Nat.mod_lt n (by omega))).2]
      simp only [Option.some_bind, Option.map_some']
      exact congrArg some (by omega)

theorem parseGroup_hexGroup (g : Nat) (hg : g < 65536) : parseGroup (hexGroup g) = some g := by
  unfold parseGroup
  have hlen := hexGroup_length 3 g (by simpa using hg)
  rw [if_neg (by
    intro h
    rcases h with h | h
    · exact hexGroup_ne_nil g h
    · omega)]
  exact hexValue_hexGroup g

theorem parseGroups_hexGroups : ∀ (groups : List Nat), (∀ g ∈ groups, g < 65536) →
    parseGroups (groups.map hexGroup) = some groups := by
  intro groups
  induction groups with
  | nil => intro _; rfl
  | cons g gs ih =>
    intro h
    simp only [List.map_cons, parseGroups]
    rw [parseGroup_hexGroup g (h g (by simp)), ih (fun x hx => h x (by simp [hx]))]

theorem splitColon_field (rest : List Char) : ∀ (f : List Char), (∀ c ∈ f, c ≠ ':') →
    splitColon (f ++ ':' :: rest) = f :: splitColon rest := by
  intro f
  induction f with
  | nil => intro _; simp [splitColon]
  | cons c f ih =>
    intro h
    have hc : c ≠ ':' := h c (by simp)
    simp only [List.cons_append, splitColon, if_neg hc, List.append_eq]
    rw [ih (fun x hx => h x (by simp [hx]))]

theorem splitColon_single : ∀ (f : List Char), (∀ c ∈ f, c ≠ ':') → splitColon f = [f] := by
  intro f
  induction f with
  | nil => intro _; rfl
  | cons c f ih =>
    intro h
    have hc : c ≠ ':' := h c (by simp)
    simp only [splitColon, if_neg hc]
    rw [ih (fun x hx => h x (by simp [hx]))]

theorem splitColon_joinColon : ∀ (fs : List (List Char)), fs ≠ [] →
    (∀ f ∈ fs, ∀ c ∈ f, c ≠ ':') → splitColon (joinColon fs) = fs := by
  intro fs
  induction fs with
  | nil => intro h; exact absurd rfl h
  | cons f fs ih =>
    intro _ h
    cases fs with
    | nil => exact splitColon_single f (h f (by simp))
    | cons g fs =>
      simp only [joinColon]
      rw [splitColon_field _ f (h f (by simp)),
        ih (by simp) (fun x hx => h x (List.mem_cons_of_mem _ hx))]

theorem splitDoubleColon_field (rest : List Char) : ∀ (f : List Char), (∀ c ∈ f, c ≠ ':') →
    splitDoubleColon (f ++ rest) = (splitDoubleColon rest).map (fun p => (f ++ p.1, p.2)) := by
  intro f
  induction f with
  | nil =>
    intro _
    simp only [List.nil_append]
    cases splitDoubleColon rest <;> rfl
  | cons c f ih =>
    intro h
    have hc : c ≠ ':' := h c (by simp)
    simp only [List.cons_append, splitDoubleColon, hc, false_and, if_false, List.append_eq]
    rw [ih (fun x hx => h x (by simp [hx]))]
    cases splitDoubleColon rest <;> rfl

theorem splitDoubleColon_colon (rest : List Char) (h : rest.head? ≠ some ':') :
    splitDoubleColon (':' :: rest) = (splitDoubleColon rest).map (fun p => (':' :: p.1, p.2)) := by
  simp only [splitDoubleColon, h, and_false, if_false]

theorem joinColon_head (g : List Char) (fs : List (List Char)) (rest : List Char)
    (hne : g ≠ []) (hg : ∀ c ∈ g, c ≠ ':') :
    (joinColon (g :: fs) ++ rest).head? ≠ some ':' := by
  cases g with
  | nil => exact absurd rfl hne
  | cons c g =>
    have hc : c ≠ ':' := hg c (by simp)
    cases fs with
    | nil =>
      simp only [joinColon, List.cons_append, List.head?_cons]
      intro h
      exact hc (Option.some.inj h)
    | cons f fs =>
      simp only [joinColon, List.cons_append, List.head?_cons]
      intro h
      exact hc (Option.some.inj h)

/-- A text of fields without "::" has no "::". -/
theorem splitDoubleColon_joinColon : ∀ (fs : List (List Char)),
    (∀ f ∈ fs, f ≠ [] ∧ ∀ c ∈ f, c ≠ ':') → splitDoubleColon (joinColon fs) = none := by
  intro fs
  induction fs with
  | nil => intro _; rfl
  | cons f fs ih =>
    intro h
    cases fs with
    | nil =>
      have := splitDoubleColon_field [] f (h f (by simp)).2
      rw [List.append_nil] at this
      rw [joinColon, this]
      rfl
    | cons g fs =>
      have hg := h g (by simp)
      have hhead := joinColon_head g fs [] hg.1 hg.2
      rw [List.append_nil] at hhead
      simp only [joinColon]
      rw [splitDoubleColon_field _ f (h f (by simp)).2, splitDoubleColon_colon _ hhead,
        ih (fun x hx => h x (List.mem_cons_of_mem _ hx))]
      rfl

/-- The first "::" of fields, "::" and a text stands after the fields. -/
theorem splitDoubleColon_joinColon_append (rest : List Char) : ∀ (fs : List (List Char)),
    (∀ f ∈ fs, f ≠ [] ∧ ∀ c ∈ f, c ≠ ':') →
    splitDoubleColon (joinColon fs ++ ':' :: ':' :: rest) = some (joinColon fs, rest) := by
  intro fs
  induction fs with
  | nil =>
    intro _
    simp [joinColon, splitDoubleColon]
  | cons f fs ih =>
    intro h
    cases fs with
    | nil =>
      rw [joinColon, splitDoubleColon_field _ f (h f (by simp)).2]
      simp [splitDoubleColon]
    | cons g fs =>
      have hg := h g (by simp)
      have hhead := joinColon_head g fs (':' :: ':' :: rest) hg.1 hg.2
      simp only [joinColon, List.append_assoc, List.cons_append]
      rw [splitDoubleColon_field _ f (h f (by simp)).2, splitDoubleColon_colon _ hhead,
        ih (fun x hx => h x (List.mem_cons_of_mem _ hx))]
      simp [joinColon]

theorem hexGroups_fields (groups : List Nat) :
    ∀ f ∈ groups.map hexGroup, f ≠ [] ∧ ∀ c ∈ f, c ≠ ':' := by
  intro f hf
  rw [List.mem_map] at hf
  obtain ⟨g, _, rfl⟩ := hf
  exact ⟨hexGroup_ne_nil g, fun c hc => lowerHex_ne_colon c (hexGroup_chars g c hc)⟩

theorem parseSide_hexGroups (groups : List Nat) (h : ∀ g ∈ groups, g < 65536) :
    parseSide (joinColon (groups.map hexGroup)) = some groups := by
  unfold parseSide
  cases groups with
  | nil => rfl
  | cons g gs =>
    have hfields := hexGroups_fields (g :: gs)
    have hne : joinColon ((g :: gs).map hexGroup) ≠ [] := by
      intro hnil
      have hhead := joinColon_head (hexGroup g) (gs.map hexGroup) []
        (hexGroup_ne_nil g) (hfields (hexGroup g) (by simp)).2
      rw [List.append_nil, ← List.map_cons, hnil] at hhead
      have hfield := (hfields (hexGroup g) (by simp)).1
      cases hgx : hexGroup g with
      | nil => exact hfield hgx
      | cons c cs =>
        cases gs with
        | nil =>
          simp only [List.map_cons, List.map_nil, joinColon, hgx] at hnil
          exact List.cons_ne_nil _ _ hnil
        | cons g2 gs2 =>
          simp only [List.map_cons, joinColon, hgx, List.cons_append] at hnil
          exact List.cons_ne_nil _ _ hnil
    rw [if_neg hne, splitColon_joinColon _ (by simp) (fun f hf => (hfields f hf).2),
      parseGroups_hexGroups _ h]

theorem mem_runCandidates {n : Nat} {c : Nat × Nat} (h : c ∈ runCandidates n) :
    2 ≤ c.2 ∧ c.1 + c.2 ≤ n := by
  unfold runCandidates at h
  simp only [List.mem_flatMap, List.mem_map, List.mem_range] at h
  obtain ⟨len, ⟨k, hk, rfl⟩, start, hstart, rfl⟩ := h
  simp only
  omega

theorem zero_run_eq_replicate : ∀ (groups : List Nat) (len : Nat), len ≤ groups.length →
    (∀ b ∈ (groups.map (fun g => decide (g = 0))).take len, b = true) →
    groups.take len = List.replicate len 0 := by
  intro groups
  induction groups with
  | nil =>
    intro len hlen _
    simp only [List.length_nil, Nat.le_zero] at hlen
    subst hlen
    rfl
  | cons g gs ih =>
    intro len hlen h
    cases len with
    | zero => rfl
    | succ len =>
      simp only [List.map_cons, List.take_succ_cons, List.mem_cons, forall_eq_or_imp,
        decide_eq_true_eq] at h
      simp only [List.take_succ_cons, List.replicate_succ]
      rw [h.1, ih len (by simpa using hlen) h.2]

/-- Parsing the RFC 5952 text of eight groups gives the groups. -/
theorem parseIPv6_rfc5952 (groups : List Nat) (hlen : groups.length = 8)
    (h : ∀ g ∈ groups, g < 65536) : parseIPv6 (rfc5952 groups) = some groups := by
  unfold rfc5952
  cases hf : firstLongestZeroRun groups with
  | none =>
    simp only
    unfold parseIPv6
    rw [splitDoubleColon_joinColon _ (hexGroups_fields groups)]
    simp only
    rw [splitColon_joinColon _ (by
        intro hnil
        have := congrArg List.length hnil
        simp [hlen] at this) (fun f hf => (hexGroups_fields groups f hf).2),
      parseGroups_hexGroups _ h]
    simp only [hlen, if_true]
  | some c =>
    obtain ⟨start, len⟩ := c
    simp only
    have hprop := firstLongestRun_some hf
    simp only [List.length_map, hlen] at hprop
    have hcand := mem_runCandidates hprop.1
    simp only at hcand
    have hzero : (groups.drop start).take len = List.replicate len 0 := by
      apply zero_run_eq_replicate
      · simp only [List.length_drop, hlen]
        omega
      · rw [List.map_drop]
        exact hprop.2.2
    unfold parseIPv6
    have htext : joinColon ((groups.take start).map hexGroup) ++ [':', ':'] ++
        joinColon ((groups.drop (start + len)).map hexGroup)
        = joinColon ((groups.take start).map hexGroup) ++ ':' :: ':' ::
          joinColon ((groups.drop (start + len)).map hexGroup) := by
      simp
    rw [htext, splitDoubleColon_joinColon_append _ _ (hexGroups_fields _)]
    simp only
    rw [parseSide_hexGroups _ (fun g hg => h g (List.mem_of_mem_take hg)),
      parseSide_hexGroups _ (fun g hg => h g (List.mem_of_mem_drop hg))]
    simp only [List.length_take, List.length_drop, hlen]
    have e1 : min start 8 + (8 - (start + len)) ≤ 7 := by omega
    have e2 : 8 - (min start 8 + (8 - (start + len))) = len := by omega
    rw [if_pos e1, e2, ← hzero]
    have hsplit : groups.drop (start + len) = (groups.drop start).drop len := by
      rw [List.drop_drop]
    rw [hsplit, List.append_assoc, List.take_append_drop, List.take_append_drop]

/-- The bytes of the groups of a 16-byte address are the address. -/
theorem bytesOf_groupsOf (address : List Nat) (hlen : address.length = 16)
    (hbytes : ∀ b ∈ address, b < 256) : bytesOf (groupsOf address) = address := by
  match address, hlen, hbytes with
  | [a0, a1, a2, a3, a4, a5, a6, a7, a8, a9, a10, a11, a12, a13, a14, a15], _, hbytes =>
    have h0 := hbytes a0 (by simp)
    have h1 := hbytes a1 (by simp)
    have h2 := hbytes a2 (by simp)
    have h3 := hbytes a3 (by simp)
    have h4 := hbytes a4 (by simp)
    have h5 := hbytes a5 (by simp)
    have h6 := hbytes a6 (by simp)
    have h7 := hbytes a7 (by simp)
    have h8 := hbytes a8 (by simp)
    have h9 := hbytes a9 (by simp)
    have h10 := hbytes a10 (by simp)
    have h11 := hbytes a11 (by simp)
    have h12 := hbytes a12 (by simp)
    have h13 := hbytes a13 (by simp)
    have h14 := hbytes a14 (by simp)
    have h15 := hbytes a15 (by simp)
    unfold bytesOf groupsOf
    rw [range_eight_map]
    simp only [List.flatMap_cons, List.flatMap_nil, Nat.reduceMul, Nat.reduceAdd,
      List.getD_cons_zero, List.getD_cons_succ, List.cons_append, List.nil_append,
      List.cons.injEq, and_true]
    omega

theorem groupsOf_length (address : List Nat) : (groupsOf address).length = 8 := by
  simp [groupsOf]

theorem groupsOf_lt (address : List Nat) (hbytes : ∀ b ∈ address, b < 256) :
    ∀ g ∈ groupsOf address, g < 65536 := by
  intro g hg
  unfold groupsOf at hg
  rw [List.mem_map] at hg
  obtain ⟨k, _, rfl⟩ := hg
  have h1 := getD_lt_of_bytes hbytes (2 * k)
  have h2 := getD_lt_of_bytes hbytes (2 * k + 1)
  omega

/-- The text for an address with the IPv4 prefix is the dotted decimal of its
last four bytes. -/
theorem getRequestIP_mapped (address : List Nat) (hlen : address.length = 16)
    (hmapped : address.take 12 = IPV4_PREFIX) :
    getRequestIP (SockAddr.AF_INET6 address) = String.mk (dottedDecimal (address.drop 12)) := by
  match address, hlen, hmapped with
  | [a0, a1, a2, a3, a4, a5, a6, a7, a8, a9, a10, a11, a12, a13, a14, a15], _, hmapped =>
    unfold getRequestIP
    simp only [hmapped, if_true]
    simp [printIPv4, dottedDecimal, formatD, List.intercalate]

theorem joinColon_chars : ∀ (fs : List (List Char)) (c : Char), c ∈ joinColon fs →
    c = ':' ∨ ∃ f ∈ fs, c ∈ f := by
  intro fs
  induction fs with
  | nil =>
    intro c hc
    simp [joinColon] at hc
  | cons f fs ih =>
    intro c hc
    cases fs with
    | nil => exact Or.inr ⟨f, by simp, by simpa [joinColon] using hc⟩
    | cons g fs =>
      simp only [joinColon, List.mem_append, List.mem_cons] at hc
      rcases hc with hc | hc | hc
      · exact Or.inr ⟨f, by simp, hc⟩
      · exact Or.inl hc
      · rcases ih c hc with h | ⟨x, hx, hcx⟩
        · exact Or.inl h
        · exact Or.inr ⟨x, List.mem_cons_of_mem _ hx, hcx⟩

/-- The RFC 5952 text holds only lower-case hexadecimal digits and ':'. -/
theorem rfc5952_chars (groups : List Nat) :
    ∀ c ∈ rfc5952 groups, c ∈ lowerHexDigits ∨ c = ':' := by
  have hfields : ∀ (gs : List Nat), ∀ c ∈ joinColon (gs.map hexGroup),
      c ∈ lowerHexDigits ∨ c = ':' := by
    intro gs c hc
    rcases joinColon_chars _ c hc with h | ⟨f, hf, hcf⟩
    · exact Or.inr h
    · rw [List.mem_map] at hf
      obtain ⟨g, _, rfl⟩ := hf
      exact Or.inl (hexGroup_chars g c hcf)
  intro c hc
  unfold rfc5952 at hc
  cases hf : firstLongestZeroRun groups with
  | none =>
    rw [hf] at hc
    exact hfields _ c hc
  | some p =>
    obtain ⟨start, len⟩ := p
    rw [hf] at hc
    simp only [List.mem_append, List.mem_cons, List.mem_singleton, List.not_mem_nil,
      or_false, or_self] at hc
    rcases hc with (hc | hc) | hc
    · exact hfields _ c hc
    · exact Or.inr hc
    · exact hfields _ c hc

/-- Claim C30. For a 16-byte IPv6 address of the client: when the address does
not start with the IPv4 prefix, the text `getRequestIP` writes is the RFC 5952
section 4 form of its eight groups (lower-case hexadecimal without leading
zeros, separated by ':', the first longest run of two or more zero groups
replaced by "::"), it holds only lower-case hexadecimal digits and ':', and
parsing it gives the sixteen bytes back; when the address starts with the IPv4
prefix, the text is the dotted decimal of its last four bytes. -/
theorem getRequestIP_rfc5952 (address : List Nat) (hlen : address.length = 16)
    (hbytes : ∀ b ∈ address, b < 256) :
    (address.take 12 ≠ IPV4_PREFIX →
      getRequestIP (SockAddr.AF_INET6 address) = String.mk (rfc5952 (groupsOf address)) ∧
      (∀ c ∈ (getRequestIP (SockAddr.AF_INET6 address)).data, c ∈ lowerHexDigits ∨ c = ':') ∧
      (parseIPv6 (getRequestIP (SockAddr.AF_INET6 address)).data).map bytesOf = some address) ∧
    (address.take 12 = IPV4_PREFIX →
      getRequestIP (SockAddr.AF_INET6 address)
        = String.mk (dottedDecimal (address.drop 12))) := by
  refine ⟨fun hmapped => ?_, fun hmapped => getRequestIP_mapped address hlen hmapped⟩
  have htext := getRequestIP_text address hbytes hmapped
  refine ⟨htext, ?_, ?_⟩
  · rw [htext]
    exact rfc5952_chars _
  rw [htext]
  simp only
  rw [parseIPv6_rfc5952 _ (groupsOf_length address) (groupsOf_lt address hbytes)]
  simp only [Option.map_some']
  rw [bytesOf_groupsOf address hlen hbytes]

/-- Witness of `getRequestIP_rfc5952`: the address 2001:0:0:1:0:0:0:ab0c is
written with its run of three zero groups replaced, not the run of two, and an
IPv4-mapped address is written 10.0.0.1. -/
theorem getRequestIP_rfc5952_witness :
    (getRequestIP (SockAddr.AF_INET6 exampleAddress) = "2001:0:0:1::ab0c" ∧
      (parseIPv6 (getRequestIP (SockAddr.AF_INET6 exampleAddress)).data).map bytesOf
        = some exampleAddress) ∧
    getRequestIP (SockAddr.AF_INET6 exampleMappedAddress) = "10.0.0.1" :=
  ⟨⟨((getRequestIP_rfc5952 exampleAddress (by decide) (by decide)).1 (by decide)).1.trans
      (by decide),
    ((getRequestIP_rfc5952 exampleAddress (by decide) (by decide)).1 (by decide)).2.2⟩,
   ((getRequestIP_rfc5952 exampleMappedAddress (by decide) (by decide)).2 (by decide)).trans
      (by decide)⟩

end WebdavDaemon
